import Mathlib

/-!
# vulkaned: render device bring-up and per-frame submission

A shallow embedding of the parts of `src/vulkan/vulkan_rhi.hpp` that decide the
extent, the sample count, the property negotiation, the queue planning, the
queue retrieval, the frame loop, the texture upload, the swapchain parameters,
the memory type, the recording of the command buffers and the choice of the
physical device, followed by the theorems proved about them.

Conventions of the embedding

* `uint32_t` values are natural numbers; the arithmetic on them in the
  embedded code is a decrement guarded by `> 0`, a right shift, a remainder and
  the increment of a counter that stays below the length of an array, none of
  which can wrap, and a left shift that is reduced modulo `2 ^ 32`.
* `size_t` sums and products are reduced modulo `2 ^ 64`.
* Vulkan handles are natural numbers, `VK_NULL_HANDLE` is `0`.
* A C `assert` is compiled in or out by `NDEBUG`; every function that contains
  one takes the flag `ndebug` and goes through `cassert`.
* What the driver answers is an argument of the function that asks.
-/

namespace vkd

/-! ## Outcomes -/

/-- The ways in which the embedded code stops without returning: a failed
`assert`, a thrown `std::runtime_error`, or an access outside an array (which
is undefined behaviour in the source and ends the run in the embedding). -/
inductive Failure where
  | assertion (msg : String)
  | exception (msg : String)
  | out_of_bounds (what : String)
  deriving DecidableEq, Repr

deriving instance DecidableEq for Except

/-- The C macro `assert(c)`: nothing when `NDEBUG` is defined, otherwise the
program aborts when `c` is false. -/
def cassert (ndebug : Bool) (c : Bool) (msg : String) : Except Failure Unit :=
  if ndebug || c then .ok () else .error (.assertion msg)

/-- `VkResult` with the numeric values of `vulkan_core.h`. -/
abbrev VkResult := Int

def VK_SUCCESS : VkResult := 0
def VK_INCOMPLETE : VkResult := 5
def VK_SUBOPTIMAL_KHR : VkResult := 1000001003
def VK_ERROR_OUT_OF_DATE_KHR : VkResult := -1000001004
def VK_ERROR_DEVICE_LOST : VkResult := -4

/-- `std::numeric_limits<uint32_t>::max()`, also written `0xFFFFFFFF`. -/
def UINT32_MAX : Nat := 4294967295

/-! ## Swapchain extent (`PhysicalDevice::create_swapchain`, lines 1030-1045) -/

structure VkExtent2D where
  width : Nat
  height : Nat
  deriving DecidableEq, Repr

structure VkSurfaceCapabilitiesKHR where
  minImageCount : Nat
  maxImageCount : Nat
  currentExtent : VkExtent2D
  minImageExtent : VkExtent2D
  maxImageExtent : VkExtent2D
  deriving DecidableEq, Repr

/-- The function `std::clamp(v, lo, hi)`: `(v < lo) ? lo : (hi < v) ? hi : v`. -/
def clamp (v lo hi : Nat) : Nat :=
  if v < lo then lo else if hi < v then hi else v

/-- The extent part of `create_swapchain`: `capabilities` is what
`vkGetPhysicalDeviceSurfaceCapabilitiesKHR` stored, `framebuffer_size` what
`get_framebuffer_size(m_window)` returns. The result is `m_swapchain_extent`. -/
def create_swapchain_extent (ndebug : Bool) (capabilities : VkSurfaceCapabilitiesKHR)
    (framebuffer_size : Nat × Nat) : Except Failure VkExtent2D := do
  cassert ndebug (capabilities.currentExtent.width != UINT32_MAX)
    "capabilities.currentExtent.width != std::numeric_limits<uint32_t>::max()"
  if capabilities.currentExtent.width == 0xFFFFFFFF
      && capabilities.currentExtent.height == 0xFFFFFFFF then
    pure capabilities.currentExtent
  else
    let actualExtent : VkExtent2D := ⟨framebuffer_size.1, framebuffer_size.2⟩
    pure
      ⟨clamp actualExtent.width capabilities.minImageExtent.width
          capabilities.maxImageExtent.width,
        clamp actualExtent.height capabilities.minImageExtent.height
          capabilities.maxImageExtent.height⟩

/-! ## Sample count (`PhysicalDevice::get_sample_count`, lines 2239-2259) -/

def VK_SAMPLE_COUNT_1_BIT : Nat := 1
def VK_SAMPLE_COUNT_2_BIT : Nat := 2
def VK_SAMPLE_COUNT_4_BIT : Nat := 4
def VK_SAMPLE_COUNT_8_BIT : Nat := 8

/-- The `do ... while (required)` loop of `get_sample_count`: one call is one
iteration of the body followed by the loop test. -/
def get_sample_count_loop (counts : Nat) (required : Nat) : Nat :=
  if counts &&& required != 0 then
    required
  else if _h : required >>> 2 != 0 then
    get_sample_count_loop counts (required >>> 2)
  else
    VK_SAMPLE_COUNT_1_BIT
termination_by required
decreasing_by
  have hne : required >>> 2 ≠ 0 := by simpa using _h
  rw [Nat.shiftRight_eq_div_pow] at hne ⊢
  have hpos : 0 < required := by
    rcases Nat.eq_zero_or_pos required with h0 | h0
    · subst h0; simp at hne
    · exact h0
  exact Nat.div_lt_self hpos (by norm_num)

/-- The member `get_sample_count`: the two arguments `framebufferColorSampleCounts`
and `framebufferDepthSampleCounts` are the limits cached in
`m_physical_device_properties`, `multisample_count` is `cfg::get_multisample_count()`. -/
def get_sample_count (framebufferColorSampleCounts framebufferDepthSampleCounts : Nat)
    (multisample_count : Nat) : Nat :=
  let counts := framebufferColorSampleCounts &&& framebufferDepthSampleCounts
  let required := multisample_count
  get_sample_count_loop counts required

/-! ## Property negotiation (`enumerate_properties`, lines 288-332) -/

/-- The `find_if` of lines 311-315: some available property has the requested
name (`strcmp(...) == 0`). -/
def property_found (properties : List String) (property_requested : String) : Bool :=
  properties.any (fun arg => arg == property_requested)

/-- The loop of lines 309-323 over `properties_requested`, carrying
`properties_available` and the names passed to `log_critical`. -/
def filter_requested (properties : List String) :
    List String → List String × List String → List String × List String
  | [], acc => acc
  | property_requested :: rest, (properties_available, criticals) =>
    if property_found properties property_requested then
      filter_requested properties rest
        (properties_available ++ [property_requested], criticals)
    else
      filter_requested properties rest
        (properties_available, criticals ++ [property_requested])

/-- The function `enumerate_properties`: `count_result` and `fill_result` are
the results of the two calls of `get_properties_function`, `properties` the
names of the properties the second call stored, `properties_requested` the list
`get_properties_requested_list` returns. The value is `properties_available`
together with the names logged as not available. -/
def enumerate_properties (count_result fill_result : VkResult) (properties : List String)
    (properties_requested : List String) : Except Failure (List String × List String) :=
  if count_result != VK_SUCCESS then
    .error (.exception "Failed to enumerate")
  else if fill_result != VK_SUCCESS then
    .error (.exception "Failed to enumerate calling it again")
  else
    .ok (filter_requested properties properties_requested ([], []))

/-! ## Queue planning (`get_dedicated_queue_family`, `get_priority`, `get_queue_indices`) -/

def VK_QUEUE_GRAPHICS_BIT : Nat := 1
def VK_QUEUE_COMPUTE_BIT : Nat := 2
def VK_QUEUE_TRANSFER_BIT : Nat := 4
def VK_QUEUE_SPARSE_BINDING_BIT : Nat := 8
def VK_QUEUE_PROTECTED_BIT : Nat := 16

/-- The expression `static_cast<uint32_t>(~x)`. -/
def bit_not32 (x : Nat) : Nat := UINT32_MAX - x % 2 ^ 32

def graphics_index : Nat := 0
def compute_index : Nat := 1
def transfer_index : Nat := 2
def sparse_index : Nat := 3
def protected_index : Nat := 4

def all_family_flags : List Nat :=
  [VK_QUEUE_GRAPHICS_BIT, VK_QUEUE_COMPUTE_BIT, VK_QUEUE_TRANSFER_BIT,
    VK_QUEUE_SPARSE_BINDING_BIT, VK_QUEUE_PROTECTED_BIT]

/-- The two members of `VkQueueFamilyProperties` that the planner reads. -/
structure VkQueueFamilyProperties where
  queueFlags : Nat
  queueCount : Nat
  deriving DecidableEq, Repr

/-- The struct `QueueData`: `m_indicies[role]` is the pair (family, slot). -/
structure QueueData where
  m_indicies : List (Nat × Nat)
  deriving DecidableEq, Repr

/-- The constructor `QueueData()`: `m_indicies.resize(all_family_flags.size())`. -/
def QueueData.new : QueueData := ⟨List.replicate all_family_flags.length (0, 0)⟩

/-- The test of lines 397-399 on one family. -/
def queue_family_matches (a_queue_flag a_others : Nat)
    (queue_family : VkQueueFamilyProperties) : Bool :=
  (queue_family.queueFlags &&& a_queue_flag == a_queue_flag)
    && (queue_family.queueCount > 0)
    && !(queue_family.queueFlags &&& a_others == a_others)

/-- The loop of `get_dedicated_queue_family` from position `index` on. The
result is the returned flag, the value of `a_index` and the families after the
decrement. -/
def get_dedicated_queue_family_loop (a_queue_flag a_others : Nat) :
    List VkQueueFamilyProperties → Nat → Nat → Bool × Nat × List VkQueueFamilyProperties
  | [], _, a_index => (false, a_index, [])
  | queue_family :: rest, index, a_index =>
    if queue_family_matches a_queue_flag a_others queue_family then
      (true, index, { queue_family with queueCount := queue_family.queueCount - 1 } :: rest)
    else
      let r := get_dedicated_queue_family_loop a_queue_flag a_others rest (index + 1) a_index
      (r.1, r.2.1, queue_family :: r.2.2)

/-- The function `get_dedicated_queue_family`; `a_index` is passed by reference
and keeps its value when no family is found, `a_queue_families` is passed by
reference and is returned as the third component. -/
def get_dedicated_queue_family (a_queue_families : List VkQueueFamilyProperties)
    (a_queue_flag a_others : Nat) (a_index : Nat) :
    Bool × Nat × List VkQueueFamilyProperties :=
  get_dedicated_queue_family_loop a_queue_flag a_others a_queue_families 0 a_index

/-- The function `get_priority`; the `float` literals are given in hundredths
(`0.75f` is `75`). -/
def get_priority (a_flag : Nat) : Nat :=
  if a_flag &&& VK_QUEUE_GRAPHICS_BIT != 0 then 75
  else if a_flag &&& VK_QUEUE_COMPUTE_BIT != 0 then 100
  else if a_flag &&& VK_QUEUE_TRANSFER_BIT != 0 then 50
  else if a_flag &&& VK_QUEUE_SPARSE_BINDING_BIT != 0 then 20
  else if a_flag &&& VK_QUEUE_PROTECTED_BIT != 0 then 10
  else 0

/-- The members of `VkDeviceQueueCreateInfo` that `get_queue_indices` assigns
in its last loop; `pQueuePriorities` is the array the pointer refers to. -/
structure VkDeviceQueueCreateInfo where
  queueFamilyIndex : Nat
  queueCount : Nat
  pQueuePriorities : List Nat
  deriving DecidableEq, Repr

/-- Lines 455-456 of `get_queue_indices`: the graphics role. The value is the
entry of `found_indices` and `queue_families` with the remaining counts. -/
def get_queue_indices_graphics (ndebug : Bool) (queue_families : List VkQueueFamilyProperties) :
    Except Failure ((Bool × Nat) × List VkQueueFamilyProperties) := do
  let g := get_dedicated_queue_family queue_families VK_QUEUE_GRAPHICS_BIT
    (bit_not32 VK_QUEUE_GRAPHICS_BIT) 0
  cassert ndebug g.1 "No graphics queue found can't continue!"
  pure ((g.1, g.2.1), g.2.2)

/-- Lines 458-464 of `get_queue_indices`: the compute role. -/
def get_queue_indices_compute (ndebug : Bool) (queue_families : List VkQueueFamilyProperties) :
    Except Failure ((Bool × Nat) × List VkQueueFamilyProperties) :=
  let c1 := get_dedicated_queue_family queue_families VK_QUEUE_COMPUTE_BIT
    VK_QUEUE_GRAPHICS_BIT 0
  if !c1.1 then do
    let c2 := get_dedicated_queue_family c1.2.2 VK_QUEUE_COMPUTE_BIT
      (bit_not32 VK_QUEUE_GRAPHICS_BIT) c1.2.1
    cassert ndebug c2.1 "No compute queue found can't continue!"
    pure ((c2.1, c2.2.1), c2.2.2)
  else pure ((c1.1, c1.2.1), c1.2.2)

/-- Lines 466-481 of `get_queue_indices`: the transfer role; `graphics_second`
is `found_indices[graphics_index].second`. -/
def get_queue_indices_transfer (queue_families : List VkQueueFamilyProperties)
    (graphics_second : Nat) : (Bool × Nat) × List VkQueueFamilyProperties :=
  let t1 := get_dedicated_queue_family queue_families VK_QUEUE_TRANSFER_BIT
    (VK_QUEUE_COMPUTE_BIT ||| VK_QUEUE_GRAPHICS_BIT) 0
  if !t1.1 then
    let t2 := get_dedicated_queue_family t1.2.2 VK_QUEUE_TRANSFER_BIT VK_QUEUE_COMPUTE_BIT
      t1.2.1
    if !t2.1 then
      let t3 := get_dedicated_queue_family t2.2.2 VK_QUEUE_TRANSFER_BIT
        (bit_not32 VK_QUEUE_TRANSFER_BIT) t2.2.1
      if !t3.1 then ((t3.1, graphics_second), t3.2.2) else ((t3.1, t3.2.1), t3.2.2)
    else ((t2.1, t2.2.1), t2.2.2)
  else ((t1.1, t1.2.1), t1.2.2)

/-- Lines 429 and 452-484 of `get_queue_indices`: the role search. The value
is `found_indices` and `queue_families` with the remaining counts. The first
assert is the one of `enumerate_general_property` on the number of families. -/
def get_queue_indices_found (ndebug : Bool) (queue_families : List VkQueueFamilyProperties) :
    Except Failure (List (Bool × Nat) × List VkQueueFamilyProperties) := do
  cassert ndebug (queue_families.length > 0) "None of the properties required are available"
  let g ← get_queue_indices_graphics ndebug queue_families
  let c ← get_queue_indices_compute ndebug g.2
  let t := get_queue_indices_transfer c.2 g.1.2
  let s := get_dedicated_queue_family t.2 VK_QUEUE_SPARSE_BINDING_BIT
    (bit_not32 VK_QUEUE_SPARSE_BINDING_BIT) 0
  let p := get_dedicated_queue_family s.2.2 VK_QUEUE_PROTECTED_BIT
    (bit_not32 VK_QUEUE_PROTECTED_BIT) 0
  pure ([g.1, c.1, t.1, (s.1, s.2.1), (p.1, p.2.1)], p.2.2)

/-- The loop of lines 501-514 from role `priority_index` on, over the rest of
`found_indices`; the state is `consolidated_families` and `a_queue_data`. -/
def get_queue_indices_consolidate (ndebug : Bool) :
    List (Bool × Nat) → Nat → List (Option Nat × List Nat) × QueueData →
      Except Failure (List (Option Nat × List Nat) × QueueData)
  | [], _, st => pure st
  | index :: rest, priority_index, (consolidated_families, a_queue_data) =>
    if index.1 then
      match consolidated_families[index.2]?, all_family_flags[priority_index]? with
      | some entry, some flag => do
        let first := if entry.1.isSome then entry.1 else some index.2
        cassert ndebug (first == some index.2) "Index mismatch for queue family!"
        let second := entry.2 ++ [get_priority flag]
        if priority_index < a_queue_data.m_indicies.length then
          get_queue_indices_consolidate ndebug rest (priority_index + 1)
            (consolidated_families.set index.2 (first, second),
              ⟨a_queue_data.m_indicies.set priority_index (index.2, second.length - 1)⟩)
        else throw (.out_of_bounds "a_queue_data.m_indicies")
      | none, _ => throw (.out_of_bounds "consolidated_families")
      | _, none => throw (.out_of_bounds "all_family_flags")
    else
      get_queue_indices_consolidate ndebug rest (priority_index + 1)
        (consolidated_families, a_queue_data)

/-- One of the two blocks of lines 516-527: the presentation query for the
family recorded for `role`; `surface_support family` is the result and the
`present_support` that `vkGetPhysicalDeviceSurfaceSupportKHR` stores. -/
def get_queue_indices_present (ndebug : Bool) (surface_support : Nat → VkResult × Bool)
    (a_queue_data : QueueData) (role : Nat) (msg : String) : Except Failure Unit :=
  match a_queue_data.m_indicies[role]? with
  | none => throw (.out_of_bounds "a_queue_data.m_indicies")
  | some index => do
    let answer := surface_support index.1
    cassert ndebug (answer.1 == VK_SUCCESS) "result == VK_SUCCESS"
    cassert ndebug answer.2 msg

/-- The loop of lines 529-547: one descriptor per consolidated family that has
a value. -/
def get_queue_indices_infos :
    List (Option Nat × List Nat) → List VkDeviceQueueCreateInfo
  | [] => []
  | queue_family :: rest =>
    match queue_family.1 with
    | some value =>
      { queueFamilyIndex := value, queueCount := queue_family.2.length,
        pQueuePriorities := queue_family.2 } :: get_queue_indices_infos rest
    | none => get_queue_indices_infos rest

/-- The function `get_queue_indices`. `queue_families` is what
`vkGetPhysicalDeviceQueueFamilyProperties` enumerates for the device,
`surface_support` the answers of `vkGetPhysicalDeviceSurfaceSupportKHR` for the
device and surface. The value is `device_queue_create_infos` and `a_queue_data`. -/
def get_queue_indices (ndebug : Bool) (surface_support : Nat → VkResult × Bool)
    (queue_families : List VkQueueFamilyProperties) (a_queue_data : QueueData) :
    Except Failure (List VkDeviceQueueCreateInfo × QueueData) := do
  let found ← get_queue_indices_found ndebug queue_families
  let found_indices := found.1
  let consolidated ← get_queue_indices_consolidate ndebug found_indices 0
    (List.replicate queue_families.length (none, []), a_queue_data)
  get_queue_indices_present ndebug surface_support consolidated.2 graphics_index
    "Graphics queue chosen doesn't support presentation!"
  get_queue_indices_present ndebug surface_support consolidated.2 compute_index
    "Compute queue chosen doesn't support presentation!"
  let device_queue_create_infos := get_queue_indices_infos consolidated.1
  cassert ndebug (device_queue_create_infos.length ≥ 1) "device_queue_create_infos.size() >= 1"
  pure (device_queue_create_infos, consolidated.2)

/-- The free slots that family `f` has in `families` (none outside the list). -/
def free_slots (families : List VkQueueFamilyProperties) (f : Nat) : Nat :=
  match families[f]? with
  | some queue_family => queue_family.queueCount
  | none => 0

/-- The number of roles of `found_indices` that were found in family `f`. -/
def roles_in (found_indices : List (Bool × Nat)) (f : Nat) : Nat :=
  found_indices.countP (fun index => index.1 && index.2 == f)

/-- The roles `found` were taken from `families₀`, leaving `families`: every
family lost one slot per role found in it, and the roles found lie in the list. -/
def SlotsTaken (families₀ families : List VkQueueFamilyProperties)
    (found : List (Bool × Nat)) : Prop :=
  (∀ f, free_slots families f + roles_in found f = free_slots families₀ f)
    ∧ families.length = families₀.length
    ∧ ∀ index ∈ found, index.1 = true → index.2 < families₀.length

/-- The family has every bit of `flag` among its `queueFlags`. -/
def has_capability (queue_family : VkQueueFamilyProperties) (flag : Nat) : Bool :=
  queue_family.queueFlags &&& flag == flag

/-- The family has a queue that no role has taken yet. -/
def has_free_slot (queue_family : VkQueueFamilyProperties) : Bool :=
  queue_family.queueCount > 0

/-- Family `i` is the lowest-index family of the list that satisfies `p`. -/
def FirstFamily (p : VkQueueFamilyProperties → Bool)
    (families : List VkQueueFamilyProperties) (i : Nat) : Prop :=
  ∃ q, families[i]? = some q ∧ p q = true
    ∧ ∀ (j : Nat) (q' : VkQueueFamilyProperties), j < i → families[j]? = some q' → p q' = false

/-- The families after one slot of family `i` was taken. -/
def take_slot (families : List VkQueueFamilyProperties) (i : Nat) :
    List VkQueueFamilyProperties :=
  match families[i]? with
  | some q => families.set i { q with queueCount := q.queueCount - 1 }
  | none => families

/-- Family `c` is the compute choice of the spec: the first family with compute
capability, a free slot and no graphics capability, or, when there is none,
the first family with compute capability and a free slot. -/
def ComputeChoice (families : List VkQueueFamilyProperties) (c : Nat) : Prop :=
  FirstFamily (fun q => has_capability q VK_QUEUE_COMPUTE_BIT && has_free_slot q
      && !has_capability q VK_QUEUE_GRAPHICS_BIT) families c
    ∨ ((∀ q ∈ families, (has_capability q VK_QUEUE_COMPUTE_BIT && has_free_slot q
          && !has_capability q VK_QUEUE_GRAPHICS_BIT) = false)
      ∧ FirstFamily (fun q => has_capability q VK_QUEUE_COMPUTE_BIT && has_free_slot q)
          families c)

/-! ## Mesh buffers (`create_vertex_buffers`, the offsets of
`record_command_buffers`) -/

/-- The element counts of the arrays of the mesh, the constants
`astro_boy_*_array_count`; they are declared with the mesh, outside the
sources. -/
structure MeshCounts where
  astro_boy_positions_array_count : Nat
  astro_boy_normals_array_count : Nat
  astro_boy_uvs_array_count : Nat
  astro_boy_weights_array_count : Nat
  astro_boy_joints_array_count : Nat
  astro_boy_indices_array_count : Nat
  deriving DecidableEq, Repr

/-- The value of `sizeof(float32_t)`. -/
def sizeof_float32_t : Nat := 4

/-- The value of `sizeof(uint32_t)`. -/
def sizeof_uint32_t : Nat := 4

/-- A product of type `size_t` or `VkDeviceSize`, both of 64 bits. -/
def mul64 (a b : Nat) : Nat := (a * b) % 2 ^ 64

/-- A sum of type `size_t` or `VkDeviceSize`, both of 64 bits. -/
def add64 (a b : Nat) : Nat := (a + b) % 2 ^ 64

/-- The array `offsets` of lines 1614-1618 of `record_command_buffers`: the
byte offsets bound for positions, normals, uvs, weights and joint ids. -/
def record_command_buffers_offsets (mesh : MeshCounts) : List Nat :=
  [mul64 mesh.astro_boy_positions_array_count 0,
    mul64 mesh.astro_boy_normals_array_count 0,
    mul64 mesh.astro_boy_normals_array_count sizeof_float32_t,
    add64 (mul64 mesh.astro_boy_normals_array_count sizeof_float32_t)
      (mul64 mesh.astro_boy_uvs_array_count sizeof_float32_t),
    add64
      (add64 (mul64 mesh.astro_boy_normals_array_count sizeof_float32_t)
        (mul64 mesh.astro_boy_uvs_array_count sizeof_float32_t))
      (mul64 mesh.astro_boy_weights_array_count sizeof_float32_t)]

/-- One `memcpy` into the mapped memory of a staging buffer: the array copied,
the byte offset of the destination from the start of the mapping, and the
number of bytes. -/
structure StagingWrite where
  source : String
  offset : Nat
  size : Nat
  deriving DecidableEq, Repr

/-- The part of `create_vertex_buffers` for the rest buffer (lines 2021-2025 and
2046-2058): the size of the buffer, `non_positions_buffer_size`, and the four
`memcpy` into its staging memory, the destination pointer advancing by the size
of each array copied. The staging buffer is then copied whole, from offset 0 to
offset 0, into `m_vertex_buffers[1]`. -/
def create_vertex_buffers_rest (mesh : MeshCounts) : Nat × List StagingWrite :=
  let normals_buffer_size := mul64 mesh.astro_boy_normals_array_count sizeof_float32_t
  let uvs_buffer_size := mul64 mesh.astro_boy_uvs_array_count sizeof_float32_t
  let weights_buffer_size := mul64 mesh.astro_boy_weights_array_count sizeof_float32_t
  let joints_buffer_size := mul64 mesh.astro_boy_joints_array_count sizeof_uint32_t
  let non_positions_buffer_size :=
    add64 (add64 (add64 normals_buffer_size uvs_buffer_size) joints_buffer_size)
      weights_buffer_size
  let non_position_data := 0
  let normals : StagingWrite := ⟨"astro_boy_normals", non_position_data, normals_buffer_size⟩
  let non_position_data := non_position_data + normals_buffer_size
  let uvs : StagingWrite := ⟨"astro_boy_uvs", non_position_data, uvs_buffer_size⟩
  let non_position_data := non_position_data + uvs_buffer_size
  let weights : StagingWrite := ⟨"astro_boy_weights", non_position_data, weights_buffer_size⟩
  let non_position_data := non_position_data + weights_buffer_size
  let joints : StagingWrite := ⟨"astro_boy_joints", non_position_data, joints_buffer_size⟩
  (non_positions_buffer_size, [normals, uvs, weights, joints])

/-! ## The frame loop (`draw_frame`, `recreate_swapchain`,
`record_command_buffers`, `update_uniform_buffer`) -/

def VK_NULL_HANDLE : Nat := 0

/-- The calls that the frame loop makes, in the order made. The members of
`PhysicalDevice` that destroy or create the objects of the swapchain are
recorded by name; the calls of `record_command_buffers` are recorded one by one
after the name of the member. -/
inductive Call where
  | vkWaitForFences (fence : Nat)
  | vkAcquireNextImageKHR (semaphore : Nat)
  | vkResetFences (fence : Nat)
  | vkMapMemory (memory : Nat)
  | write_uniform_data (memory : Nat)
  | vkUnmapMemory (memory : Nat)
  | vkQueueSubmit (image_index command_buffer wait_semaphore signal_semaphore fence : Nat)
  | vkQueuePresentKHR (wait_semaphore image_index : Nat)
  | vkDeviceWaitIdle
  | destroy_framebuffers
  | vkFreeCommandBuffers
  | destroy_render_pass
  | destroy_graphics_pipeline
  | destroy_imageviews
  | destroy_depth_buffer
  | destroy_msaa_color_buffer
  | destroy_swapchain
  | create_swapchain
  | create_imageviews
  | create_render_pass
  | create_graphics_pipeline
  | create_msaa_color_buffer
  | create_depth_buffer
  | create_framebuffers
  | create_command_buffers
  | record_command_buffers
  | vkBeginCommandBuffer (command_buffer : Nat)
  | vkCmdBeginRenderPass (command_buffer framebuffer : Nat)
  | vkCmdBindPipeline (command_buffer : Nat)
  | vkCmdSetViewport (command_buffer : Nat)
  | vkCmdBindVertexBuffers (command_buffer : Nat) (offsets : List Nat)
  | vkCmdBindIndexBuffer (command_buffer : Nat)
  | vkCmdBindDescriptorSets (command_buffer descriptor_set : Nat)
  | vkCmdDrawIndexed (command_buffer index_count : Nat)
  | vkCmdEndRenderPass (command_buffer : Nat)
  | vkEndCommandBuffer (command_buffer : Nat)
  deriving DecidableEq, Repr

/-- A run of device code: the calls made so far and either the value returned
or the failure that ended the run. -/
def Exec (α : Type) : Type := List Call × Except Failure α

def Exec.pure {α : Type} (a : α) : Exec α := ([], .ok a)

def Exec.bind {α β : Type} (m : Exec α) (f : α → Exec β) : Exec β :=
  match m with
  | (calls, .error e) => (calls, .error e)
  | (calls, .ok a) => (calls ++ (f a).1, (f a).2)

instance : Monad Exec where
  pure := Exec.pure
  bind := Exec.bind

instance {α : Type} [DecidableEq α] : DecidableEq (Exec α) :=
  inferInstanceAs (DecidableEq (List Call × Except Failure α))

/-- Record one call. -/
def Exec.call (c : Call) : Exec Unit := ([c], .ok ())

/-- Stop with a failure. -/
def Exec.fail {α : Type} (e : Failure) : Exec α := ([], .error e)

/-- The macro `assert(c)` inside a run. -/
def Exec.assert (ndebug : Bool) (c : Bool) (msg : String) : Exec Unit :=
  ([], cassert ndebug c msg)

/-- The element `xs[i]` of an array; outside the array the run ends. -/
def Exec.index (what : String) (xs : List Nat) (i : Nat) : Exec Nat :=
  match xs[i]? with
  | some x => Exec.pure x
  | none => Exec.fail (.out_of_bounds what)

/-- The members of `PhysicalDevice` that the frame loop reads or writes.
`number_of_buffers` is `cfg::get_number_of_buffers()`. -/
structure PhysicalDevice where
  number_of_buffers : Nat
  m_image_available_semaphore : List Nat
  m_render_finished_semaphore : List Nat
  m_queue_fence : List Nat
  m_queue_fence_in_flight : List Nat
  m_current_frame : Nat
  m_graphics_command_buffers : List Nat
  m_uniform_buffers_memory : List Nat
  m_framebuffers : List Nat
  m_descriptor_sets : List Nat
  deriving DecidableEq, Repr

/-- What the driver answers during one call of `draw_frame`.
`image_index_before` is the indeterminate value that the local `image_index`
holds before the acquire, `acquire_index` the index that
`vkAcquireNextImageKHR` stores through `pImageIndex` when it stores one. The
other answers are those given when the swapchain is re-created:
`recreated_command_buffers` are the handles that `create_command_buffers`
allocates, `create_failure` names the first `create_*` member that does not
return, when there is one, with the failure that ends it (an assert on a
`VkResult` or on a parameter of the swapchain, or the exception that
`find_memory_type` throws inside `create_msaa_color_buffer` and
`create_depth_buffer`), `recreated_framebuffers` are the handles that
`create_framebuffers` stores, one per image of the re-created swapchain, and
`begin_result` and `end_result` are what `vkBeginCommandBuffer` and
`vkEndCommandBuffer` return while the command buffers are recorded again.
`create_command_buffers` resizes `m_graphics_command_buffers` to the size of
`m_framebuffers` before it asks for the handles, so the driver answers as many
command buffers as framebuffers; the two lists are kept apart here and the
theorems in which the two lengths matter take their equality as a hypothesis. -/
structure FrameDriver where
  image_index_before : Nat
  acquire_result : VkResult
  acquire_index : Option Nat
  submit_result : VkResult
  present_result : VkResult
  recreated_command_buffers : List Nat
  create_failure : Option (Call × Failure)
  recreated_framebuffers : List Nat
  begin_result : VkResult
  end_result : VkResult
  deriving DecidableEq, Repr

/-- The member `update_uniform_buffer` (lines 1833-1856): the matrices are
computed on the host, then the memory of slot `a_index` is mapped, written and
unmapped. -/
def update_uniform_buffer (self : PhysicalDevice) (a_index : Nat) (a_animate : Bool) :
    Exec Unit := do
  let _ := a_animate
  let memory ← Exec.index "m_uniform_buffers_memory" self.m_uniform_buffers_memory a_index
  Exec.call (.vkMapMemory memory)
  Exec.call (.write_uniform_data memory)
  Exec.call (.vkUnmapMemory memory)

/-- The loop of `record_command_buffers` (lines 1562-1634) from command buffer
`i` on, with `remaining` iterations left. `begin_result` and `end_result` are
what `vkBeginCommandBuffer` and `vkEndCommandBuffer` return. -/
def record_command_buffers_loop (ndebug : Bool) (begin_result end_result : VkResult)
    (mesh : MeshCounts) (self : PhysicalDevice) : Nat → Nat → Exec Unit
  | 0, _ => pure ()
  | remaining + 1, i => do
    let current_command_buffer ← Exec.index "m_graphics_command_buffers"
      self.m_graphics_command_buffers i
    Exec.call (.vkBeginCommandBuffer current_command_buffer)
    Exec.assert ndebug (begin_result == VK_SUCCESS) "result == VK_SUCCESS"
    let framebuffer ← Exec.index "m_framebuffers" self.m_framebuffers i
    Exec.call (.vkCmdBeginRenderPass current_command_buffer framebuffer)
    Exec.assert ndebug (begin_result == VK_SUCCESS) "result == VK_SUCCESS"
    update_uniform_buffer self i true
    Exec.call (.vkCmdBindPipeline current_command_buffer)
    Exec.call (.vkCmdSetViewport current_command_buffer)
    Exec.call (.vkCmdBindVertexBuffers current_command_buffer
      (record_command_buffers_offsets mesh))
    Exec.call (.vkCmdBindIndexBuffer current_command_buffer)
    let descriptor_set ← Exec.index "m_descriptor_sets" self.m_descriptor_sets i
    Exec.call (.vkCmdBindDescriptorSets current_command_buffer descriptor_set)
    Exec.call (.vkCmdDrawIndexed current_command_buffer mesh.astro_boy_indices_array_count)
    Exec.call (.vkCmdEndRenderPass current_command_buffer)
    Exec.call (.vkEndCommandBuffer current_command_buffer)
    Exec.assert ndebug (end_result == VK_SUCCESS) "result == VK_SUCCESS"
    record_command_buffers_loop ndebug begin_result end_result mesh self remaining (i + 1)

/-- The member `record_command_buffers`: one recording per graphics command
buffer. -/
def record_command_buffers (ndebug : Bool) (begin_result end_result : VkResult)
    (mesh : MeshCounts) (self : PhysicalDevice) : Exec Unit :=
  record_command_buffers_loop ndebug begin_result end_result mesh self
    self.m_graphics_command_buffers.length 0

/-- The member `cleanup_swapchain` (lines 2278-2293). `destroy_framebuffers`
clears every entry of `m_framebuffers`, `m_graphics_command_buffers.clear()`
empties the vector. -/
def cleanup_swapchain (self : PhysicalDevice) : Exec PhysicalDevice := do
  Exec.call .destroy_framebuffers
  let self := { self with m_framebuffers := self.m_framebuffers.map (fun _ => VK_NULL_HANDLE) }
  Exec.call .vkFreeCommandBuffers
  let self := { self with m_graphics_command_buffers := [] }
  Exec.call .destroy_render_pass
  Exec.call .destroy_graphics_pipeline
  Exec.call .destroy_imageviews
  Exec.call .destroy_depth_buffer
  Exec.call .destroy_msaa_color_buffer
  Exec.call .destroy_swapchain
  pure self

/-- One `create_*` member called by `recreate_swapchain`: the member is
entered, and when it is the one that the driver's answers make fail the run
ends inside it, at an assert when asserts are enabled or with the failure that
no build compiles out. -/
def create_member (ndebug : Bool) (drv : FrameDriver) (member : Call) : Exec Unit := do
  Exec.call member
  match drv.create_failure with
  | some (failing, .assertion msg) =>
    if failing == member then Exec.assert ndebug false msg else pure ()
  | some (failing, failure) =>
    if failing == member then Exec.fail failure else pure ()
  | none => pure ()

/-- The member `recreate_swapchain` (lines 892-909). `create_framebuffers` and
`create_command_buffers` resize and fill their vectors, `record_command_buffers`
runs its loop over the new command buffers. -/
def recreate_swapchain (ndebug : Bool) (mesh : MeshCounts) (drv : FrameDriver)
    (self : PhysicalDevice) : Exec PhysicalDevice := do
  Exec.call .vkDeviceWaitIdle
  let self ← cleanup_swapchain self
  create_member ndebug drv .create_swapchain
  create_member ndebug drv .create_imageviews
  create_member ndebug drv .create_render_pass
  create_member ndebug drv .create_graphics_pipeline
  create_member ndebug drv .create_msaa_color_buffer
  create_member ndebug drv .create_depth_buffer
  create_member ndebug drv .create_framebuffers
  let self := { self with m_framebuffers := drv.recreated_framebuffers }
  create_member ndebug drv .create_command_buffers
  let self := { self with m_graphics_command_buffers := drv.recreated_command_buffers }
  Exec.call .record_command_buffers
  record_command_buffers ndebug drv.begin_result drv.end_result mesh self
  pure self

/-- Lines 805-818 of `draw_frame`: the wait on the frame fence and the acquire.
The value is the device, the frame fence, the image-available semaphore of the
current slot and the local `image_index`. -/
def draw_frame_acquire (ndebug : Bool) (mesh : MeshCounts) (drv : FrameDriver)
    (self : PhysicalDevice) : Exec (PhysicalDevice × Nat × Nat × Nat) := do
  let frame_fence ← Exec.index "m_queue_fence" self.m_queue_fence self.m_current_frame
  Exec.call (.vkWaitForFences frame_fence)
  let image_available ← Exec.index "m_image_available_semaphore"
    self.m_image_available_semaphore self.m_current_frame
  Exec.call (.vkAcquireNextImageKHR image_available)
  let image_index := drv.acquire_index.getD drv.image_index_before
  let swapchain_res := drv.acquire_result
  if swapchain_res == VK_ERROR_OUT_OF_DATE_KHR then do
    Exec.assert ndebug false "This should never happen"
    let self ← recreate_swapchain ndebug mesh drv self
    pure (self, frame_fence, image_available, image_index)
  else if swapchain_res != VK_SUCCESS && swapchain_res != VK_SUBOPTIMAL_KHR then
    Exec.fail (.exception "Acquire Next image failed or its suboptimal!")
  else pure (self, frame_fence, image_available, image_index)

/-- Lines 820-852 of `draw_frame`: the wait on the fence in flight for the
image, the update of the uniform buffer and the submit. The value is the
device and the render-finished semaphore of the current slot. -/
def draw_frame_submit (drv : FrameDriver) (a_update_animation : Bool) (self : PhysicalDevice)
    (frame_fence image_available image_index : Nat) : Exec (PhysicalDevice × Nat) := do
  let in_flight ← Exec.index "m_queue_fence_in_flight" self.m_queue_fence_in_flight image_index
  if in_flight != VK_NULL_HANDLE then
    Exec.call (.vkWaitForFences in_flight)
  let self := { self with
    m_queue_fence_in_flight := self.m_queue_fence_in_flight.set image_index frame_fence }
  let command_buffer ← Exec.index "m_graphics_command_buffers"
    self.m_graphics_command_buffers image_index
  let render_finished ← Exec.index "m_render_finished_semaphore"
    self.m_render_finished_semaphore self.m_current_frame
  Exec.call (.vkResetFences frame_fence)
  update_uniform_buffer self image_index a_update_animation
  Exec.call (.vkQueueSubmit image_index command_buffer image_available render_finished
    frame_fence)
  if drv.submit_result != VK_SUCCESS then
    Exec.fail (.exception "failed to submit draw command buffer!")
  pure (self, render_finished)

/-- Lines 865-889 of `draw_frame`: the present and the step of the frame slot. -/
def draw_frame_present (ndebug : Bool) (mesh : MeshCounts) (drv : FrameDriver)
    (self : PhysicalDevice) (render_finished image_index : Nat) : Exec PhysicalDevice := do
  Exec.call (.vkQueuePresentKHR render_finished image_index)
  let swapchain_res := drv.present_result
  let self ←
    if swapchain_res == VK_ERROR_OUT_OF_DATE_KHR || swapchain_res == VK_SUBOPTIMAL_KHR then do
      Exec.assert ndebug false "This should never happen"
      recreate_swapchain ndebug mesh drv self
    else if swapchain_res != VK_SUCCESS then
      Exec.fail (.exception "Failed to present swapchain image!")
    else pure self
  pure { self with m_current_frame := (self.m_current_frame + 1) % self.number_of_buffers }

/-- The member `draw_frame` (lines 803-890). `mesh` holds the element counts of
the mesh arrays, which the recording of the command buffers reads. -/
def draw_frame (ndebug : Bool) (mesh : MeshCounts) (drv : FrameDriver)
    (a_update_animation : Bool) (self : PhysicalDevice) : Exec PhysicalDevice := do
  let acquired ← draw_frame_acquire ndebug mesh drv self
  let submitted ← draw_frame_submit drv a_update_animation acquired.1 acquired.2.1
    acquired.2.2.1 acquired.2.2.2
  draw_frame_present ndebug mesh drv submitted.1 submitted.2 acquired.2.2.2

/-- A sequence of `draw_frame` calls: one call per element of `frames`, each
with what the driver answers during that call and the `a_update_animation`
argument; the sequence ends with the first call that fails. -/
def draw_frames (ndebug : Bool) (mesh : MeshCounts) :
    List (FrameDriver × Bool) → PhysicalDevice → Exec PhysicalDevice
  | [], self => pure self
  | frame :: rest, self => do
    let self ← draw_frame ndebug mesh frame.1 frame.2 self
    draw_frames ndebug mesh rest self

/-- The loop of `create_sync_objects` (lines 1332-1343) as far as the frame
loop sees it: the handles that `vkCreateSemaphore` and `vkCreateFence` return
are stored and every entry of `m_queue_fence_in_flight` is cleared. -/
def create_sync_objects (image_available render_finished fences : List Nat)
    (self : PhysicalDevice) : PhysicalDevice :=
  { self with
    m_image_available_semaphore := image_available
    m_render_finished_semaphore := render_finished
    m_queue_fence := fences
    m_queue_fence_in_flight := List.replicate self.number_of_buffers VK_NULL_HANDLE }

/-! ## The queue as the frame loop sees it

A submission is in flight from its `vkQueueSubmit` until the host has seen it
complete. The host sees that in two ways only: a `vkWaitForFences` on the fence
the submission signals returns, or `vkDeviceWaitIdle` returns. Nothing else is
taken to complete, which is the least favourable schedule for the host. -/

/-- The submissions in flight after one more call: each is the image index of
its command buffer and the fence it signals. -/
def in_flight_after (pending : List (Nat × Nat)) : Call → List (Nat × Nat)
  | .vkWaitForFences fence => pending.filter (fun submission => submission.2 != fence)
  | .vkDeviceWaitIdle => []
  | .vkQueueSubmit image_index _ _ _ fence => (image_index, fence) :: pending
  | _ => pending

/-- The submissions in flight after a sequence of calls. -/
def in_flight_after_all (pending : List (Nat × Nat)) (calls : List Call) : List (Nat × Nat) :=
  calls.foldl in_flight_after pending

/-- The call does not submit for an image that has a submission in flight, nor
with a fence that a submission in flight is to signal. -/
def submit_exclusive (pending : List (Nat × Nat)) : Call → Bool
  | .vkQueueSubmit image_index _ _ _ fence =>
    pending.all (fun submission => submission.1 != image_index && submission.2 != fence)
  | _ => true

/-- Along the calls, no two submissions for the same image index are in flight
at the same time, and no two submissions in flight signal the same fence (so
that a wait on a fence stands for the one submission that signals it). -/
def submissions_exclusive : List (Nat × Nat) → List Call → Bool
  | _, [] => true
  | pending, call :: rest =>
    submit_exclusive pending call && submissions_exclusive (in_flight_after pending call) rest

/-- The call is a `vkQueueSubmit`. -/
def Call.is_submit : Call → Bool
  | .vkQueueSubmit _ _ _ _ _ => true
  | _ => false

/-- Every submission in flight is the one that the image-in-flight map records
for its image: the fence it signals is the entry of its image index, and that
fence is not `VK_NULL_HANDLE`. -/
def InFlightRecorded (self : PhysicalDevice) (pending : List (Nat × Nat)) : Prop :=
  ∀ submission ∈ pending,
    self.m_queue_fence_in_flight[submission.1]? = some submission.2
      ∧ submission.2 ≠ VK_NULL_HANDLE

/-- The fixed priority of each role, in role order and in hundredths: graphics
0.75, compute 1.00, transfer 0.50, sparse 0.20, protected 0.10. -/
def role_priorities : List Nat := [75, 100, 50, 20, 10]

/-- The priorities of the roles of `found_indices` that were found in family
`f`, in role order; the first role of the list is role `priority_index`. -/
def priorities_in : List (Bool × Nat) → Nat → Nat → List Nat
  | [], _, _ => []
  | index :: rest, priority_index, f =>
    (if index.1 && index.2 == f then [role_priorities.getD priority_index 0] else [])
      ++ priorities_in rest (priority_index + 1) f

/-! ## Queue retrieval (`create_device`) -/

/-- The queue members of `PhysicalDevice` that `create_device` assigns. A queue
handle is given by the two arguments of the `vkGetDeviceQueue` call that
retrieved it: the family index and the queue index. -/
structure DeviceQueues where
  m_graphics_queue : Nat × Nat
  m_compute_queue : Nat × Nat
  m_transfer_queue : Nat × Nat
  m_sparse_queue : Nat × Nat
  m_protected_queue : Nat × Nat
  m_present_queue : Nat × Nat
  m_graphics_queue_index : Nat
  m_present_queue_index : Nat
  m_transfer_queue_index : Nat
  m_compute_queue_index : Nat
  deriving DecidableEq, Repr

/-- The expression `queues[queue_data.m_indicies[role].first].queueFamilyIndex`
of lines 1005-1021; reading past the end of either vector ends the run. -/
def create_device_family (queues : List VkDeviceQueueCreateInfo) (queue_data : QueueData)
    (role : Nat) : Except Failure Nat :=
  match queue_data.m_indicies[role]? with
  | none => throw (.out_of_bounds "queue_data.m_indicies")
  | some index =>
    match queues[index.1]? with
    | none => throw (.out_of_bounds "queues")
    | some info => pure info.queueFamilyIndex

/-- One call of lines 1005-1009:
`vkGetDeviceQueue(m_device, queues[m_indicies[role].first].queueFamilyIndex,
m_indicies[role].second, &queue)`. -/
def create_device_queue (queues : List VkDeviceQueueCreateInfo) (queue_data : QueueData)
    (role : Nat) : Except Failure (Nat × Nat) := do
  let family ← create_device_family queues queue_data role
  match queue_data.m_indicies[role]? with
  | none => throw (.out_of_bounds "queue_data.m_indicies")
  | some index => pure (family, index.2)

/-- Lines 1005-1021 of `create_device`: the five queues and the four published
family indices, from the descriptors and the plan of `get_queue_indices`. -/
def create_device_queues (queues : List VkDeviceQueueCreateInfo) (queue_data : QueueData) :
    Except Failure DeviceQueues := do
  let m_graphics_queue ← create_device_queue queues queue_data graphics_index
  let m_compute_queue ← create_device_queue queues queue_data compute_index
  let m_transfer_queue ← create_device_queue queues queue_data transfer_index
  let m_sparse_queue ← create_device_queue queues queue_data sparse_index
  let m_protected_queue ← create_device_queue queues queue_data protected_index
  let m_graphics_queue_index ← create_device_family queues queue_data graphics_index
  let m_present_queue_index := m_graphics_queue_index
  let m_present_queue := m_graphics_queue
  let m_transfer_queue_index ← create_device_family queues queue_data transfer_index
  let m_compute_queue_index ← create_device_family queues queue_data compute_index
  pure { m_graphics_queue, m_compute_queue, m_transfer_queue, m_sparse_queue,
         m_protected_queue, m_present_queue, m_graphics_queue_index, m_present_queue_index,
         m_transfer_queue_index, m_compute_queue_index }

/-- The function `create_device` from line 974 on: the plan of
`get_queue_indices` from a fresh `QueueData`, the assert on the result of
`vkCreateDevice` (`create_result`), and the queue retrieval. The feature check
and the two `enumerate_properties` calls before it do not touch the queues. -/
def create_device (ndebug : Bool) (surface_support : Nat → VkResult × Bool)
    (queue_families : List VkQueueFamilyProperties) (create_result : VkResult) :
    Except Failure DeviceQueues := do
  let plan ← get_queue_indices ndebug surface_support queue_families QueueData.new
  cassert ndebug (create_result == VK_SUCCESS) "result == VK_SUCCESS"
  create_device_queues plan.1 plan.2

/-! ## Texture upload (`transition_image_layout`,
`copy_from_staging_buffers_to_images`, `create_texture`) -/

def VK_IMAGE_LAYOUT_UNDEFINED : Nat := 0
def VK_IMAGE_LAYOUT_SHADER_READ_ONLY_OPTIMAL : Nat := 5
def VK_IMAGE_LAYOUT_TRANSFER_DST_OPTIMAL : Nat := 7
def VK_PIPELINE_STAGE_TOP_OF_PIPE_BIT : Nat := 0x1
def VK_PIPELINE_STAGE_FRAGMENT_SHADER_BIT : Nat := 0x80
def VK_PIPELINE_STAGE_TRANSFER_BIT : Nat := 0x1000
def VK_ACCESS_SHADER_READ_BIT : Nat := 0x20
def VK_ACCESS_TRANSFER_WRITE_BIT : Nat := 0x1000
def VK_IMAGE_ASPECT_COLOR_BIT : Nat := 0x1
def VK_QUEUE_FAMILY_IGNORED : Nat := UINT32_MAX
/-- The members of `VkImageMemoryBarrier` that `transition_image_layout`
assigns; the members of `subresourceRange` are listed with the others. -/
structure VkImageMemoryBarrier where
  srcAccessMask : Nat
  dstAccessMask : Nat
  oldLayout : Nat
  newLayout : Nat
  srcQueueFamilyIndex : Nat
  dstQueueFamilyIndex : Nat
  image : Nat
  aspectMask : Nat
  baseMipLevel : Nat
  levelCount : Nat
  baseArrayLayer : Nat
  layerCount : Nat
  deriving DecidableEq, Repr

/-- The members of `VkBufferImageCopy`; the members of `imageSubresource` are
listed with the others, offset and extent are (x, y, z) and (width, height,
depth). -/
structure VkBufferImageCopy where
  bufferOffset : Nat
  bufferRowLength : Nat
  bufferImageHeight : Nat
  aspectMask : Nat
  mipLevel : Nat
  baseArrayLayer : Nat
  layerCount : Nat
  imageOffset : Nat × Nat × Nat
  imageExtent : Nat × Nat × Nat
  deriving DecidableEq, Repr

/-- The calls that the texture upload makes, in the order made. The members of
`PhysicalDevice` that create the staging buffer, the image, its memory, its
view and the sampler are recorded by name. -/
inductive Command where
  | vkAllocateCommandBuffers
  | vkBeginCommandBuffer (command_buffer : Nat)
  | vkCmdPipelineBarrier (command_buffer srcStageMask dstStageMask : Nat)
      (barrier : VkImageMemoryBarrier)
  | vkCmdCopyBufferToImage (command_buffer srcBuffer dstImage dstImageLayout : Nat)
      (regions : List VkBufferImageCopy)
  | vkEndCommandBuffer (command_buffer : Nat)
  | vkQueueSubmit (command_buffer : Nat)
  | vkQueueWaitIdle
  | vkFreeCommandBuffers (command_buffer : Nat)
  | create_buffer (size usage : Nat)
  | allocate_bind_buffer_memory (buffer : Nat)
  | vkMapMemory (memory : Nat)
  | memcpy (size : Nat)
  | vkUnmapMemory (memory : Nat)
  | create_image (width height format tiling usage mip_levels : Nat)
  | allocate_bind_image_memory (image properties : Nat)
  | create_image_view (image format aspect mip_levels : Nat)
  | create_texture_sampler (mip_levels : Nat)
  | vkDestroyBuffer (buffer : Nat)
  | vkFreeMemory (memory : Nat)
  deriving DecidableEq, Repr

/-- A run of upload code: the calls made so far and either the value returned
or the failure that ended the run. -/
def Upload (α : Type) : Type := List Command × Except Failure α

def Upload.pure {α : Type} (a : α) : Upload α := ([], .ok a)

def Upload.bind {α β : Type} (m : Upload α) (f : α → Upload β) : Upload β :=
  match m with
  | (calls, .error e) => (calls, .error e)
  | (calls, .ok a) => (calls ++ (f a).1, (f a).2)

instance : Monad Upload where
  pure := Upload.pure
  bind := Upload.bind

instance {α : Type} [DecidableEq α] : DecidableEq (Upload α) :=
  inferInstanceAs (DecidableEq (List Command × Except Failure α))

/-- Record one call. -/
def Upload.call (c : Command) : Upload Unit := ([c], .ok ())

/-- Stop with a failure. -/
def Upload.fail {α : Type} (e : Failure) : Upload α := ([], .error e)

/-- The macro `assert(c)` inside a run. -/
def Upload.assert (ndebug : Bool) (c : Bool) (msg : String) : Upload Unit :=
  ([], cassert ndebug c msg)

/-- What the driver answers during an upload: the result of
`vkAllocateCommandBuffers` and the handles it hands out. -/
structure UploadDriver where
  allocate_result : VkResult
  staging_command_buffer : Nat
  staging_buffer : Nat
  staging_buffer_memory : Nat
  texture_image : Nat
  deriving DecidableEq, Repr

/-- The member `begin_single_use_cmd_buffer`. -/
def begin_single_use_cmd_buffer (ndebug : Bool) (drv : UploadDriver) : Upload Nat := do
  Upload.call .vkAllocateCommandBuffers
  Upload.assert ndebug (drv.allocate_result == VK_SUCCESS) "result == VK_SUCCESS"
  Upload.call (.vkBeginCommandBuffer drv.staging_command_buffer)
  pure drv.staging_command_buffer

/-- The member `end_single_use_cmd_buffer`. -/
def end_single_use_cmd_buffer (a_command_buffer : Nat) : Upload Unit := do
  Upload.call (.vkEndCommandBuffer a_command_buffer)
  Upload.call (.vkQueueSubmit a_command_buffer)
  Upload.call .vkQueueWaitIdle
  Upload.call (.vkFreeCommandBuffers a_command_buffer)

/-- The member `transition_image_layout`. -/
def transition_image_layout (ndebug : Bool) (drv : UploadDriver)
    (a_image a_format a_old_layout a_new_layout a_mip_levels : Nat) : Upload Unit := do
  let _ := a_format
  let command_buffer ← begin_single_use_cmd_buffer ndebug drv
  let barrier : VkImageMemoryBarrier :=
    { oldLayout := a_old_layout, newLayout := a_new_layout,
      srcQueueFamilyIndex := VK_QUEUE_FAMILY_IGNORED,
      dstQueueFamilyIndex := VK_QUEUE_FAMILY_IGNORED,
      image := a_image, aspectMask := VK_IMAGE_ASPECT_COLOR_BIT, baseMipLevel := 0,
      levelCount := a_mip_levels, baseArrayLayer := 0, layerCount := 1,
      srcAccessMask := 0, dstAccessMask := 0 }
  let chosen ←
    if a_old_layout == VK_IMAGE_LAYOUT_UNDEFINED
        && a_new_layout == VK_IMAGE_LAYOUT_TRANSFER_DST_OPTIMAL then
      pure ({ barrier with srcAccessMask := 0, dstAccessMask := VK_ACCESS_TRANSFER_WRITE_BIT },
        VK_PIPELINE_STAGE_TOP_OF_PIPE_BIT, VK_PIPELINE_STAGE_TRANSFER_BIT)
    else if a_old_layout == VK_IMAGE_LAYOUT_TRANSFER_DST_OPTIMAL
        && a_new_layout == VK_IMAGE_LAYOUT_SHADER_READ_ONLY_OPTIMAL then
      pure ({ barrier with srcAccessMask := VK_ACCESS_TRANSFER_WRITE_BIT,
                           dstAccessMask := VK_ACCESS_SHADER_READ_BIT },
        VK_PIPELINE_STAGE_TRANSFER_BIT, VK_PIPELINE_STAGE_FRAGMENT_SHADER_BIT)
    else
      Upload.fail (.exception "unsupported layout transition!")
  Upload.call (.vkCmdPipelineBarrier command_buffer chosen.2.1 chosen.2.2 chosen.1)
  end_single_use_cmd_buffer command_buffer

/-- The call is a pipeline barrier. -/
def Command.is_barrier : Command → Bool
  | .vkCmdPipelineBarrier _ _ _ _ => true
  | _ => false

/-! ## Swapchain image count, surface format and present mode
(`create_swapchain`, lines 1047-1110) -/

/-- Lines 1047-1052 of `create_swapchain`: the image count.
`number_of_buffers` is `cfg::get_number_of_buffers()`, `capabilities` what
`vkGetPhysicalDeviceSurfaceCapabilitiesKHR` stored. The result is the value
assigned to `swapchain_create_info.minImageCount`. -/
def create_swapchain_image_count (ndebug : Bool) (number_of_buffers : Nat)
    (capabilities : VkSurfaceCapabilitiesKHR) : Except Failure Nat := do
  let image_count := number_of_buffers
  let image_count :=
    if capabilities.maxImageCount > 0 && image_count > capabilities.maxImageCount then
      capabilities.maxImageCount
    else image_count
  cassert ndebug
    (image_count >= capabilities.minImageCount && image_count <= capabilities.maxImageCount)
    "Min image count for swapchain is bigger than requested!\n"
  pure image_count

def VK_FORMAT_UNDEFINED : Nat := 0
def VK_FORMAT_B8G8R8A8_SRGB : Nat := 50
def VK_COLOR_SPACE_SRGB_NONLINEAR_KHR : Nat := 0

structure VkSurfaceFormatKHR where
  format : Nat
  colorSpace : Nat
  deriving DecidableEq, Repr

/-- The function `get_surface_format` (lines 88-91). -/
def get_surface_format : Nat := VK_FORMAT_B8G8R8A8_SRGB

/-- The function `get_surface_colorspace` (lines 93-96). -/
def get_surface_colorspace : Nat := VK_COLOR_SPACE_SRGB_NONLINEAR_KHR

/-- The loop of lines 1059-1069: the first advertised format that has the
requested format and color space. -/
def create_swapchain_find_format : List VkSurfaceFormatKHR → Option VkSurfaceFormatKHR
  | [] => none
  | available_format :: rest =>
    if available_format.format == get_surface_format
        && available_format.colorSpace == get_surface_colorspace then
      some available_format
    else create_swapchain_find_format rest

/-- Lines 1054-1088 of `create_swapchain`: the surface format. `surface_formats`
is what `vkGetPhysicalDeviceSurfaceFormatsKHR` enumerates; the first assert is
the one of `enumerate_general_property` on the number of entries. The result is
`surface_format`. -/
def create_swapchain_surface_format (ndebug : Bool) (surface_formats : List VkSurfaceFormatKHR) :
    Except Failure VkSurfaceFormatKHR := do
  cassert ndebug (surface_formats.length > 0) "None of the properties required are available"
  match create_swapchain_find_format surface_formats with
  | some surface_format => pure surface_format
  | none =>
    match surface_formats[0]? with
    | none => throw (.out_of_bounds "surface_formats")
    | some first =>
      if surface_formats.length == 1 && first.format == VK_FORMAT_UNDEFINED then
        pure { format := get_surface_format, colorSpace := get_surface_colorspace }
      else
        pure first

def VK_PRESENT_MODE_IMMEDIATE_KHR : Nat := 0
def VK_PRESENT_MODE_MAILBOX_KHR : Nat := 1
def VK_PRESENT_MODE_FIFO_KHR : Nat := 2
def VK_PRESENT_MODE_FIFO_RELAXED_KHR : Nat := 3
def VK_PRESENT_MODE_MAX_ENUM_KHR : Nat := 0x7FFFFFFF

/-- The loop of lines 1100-1107, from `present_mode` on: the first advertised
mode equal to `present_mode_required` replaces it. -/
def create_swapchain_find_present_mode (present_mode_required : Nat) :
    List Nat → Nat → Nat
  | [], present_mode => present_mode
  | available_present_mode :: rest, present_mode =>
    if available_present_mode == present_mode_required then available_present_mode
    else create_swapchain_find_present_mode present_mode_required rest present_mode

/-- Lines 1090-1110 of `create_swapchain`: the present mode. `vsync` is
`cfg::get_vsync()`, `present_modes` what
`vkGetPhysicalDeviceSurfacePresentModesKHR` enumerates; the first assert is the
one of `enumerate_general_property` on the number of entries. -/
def create_swapchain_present_mode (ndebug : Bool) (vsync : Bool) (present_modes : List Nat) :
    Except Failure Nat := do
  cassert ndebug (present_modes.length > 0) "None of the properties required are available"
  let present_mode := VK_PRESENT_MODE_FIFO_KHR
  if vsync then do
    let present_mode := VK_PRESENT_MODE_MAX_ENUM_KHR
    let present_mode_required := VK_PRESENT_MODE_IMMEDIATE_KHR
    let present_mode :=
      create_swapchain_find_present_mode present_mode_required present_modes present_mode
    cassert ndebug (present_mode != VK_PRESENT_MODE_MAX_ENUM_KHR)
      "present_mode != VK_PRESENT_MODE_MAX_ENUM_KHR"
    pure present_mode
  else pure present_mode

/-! ## Memory type (`PhysicalDevice::find_memory_type`, lines 1723-1737) -/

def VK_MAX_MEMORY_TYPES : Nat := 32

/-- The members of `VkPhysicalDeviceMemoryProperties` that `find_memory_type`
reads: `memoryTypes` holds the `propertyFlags` of the entries of the array
`memoryTypes[VK_MAX_MEMORY_TYPES]`. -/
structure VkPhysicalDeviceMemoryProperties where
  memoryTypeCount : Nat
  memoryTypes : List Nat
  deriving DecidableEq, Repr

/-- The loop of `find_memory_type` from index `i` on, with `remaining`
iterations left. The shift `1 << i` is defined for `i` below 32 only, and the
read of `memoryTypes[i]` for `i` inside the array only; the run ends where they
are not. -/
def find_memory_type_loop (a_type_filter a_properties : Nat) (memoryTypes : List Nat) :
    Nat → Nat → Except Failure Nat
  | 0, _ => throw (.exception "Failed to find suitable memory type!")
  | remaining + 1, i =>
    if i < 32 then
      if a_type_filter &&& ((1 <<< i) % 2 ^ 32) != 0 then
        match memoryTypes[i]? with
        | none => throw (.out_of_bounds "memory_properties.memoryTypes")
        | some propertyFlags =>
          if propertyFlags &&& a_properties == a_properties then pure i
          else find_memory_type_loop a_type_filter a_properties memoryTypes remaining (i + 1)
      else find_memory_type_loop a_type_filter a_properties memoryTypes remaining (i + 1)
    else throw (.out_of_bounds "1 << i")

/-- The member `find_memory_type`; `memory_properties` is what
`vkGetPhysicalDeviceMemoryProperties` stores. -/
def find_memory_type (a_type_filter a_properties : Nat)
    (memory_properties : VkPhysicalDeviceMemoryProperties) : Except Failure Nat :=
  find_memory_type_loop a_type_filter a_properties memory_properties.memoryTypes
    memory_properties.memoryTypeCount 0

/-- Index `i` is suitable: it is below `memoryTypeCount`, bit `i` of the filter
is set and the property flags of entry `i` include all required flags. -/
def suitable_memory_type (a_type_filter a_properties : Nat)
    (memory_properties : VkPhysicalDeviceMemoryProperties) (i : Nat) : Prop :=
  i < memory_properties.memoryTypeCount ∧ a_type_filter.testBit i = true
    ∧ ∃ propertyFlags, memory_properties.memoryTypes[i]? = some propertyFlags
        ∧ propertyFlags &&& a_properties = a_properties

/-- The call that re-creates what the call destroys or frees, for the calls of
`cleanup_swapchain`. -/
def Call.recreation : Call → Option Call
  | .destroy_framebuffers => some .create_framebuffers
  | .vkFreeCommandBuffers => some .create_command_buffers
  | .destroy_render_pass => some .create_render_pass
  | .destroy_graphics_pipeline => some .create_graphics_pipeline
  | .destroy_imageviews => some .create_imageviews
  | .destroy_depth_buffer => some .create_depth_buffer
  | .destroy_msaa_color_buffer => some .create_msaa_color_buffer
  | .destroy_swapchain => some .create_swapchain
  | _ => none

/-- The call creates one of the objects of the swapchain. -/
def Call.is_create : Call → Bool
  | .create_swapchain => true
  | .create_imageviews => true
  | .create_render_pass => true
  | .create_graphics_pipeline => true
  | .create_msaa_color_buffer => true
  | .create_depth_buffer => true
  | .create_framebuffers => true
  | .create_command_buffers => true
  | _ => false

/-- The failure is a read or write outside an array. -/
def Failure.is_out_of_bounds : Failure → Bool
  | .out_of_bounds _ => true
  | _ => false

/-- The run ended outside an array. -/
def ended_out_of_bounds {α : Type} (r : Except Failure α) : Bool :=
  match r with
  | .error e => e.is_out_of_bounds
  | .ok _ => false

/-! ## Physical device selection (`create_physical_device`, lines 936-959) -/

def VK_PHYSICAL_DEVICE_TYPE_OTHER : Nat := 0
def VK_PHYSICAL_DEVICE_TYPE_INTEGRATED_GPU : Nat := 1
def VK_PHYSICAL_DEVICE_TYPE_DISCRETE_GPU : Nat := 2
def VK_PHYSICAL_DEVICE_TYPE_VIRTUAL_GPU : Nat := 3
def VK_PHYSICAL_DEVICE_TYPE_CPU : Nat := 4

/-- The members of `VkPhysicalDeviceProperties` that the program reads: the
device type and, for `get_sample_count`, the two sample-count limits. -/
structure VkPhysicalDeviceProperties where
  deviceType : Nat
  framebufferColorSampleCounts : Nat
  framebufferDepthSampleCounts : Nat
  deriving DecidableEq, Repr

/-- The loop of lines 940-950 over the GPUs still to visit. The state is
`m_physical_device` and `m_physical_device_properties`; `properties_of gpu` is
what `vkGetPhysicalDeviceProperties` stores for `gpu`. -/
def create_physical_device_loop (properties_of : Nat → VkPhysicalDeviceProperties) :
    List Nat → Nat × VkPhysicalDeviceProperties → Nat × VkPhysicalDeviceProperties
  | [], state => state
  | gpu :: rest, state =>
    let m_physical_device_properties := properties_of gpu
    if m_physical_device_properties.deviceType == VK_PHYSICAL_DEVICE_TYPE_DISCRETE_GPU then
      (gpu, m_physical_device_properties)
    else
      create_physical_device_loop properties_of rest (state.1, m_physical_device_properties)

/-- The member `create_physical_device`. `gpus` is what
`vkEnumeratePhysicalDevices` enumerates, the first assert the one of
`enumerate_general_property` on the number of entries;
`m_physical_device_properties` is the value of the member before the call,
`m_physical_device` is `nullptr` before the call (its member initialiser). The
value is `m_physical_device` and `m_physical_device_properties` after the call. -/
def create_physical_device (ndebug : Bool) (gpus : List Nat)
    (properties_of : Nat → VkPhysicalDeviceProperties)
    (m_physical_device_properties : VkPhysicalDeviceProperties) :
    Except Failure (Nat × VkPhysicalDeviceProperties) := do
  cassert ndebug (gpus.length > 0) "None of the properties required are available"
  let state := create_physical_device_loop properties_of gpus
    (VK_NULL_HANDLE, m_physical_device_properties)
  if state.1 == VK_NULL_HANDLE then do
    cassert ndebug (gpus.length > 1) "gpus.size() > 1"
    match gpus[0]? with
    | none => throw (.out_of_bounds "gpus")
    | some gpu => pure (gpu, state.2)
  else pure state

/-- The GPU at position `i` is the first discrete GPU of the list. -/
def FirstDiscrete (properties_of : Nat → VkPhysicalDeviceProperties) (gpus : List Nat)
    (i : Nat) (gpu : Nat) : Prop :=
  gpus[i]? = some gpu
    ∧ (properties_of gpu).deviceType = VK_PHYSICAL_DEVICE_TYPE_DISCRETE_GPU
    ∧ ∀ (j : Nat) (other : Nat), j < i → gpus[j]? = some other →
        (properties_of other).deviceType ≠ VK_PHYSICAL_DEVICE_TYPE_DISCRETE_GPU

/-- The loop of `get_sample_count` run for at most `fuel` iterations of its
body: `none` when the loop has not left after `fuel` iterations. -/
def get_sample_count_iterate (counts : Nat) : Nat → Nat → Option Nat
  | 0, _ => none
  | fuel + 1, required =>
    if counts &&& required != 0 then
      some required
    else if required >>> 2 != 0 then
      get_sample_count_iterate counts fuel (required >>> 2)
    else
      some VK_SAMPLE_COUNT_1_BIT

/-! ## The upload as the queue executes it -/

/-- The calls that a re-creation of the swapchain can make: the wait for the
device, the members that destroy, free and create, and the calls of the
recording of the command buffers, among them the mapping, the write and the
unmapping of a uniform buffer. -/
def Call.is_recreation : Call → Bool
  | .vkWaitForFences _ => false
  | .vkAcquireNextImageKHR _ => false
  | .vkResetFences _ => false
  | .vkQueueSubmit _ _ _ _ _ => false
  | .vkQueuePresentKHR _ _ => false
  | _ => true

/-- The calls of a re-creation in which no `create_*` member fails, up to the
entry into `record_command_buffers`. -/
def recreate_swapchain_sequence : List Call :=
  [.vkDeviceWaitIdle, .destroy_framebuffers, .vkFreeCommandBuffers, .destroy_render_pass,
    .destroy_graphics_pipeline, .destroy_imageviews, .destroy_depth_buffer,
    .destroy_msaa_color_buffer, .destroy_swapchain, .create_swapchain, .create_imageviews,
    .create_render_pass, .create_graphics_pipeline, .create_msaa_color_buffer,
    .create_depth_buffer, .create_framebuffers, .create_command_buffers,
    .record_command_buffers]

/-- The device after a re-creation that returns: the framebuffers and the
command buffers are the re-created ones. -/
def PhysicalDevice.recreated (self : PhysicalDevice) (drv : FrameDriver) : PhysicalDevice :=
  { self with
    m_framebuffers := drv.recreated_framebuffers
    m_graphics_command_buffers := drv.recreated_command_buffers }

end vkd

/-! # Theorems -/

namespace vkd

/-! ## Swapchain extent -/

/-- With a defined `currentExtent` the extent is the clamped framebuffer size,
whatever `currentExtent` is. -/
theorem create_swapchain_extent_defined (ndebug : Bool)
    (capabilities : VkSurfaceCapabilitiesKHR) (framebuffer_size : Nat × Nat)
    (h : capabilities.currentExtent.width ≠ UINT32_MAX) :
    create_swapchain_extent ndebug capabilities framebuffer_size =
      .ok ⟨clamp framebuffer_size.1 capabilities.minImageExtent.width
            capabilities.maxImageExtent.width,
          clamp framebuffer_size.2 capabilities.minImageExtent.height
            capabilities.maxImageExtent.height⟩ := by
  have h1 : (capabilities.currentExtent.width != UINT32_MAX) = true := by simpa using h
  have h2 : (capabilities.currentExtent.width == 0xFFFFFFFF) = false := by
    simpa [UINT32_MAX] using h
  simp [create_swapchain_extent, cassert, h1, h2, bind, Except.bind, pure, Except.pure]

/-- An instance of `create_swapchain_extent_defined`: `currentExtent = (800, 600)`
and a framebuffer of `1024 x 768`. -/
theorem create_swapchain_extent_defined_witness :
    create_swapchain_extent false ⟨2, 8, ⟨800, 600⟩, ⟨1, 1⟩, ⟨4096, 4096⟩⟩ (1024, 768) =
      .ok ⟨clamp 1024 1 4096, clamp 768 1 4096⟩ :=
  create_swapchain_extent_defined false ⟨2, 8, ⟨800, 600⟩, ⟨1, 1⟩, ⟨4096, 4096⟩⟩ (1024, 768)
    (by decide)

/-- C1, evaluated on the code: with `currentExtent = (800, 600)`, which is not
the sentinel, extents from `(1, 1)` to `(4096, 4096)` and a framebuffer of
`1024 x 768`, `create_swapchain` chooses `(1024, 768)` and not `(800, 600)`;
with the sentinel `currentExtent` the assert fails, and with asserts compiled
out the extent is the sentinel itself and not the clamped framebuffer size. -/
theorem create_swapchain_extent_at_failing_input :
    create_swapchain_extent false ⟨2, 8, ⟨800, 600⟩, ⟨1, 1⟩, ⟨4096, 4096⟩⟩ (1024, 768)
        = .ok ⟨1024, 768⟩
      ∧ create_swapchain_extent true ⟨2, 8, ⟨800, 600⟩, ⟨1, 1⟩, ⟨4096, 4096⟩⟩ (1024, 768)
        = .ok ⟨1024, 768⟩
      ∧ create_swapchain_extent false
          ⟨2, 8, ⟨0xFFFFFFFF, 0xFFFFFFFF⟩, ⟨1, 1⟩, ⟨4096, 4096⟩⟩ (1024, 768)
        = .error (.assertion
            "capabilities.currentExtent.width != std::numeric_limits<uint32_t>::max()")
      ∧ create_swapchain_extent true
          ⟨2, 8, ⟨0xFFFFFFFF, 0xFFFFFFFF⟩, ⟨1, 1⟩, ⟨4096, 4096⟩⟩ (1024, 768)
        = .ok ⟨0xFFFFFFFF, 0xFFFFFFFF⟩ := by
  refine ⟨?_, ?_, ?_, ?_⟩ <;> decide

/-! ## Sample count -/

/-- One iteration of the loop of `get_sample_count`. -/
theorem get_sample_count_loop_eq (counts required : Nat) :
    get_sample_count_loop counts required =
      if counts &&& required ≠ 0 then required
      else if required >>> 2 ≠ 0 then get_sample_count_loop counts (required >>> 2)
      else VK_SAMPLE_COUNT_1_BIT := by
  rw [get_sample_count_loop]
  simp

/-- C2, evaluated on the code: a request of 8x on a device whose color and depth
masks hold 1x, 2x and 4x yields 2x, and on a device whose masks hold only 1x
and 4x it yields 1x; in neither case 4x, the first supported count reached by
halving. -/
theorem get_sample_count_at_failing_input :
    get_sample_count 7 7 VK_SAMPLE_COUNT_8_BIT = VK_SAMPLE_COUNT_2_BIT
      ∧ get_sample_count 5 5 VK_SAMPLE_COUNT_8_BIT = VK_SAMPLE_COUNT_1_BIT := by
  constructor <;>
    simp +decide [get_sample_count, get_sample_count_loop, VK_SAMPLE_COUNT_8_BIT,
      VK_SAMPLE_COUNT_2_BIT, VK_SAMPLE_COUNT_1_BIT]

/-! ## Property negotiation -/

theorem property_found_iff (properties : List String) (name : String) :
    property_found properties name = true ↔ name ∈ properties := by
  simp only [property_found, List.any_eq_true, beq_iff_eq]
  constructor
  · rintro ⟨x, hx, rfl⟩; exact hx
  · intro h; exact ⟨name, h, rfl⟩

/-- The loop appends to the two lists it carries: the requested names that are
available, and those that are not, each in the order requested. -/
theorem filter_requested_eq (properties : List String) (requested : List String)
    (acc : List String × List String) :
    filter_requested properties requested acc =
      (acc.1 ++ requested.filter (fun r => decide (r ∈ properties)),
        acc.2 ++ requested.filter (fun r => decide (r ∉ properties))) := by
  induction requested generalizing acc with
  | nil => simp [filter_requested]
  | cons r rest ih =>
    obtain ⟨a, c⟩ := acc
    by_cases h : r ∈ properties
    · have hf : property_found properties r = true := (property_found_iff _ _).2 h
      simp [filter_requested, hf, ih, h]
    · have hf : property_found properties r = false := by
        rw [Bool.eq_false_iff]
        intro hc
        exact h ((property_found_iff _ _).1 hc)
      simp [filter_requested, hf, ih, h]

/-- The value of `enumerate_properties` when both enumeration calls succeed. -/
theorem enumerate_properties_ok (properties requested : List String) :
    enumerate_properties VK_SUCCESS VK_SUCCESS properties requested =
      .ok (requested.filter (fun r => decide (r ∈ properties)),
        requested.filter (fun r => decide (r ∉ properties))) := by
  simp [enumerate_properties, filter_requested_eq]

/-- C5: when the two enumeration calls succeed, `enumerate_properties` returns
exactly the requested entries whose name is the name of an available property,
in the order requested; the entries that are not available are left out (they
are the ones logged), and the call returns all the same. -/
theorem enumerate_properties_is_ordered_filter (properties requested : List String) :
    enumerate_properties VK_SUCCESS VK_SUCCESS properties requested =
      .ok (requested.filter (fun r => decide (r ∈ properties)),
        requested.filter (fun r => decide (r ∉ properties))) := by
  rw [enumerate_properties, filter_requested_eq]
  simp

/-- C6 as stated fails: a name requested twice and available occurs twice in
the result. -/
theorem enumerate_properties_keeps_duplicates :
    ¬ (∀ (properties requested : List String) (name : String),
        requested ≠ [] → name ∈ requested → name ∈ properties →
        ∃ r, enumerate_properties VK_SUCCESS VK_SUCCESS properties requested = .ok r
          ∧ r.1.count name = 1) := by
  intro h
  obtain ⟨r, hr, hc⟩ := h ["VK_KHR_swapchain"] ["VK_KHR_swapchain", "VK_KHR_swapchain"]
    "VK_KHR_swapchain" (by decide) (by decide) (by decide)
  rw [enumerate_properties_ok] at hr
  injection hr with hr
  subst hr
  revert hc
  decide

/-- C6, amended: a name that is requested and available occurs in the result
exactly as often as it occurs in the requested list, so exactly once when it
is requested once. -/
theorem enumerate_properties_count (properties requested : List String) (name : String)
    (hreq : name ∈ requested) (hav : name ∈ properties) :
    ∃ r, enumerate_properties VK_SUCCESS VK_SUCCESS properties requested = .ok r
      ∧ 0 < r.1.count name
      ∧ r.1.count name = requested.count name
      ∧ (requested.count name = 1 → r.1.count name = 1) := by
  refine ⟨_, enumerate_properties_ok properties requested, ?_⟩
  have hc : (requested.filter (fun r => decide (r ∈ properties))).count name
      = requested.count name := by
    rw [List.count_filter]
    simpa using hav
  refine ⟨?_, hc, fun h1 => by rw [hc, h1]⟩
  rw [hc]
  exact List.count_pos_iff.2 hreq

/-- Witness of C6: a request of two extensions of which one is available. -/
theorem enumerate_properties_count_witness :
    ∃ r, enumerate_properties VK_SUCCESS VK_SUCCESS ["VK_KHR_swapchain", "VK_KHR_maintenance1"]
        ["VK_KHR_portability_subset", "VK_KHR_swapchain"] = .ok r
      ∧ 0 < r.1.count "VK_KHR_swapchain"
      ∧ r.1.count "VK_KHR_swapchain"
          = ["VK_KHR_portability_subset", "VK_KHR_swapchain"].count "VK_KHR_swapchain"
      ∧ (["VK_KHR_portability_subset", "VK_KHR_swapchain"].count "VK_KHR_swapchain" = 1 →
          r.1.count "VK_KHR_swapchain" = 1) :=
  enumerate_properties_count ["VK_KHR_swapchain", "VK_KHR_maintenance1"]
    ["VK_KHR_portability_subset", "VK_KHR_swapchain"] "VK_KHR_swapchain"
    (by decide) (by decide)

example : get_sample_count 7 7 8 = 2 := by
  simp +decide [get_sample_count, get_sample_count_loop]

/-! ## Queue planning -/

theorem free_slots_cons_succ (q : VkQueueFamilyProperties)
    (rest : List VkQueueFamilyProperties) (f : Nat) :
    free_slots (q :: rest) (f + 1) = free_slots rest f := by
  simp [free_slots]

/-- What one search does: either it finds the lowest matching family, takes one
of its slots and leaves the others, or it changes nothing. -/
theorem get_dedicated_queue_family_loop_spec (a_queue_flag a_others : Nat)
    (families : List VkQueueFamilyProperties) (index a_index : Nat) :
    let r := get_dedicated_queue_family_loop a_queue_flag a_others families index a_index
    (r.1 = true ∧ ∃ i q, families[i]? = some q ∧ r.2.1 = index + i
        ∧ queue_family_matches a_queue_flag a_others q = true
        ∧ (∀ j q', j < i → families[j]? = some q' →
            queue_family_matches a_queue_flag a_others q' = false)
        ∧ r.2.2 = families.set i { q with queueCount := q.queueCount - 1 })
      ∨ (r.1 = false ∧ r.2.1 = a_index ∧ r.2.2 = families
        ∧ ∀ q ∈ families, queue_family_matches a_queue_flag a_others q = false) := by
  induction families generalizing index with
  | nil => right; simp [get_dedicated_queue_family_loop]
  | cons q rest ih =>
    by_cases hq : queue_family_matches a_queue_flag a_others q = true
    · left
      simp only [get_dedicated_queue_family_loop, hq, if_true, true_and]
      refine ⟨0, q, by simp, by simp, hq, ?_, by simp⟩
      intro j q' hj
      exact absurd hj (Nat.not_lt_zero j)
    · have hq' : queue_family_matches a_queue_flag a_others q = false := by
        simpa using hq
      simp only [get_dedicated_queue_family_loop, hq', Bool.false_eq_true, if_false]
      rcases ih (index + 1) with ⟨h1, i, q1, hi, hidx, hm, hlow, hset⟩ | ⟨h1, h2, h3, h4⟩
      · left
        refine ⟨h1, i + 1, q1, by simpa using hi, by rw [hidx]; omega, hm, ?_, ?_⟩
        · intro j q' hj hjq
          cases j with
          | zero =>
            simp at hjq
            rw [← hjq]; exact hq'
          | succ j => exact hlow j q' (by omega) (by simpa using hjq)
        · simp [hset]
      · right
        refine ⟨h1, h2, by rw [h3], ?_⟩
        intro q0 hq0
        rcases List.mem_cons.1 hq0 with rfl | hmem
        · exact hq'
        · exact h4 q0 hmem

theorem free_slots_set (families : List VkQueueFamilyProperties) (i f : Nat)
    (q q1 : VkQueueFamilyProperties) (hi : families[i]? = some q) :
    free_slots (families.set i q1) f
      = if i = f then q1.queueCount else free_slots families f := by
  have hlt : i < families.length := by
    rcases Nat.lt_or_ge i families.length with h | h
    · exact h
    · rw [List.getElem?_eq_none h] at hi; cases hi
  unfold free_slots
  by_cases h : i = f
  · subst h
    simp [List.getElem?_set_self, hlt]
  · simp [List.getElem?_set_ne h, h]

/-- One search takes exactly one slot of the family it returns and none when it
returns none; a returned family is a family of the list. -/
theorem get_dedicated_queue_family_slots (families : List VkQueueFamilyProperties)
    (a_queue_flag a_others a_index : Nat) (f : Nat) :
    let r := get_dedicated_queue_family families a_queue_flag a_others a_index
    free_slots r.2.2 f + (if r.1 = true ∧ r.2.1 = f then 1 else 0) = free_slots families f
      ∧ r.2.2.length = families.length
      ∧ (r.1 = true → r.2.1 < families.length) := by
  intro r
  rcases get_dedicated_queue_family_loop_spec a_queue_flag a_others families 0 a_index with
    ⟨h1, i, q, hi, hidx, hm, _, hset⟩ | ⟨h1, _, h3, _⟩
  · have hlt : i < families.length := by
      rcases Nat.lt_or_ge i families.length with h | h
      · exact h
      · rw [List.getElem?_eq_none h] at hi; cases hi
    have hr1 : r.1 = true := h1
    have hr2 : r.2.1 = i := by simpa using hidx
    have hr3 : r.2.2 = families.set i { q with queueCount := q.queueCount - 1 } := hset
    have hpos : 0 < q.queueCount := by
      simp only [queue_family_matches, Bool.and_eq_true, decide_eq_true_eq] at hm
      exact hm.1.2
    refine ⟨?_, by rw [hr3]; simp, fun _ => by rw [hr2]; exact hlt⟩
    rw [hr3, free_slots_set _ _ _ _ _ hi, hr1, hr2]
    by_cases h : i = f
    · subst h
      simp [free_slots, hi]
      omega
    · simp [h]
  · have hr1 : r.1 = false := h1
    have hr3 : r.2.2 = families := h3
    refine ⟨by rw [hr3, hr1]; simp, by rw [hr3], fun h => by rw [hr1] at h; cases h⟩

theorem except_bind_ok {ε α β : Type} (x : Except ε α) (f : α → Except ε β) (b : β) :
    (x >>= f) = .ok b ↔ ∃ a, x = .ok a ∧ f a = .ok b := by
  cases x <;> simp [bind, Except.bind]

theorem get_dedicated_queue_family_not_found (families : List VkQueueFamilyProperties)
    (a_queue_flag a_others a_index : Nat)
    (h : (get_dedicated_queue_family families a_queue_flag a_others a_index).1 = false) :
    (get_dedicated_queue_family families a_queue_flag a_others a_index).2.2 = families
      ∧ (get_dedicated_queue_family families a_queue_flag a_others a_index).2.1 = a_index := by
  rcases get_dedicated_queue_family_loop_spec a_queue_flag a_others families 0 a_index with
    ⟨h1, _⟩ | ⟨_, h2, h3, _⟩
  · have h1' : (get_dedicated_queue_family families a_queue_flag a_others a_index).1 = true := h1
    rw [h] at h1'; cases h1'
  · exact ⟨h3, h2⟩

theorem SlotsTaken.start (families : List VkQueueFamilyProperties) :
    SlotsTaken families families [] :=
  ⟨fun f => by simp [roles_in], rfl, fun _ h => by cases h⟩

theorem SlotsTaken.search {families₀ families : List VkQueueFamilyProperties}
    {found : List (Bool × Nat)} (h : SlotsTaken families₀ families found)
    (a_queue_flag a_others a_index : Nat) :
    SlotsTaken families₀
      (get_dedicated_queue_family families a_queue_flag a_others a_index).2.2
      (found ++ [((get_dedicated_queue_family families a_queue_flag a_others a_index).1,
        (get_dedicated_queue_family families a_queue_flag a_others a_index).2.1)]) := by
  obtain ⟨h1, h2, h3⟩ := h
  refine ⟨fun f => ?_, ?_, ?_⟩
  · have hs := (get_dedicated_queue_family_slots families a_queue_flag a_others a_index f).1
    have := h1 f
    simp only [roles_in, List.countP_append, List.countP_cons, List.countP_nil,
      Bool.and_eq_true, beq_iff_eq] at this ⊢
    omega
  · rw [(get_dedicated_queue_family_slots families a_queue_flag a_others a_index 0).2.1, h2]
  · intro index hmem hfound
    rcases List.mem_append.1 hmem with hm | hm
    · exact h3 index hm hfound
    · simp only [List.mem_singleton] at hm
      subst hm
      have := (get_dedicated_queue_family_slots families a_queue_flag a_others a_index 0).2.2
        hfound
      rw [← h2]; exact this

theorem SlotsTaken.skip {families₀ families : List VkQueueFamilyProperties}
    {found : List (Bool × Nat)} (h : SlotsTaken families₀ families found) (x : Nat) :
    SlotsTaken families₀ families (found ++ [(false, x)]) := by
  obtain ⟨h1, h2, h3⟩ := h
  refine ⟨fun f => ?_, h2, ?_⟩
  · have := h1 f
    simp only [roles_in, List.countP_append, List.countP_cons, List.countP_nil] at this ⊢
    simpa using this
  · intro index hmem hfound
    rcases List.mem_append.1 hmem with hm | hm
    · exact h3 index hm hfound
    · simp only [List.mem_singleton] at hm
      subst hm
      cases hfound

theorem get_queue_indices_graphics_slots {ndebug : Bool}
    {families₀ families : List VkQueueFamilyProperties} {found : List (Bool × Nat)}
    (h : SlotsTaken families₀ families found)
    {r : (Bool × Nat) × List VkQueueFamilyProperties}
    (hr : get_queue_indices_graphics ndebug families = .ok r) :
    SlotsTaken families₀ r.2 (found ++ [r.1]) := by
  simp only [get_queue_indices_graphics, except_bind_ok, pure, Except.pure] at hr
  obtain ⟨_, _, hr⟩ := hr
  injection hr with hr
  subst hr
  exact h.search _ _ _

theorem get_queue_indices_compute_slots {ndebug : Bool}
    {families₀ families : List VkQueueFamilyProperties} {found : List (Bool × Nat)}
    (h : SlotsTaken families₀ families found)
    {r : (Bool × Nat) × List VkQueueFamilyProperties}
    (hr : get_queue_indices_compute ndebug families = .ok r) :
    SlotsTaken families₀ r.2 (found ++ [r.1]) := by
  unfold get_queue_indices_compute at hr
  by_cases hc1 : (get_dedicated_queue_family families VK_QUEUE_COMPUTE_BIT
      VK_QUEUE_GRAPHICS_BIT 0).1 = true
  · simp only [hc1, Bool.not_true, Bool.false_eq_true, if_false, pure, Except.pure] at hr
    injection hr with hr
    subst hr
    have := h.search VK_QUEUE_COMPUTE_BIT VK_QUEUE_GRAPHICS_BIT 0
    rw [hc1] at this
    exact this
  · have hc1' : (get_dedicated_queue_family families VK_QUEUE_COMPUTE_BIT
        VK_QUEUE_GRAPHICS_BIT 0).1 = false := by simpa using hc1
    obtain ⟨hsame, hidx⟩ := get_dedicated_queue_family_not_found _ _ _ _ hc1'
    simp only [hc1', Bool.not_false, if_true, hsame, hidx, except_bind_ok, pure,
      Except.pure] at hr
    obtain ⟨_, _, hr⟩ := hr
    injection hr with hr
    subst hr
    exact h.search _ _ _

theorem get_queue_indices_transfer_slots
    {families₀ families : List VkQueueFamilyProperties} {found : List (Bool × Nat)}
    (h : SlotsTaken families₀ families found) (graphics_second : Nat) :
    SlotsTaken families₀ (get_queue_indices_transfer families graphics_second).2
      (found ++ [(get_queue_indices_transfer families graphics_second).1]) := by
  unfold get_queue_indices_transfer
  by_cases h1 : (get_dedicated_queue_family families VK_QUEUE_TRANSFER_BIT
      (VK_QUEUE_COMPUTE_BIT ||| VK_QUEUE_GRAPHICS_BIT) 0).1 = true
  · simp only [h1, Bool.not_true, Bool.false_eq_true, if_false]
    have := h.search VK_QUEUE_TRANSFER_BIT (VK_QUEUE_COMPUTE_BIT ||| VK_QUEUE_GRAPHICS_BIT) 0
    rw [h1] at this
    exact this
  · have h1' : (get_dedicated_queue_family families VK_QUEUE_TRANSFER_BIT
        (VK_QUEUE_COMPUTE_BIT ||| VK_QUEUE_GRAPHICS_BIT) 0).1 = false := by simpa using h1
    obtain ⟨hsame, hidx⟩ := get_dedicated_queue_family_not_found _ _ _ _ h1'
    simp only [h1', Bool.not_false, if_true, hsame, hidx]
    by_cases h2 : (get_dedicated_queue_family families VK_QUEUE_TRANSFER_BIT
        VK_QUEUE_COMPUTE_BIT 0).1 = true
    · simp only [h2, Bool.not_true, Bool.false_eq_true, if_false]
      have := h.search VK_QUEUE_TRANSFER_BIT VK_QUEUE_COMPUTE_BIT 0
      rw [h2] at this
      exact this
    · have h2' : (get_dedicated_queue_family families VK_QUEUE_TRANSFER_BIT
          VK_QUEUE_COMPUTE_BIT 0).1 = false := by simpa using h2
      obtain ⟨hsame2, hidx2⟩ := get_dedicated_queue_family_not_found _ _ _ _ h2'
      simp only [h2', Bool.not_false, if_true, hsame2, hidx2]
      by_cases h3 : (get_dedicated_queue_family families VK_QUEUE_TRANSFER_BIT
          (bit_not32 VK_QUEUE_TRANSFER_BIT) 0).1 = true
      · simp only [h3, Bool.not_true, Bool.false_eq_true, if_false]
        have := h.search VK_QUEUE_TRANSFER_BIT (bit_not32 VK_QUEUE_TRANSFER_BIT) 0
        rw [h3] at this
        exact this
      · have h3' : (get_dedicated_queue_family families VK_QUEUE_TRANSFER_BIT
            (bit_not32 VK_QUEUE_TRANSFER_BIT) 0).1 = false := by simpa using h3
        obtain ⟨hsame3, _⟩ := get_dedicated_queue_family_not_found _ _ _ _ h3'
        simp only [h3', Bool.not_false, if_true, hsame3]
        exact h.skip graphics_second

/-- The role search takes from every family one slot per role found in it. -/
theorem get_queue_indices_found_slots (ndebug : Bool)
    (queue_families : List VkQueueFamilyProperties) (found : List (Bool × Nat))
    (families : List VkQueueFamilyProperties)
    (h : get_queue_indices_found ndebug queue_families = .ok (found, families)) :
    SlotsTaken queue_families families found ∧ found.length = 5 := by
  simp only [get_queue_indices_found, except_bind_ok, pure, Except.pure] at h
  obtain ⟨_, _, g, hg, c, hc, h⟩ := h
  injection h with h
  injection h with hfound hfam
  subst hfound hfam
  refine ⟨?_, rfl⟩
  have h0 := SlotsTaken.start queue_families
  have h1 := get_queue_indices_graphics_slots h0 hg
  have h2 := get_queue_indices_compute_slots h1 hc
  have h3 := get_queue_indices_transfer_slots h2 g.1.2
  have h4 := h3.search VK_QUEUE_SPARSE_BINDING_BIT (bit_not32 VK_QUEUE_SPARSE_BINDING_BIT) 0
  have h5 := h4.search VK_QUEUE_PROTECTED_BIT (bit_not32 VK_QUEUE_PROTECTED_BIT) 0
  simpa using h5

theorem roles_in_cons (index : Bool × Nat) (rest : List (Bool × Nat)) (f : Nat) :
    roles_in (index :: rest) f
      = roles_in rest f + (if index.1 = true ∧ index.2 = f then 1 else 0) := by
  simp [roles_in, List.countP_cons]

/-- The consolidation loop appends one priority to the entry of a family per
role found in it, and gives an entry no other value than its own position. -/
theorem get_queue_indices_consolidate_spec (ndebug : Bool) (found : List (Bool × Nat)) :
    ∀ (priority_index : Nat) (cf : List (Option Nat × List Nat)) (data : QueueData)
      (cf' : List (Option Nat × List Nat)) (data' : QueueData),
      get_queue_indices_consolidate ndebug found priority_index (cf, data) = .ok (cf', data') →
      (∀ (f : Nat) (e : Option Nat × List Nat), cf[f]? = some e → e.1 = none ∨ e.1 = some f) →
      cf'.length = cf.length
        ∧ ∀ (f : Nat) (e' : Option Nat × List Nat), cf'[f]? = some e' →
            (e'.1 = none ∨ e'.1 = some f)
              ∧ ∃ e, cf[f]? = some e ∧ e'.2.length = e.2.length + roles_in found f
                ∧ (e'.1 = none → e.1 = none ∧ roles_in found f = 0) := by
  induction found with
  | nil =>
    intro k cf data cf' data' h _hinv
    simp only [get_queue_indices_consolidate, pure, Except.pure] at h
    injection h with h
    injection h with h1 h2
    subst h1
    refine ⟨rfl, fun f e' he => ⟨_hinv f e' he, e', he, by simp [roles_in],
      fun hn => ⟨hn, by simp [roles_in]⟩⟩⟩
  | cons index rest ih =>
    intro k cf data cf' data' h hinv
    by_cases hfound : index.1 = true
    · simp only [get_queue_indices_consolidate, hfound, if_true] at h
      cases hentry : cf[index.2]? with
      | none => simp [hentry, throw, throwThe, MonadExceptOf.throw] at h
      | some entry =>
        cases hflag : all_family_flags[k]? with
        | none => simp [hentry, hflag, throw, throwThe, MonadExceptOf.throw] at h
        | some flag =>
          simp only [hentry, hflag, except_bind_ok] at h
          obtain ⟨_, _, h⟩ := h
          by_cases hk : k < data.m_indicies.length
          · simp only [hk, if_true] at h
            have hfirst : (if entry.1.isSome = true then entry.1 else some index.2)
                = some index.2 := by
              rcases hinv index.2 entry hentry with hn | hs
              · simp [hn]
              · simp [hs]
            rw [hfirst] at h
            have hlt : index.2 < cf.length := by
              rcases Nat.lt_or_ge index.2 cf.length with hl | hl
              · exact hl
              · rw [List.getElem?_eq_none hl] at hentry; cases hentry
            have hinv1 : ∀ (f : Nat) (e : Option Nat × List Nat), (cf.set index.2 (some index.2, entry.2 ++ [get_priority flag]))[f]?
                = some e → e.1 = none ∨ e.1 = some f := by
              intro f e he
              by_cases hf : index.2 = f
              · subst hf
                rw [List.getElem?_set_self hlt] at he
                injection he with he
                subst he
                right; rfl
              · rw [List.getElem?_set_ne hf] at he
                exact hinv f e he
            obtain ⟨hlen, hall⟩ := ih _ _ _ _ _ h hinv1
            refine ⟨by rw [hlen]; simp, fun f e' he' => ?_⟩
            obtain ⟨hval, e1, he1, hcount, hnone⟩ := hall f e' he'
            refine ⟨hval, ?_⟩
            rw [roles_in_cons]
            by_cases hf : index.2 = f
            · subst hf
              rw [List.getElem?_set_self hlt] at he1
              injection he1 with he1
              subst he1
              refine ⟨entry, hentry, ?_, ?_⟩
              · simp only [List.length_append, List.length_singleton] at hcount
                simp only [hfound, true_and, if_true]
                omega
              · intro hn
                have := (hnone hn).1
                cases this
            · rw [List.getElem?_set_ne hf] at he1
              refine ⟨e1, he1, ?_, ?_⟩
              · simp only [hf, and_false, if_false]
                omega
              · intro hn
                simpa [hf] using hnone hn
          · simp [hk, throw, throwThe, MonadExceptOf.throw] at h
    · have hnf : index.1 = false := by simpa using hfound
      simp only [get_queue_indices_consolidate, hnf, Bool.false_eq_true, if_false] at h
      obtain ⟨hlen, hall⟩ := ih _ _ _ _ _ h hinv
      refine ⟨hlen, fun f e' he' => ?_⟩
      obtain ⟨hval, e1, he1, hcount, hnone⟩ := hall f e' he'
      refine ⟨hval, e1, he1, ?_, ?_⟩
      · rw [roles_in_cons]
        simp only [hnf, Bool.false_eq_true, false_and, if_false]
        omega
      · intro hn
        rw [roles_in_cons]
        simpa [hnf] using hnone hn

/-- The descriptors are those of the entries that have a value, in the order
of the entries. -/
theorem get_queue_indices_infos_spec :
    ∀ (cf : List (Option Nat × List Nat)) (offset : Nat),
      (∀ (f : Nat) (e : Option Nat × List Nat), cf[f]? = some e →
          e.1 = none ∨ e.1 = some (offset + f)) →
      (∀ info ∈ get_queue_indices_infos cf, ∃ f e, cf[f]? = some e
          ∧ info.queueFamilyIndex = offset + f ∧ info.queueCount = e.2.length
          ∧ info.pQueuePriorities = e.2)
        ∧ ((get_queue_indices_infos cf).map (·.queueFamilyIndex)).Pairwise (· < ·)
        ∧ ∀ info ∈ get_queue_indices_infos cf, offset ≤ info.queueFamilyIndex := by
  intro cf
  induction cf with
  | nil => intro offset _; simp [get_queue_indices_infos]
  | cons e0 rest ih =>
    intro offset hinv
    have hrest : ∀ (f : Nat) (e : Option Nat × List Nat), rest[f]? = some e → e.1 = none ∨ e.1 = some (offset + 1 + f) := by
      intro f e he
      have := hinv (f + 1) e (by simpa using he)
      rcases this with h | h
      · left; exact h
      · right; rw [h]; congr 1; omega
    obtain ⟨ih1, ih2, ih3⟩ := ih (offset + 1) hrest
    have lift : ∀ info ∈ get_queue_indices_infos rest, ∃ f e, (e0 :: rest)[f]? = some e
        ∧ info.queueFamilyIndex = offset + f ∧ info.queueCount = e.2.length
        ∧ info.pQueuePriorities = e.2 := by
      intro info hinfo
      obtain ⟨f, e, he, hidx, hcnt, hpr⟩ := ih1 info hinfo
      exact ⟨f + 1, e, by simpa using he, by rw [hidx]; omega, hcnt, hpr⟩
    cases hv : e0.1 with
    | none =>
      simp only [get_queue_indices_infos, hv]
      exact ⟨lift, ih2, fun info hinfo => by have := ih3 info hinfo; omega⟩
    | some value =>
      have hvalue : value = offset := by
        rcases hinv 0 e0 (by simp) with h | h
        · rw [hv] at h; cases h
        · rw [hv] at h; injection h with h
      simp only [get_queue_indices_infos, hv]
      refine ⟨?_, ?_, ?_⟩
      · intro info hinfo
        rcases List.mem_cons.1 hinfo with rfl | hmem
        · exact ⟨0, e0, by simp, by simp [hvalue], rfl, rfl⟩
        · exact lift info hmem
      · simp only [List.map_cons, List.pairwise_cons]
        refine ⟨?_, ih2⟩
        intro x hx
        obtain ⟨info, hinfo, rfl⟩ := List.mem_map.1 hx
        have := ih3 info hinfo
        omega
      · intro info hinfo
        rcases List.mem_cons.1 hinfo with rfl | hmem
        · simp [hvalue]
        · have := ih3 info hmem; omega

/-- C3: whenever `get_queue_indices` returns, every queue-creation descriptor
belongs to a family of the device, its `queueCount` is the number of roles
found in that family and is at most the `queueCount` the family advertised,
and no family has two descriptors. -/
theorem get_queue_indices_not_oversubscribed (ndebug : Bool)
    (surface_support : Nat → VkResult × Bool)
    (queue_families : List VkQueueFamilyProperties) (a_queue_data : QueueData)
    (infos : List VkDeviceQueueCreateInfo) (data : QueueData)
    (h : get_queue_indices ndebug surface_support queue_families a_queue_data
      = .ok (infos, data)) :
    (∃ found families, get_queue_indices_found ndebug queue_families = .ok (found, families)
        ∧ ∀ info ∈ infos, ∃ q, queue_families[info.queueFamilyIndex]? = some q
            ∧ info.queueCount = roles_in found info.queueFamilyIndex
            ∧ info.queueCount ≤ q.queueCount)
      ∧ (infos.map (·.queueFamilyIndex)).Nodup := by
  simp only [get_queue_indices, except_bind_ok, pure, Except.pure] at h
  obtain ⟨⟨found, families⟩, hfound, ⟨cf, data1⟩, hcons, _, _, _, _, _, _, h⟩ := h
  injection h with h
  injection h with hinfos hdata
  subst hinfos
  obtain ⟨⟨hslots, hlen, _⟩, _⟩ := get_queue_indices_found_slots _ _ _ _ hfound
  have hinit : ∀ (f : Nat) (e : Option Nat × List Nat),
      (List.replicate queue_families.length ((none : Option Nat), ([] : List Nat)))[f]? = some e →
        e.1 = none ∨ e.1 = some f := by
    intro f e he
    rw [List.getElem?_replicate] at he
    split at he
    · injection he with he; subst he; left; rfl
    · cases he
  obtain ⟨hcflen, hcf⟩ := get_queue_indices_consolidate_spec _ _ _ _ _ _ _ hcons hinit
  have hcf0 : ∀ (f : Nat) (e : Option Nat × List Nat), cf[f]? = some e →
      e.1 = none ∨ e.1 = some (0 + f) := by
    intro f e he
    simpa using (hcf f e he).1
  obtain ⟨hmem, hpair, _⟩ := get_queue_indices_infos_spec cf 0 hcf0
  refine ⟨⟨found, families, hfound, ?_⟩, ?_⟩
  · intro info hinfo
    obtain ⟨f, e, he, hidx, hcount, _⟩ := hmem info hinfo
    have hidx' : info.queueFamilyIndex = f := by simpa using hidx
    obtain ⟨_, e0, he0, hlen0, _⟩ := hcf f e he
    have hflt : f < queue_families.length := by
      rcases Nat.lt_or_ge f cf.length with hl | hl
      · rw [hcflen] at hl; simpa using hl
      · rw [List.getElem?_eq_none hl] at he; cases he
    rw [List.getElem?_replicate] at he0
    simp only [hflt, if_true] at he0
    injection he0 with he0
    subst he0
    have hroles : info.queueCount = roles_in found f := by
      rw [hcount, hlen0]; simp
    have hs := hslots f
    refine ⟨queue_families[f], by rw [hidx']; exact List.getElem?_eq_getElem hflt, ?_, ?_⟩
    · rw [hidx']; exact hroles
    · have hfree : free_slots queue_families f = (queue_families[f]).queueCount := by
        simp [free_slots, List.getElem?_eq_getElem hflt]
      omega
  · exact (hpair.imp (fun hlt => Nat.ne_of_lt hlt) : List.Pairwise (· ≠ ·) _)

/-- Witness of C3: the three-family layout of the commented test of lines
432-444. -/
theorem get_queue_indices_not_oversubscribed_witness :
    (∃ found families,
        get_queue_indices_found false [⟨15, 16⟩, ⟨12, 2⟩, ⟨14, 8⟩] = .ok (found, families)
        ∧ ∀ info ∈ ([⟨0, 2, [75, 20]⟩, ⟨1, 1, [50]⟩, ⟨2, 1, [100]⟩] :
              List VkDeviceQueueCreateInfo),
            ∃ q, ([⟨15, 16⟩, ⟨12, 2⟩, ⟨14, 8⟩] :
                List VkQueueFamilyProperties)[info.queueFamilyIndex]? = some q
            ∧ info.queueCount = roles_in found info.queueFamilyIndex
            ∧ info.queueCount ≤ q.queueCount)
      ∧ (([⟨0, 2, [75, 20]⟩, ⟨1, 1, [50]⟩, ⟨2, 1, [100]⟩] :
          List VkDeviceQueueCreateInfo).map (·.queueFamilyIndex)).Nodup :=
  get_queue_indices_not_oversubscribed false (fun _ => (VK_SUCCESS, true))
    [⟨15, 16⟩, ⟨12, 2⟩, ⟨14, 8⟩] QueueData.new
    [⟨0, 2, [75, 20]⟩, ⟨1, 1, [50]⟩, ⟨2, 1, [100]⟩]
    ⟨[(0, 0), (2, 0), (1, 0), (0, 1), (0, 0)]⟩ (by decide)

theorem getElem?_lt_length {α : Type} {xs : List α} {i : Nat} {x : α}
    (h : xs[i]? = some x) : i < xs.length := by
  rcases Nat.lt_or_ge i xs.length with hl | hl
  · exact hl
  · rw [List.getElem?_eq_none hl] at h; cases h

/-- A search whose test has a first family returns that family and takes one
of its slots. -/
theorem get_dedicated_queue_family_first (families : List VkQueueFamilyProperties)
    (a_queue_flag a_others a_index i : Nat)
    (h : FirstFamily (queue_family_matches a_queue_flag a_others) families i) :
    get_dedicated_queue_family families a_queue_flag a_others a_index
      = (true, i, take_slot families i) := by
  obtain ⟨q, hq, hm, hlow⟩ := h
  rcases get_dedicated_queue_family_loop_spec a_queue_flag a_others families 0 a_index with
    ⟨h1, i', q', hi', hidx, hm', hlow', hset⟩ | ⟨_, _, _, hnone⟩
  · have hii : i' = i := by
      rcases Nat.lt_trichotomy i' i with hlt | heq | hgt
      · have := hlow i' q' hlt hi'
        rw [hm'] at this; cases this
      · exact heq
      · have := hlow' i q hgt hq
        rw [hm] at this; cases this
    subst hii
    rw [hq] at hi'
    injection hi' with hqq
    subst hqq
    have e1 : (get_dedicated_queue_family families a_queue_flag a_others a_index).1 = true := h1
    have e2 : (get_dedicated_queue_family families a_queue_flag a_others a_index).2.1 = i' := by
      simpa using hidx
    have e3 : (get_dedicated_queue_family families a_queue_flag a_others a_index).2.2
        = take_slot families i' := by
      simp only [take_slot, hq]; exact hset
    exact Prod.ext e1 (Prod.ext e2 e3)
  · have := hnone q (List.getElem?_mem hq)
    rw [hm] at this; cases this

/-- A search whose test no family passes finds nothing. -/
theorem get_dedicated_queue_family_none (families : List VkQueueFamilyProperties)
    (a_queue_flag a_others a_index : Nat)
    (h : ∀ q ∈ families, queue_family_matches a_queue_flag a_others q = false) :
    get_dedicated_queue_family families a_queue_flag a_others a_index
      = (false, a_index, families) := by
  rcases get_dedicated_queue_family_loop_spec a_queue_flag a_others families 0 a_index with
    ⟨_, i', q', hi', _, hm', _, _⟩ | ⟨h1, h2, h3, _⟩
  · have := h q' (List.getElem?_mem hi')
    rw [hm'] at this; cases this
  · have e1 : (get_dedicated_queue_family families a_queue_flag a_others a_index).1 = false := h1
    have e2 : (get_dedicated_queue_family families a_queue_flag a_others a_index).2.1
        = a_index := h2
    have e3 : (get_dedicated_queue_family families a_queue_flag a_others a_index).2.2
        = families := h3
    exact Prod.ext e1 (Prod.ext e2 e3)

/-- For flags below `2 ^ 31` the exclusion mask `~flag` excludes no family. -/
theorem queue_family_matches_bit_not32 (flag : Nat) (hflag : flag < 32)
    (q : VkQueueFamilyProperties) (hq : q.queueFlags < 2 ^ 31) :
    queue_family_matches flag (bit_not32 flag) q
      = (has_capability q flag && has_free_slot q) := by
  have hle : q.queueFlags &&& bit_not32 flag ≤ q.queueFlags := Nat.and_le_left
  have hbig : 2 ^ 31 ≤ bit_not32 flag := by
    have : flag % 2 ^ 32 = flag := Nat.mod_eq_of_lt (by omega)
    simp only [bit_not32, UINT32_MAX, this]
    omega
  have hne : (q.queueFlags &&& bit_not32 flag == bit_not32 flag) = false := by
    rw [beq_eq_false_iff_ne]
    omega
  simp [queue_family_matches, has_capability, has_free_slot, hne]

theorem take_slot_length (families : List VkQueueFamilyProperties) (i : Nat) :
    (take_slot families i).length = families.length := by
  unfold take_slot
  split <;> simp

theorem take_slot_flags (families : List VkQueueFamilyProperties) (i : Nat)
    (bound : Nat) (h : ∀ q ∈ families, q.queueFlags < bound) :
    ∀ q ∈ take_slot families i, q.queueFlags < bound := by
  intro q hq
  unfold take_slot at hq
  split at hq
  · next q0 hq0 =>
    rcases List.mem_or_eq_of_mem_set hq with hm | he
    · exact h q hm
    · subst he
      exact h q0 (List.getElem?_mem hq0)
  · exact h q hq

theorem FirstFamily.congr {p p' : VkQueueFamilyProperties → Bool}
    {families : List VkQueueFamilyProperties} {i : Nat}
    (hpp : ∀ q ∈ families, p q = p' q) (h : FirstFamily p families i) :
    FirstFamily p' families i := by
  obtain ⟨q, hq, hp, hlow⟩ := h
  refine ⟨q, hq, by rw [← hpp q (List.getElem?_mem hq)]; exact hp, ?_⟩
  intro j q' hj hq'
  rw [← hpp q' (List.getElem?_mem hq')]
  exact hlow j q' hj hq'

/-- The graphics block on a layout whose first graphics family with a free slot
is `g`. -/
theorem get_queue_indices_graphics_first (ndebug : Bool)
    (queue_families : List VkQueueFamilyProperties) (g : Nat)
    (hflags : ∀ q ∈ queue_families, q.queueFlags < 2 ^ 31)
    (hg : FirstFamily (fun q => has_capability q VK_QUEUE_GRAPHICS_BIT && has_free_slot q)
      queue_families g) :
    get_queue_indices_graphics ndebug queue_families
      = .ok ((true, g), take_slot queue_families g) := by
  have hg' : FirstFamily (queue_family_matches VK_QUEUE_GRAPHICS_BIT
      (bit_not32 VK_QUEUE_GRAPHICS_BIT)) queue_families g :=
    hg.congr (fun q hq => (queue_family_matches_bit_not32 _ (by decide) q (hflags q hq)).symm)
  simp [get_queue_indices_graphics, get_dedicated_queue_family_first _ _ _ _ _ hg', cassert,
    bind, Except.bind, pure, Except.pure]

/-- The compute block on a layout whose compute choice is `c`. -/
theorem get_queue_indices_compute_choice (ndebug : Bool)
    (queue_families : List VkQueueFamilyProperties) (c : Nat)
    (hflags : ∀ q ∈ queue_families, q.queueFlags < 2 ^ 31)
    (hc : ComputeChoice queue_families c) :
    get_queue_indices_compute ndebug queue_families
      = .ok ((true, c), take_slot queue_families c) := by
  have hded : ∀ q, queue_family_matches VK_QUEUE_COMPUTE_BIT VK_QUEUE_GRAPHICS_BIT q
      = (has_capability q VK_QUEUE_COMPUTE_BIT && has_free_slot q
          && !has_capability q VK_QUEUE_GRAPHICS_BIT) := by
    intro q; rfl
  rcases hc with hc | ⟨hnone, hc⟩
  · have hc' : FirstFamily (queue_family_matches VK_QUEUE_COMPUTE_BIT VK_QUEUE_GRAPHICS_BIT)
        queue_families c := hc.congr (fun q _ => (hded q).symm)
    simp [get_queue_indices_compute, get_dedicated_queue_family_first _ _ _ _ _ hc', pure,
      Except.pure]
  · have hnone' : ∀ q ∈ queue_families,
        queue_family_matches VK_QUEUE_COMPUTE_BIT VK_QUEUE_GRAPHICS_BIT q = false := by
      intro q hq; rw [hded]; exact hnone q hq
    have hc' : FirstFamily (queue_family_matches VK_QUEUE_COMPUTE_BIT
        (bit_not32 VK_QUEUE_GRAPHICS_BIT)) queue_families c := by
      refine hc.congr (fun q hq => ?_)
      have hle : q.queueFlags &&& bit_not32 VK_QUEUE_GRAPHICS_BIT ≤ q.queueFlags :=
        Nat.and_le_left
      have hlt := hflags q hq
      have hne : (q.queueFlags &&& bit_not32 VK_QUEUE_GRAPHICS_BIT
          == bit_not32 VK_QUEUE_GRAPHICS_BIT) = false := by
        rw [beq_eq_false_iff_ne]
        have : bit_not32 VK_QUEUE_GRAPHICS_BIT = 4294967294 := by decide
        omega
      simp [queue_family_matches, has_capability, has_free_slot, hne]
    simp [get_queue_indices_compute, get_dedicated_queue_family_none _ _ _ _ hnone',
      get_dedicated_queue_family_first _ _ _ _ _ hc', cassert, bind, Except.bind, pure,
      Except.pure]

/-- The consolidation loop completes when the roles found lie in the list of
families and every role has an entry in `a_queue_data`. -/
theorem get_queue_indices_consolidate_ok (ndebug : Bool) (found : List (Bool × Nat)) :
    ∀ (priority_index : Nat) (cf : List (Option Nat × List Nat)) (data : QueueData),
      (∀ index ∈ found, index.1 = true → index.2 < cf.length) →
      priority_index + found.length ≤ all_family_flags.length →
      all_family_flags.length ≤ data.m_indicies.length →
      (∀ (f : Nat) (e : Option Nat × List Nat), cf[f]? = some e → e.1 = none ∨ e.1 = some f) →
      ∃ r, get_queue_indices_consolidate ndebug found priority_index (cf, data) = .ok r := by
  induction found with
  | nil =>
    intro k cf data _ _ _ _
    exact ⟨(cf, data), rfl⟩
  | cons index rest ih =>
    intro k cf data hbound hk hdata hinv
    have hk' : k < all_family_flags.length := by
      simp only [List.length_cons] at hk; omega
    by_cases hfound : index.1 = true
    · have hlt : index.2 < cf.length := hbound index (List.mem_cons_self _ _) hfound
      have hentry : cf[index.2]? = some cf[index.2] := List.getElem?_eq_getElem hlt
      have hflag : all_family_flags[k]? = some all_family_flags[k] :=
        List.getElem?_eq_getElem hk'
      have hfirst : (if (cf[index.2]).1.isSome = true then (cf[index.2]).1 else some index.2)
          = some index.2 := by
        rcases hinv index.2 _ hentry with hn | hs
        · simp [hn]
        · simp [hs]
      have hkd : k < data.m_indicies.length := by omega
      simp only [get_queue_indices_consolidate, hfound, if_true, hentry, hflag, hfirst,
        cassert, beq_self_eq_true, Bool.or_true, hkd, bind, Except.bind]
      apply ih
      · intro i hi hif
        simpa using hbound i (List.mem_cons_of_mem _ hi) hif
      · simp only [List.length_cons] at hk; omega
      · simpa using hdata
      · intro f e he
        by_cases hf : index.2 = f
        · subst hf
          rw [List.getElem?_set_self hlt] at he
          injection he with he
          subst he
          right; rfl
        · rw [List.getElem?_set_ne hf] at he
          exact hinv f e he
    · have hnf : index.1 = false := by simpa using hfound
      simp only [get_queue_indices_consolidate, hnf, Bool.false_eq_true, if_false]
      apply ih
      · intro i hi hif
        exact hbound i (List.mem_cons_of_mem _ hi) hif
      · simp only [List.length_cons] at hk; omega
      · exact hdata
      · exact hinv

/-- What the consolidation loop records in `a_queue_data`: for a role that was
found, its family and, as slot, the number of priorities the family already
had; the entry of a role that was not found, and the entries of the roles
before `priority_index`, keep their value. -/
theorem get_queue_indices_consolidate_data (ndebug : Bool) (found : List (Bool × Nat)) :
    ∀ (priority_index : Nat) (cf : List (Option Nat × List Nat)) (data : QueueData)
      (cf' : List (Option Nat × List Nat)) (data' : QueueData),
      get_queue_indices_consolidate ndebug found priority_index (cf, data) = .ok (cf', data') →
      data'.m_indicies.length = data.m_indicies.length
        ∧ (∀ j, j < priority_index → data'.m_indicies[j]? = data.m_indicies[j]?)
        ∧ ∀ (i : Nat) (index : Bool × Nat), found[i]? = some index →
            (index.1 = true → ∃ e, cf[index.2]? = some e
              ∧ data'.m_indicies[priority_index + i]?
                = some (index.2, e.2.length + roles_in (found.take i) index.2))
            ∧ (index.1 = false →
              data'.m_indicies[priority_index + i]? = data.m_indicies[priority_index + i]?) := by
  induction found with
  | nil =>
    intro k cf data cf' data' h
    simp only [get_queue_indices_consolidate, pure, Except.pure] at h
    injection h with h
    injection h with h1 h2
    subst h2
    exact ⟨rfl, fun _ _ => rfl, fun i index hi => by simp at hi⟩
  | cons index rest ih =>
    intro k cf data cf' data' h
    by_cases hfound : index.1 = true
    · simp only [get_queue_indices_consolidate, hfound, if_true] at h
      cases hentry : cf[index.2]? with
      | none => simp [hentry, throw, throwThe, MonadExceptOf.throw] at h
      | some entry =>
        cases hflag : all_family_flags[k]? with
        | none => simp [hentry, hflag, throw, throwThe, MonadExceptOf.throw] at h
        | some flag =>
          simp only [hentry, hflag, except_bind_ok] at h
          obtain ⟨_, _, h⟩ := h
          by_cases hk : k < data.m_indicies.length
          · simp only [hk, if_true] at h
            have hlt : index.2 < cf.length := getElem?_lt_length hentry
            obtain ⟨hlen, hkeep, hrec⟩ := ih _ _ _ _ _ h
            simp only [List.length_set] at hlen
            refine ⟨hlen, ?_, ?_⟩
            · intro j hj
              rw [hkeep j (by omega), List.getElem?_set_ne (by omega)]
            · intro i idx hi
              cases i with
              | zero =>
                simp only [List.getElem?_cons_zero, Option.some.injEq] at hi
                subst hi
                refine ⟨fun _ => ⟨entry, hentry, ?_⟩, fun hf => by rw [hfound] at hf; cases hf⟩
                rw [Nat.add_zero, hkeep k (by omega), List.getElem?_set_self hk]
                simp [roles_in]
              | succ i =>
                simp only [List.getElem?_cons_succ] at hi
                obtain ⟨ht, hf⟩ := hrec i idx hi
                have hpos : k + (i + 1) = k + 1 + i := by omega
                refine ⟨fun hidx => ?_, fun hidx => ?_⟩
                · obtain ⟨e1, he1, hd⟩ := ht hidx
                  rw [hpos, hd]
                  simp only [List.take_succ_cons, roles_in_cons]
                  by_cases hsame : index.2 = idx.2
                  · rw [← hsame, List.getElem?_set_self hlt] at he1
                    injection he1 with he1
                    subst he1
                    refine ⟨entry, by rw [← hsame]; exact hentry, ?_⟩
                    simp only [hfound, hsame, and_self, if_true, List.length_append,
                      List.length_singleton]
                    congr 2
                    omega
                  · rw [List.getElem?_set_ne hsame] at he1
                    refine ⟨e1, he1, ?_⟩
                    simp [hsame]
                · rw [hpos, hf hidx, List.getElem?_set_ne (by omega)]
          · simp [hk, throw, throwThe, MonadExceptOf.throw] at h
    · have hnf : index.1 = false := by simpa using hfound
      simp only [get_queue_indices_consolidate, hnf, Bool.false_eq_true, if_false] at h
      obtain ⟨hlen, hkeep, hrec⟩ := ih _ _ _ _ _ h
      refine ⟨hlen, fun j hj => hkeep j (by omega), ?_⟩
      intro i idx hi
      cases i with
      | zero =>
        simp only [List.getElem?_cons_zero, Option.some.injEq] at hi
        subst hi
        refine ⟨fun hf => (by rw [hnf] at hf; cases hf), fun _ => ?_⟩
        rw [Nat.add_zero]
        exact hkeep k (by omega)
      | succ i =>
        simp only [List.getElem?_cons_succ] at hi
        obtain ⟨ht, hf⟩ := hrec i idx hi
        have hpos : k + (i + 1) = k + 1 + i := by omega
        refine ⟨fun hidx => ?_, fun hidx => by rw [hpos]; exact hf hidx⟩
        obtain ⟨e1, he1, hd⟩ := ht hidx
        refine ⟨e1, he1, ?_⟩
        rw [hpos, hd]
        simp [List.take_succ_cons, roles_in_cons, hnf]

/-- An entry with a value has its descriptor. -/
theorem get_queue_indices_infos_mem :
    ∀ (cf : List (Option Nat × List Nat)) (f : Nat) (e : Option Nat × List Nat) (value : Nat),
      cf[f]? = some e → e.1 = some value →
      (⟨value, e.2.length, e.2⟩ : VkDeviceQueueCreateInfo) ∈ get_queue_indices_infos cf := by
  intro cf
  induction cf with
  | nil => intro f e value he; simp at he
  | cons e0 rest ih =>
    intro f e value he hv
    cases f with
    | zero =>
      simp only [List.getElem?_cons_zero, Option.some.injEq] at he
      subst he
      simp [get_queue_indices_infos, hv]
    | succ f =>
      simp only [List.getElem?_cons_succ] at he
      have := ih f e value he hv
      cases h0 : e0.1 with
      | none => simpa [get_queue_indices_infos, h0] using this
      | some v0 =>
        simp only [get_queue_indices_infos, h0]
        exact List.mem_cons_of_mem _ this

theorem replicate_entry (n f : Nat) (e : Option Nat × List Nat)
    (h : (List.replicate n ((none : Option Nat), ([] : List Nat)))[f]? = some e) :
    e = (none, []) ∧ f < n := by
  rw [List.getElem?_replicate] at h
  split at h
  · next hlt => injection h with h; exact ⟨h.symm, hlt⟩
  · cases h

/-- C4 as stated fails. A single family with graphics, compute and transfer
capability, presentation support and one queue: the compute assert fails. Two
families of which the second has graphics capability and presentation support
while the first, chosen for graphics, has none: the presentation assert fails. -/
theorem get_queue_indices_fails_with_presentable_graphics_family :
    (∃ q ∈ ([⟨7, 1⟩] : List VkQueueFamilyProperties),
        has_capability q VK_QUEUE_GRAPHICS_BIT = true)
      ∧ get_queue_indices false (fun _ => (VK_SUCCESS, true)) [⟨7, 1⟩] QueueData.new
        = .error (.assertion "No compute queue found can't continue!")
      ∧ (([⟨1, 1⟩, ⟨3, 2⟩] : List VkQueueFamilyProperties)[1]? = some ⟨3, 2⟩
        ∧ has_capability ⟨3, 2⟩ VK_QUEUE_GRAPHICS_BIT = true)
      ∧ get_queue_indices false (fun f => (VK_SUCCESS, f == 1)) [⟨1, 1⟩, ⟨3, 2⟩]
          QueueData.new
        = .error (.assertion "Graphics queue chosen doesn't support presentation!") := by
  refine ⟨⟨⟨7, 1⟩, by simp, by decide⟩, by decide, ⟨by decide, by decide⟩, by decide⟩

/-- C4, amended: on a layout with flags below `2 ^ 31` in which the first family
with graphics capability and a free slot (`g`) supports presentation, and in
which, once the graphics slot is taken, the compute choice (`c`: the first
family with compute capability, a free slot and no graphics capability, else
the first with compute capability and a free slot) exists and supports
presentation, `get_queue_indices` returns; the plan records family `g`, slot 0
for graphics and family `c` for compute, with slot 1 when `c = g` and slot 0
otherwise, and each of the two slots lies within the descriptor of its family. -/
theorem get_queue_indices_completes (ndebug : Bool) (surface_support : Nat → VkResult × Bool)
    (queue_families : List VkQueueFamilyProperties) (a_queue_data : QueueData) (g c : Nat)
    (hflags : ∀ q ∈ queue_families, q.queueFlags < 2 ^ 31)
    (hdata : a_queue_data.m_indicies.length = all_family_flags.length)
    (hg : FirstFamily (fun q => has_capability q VK_QUEUE_GRAPHICS_BIT && has_free_slot q)
      queue_families g)
    (hc : ComputeChoice (take_slot queue_families g) c)
    (hpg : surface_support g = (VK_SUCCESS, true))
    (hpc : surface_support c = (VK_SUCCESS, true)) :
    ∃ infos data,
      get_queue_indices ndebug surface_support queue_families a_queue_data = .ok (infos, data)
        ∧ data.m_indicies[graphics_index]? = some (g, 0)
        ∧ data.m_indicies[compute_index]? = some (c, if c = g then 1 else 0)
        ∧ (∃ info ∈ infos, info.queueFamilyIndex = g ∧ 0 < info.queueCount)
        ∧ (∃ info ∈ infos, info.queueFamilyIndex = c
            ∧ (if c = g then 1 else 0) < info.queueCount) := by
  have hG := get_queue_indices_graphics_first ndebug queue_families g hflags hg
  have hC := get_queue_indices_compute_choice ndebug (take_slot queue_families g) c
    (take_slot_flags _ _ _ hflags) hc
  have hglt : g < queue_families.length := by
    obtain ⟨q, hq, _⟩ := hg
    exact getElem?_lt_length hq
  have hne : decide (queue_families.length > 0) = true := by
    simp only [decide_eq_true_eq]; omega
  obtain ⟨found, hfdef⟩ : ∃ found : List (Bool × Nat), found =
      [(true, g), (true, c),
        (get_queue_indices_transfer (take_slot (take_slot queue_families g) c) g).1,
        ((get_dedicated_queue_family
            (get_queue_indices_transfer (take_slot (take_slot queue_families g) c) g).2
            VK_QUEUE_SPARSE_BINDING_BIT (bit_not32 VK_QUEUE_SPARSE_BINDING_BIT) 0).1,
          (get_dedicated_queue_family
            (get_queue_indices_transfer (take_slot (take_slot queue_families g) c) g).2
            VK_QUEUE_SPARSE_BINDING_BIT (bit_not32 VK_QUEUE_SPARSE_BINDING_BIT) 0).2.1),
        ((get_dedicated_queue_family
            (get_dedicated_queue_family
              (get_queue_indices_transfer (take_slot (take_slot queue_families g) c) g).2
              VK_QUEUE_SPARSE_BINDING_BIT (bit_not32 VK_QUEUE_SPARSE_BINDING_BIT) 0).2.2
            VK_QUEUE_PROTECTED_BIT (bit_not32 VK_QUEUE_PROTECTED_BIT) 0).1,
          (get_dedicated_queue_family
            (get_dedicated_queue_family
              (get_queue_indices_transfer (take_slot (take_slot queue_families g) c) g).2
              VK_QUEUE_SPARSE_BINDING_BIT (bit_not32 VK_QUEUE_SPARSE_BINDING_BIT) 0).2.2
            VK_QUEUE_PROTECTED_BIT (bit_not32 VK_QUEUE_PROTECTED_BIT) 0).2.1)] := ⟨_, rfl⟩
  obtain ⟨families, hfound⟩ : ∃ families,
      get_queue_indices_found ndebug queue_families = .ok (found, families) := by
    simp only [get_queue_indices_found, cassert, hne, Bool.or_true, if_true, hG, hC, bind,
      Except.bind, pure, Except.pure, hfdef]
    exact ⟨_, rfl⟩
  obtain ⟨⟨_, _, hbound⟩, hlen5⟩ := get_queue_indices_found_slots _ _ _ _ hfound
  have hinit : ∀ (f : Nat) (e : Option Nat × List Nat),
      (List.replicate queue_families.length ((none : Option Nat), ([] : List Nat)))[f]? = some e →
        e.1 = none ∨ e.1 = some f := by
    intro f e he
    rw [(replicate_entry _ _ _ he).1]; left; rfl
  obtain ⟨⟨cf, data⟩, hcons⟩ := get_queue_indices_consolidate_ok ndebug found 0
    (List.replicate queue_families.length (none, [])) a_queue_data
    (by simpa using hbound) (by rw [hlen5]; decide) (by rw [hdata]) hinit
  obtain ⟨_, _, hrec⟩ := get_queue_indices_consolidate_data _ _ _ _ _ _ _ hcons
  obtain ⟨_, hcf⟩ := get_queue_indices_consolidate_spec _ _ _ _ _ _ _ hcons hinit
  have hd0 : data.m_indicies[graphics_index]? = some (g, 0) := by
    obtain ⟨e, he, hd⟩ := (hrec 0 (true, g) (by rw [hfdef]; rfl)).1 rfl
    rw [(replicate_entry _ _ _ he).1] at hd
    simpa [graphics_index, roles_in] using hd
  have hd1 : data.m_indicies[compute_index]? = some (c, if c = g then 1 else 0) := by
    obtain ⟨e, he, hd⟩ := (hrec 1 (true, c) (by rw [hfdef]; rfl)).1 rfl
    rw [(replicate_entry _ _ _ he).1] at hd
    have htake : List.take 1 found = [(true, g)] := by rw [hfdef]; rfl
    rw [htake] at hd
    simp only [roles_in_cons, roles_in, List.countP_nil, true_and, List.length_nil,
      Nat.zero_add] at hd
    rw [show compute_index = 0 + 1 from rfl, hd]
    by_cases hcg : c = g
    · simp [hcg]
    · have : ¬ g = c := fun h => hcg h.symm
      simp [hcg, this]
  have hclt : c < queue_families.length := by
    have := hbound (true, c) (by rw [hfdef]; simp) rfl
    exact this
  have hrg : 1 ≤ roles_in found g := by
    rw [hfdef]; simp only [roles_in_cons, true_and, if_true]; omega
  have hrc : (if c = g then 1 else 0) < roles_in found c := by
    rw [hfdef]; simp only [roles_in_cons, true_and, if_true]
    by_cases hcg : c = g
    · simp only [hcg, if_true]; omega
    · simp only [hcg, if_false]; omega
  have hinfo : ∀ f, f < queue_families.length → 1 ≤ roles_in found f →
      ∃ info ∈ get_queue_indices_infos cf, info.queueFamilyIndex = f
        ∧ info.queueCount = roles_in found f := by
    intro f hf hr
    have hfl : f < cf.length := by
      have := (get_queue_indices_consolidate_spec _ _ _ _ _ _ _ hcons hinit).1
      rw [this]; simpa using hf
    obtain ⟨hval, e0, he0, hlen0, hnone⟩ := hcf f cf[f] (List.getElem?_eq_getElem hfl)
    rw [(replicate_entry _ _ _ he0).1] at hlen0
    have hsome : (cf[f]).1 = some f := by
      rcases hval with hn | hs
      · have := (hnone hn).2
        omega
      · exact hs
    refine ⟨_, get_queue_indices_infos_mem cf f cf[f] f (List.getElem?_eq_getElem hfl) hsome,
      rfl, ?_⟩
    simpa using hlen0
  obtain ⟨ig, hig, higf, higc⟩ := hinfo g hglt hrg
  obtain ⟨ic, hic, hicf, hicc⟩ := hinfo c hclt (by omega)
  have hnonempty : decide ((get_queue_indices_infos cf).length ≥ 1) = true := by
    simp only [decide_eq_true_eq]
    exact List.length_pos_of_mem hig
  refine ⟨get_queue_indices_infos cf, data, ?_, hd0, hd1, ⟨ig, hig, higf, by omega⟩,
    ⟨ic, hic, hicf, by omega⟩⟩
  simp only [get_queue_indices, hfound, hcons, get_queue_indices_present, hd0, hd1, hpg, hpc,
    cassert, hnonempty, beq_self_eq_true, Bool.or_true, if_true, bind, Except.bind, pure,
    Except.pure]

/-- Witness of C4: the three-family layout of the commented test of lines
432-444, every family presentable; graphics goes to family 0 and compute to
family 2. -/
theorem get_queue_indices_completes_witness :
    ∃ infos data,
      get_queue_indices false (fun _ => (VK_SUCCESS, true)) [⟨15, 16⟩, ⟨12, 2⟩, ⟨14, 8⟩]
          QueueData.new = .ok (infos, data)
        ∧ data.m_indicies[graphics_index]? = some (0, 0)
        ∧ data.m_indicies[compute_index]? = some (2, if 2 = 0 then 1 else 0)
        ∧ (∃ info ∈ infos, info.queueFamilyIndex = 0 ∧ 0 < info.queueCount)
        ∧ (∃ info ∈ infos, info.queueFamilyIndex = 2
            ∧ (if 2 = 0 then 1 else 0) < info.queueCount) :=
  get_queue_indices_completes false (fun _ => (VK_SUCCESS, true))
    [⟨15, 16⟩, ⟨12, 2⟩, ⟨14, 8⟩] QueueData.new 0 2
    (by decide) (by decide)
    ⟨⟨15, 16⟩, by decide, by decide, fun j q' hj => absurd hj (Nat.not_lt_zero j)⟩
    (Or.inl ⟨⟨14, 8⟩, by decide, by decide, by
      intro j q' hj hq'
      have hcases : j = 0 ∨ j = 1 := by omega
      rcases hcases with rfl | rfl
      · have : q' = ⟨15, 15⟩ := by
          have h0 : (take_slot [⟨15, 16⟩, ⟨12, 2⟩, ⟨14, 8⟩] 0)[0]? = some ⟨15, 15⟩ := by decide
          rw [h0] at hq'; injection hq' with hq'; exact hq'.symm
        subst this; decide
      · have : q' = ⟨12, 2⟩ := by
          have h1 : (take_slot [⟨15, 16⟩, ⟨12, 2⟩, ⟨14, 8⟩] 0)[1]? = some ⟨12, 2⟩ := by decide
          rw [h1] at hq'; injection hq' with hq'; exact hq'.symm
        subst this; decide⟩)
    rfl rfl

/-- What a successful `get_queue_indices` went through: the role search, the
consolidation from empty families, and the descriptors of the result. -/
theorem get_queue_indices_ok_parts (ndebug : Bool) (surface_support : Nat → VkResult × Bool)
    (queue_families : List VkQueueFamilyProperties) (a_queue_data : QueueData)
    (infos : List VkDeviceQueueCreateInfo) (data : QueueData)
    (h : get_queue_indices ndebug surface_support queue_families a_queue_data
      = .ok (infos, data)) :
    ∃ found families cf,
      get_queue_indices_found ndebug queue_families = .ok (found, families)
        ∧ get_queue_indices_consolidate ndebug found 0
            (List.replicate queue_families.length (none, []), a_queue_data) = .ok (cf, data)
        ∧ infos = get_queue_indices_infos cf := by
  simp only [get_queue_indices, except_bind_ok, pure, Except.pure] at h
  obtain ⟨⟨found, families⟩, hfound, ⟨cf, data1⟩, hcons, _, _, _, _, _, _, h⟩ := h
  injection h with h
  injection h with hinfos hdata
  subst hinfos hdata
  exact ⟨found, families, cf, hfound, hcons, rfl⟩

/-- What a successful role search went through: the graphics block, the compute
block on the families it left, the transfer block, the two last searches. -/
theorem get_queue_indices_found_parts (ndebug : Bool)
    (queue_families : List VkQueueFamilyProperties) (found : List (Bool × Nat))
    (families : List VkQueueFamilyProperties)
    (h : get_queue_indices_found ndebug queue_families = .ok (found, families)) :
    ∃ g c sparse protected_role,
      get_queue_indices_graphics ndebug queue_families = .ok g
        ∧ get_queue_indices_compute ndebug g.2 = .ok c
        ∧ found = [g.1, c.1, (get_queue_indices_transfer c.2 g.1.2).1, sparse, protected_role] := by
  simp only [get_queue_indices_found, except_bind_ok, pure, Except.pure] at h
  obtain ⟨_, _, g, hg, c, hc, h⟩ := h
  injection h with h
  injection h with hfound hfam
  exact ⟨g, c, _, _, hg, hc, hfound.symm⟩

/-- Taking a slot of family `i` lowers its count by one and leaves the other
families as they were. -/
theorem take_slot_counts (families : List VkQueueFamilyProperties) (i : Nat)
    (q : VkQueueFamilyProperties) (h : families[i]? = some q) :
    (take_slot families i)[i]? = some { q with queueCount := q.queueCount - 1 }
      ∧ ∀ j, j ≠ i → (take_slot families i)[j]? = families[j]? := by
  have hi := getElem?_lt_length h
  simp only [take_slot, h]
  refine ⟨by simp [List.getElem?_set_self hi], fun j hj => ?_⟩
  rw [List.getElem?_set_ne (Ne.symm hj)]

/-- C12 as stated fails. One family with compute and transfer capability and
two queues, presentable, and no family with graphics capability: with asserts
compiled out the result of the graphics search is not checked and planning does
not fail; it returns a plan in which the graphics role is left at the (0, 0) of
the `QueueData` constructor. With asserts enabled planning fails at the assert
of line 456. -/
theorem get_queue_indices_without_graphics_family_ndebug :
    (∀ q ∈ ([⟨6, 2⟩] : List VkQueueFamilyProperties),
        (has_capability q VK_QUEUE_GRAPHICS_BIT && has_free_slot q) = false)
      ∧ get_queue_indices true (fun _ => (VK_SUCCESS, true)) [⟨6, 2⟩] QueueData.new
        = .ok ([⟨0, 2, [100, 50]⟩], ⟨[(0, 0), (0, 0), (0, 1), (0, 0), (0, 0)]⟩)
      ∧ get_queue_indices false (fun _ => (VK_SUCCESS, true)) [⟨6, 2⟩] QueueData.new
        = .error (.assertion "No graphics queue found can't continue!") := by
  refine ⟨by decide, by decide, by decide⟩

/-- C12, amended: for every list of queue families with valid flags (below
`2 ^ 31`): when `g` is the lowest-index family with graphics capability and a free slot,
the graphics block of `get_queue_indices` finds family `g`, leaves the families
with the count of `g` lowered by one and every other family unchanged, and every
plan that `get_queue_indices` returns records family `g`, slot 0, for the
graphics role; when no family has graphics capability and a free slot,
`get_queue_indices` fails at an assert in a build with asserts enabled, and
with asserts compiled out the graphics block returns with the role not found
and no slot taken, so that planning goes on. -/
theorem get_queue_indices_graphics_role (ndebug : Bool)
    (surface_support : Nat → VkResult × Bool)
    (queue_families : List VkQueueFamilyProperties) (a_queue_data : QueueData)
    (hflags : ∀ q ∈ queue_families, q.queueFlags < 2 ^ 31) :
    (∀ g, FirstFamily (fun q => has_capability q VK_QUEUE_GRAPHICS_BIT && has_free_slot q)
          queue_families g →
        ∃ q, queue_families[g]? = some q
          ∧ get_queue_indices_graphics ndebug queue_families
            = .ok ((true, g), take_slot queue_families g)
          ∧ (take_slot queue_families g)[g]? = some { q with queueCount := q.queueCount - 1 }
          ∧ (∀ j, j ≠ g → (take_slot queue_families g)[j]? = queue_families[j]?)
          ∧ ∀ infos data,
              get_queue_indices ndebug surface_support queue_families a_queue_data
                = .ok (infos, data) →
              data.m_indicies[graphics_index]? = some (g, 0))
      ∧ ((∀ q ∈ queue_families,
            (has_capability q VK_QUEUE_GRAPHICS_BIT && has_free_slot q) = false) →
          (∃ msg, get_queue_indices false surface_support queue_families a_queue_data
              = .error (.assertion msg))
            ∧ get_queue_indices_graphics true queue_families
              = .ok ((false, 0), queue_families)) := by
  constructor
  · intro g hg
    have hblock := get_queue_indices_graphics_first ndebug queue_families g hflags hg
    obtain ⟨q, hq, _, _⟩ := hg
    obtain ⟨hcount, hother⟩ := take_slot_counts queue_families g q hq
    refine ⟨q, hq, hblock, hcount, hother, ?_⟩
    intro infos data h
    obtain ⟨found, families, cf, hfound, hcons, _⟩ := get_queue_indices_ok_parts _ _ _ _ _ _ h
    obtain ⟨g', c, sparse, protected_role, hg', _, hf⟩ :=
      get_queue_indices_found_parts _ _ _ _ hfound
    rw [hblock] at hg'
    injection hg' with hg'
    subst hg' hf
    obtain ⟨_, _, hrec⟩ := get_queue_indices_consolidate_data _ _ _ _ _ _ _ hcons
    obtain ⟨e, he, hdata⟩ := (hrec 0 (true, g) rfl).1 rfl
    obtain ⟨he', _⟩ := replicate_entry _ _ _ he
    subst he'
    simpa [graphics_index, roles_in] using hdata
  · intro hnone
    have hnone' : ∀ q ∈ queue_families, queue_family_matches VK_QUEUE_GRAPHICS_BIT
        (bit_not32 VK_QUEUE_GRAPHICS_BIT) q = false := by
      intro q hq
      rw [queue_family_matches_bit_not32 _ (by decide) q (hflags q hq)]
      exact hnone q hq
    refine ⟨?_, ?_⟩
    · cases queue_families with
      | nil => exact ⟨_, rfl⟩
      | cons q0 rest =>
        refine ⟨"No graphics queue found can't continue!", ?_⟩
        simp [get_queue_indices, get_queue_indices_found, get_queue_indices_graphics,
          get_dedicated_queue_family_none _ _ _ _ hnone', cassert, bind, Except.bind]
    · simp [get_queue_indices_graphics, get_dedicated_queue_family_none _ _ _ _ hnone',
        cassert, bind, Except.bind, pure, Except.pure]

/-- Witness of C12: the three-family layout of the commented test of lines
432-444, every family presentable. -/
theorem get_queue_indices_graphics_role_witness :
    (∀ q ∈ ([⟨15, 16⟩, ⟨12, 2⟩, ⟨14, 8⟩] : List VkQueueFamilyProperties), q.queueFlags < 2 ^ 31)
      ∧ (∀ g, FirstFamily (fun q => has_capability q VK_QUEUE_GRAPHICS_BIT && has_free_slot q)
            [⟨15, 16⟩, ⟨12, 2⟩, ⟨14, 8⟩] g →
          ∃ q, ([⟨15, 16⟩, ⟨12, 2⟩, ⟨14, 8⟩] : List VkQueueFamilyProperties)[g]? = some q
            ∧ get_queue_indices_graphics false [⟨15, 16⟩, ⟨12, 2⟩, ⟨14, 8⟩]
              = .ok ((true, g), take_slot [⟨15, 16⟩, ⟨12, 2⟩, ⟨14, 8⟩] g)
            ∧ (take_slot [⟨15, 16⟩, ⟨12, 2⟩, ⟨14, 8⟩] g)[g]?
              = some { q with queueCount := q.queueCount - 1 }
            ∧ (∀ j, j ≠ g → (take_slot [⟨15, 16⟩, ⟨12, 2⟩, ⟨14, 8⟩] g)[j]?
                = ([⟨15, 16⟩, ⟨12, 2⟩, ⟨14, 8⟩] : List VkQueueFamilyProperties)[j]?)
            ∧ ∀ infos data,
                get_queue_indices false (fun _ => (VK_SUCCESS, true))
                  [⟨15, 16⟩, ⟨12, 2⟩, ⟨14, 8⟩] QueueData.new = .ok (infos, data) →
                data.m_indicies[graphics_index]? = some (g, 0))
      ∧ ((∀ q ∈ ([⟨15, 16⟩, ⟨12, 2⟩, ⟨14, 8⟩] : List VkQueueFamilyProperties),
            (has_capability q VK_QUEUE_GRAPHICS_BIT && has_free_slot q) = false) →
          (∃ msg, get_queue_indices false (fun _ => (VK_SUCCESS, true))
              [⟨15, 16⟩, ⟨12, 2⟩, ⟨14, 8⟩] QueueData.new = .error (.assertion msg))
            ∧ get_queue_indices_graphics true [⟨15, 16⟩, ⟨12, 2⟩, ⟨14, 8⟩]
              = .ok ((false, 0), [⟨15, 16⟩, ⟨12, 2⟩, ⟨14, 8⟩])) :=
  ⟨by decide,
    get_queue_indices_graphics_role false (fun _ => (VK_SUCCESS, true))
      [⟨15, 16⟩, ⟨12, 2⟩, ⟨14, 8⟩] QueueData.new (by decide)⟩

/-- A family without the capability or without a free slot fails every search
for that capability. -/
theorem queue_family_matches_false (a_queue_flag a_others : Nat) (q : VkQueueFamilyProperties)
    (h : (has_capability q a_queue_flag && has_free_slot q) = false) :
    queue_family_matches a_queue_flag a_others q = false := by
  simp only [has_capability, has_free_slot] at h
  simp only [queue_family_matches, h, Bool.false_and]

/-- The compute block fails at its assert when no family has compute capability
and a free slot (asserts enabled). -/
theorem get_queue_indices_compute_none (queue_families : List VkQueueFamilyProperties)
    (hnone : ∀ q ∈ queue_families,
      (has_capability q VK_QUEUE_COMPUTE_BIT && has_free_slot q) = false) :
    get_queue_indices_compute false queue_families
      = .error (.assertion "No compute queue found can't continue!") := by
  have h1 : ∀ q ∈ queue_families,
      queue_family_matches VK_QUEUE_COMPUTE_BIT VK_QUEUE_GRAPHICS_BIT q = false :=
    fun q hq => queue_family_matches_false _ _ q (hnone q hq)
  have h2 : ∀ q ∈ queue_families,
      queue_family_matches VK_QUEUE_COMPUTE_BIT (bit_not32 VK_QUEUE_GRAPHICS_BIT) q = false :=
    fun q hq => queue_family_matches_false _ _ q (hnone q hq)
  simp [get_queue_indices_compute, get_dedicated_queue_family_none _ _ _ _ h1,
    get_dedicated_queue_family_none _ _ _ _ h2, cassert, bind, Except.bind]

/-- With asserts compiled out the compute block returns with the role not found
and no slot taken when no family has compute capability and a free slot. -/
theorem get_queue_indices_compute_none_ndebug (queue_families : List VkQueueFamilyProperties)
    (hnone : ∀ q ∈ queue_families,
      (has_capability q VK_QUEUE_COMPUTE_BIT && has_free_slot q) = false) :
    get_queue_indices_compute true queue_families = .ok ((false, 0), queue_families) := by
  have h1 : ∀ q ∈ queue_families,
      queue_family_matches VK_QUEUE_COMPUTE_BIT VK_QUEUE_GRAPHICS_BIT q = false :=
    fun q hq => queue_family_matches_false _ _ q (hnone q hq)
  have h2 : ∀ q ∈ queue_families,
      queue_family_matches VK_QUEUE_COMPUTE_BIT (bit_not32 VK_QUEUE_GRAPHICS_BIT) q = false :=
    fun q hq => queue_family_matches_false _ _ q (hnone q hq)
  simp [get_queue_indices_compute, get_dedicated_queue_family_none _ _ _ _ h1,
    get_dedicated_queue_family_none _ _ _ _ h2, cassert, bind, Except.bind, pure, Except.pure]

/-- C13 as stated fails. One family with graphics, compute and transfer
capability and one queue, presentable: the graphics role takes the queue, no
family with compute capability has a free slot left, and with asserts compiled
out the result of the two compute searches is not checked and planning does not
fail; it returns a plan in which the compute role is left at the (0, 0) of the
`QueueData` constructor, the queue of the graphics role. With asserts enabled
planning fails at the assert of line 463. -/
theorem get_queue_indices_without_compute_slot_ndebug :
    get_queue_indices_graphics true [⟨7, 1⟩] = .ok ((true, 0), [⟨7, 0⟩])
      ∧ (∀ q ∈ ([⟨7, 0⟩] : List VkQueueFamilyProperties),
          (has_capability q VK_QUEUE_COMPUTE_BIT && has_free_slot q) = false)
      ∧ get_queue_indices true (fun _ => (VK_SUCCESS, true)) [⟨7, 1⟩] QueueData.new
        = .ok ([⟨0, 1, [75]⟩], ⟨[(0, 0), (0, 0), (0, 0), (0, 0), (0, 0)]⟩)
      ∧ get_queue_indices false (fun _ => (VK_SUCCESS, true)) [⟨7, 1⟩] QueueData.new
        = .error (.assertion "No compute queue found can't continue!") := by
  refine ⟨by decide, by decide, by decide, by decide⟩

/-- C13, amended: for every list of queue families with valid flags (below
`2 ^ 31`) whose graphics family is `g`, on the families left after the graphics slot was
taken: when `c` is the first family with compute capability, a free slot and no
graphics capability, or, there being none, the first family with compute
capability and a free slot, the compute block of `get_queue_indices` finds
family `c` and takes one of its slots, and every plan that `get_queue_indices`
returns records family `c` for the compute role, with slot 1 when `c` is the
graphics family and slot 0 otherwise; when no family with compute capability
has a free slot left, `get_queue_indices` fails at the compute assert in a
build with asserts enabled, and with asserts compiled out the compute block
returns with the role not found and no slot taken, so that planning goes on. -/
theorem get_queue_indices_compute_role (ndebug : Bool)
    (surface_support : Nat → VkResult × Bool)
    (queue_families : List VkQueueFamilyProperties) (a_queue_data : QueueData) (g : Nat)
    (hflags : ∀ q ∈ queue_families, q.queueFlags < 2 ^ 31)
    (hg : FirstFamily (fun q => has_capability q VK_QUEUE_GRAPHICS_BIT && has_free_slot q)
      queue_families g) :
    (∀ c, ComputeChoice (take_slot queue_families g) c →
        get_queue_indices_compute ndebug (take_slot queue_families g)
            = .ok ((true, c), take_slot (take_slot queue_families g) c)
          ∧ ∀ infos data,
              get_queue_indices ndebug surface_support queue_families a_queue_data
                = .ok (infos, data) →
              data.m_indicies[compute_index]? = some (c, if c = g then 1 else 0))
      ∧ ((∀ q ∈ take_slot queue_families g,
            (has_capability q VK_QUEUE_COMPUTE_BIT && has_free_slot q) = false) →
          get_queue_indices_compute false (take_slot queue_families g)
              = .error (.assertion "No compute queue found can't continue!")
            ∧ get_queue_indices false surface_support queue_families a_queue_data
              = .error (.assertion "No compute queue found can't continue!")
            ∧ get_queue_indices_compute true (take_slot queue_families g)
              = .ok ((false, 0), take_slot queue_families g)) := by
  have hflags' := take_slot_flags queue_families g _ hflags
  have hlen : queue_families.length > 0 := by
    obtain ⟨q, hq, _⟩ := hg
    have := getElem?_lt_length hq
    omega
  constructor
  · intro c hc
    have hblock := get_queue_indices_compute_choice ndebug _ c hflags' hc
    refine ⟨hblock, ?_⟩
    intro infos data h
    obtain ⟨found, families, cf, hfound, hcons, _⟩ := get_queue_indices_ok_parts _ _ _ _ _ _ h
    obtain ⟨g', c', sparse, protected_role, hg', hc', hf⟩ :=
      get_queue_indices_found_parts _ _ _ _ hfound
    rw [get_queue_indices_graphics_first ndebug queue_families g hflags hg] at hg'
    injection hg' with hg'
    subst hg'
    rw [hblock] at hc'
    injection hc' with hc'
    subst hc' hf
    obtain ⟨_, _, hrec⟩ := get_queue_indices_consolidate_data _ _ _ _ _ _ _ hcons
    obtain ⟨e, he, hdata⟩ := (hrec 1 (true, c) rfl).1 rfl
    obtain ⟨he', _⟩ := replicate_entry _ _ _ he
    subst he'
    by_cases hcg : c = g
    · subst hcg
      simpa [compute_index, roles_in] using hdata
    · have hgc : ¬ g = c := fun h => hcg h.symm
      simpa [compute_index, roles_in, hcg, hgc] using hdata
  · intro hnone
    have hblock := get_queue_indices_compute_none _ hnone
    refine ⟨hblock, ?_, get_queue_indices_compute_none_ndebug _ hnone⟩
    simp [get_queue_indices, get_queue_indices_found, hlen,
      get_queue_indices_graphics_first false queue_families g hflags hg, hblock, cassert,
      bind, Except.bind, pure, Except.pure]

/-- Witness of C13: the three-family layout of the commented test of lines
432-444, whose graphics family is family 0. -/
theorem get_queue_indices_compute_role_witness :
    (∀ c, ComputeChoice (take_slot [⟨15, 16⟩, ⟨12, 2⟩, ⟨14, 8⟩] 0) c →
        get_queue_indices_compute false (take_slot [⟨15, 16⟩, ⟨12, 2⟩, ⟨14, 8⟩] 0)
            = .ok ((true, c), take_slot (take_slot [⟨15, 16⟩, ⟨12, 2⟩, ⟨14, 8⟩] 0) c)
          ∧ ∀ infos data,
              get_queue_indices false (fun _ => (VK_SUCCESS, true))
                [⟨15, 16⟩, ⟨12, 2⟩, ⟨14, 8⟩] QueueData.new = .ok (infos, data) →
              data.m_indicies[compute_index]? = some (c, if c = 0 then 1 else 0))
      ∧ ((∀ q ∈ take_slot [⟨15, 16⟩, ⟨12, 2⟩, ⟨14, 8⟩] 0,
            (has_capability q VK_QUEUE_COMPUTE_BIT && has_free_slot q) = false) →
          get_queue_indices_compute false (take_slot [⟨15, 16⟩, ⟨12, 2⟩, ⟨14, 8⟩] 0)
              = .error (.assertion "No compute queue found can't continue!")
            ∧ get_queue_indices false (fun _ => (VK_SUCCESS, true))
                [⟨15, 16⟩, ⟨12, 2⟩, ⟨14, 8⟩] QueueData.new
              = .error (.assertion "No compute queue found can't continue!")
            ∧ get_queue_indices_compute true (take_slot [⟨15, 16⟩, ⟨12, 2⟩, ⟨14, 8⟩] 0)
              = .ok ((false, 0), take_slot [⟨15, 16⟩, ⟨12, 2⟩, ⟨14, 8⟩] 0)) :=
  get_queue_indices_compute_role false (fun _ => (VK_SUCCESS, true))
    [⟨15, 16⟩, ⟨12, 2⟩, ⟨14, 8⟩] QueueData.new 0 (by decide)
    ⟨⟨15, 16⟩, rfl, by decide, fun j q' hj _ => absurd hj (Nat.not_lt_zero j)⟩

/-- C14 at a failing input. Three families, every one presentable: family 0
with graphics, compute and transfer capability and one queue, family 1 with
compute and transfer capability and two queues, family 2 with transfer
capability only and one queue. After graphics took family 0 and compute family
1, family 2 is the first (and only) family with a free slot, transfer
capability and neither compute nor graphics capability; the first transfer
search, whose exclusion list is `VK_QUEUE_COMPUTE_BIT | VK_QUEUE_GRAPHICS_BIT`,
passes family 1, which lacks only one of the two, and the plan records family
1, slot 1, for the transfer role. -/
theorem get_queue_indices_transfer_at_failing_input :
    FirstFamily (fun q => has_capability q VK_QUEUE_TRANSFER_BIT && has_free_slot q
        && !has_capability q VK_QUEUE_COMPUTE_BIT && !has_capability q VK_QUEUE_GRAPHICS_BIT)
        (take_slot (take_slot [⟨7, 1⟩, ⟨6, 2⟩, ⟨4, 1⟩] 0) 1) 2
      ∧ get_queue_indices_found false [⟨7, 1⟩, ⟨6, 2⟩, ⟨4, 1⟩]
        = .ok ([(true, 0), (true, 1), (true, 1), (false, 0), (false, 0)],
            [⟨7, 0⟩, ⟨6, 0⟩, ⟨4, 1⟩])
      ∧ get_queue_indices false (fun _ => (VK_SUCCESS, true)) [⟨7, 1⟩, ⟨6, 2⟩, ⟨4, 1⟩]
          QueueData.new
        = .ok ([⟨0, 1, [75]⟩, ⟨1, 2, [100, 50]⟩],
            ⟨[(0, 0), (1, 0), (1, 1), (0, 0), (0, 0)]⟩) := by
  refine ⟨⟨⟨4, 1⟩, by decide, by decide, ?_⟩, by decide, by decide⟩
  intro j q' hj hq'
  have hj' : j = 0 ∨ j = 1 := by omega
  rcases hj' with rfl | rfl
  · have : q' = ⟨7, 0⟩ := by
      have h0 : (take_slot (take_slot [⟨7, 1⟩, ⟨6, 2⟩, ⟨4, 1⟩] 0) 1)[0]?
          = some (⟨7, 0⟩ : VkQueueFamilyProperties) := by decide
      rw [h0] at hq'; injection hq' with hq'; exact hq'.symm
    subst this; decide
  · have : q' = ⟨6, 1⟩ := by
      have h1 : (take_slot (take_slot [⟨7, 1⟩, ⟨6, 2⟩, ⟨4, 1⟩] 0) 1)[1]?
          = some (⟨6, 1⟩ : VkQueueFamilyProperties) := by decide
      rw [h1] at hq'; injection hq' with hq'; exact hq'.symm
    subst this; decide

/-- C15 at a failing input. Two families, both presentable: family 0 with
compute capability and one queue, family 1 with graphics and compute capability
and two queues; no family has transfer capability. The graphics role gets
family 1, slot 0, and the compute role family 0, slot 0. The transfer fallback
copies the graphics family into `found_indices` but leaves the role as not
found, so the consolidation loop never writes its entry: the plan keeps the (0, 0) of the `QueueData` constructor for the
transfer role, which is the compute queue and not the (1, 0) of the graphics
role. No slot is taken for transfer. -/
theorem get_queue_indices_transfer_fallback_at_failing_input :
    (∀ q ∈ take_slot (take_slot [⟨2, 1⟩, ⟨3, 2⟩] 1) 0,
        (has_capability q VK_QUEUE_TRANSFER_BIT && has_free_slot q) = false)
      ∧ get_queue_indices_found false [⟨2, 1⟩, ⟨3, 2⟩]
        = .ok ([(true, 1), (true, 0), (false, 1), (false, 0), (false, 0)],
            [⟨2, 0⟩, ⟨3, 1⟩])
      ∧ get_queue_indices false (fun _ => (VK_SUCCESS, true)) [⟨2, 1⟩, ⟨3, 2⟩] QueueData.new
        = .ok ([⟨0, 1, [100]⟩, ⟨1, 1, [75]⟩],
            ⟨[(1, 0), (0, 0), (0, 0), (0, 0), (0, 0)]⟩) := by
  refine ⟨by decide, by decide, by decide⟩

/-- The role search on a single family with graphics, compute and transfer
capability and two queues: graphics and compute take the two queues, the
transfer role is not found and carries the graphics family. -/
theorem get_queue_indices_found_single_family (ndebug : Bool) (flags : Nat)
    (hflags : flags < 2 ^ 31)
    (hG : has_capability ⟨flags, 2⟩ VK_QUEUE_GRAPHICS_BIT = true)
    (hC : has_capability ⟨flags, 2⟩ VK_QUEUE_COMPUTE_BIT = true) :
    get_queue_indices_found ndebug [⟨flags, 2⟩]
      = .ok ([(true, 0), (true, 0), (false, 0), (false, 0), (false, 0)], [⟨flags, 0⟩]) := by
  simp only [has_capability] at hG hC
  have m1 : queue_family_matches VK_QUEUE_GRAPHICS_BIT (bit_not32 VK_QUEUE_GRAPHICS_BIT)
      ⟨flags, 2⟩ = true := by
    rw [queue_family_matches_bit_not32 _ (by decide) _ hflags]
    simp [has_capability, has_free_slot, hG]
  have m2 : queue_family_matches VK_QUEUE_COMPUTE_BIT VK_QUEUE_GRAPHICS_BIT ⟨flags, 1⟩
      = false := by
    simp [queue_family_matches, hG, hC]
  have m3 : queue_family_matches VK_QUEUE_COMPUTE_BIT (bit_not32 VK_QUEUE_GRAPHICS_BIT)
      ⟨flags, 1⟩ = true := by
    have hle : flags &&& bit_not32 VK_QUEUE_GRAPHICS_BIT ≤ flags := Nat.and_le_left
    have hne : (flags &&& bit_not32 VK_QUEUE_GRAPHICS_BIT
        == bit_not32 VK_QUEUE_GRAPHICS_BIT) = false := by
      rw [beq_eq_false_iff_ne]
      have : bit_not32 VK_QUEUE_GRAPHICS_BIT = 4294967294 := by decide
      omega
    simp [queue_family_matches, hC, hne]
  have m4 : ∀ a_queue_flag a_others, queue_family_matches a_queue_flag a_others ⟨flags, 0⟩
      = false := by
    intro a b
    simp [queue_family_matches]
  simp [get_queue_indices_found, get_queue_indices_graphics, get_queue_indices_compute,
    get_queue_indices_transfer, get_dedicated_queue_family, get_dedicated_queue_family_loop,
    m1, m2, m3, m4, cassert, bind, Except.bind, pure, Except.pure]

/-- C16 as stated fails. A single family with graphics, compute and transfer
capability, presentation support and three queues: the third transfer search
finds the family, the transfer role gets slot 2 while the graphics role has
slot 0, and the descriptor of the family requests three queues. -/
theorem get_queue_indices_single_family_three_queues :
    get_queue_indices false (fun _ => (VK_SUCCESS, true)) [⟨7, 3⟩] QueueData.new
      = .ok ([⟨0, 3, [75, 100, 50]⟩], ⟨[(0, 0), (0, 1), (0, 2), (0, 0), (0, 0)]⟩) := by
  decide

/-- The plan for a single family with graphics and compute capability and two
queues: family 0, slot 0, for the transfer role as for the graphics role, and
one descriptor that requests two queues of family 0, with the priorities of
graphics and compute. When the family supports presentation,
`get_queue_indices` returns this plan. -/
theorem get_queue_indices_single_family_two_queues (ndebug : Bool)
    (surface_support : Nat → VkResult × Bool) (flags : Nat)
    (hflags : flags < 2 ^ 31)
    (hG : has_capability ⟨flags, 2⟩ VK_QUEUE_GRAPHICS_BIT = true)
    (hC : has_capability ⟨flags, 2⟩ VK_QUEUE_COMPUTE_BIT = true) :
    (∀ infos data,
        get_queue_indices ndebug surface_support [⟨flags, 2⟩] QueueData.new
          = .ok (infos, data) →
        data.m_indicies[transfer_index]? = some (0, 0)
          ∧ data.m_indicies[graphics_index]? = some (0, 0)
          ∧ infos = [⟨0, 2, [75, 100]⟩])
      ∧ (surface_support 0 = (VK_SUCCESS, true) →
          get_queue_indices ndebug surface_support [⟨flags, 2⟩] QueueData.new
            = .ok ([⟨0, 2, [75, 100]⟩], ⟨[(0, 0), (0, 1), (0, 0), (0, 0), (0, 0)]⟩)) := by
  have hfound := get_queue_indices_found_single_family ndebug flags hflags hG hC
  have hcons : get_queue_indices_consolidate ndebug
      [(true, 0), (true, 0), (false, 0), (false, 0), (false, 0)] 0
      (List.replicate 1 (none, []), QueueData.new)
      = .ok ([(some 0, [75, 100])], ⟨[(0, 0), (0, 1), (0, 0), (0, 0), (0, 0)]⟩) := by
    cases ndebug <;> decide
  constructor
  · intro infos data h
    obtain ⟨found, families, cf, hf, hc, hi⟩ := get_queue_indices_ok_parts _ _ _ _ _ _ h
    rw [hfound] at hf
    injection hf with hf
    injection hf with hf1 hf2
    subst hf1
    simp only [List.length_singleton] at hc
    rw [hcons] at hc
    injection hc with hc
    injection hc with hc1 hc2
    subst hc1 hc2 hi
    exact ⟨by decide, by decide, by decide⟩
  · intro hss
    simp only [get_queue_indices, hfound, List.length_singleton, hcons, bind, Except.bind]
    simp [get_queue_indices_present, QueueData.new, all_family_flags, graphics_index,
      compute_index, hss, cassert, bind, Except.bind, pure, Except.pure,
      get_queue_indices_infos, VK_SUCCESS]

/-- The role search on a single family with graphics capability and one queue,
asserts compiled out: graphics takes the queue and no other role is found; the
transfer role carries the graphics family. With asserts enabled the search
fails. -/
theorem get_queue_indices_found_single_family_one_queue (flags : Nat)
    (hflags : flags < 2 ^ 31)
    (hG : has_capability ⟨flags, 1⟩ VK_QUEUE_GRAPHICS_BIT = true) :
    get_queue_indices_found true [⟨flags, 1⟩]
        = .ok ([(true, 0), (false, 0), (false, 0), (false, 0), (false, 0)], [⟨flags, 0⟩])
      ∧ ∃ e, get_queue_indices_found false [⟨flags, 1⟩] = .error e := by
  simp only [has_capability] at hG
  have m1 : queue_family_matches VK_QUEUE_GRAPHICS_BIT (bit_not32 VK_QUEUE_GRAPHICS_BIT)
      ⟨flags, 1⟩ = true := by
    rw [queue_family_matches_bit_not32 _ (by decide) _ hflags]
    simp [has_capability, has_free_slot, hG]
  have m4 : ∀ a_queue_flag a_others, queue_family_matches a_queue_flag a_others ⟨flags, 0⟩
      = false := by
    intro a b
    simp [queue_family_matches]
  constructor
  · simp [get_queue_indices_found, get_queue_indices_graphics, get_queue_indices_compute,
      get_queue_indices_transfer, get_dedicated_queue_family, get_dedicated_queue_family_loop,
      m1, m4, cassert, bind, Except.bind, pure, Except.pure]
  · refine ⟨.assertion "No compute queue found can't continue!", ?_⟩
    simp [get_queue_indices_found, get_queue_indices_graphics, get_queue_indices_compute,
      get_dedicated_queue_family, get_dedicated_queue_family_loop,
      m1, m4, cassert, bind, Except.bind, pure, Except.pure]

/-- The role search on a single family without a queue, asserts compiled out:
no role is found. With asserts enabled the search fails. -/
theorem get_queue_indices_found_single_family_no_queue (flags : Nat) :
    get_queue_indices_found true [⟨flags, 0⟩]
        = .ok ([(false, 0), (false, 0), (false, 0), (false, 0), (false, 0)], [⟨flags, 0⟩])
      ∧ ∃ e, get_queue_indices_found false [⟨flags, 0⟩] = .error e := by
  have m4 : ∀ a_queue_flag a_others, queue_family_matches a_queue_flag a_others ⟨flags, 0⟩
      = false := by
    intro a b
    simp [queue_family_matches]
  constructor
  · simp [get_queue_indices_found, get_queue_indices_graphics, get_queue_indices_compute,
      get_queue_indices_transfer, get_dedicated_queue_family, get_dedicated_queue_family_loop,
      m4, cassert, bind, Except.bind, pure, Except.pure]
  · refine ⟨.assertion "No graphics queue found can't continue!", ?_⟩
    simp [get_queue_indices_found, get_queue_indices_graphics,
      get_dedicated_queue_family, get_dedicated_queue_family_loop,
      m4, cassert, bind, Except.bind, pure, Except.pure]

/-- C16, amended: for a device whose only queue family has graphics and compute
capability, with or without transfer capability (valid flags, below `2 ^ 31`),
and at most two queues, every plan that `get_queue_indices` returns records
family 0, slot 0, for the transfer role as for the graphics role, and requests
for family 0 as many queues as the family has, with the priorities of graphics
and of compute: none for transfer. With two queues and presentation support
`get_queue_indices` returns this plan; with one queue it returns it when
asserts are compiled out. -/
theorem get_queue_indices_single_family_at_most_two_queues (ndebug : Bool)
    (surface_support : Nat → VkResult × Bool) (flags count : Nat)
    (hflags : flags < 2 ^ 31)
    (hG : has_capability ⟨flags, count⟩ VK_QUEUE_GRAPHICS_BIT = true)
    (hC : has_capability ⟨flags, count⟩ VK_QUEUE_COMPUTE_BIT = true)
    (hcount : count ≤ 2) :
    (∀ infos data,
        get_queue_indices ndebug surface_support [⟨flags, count⟩] QueueData.new
          = .ok (infos, data) →
        data.m_indicies[transfer_index]? = some (0, 0)
          ∧ data.m_indicies[graphics_index]? = some (0, 0)
          ∧ infos = if count = 0 then [] else [⟨0, count, [75, 100].take count⟩])
      ∧ (count = 2 → surface_support 0 = (VK_SUCCESS, true) →
          get_queue_indices ndebug surface_support [⟨flags, count⟩] QueueData.new
            = .ok ([⟨0, 2, [75, 100]⟩], ⟨[(0, 0), (0, 1), (0, 0), (0, 0), (0, 0)]⟩))
      ∧ (count = 1 →
          get_queue_indices true surface_support [⟨flags, count⟩] QueueData.new
            = .ok ([⟨0, 1, [75]⟩], ⟨[(0, 0), (0, 0), (0, 0), (0, 0), (0, 0)]⟩)) := by
  have hone : count = 1 →
      get_queue_indices true surface_support [⟨flags, count⟩] QueueData.new
        = .ok ([⟨0, 1, [75]⟩], ⟨[(0, 0), (0, 0), (0, 0), (0, 0), (0, 0)]⟩) := by
    intro h1
    subst h1
    have hfound := (get_queue_indices_found_single_family_one_queue flags hflags hG).1
    have hcons : get_queue_indices_consolidate true
        [(true, 0), (false, 0), (false, 0), (false, 0), (false, 0)] 0
        (List.replicate 1 (none, []), QueueData.new)
        = .ok ([(some 0, [75])], ⟨[(0, 0), (0, 0), (0, 0), (0, 0), (0, 0)]⟩) := by
      decide
    simp only [get_queue_indices, hfound, List.length_singleton, hcons, bind, Except.bind]
    simp [get_queue_indices_present, graphics_index, compute_index, cassert, bind,
      Except.bind, pure, Except.pure, get_queue_indices_infos]
  have hzero : count = 0 →
      get_queue_indices true surface_support [⟨flags, count⟩] QueueData.new
        = .ok ([], ⟨[(0, 0), (0, 0), (0, 0), (0, 0), (0, 0)]⟩) := by
    intro h0
    subst h0
    have hfound := (get_queue_indices_found_single_family_no_queue flags).1
    have hcons : get_queue_indices_consolidate true
        [(false, 0), (false, 0), (false, 0), (false, 0), (false, 0)] 0
        (List.replicate 1 (none, []), QueueData.new)
        = .ok ([(none, [])], ⟨[(0, 0), (0, 0), (0, 0), (0, 0), (0, 0)]⟩) := by
      decide
    simp only [get_queue_indices, hfound, List.length_singleton, hcons, bind, Except.bind]
    simp [get_queue_indices_present, graphics_index, compute_index, cassert, bind,
      Except.bind, pure, Except.pure, get_queue_indices_infos]
  refine ⟨?_, ?_, hone⟩
  · intro infos data h
    have hcases : count = 0 ∨ count = 1 ∨ count = 2 := by omega
    rcases hcases with h0 | h1 | h2
    · cases ndebug with
      | false =>
        subst h0
        obtain ⟨e, he⟩ := (get_queue_indices_found_single_family_no_queue flags).2
        simp [get_queue_indices, he, bind, Except.bind] at h
      | true =>
        rw [hzero h0] at h
        injection h with h
        injection h with hi hd
        subst hi hd h0
        exact ⟨by decide, by decide, by simp⟩
    · cases ndebug with
      | false =>
        subst h1
        obtain ⟨e, he⟩ := (get_queue_indices_found_single_family_one_queue flags hflags hG).2
        simp [get_queue_indices, he, bind, Except.bind] at h
      | true =>
        rw [hone h1] at h
        injection h with h
        injection h with hi hd
        subst hi hd h1
        exact ⟨by decide, by decide, by simp⟩
    · subst h2
      obtain ⟨ht, hg, hi⟩ := (get_queue_indices_single_family_two_queues ndebug
        surface_support flags hflags hG hC).1 infos data h
      exact ⟨ht, hg, by rw [hi]; simp⟩
  · intro h2 hss
    subst h2
    exact (get_queue_indices_single_family_two_queues ndebug surface_support flags hflags
      hG hC).2 hss

/-- Witness of C16, amended: one family with graphics, compute and transfer
capability and one queue, asserts compiled out. -/
theorem get_queue_indices_single_family_at_most_two_queues_witness :
    (7 < 2 ^ 31 ∧ has_capability ⟨7, 1⟩ VK_QUEUE_GRAPHICS_BIT = true
        ∧ has_capability ⟨7, 1⟩ VK_QUEUE_COMPUTE_BIT = true ∧ 1 ≤ 2)
      ∧ get_queue_indices true (fun _ => (VK_SUCCESS, true)) [⟨7, 1⟩] QueueData.new
        = .ok ([⟨0, 1, [75]⟩], ⟨[(0, 0), (0, 0), (0, 0), (0, 0), (0, 0)]⟩) :=
  ⟨⟨by decide, by decide, by decide, by decide⟩,
    (get_queue_indices_single_family_at_most_two_queues true (fun _ => (VK_SUCCESS, true)) 7 1
      (by decide) (by decide) (by decide) (by decide)).2.2 rfl⟩

/-- The priority that `get_priority` gives to the flag of a role is the fixed
priority of that role. -/
theorem get_priority_role (priority_index flag : Nat)
    (h : all_family_flags[priority_index]? = some flag) :
    get_priority flag = role_priorities.getD priority_index 0 := by
  have hlt : priority_index < 5 := getElem?_lt_length h
  interval_cases priority_index <;>
    · simp only [all_family_flags] at h
      injection h with h
      subst h
      decide

/-- The consolidation loop appends to the entry of a family the priorities of
the roles found in it, in role order. -/
theorem get_queue_indices_consolidate_priorities (ndebug : Bool) (found : List (Bool × Nat)) :
    ∀ (priority_index : Nat) (cf : List (Option Nat × List Nat)) (data : QueueData)
      (cf' : List (Option Nat × List Nat)) (data' : QueueData),
      get_queue_indices_consolidate ndebug found priority_index (cf, data) = .ok (cf', data') →
      ∀ (f : Nat) (e' : Option Nat × List Nat), cf'[f]? = some e' →
        ∃ e, cf[f]? = some e ∧ e'.2 = e.2 ++ priorities_in found priority_index f := by
  induction found with
  | nil =>
    intro k cf data cf' data' h f e' he'
    simp only [get_queue_indices_consolidate, pure, Except.pure] at h
    injection h with h
    injection h with h1 h2
    subst h1
    exact ⟨e', he', by simp [priorities_in]⟩
  | cons index rest ih =>
    intro k cf data cf' data' h f e' he'
    by_cases hfound : index.1 = true
    · simp only [get_queue_indices_consolidate, hfound, if_true] at h
      cases hentry : cf[index.2]? with
      | none => simp [hentry, throw, throwThe, MonadExceptOf.throw] at h
      | some entry =>
        cases hflag : all_family_flags[k]? with
        | none => simp [hentry, hflag, throw, throwThe, MonadExceptOf.throw] at h
        | some flag =>
          simp only [hentry, hflag, except_bind_ok] at h
          obtain ⟨_, _, h⟩ := h
          by_cases hk : k < data.m_indicies.length
          · simp only [hk, if_true] at h
            have hlt : index.2 < cf.length := getElem?_lt_length hentry
            obtain ⟨e1, he1, happ⟩ := ih _ _ _ _ _ h f e' he'
            by_cases hf : index.2 = f
            · subst hf
              rw [List.getElem?_set_self hlt] at he1
              injection he1 with he1
              subst he1
              refine ⟨entry, hentry, ?_⟩
              rw [happ, get_priority_role k flag hflag]
              simp [priorities_in, hfound]
            · rw [List.getElem?_set_ne hf] at he1
              refine ⟨e1, he1, ?_⟩
              rw [happ]
              simp [priorities_in, hf]
          · simp [hk, throw, throwThe, MonadExceptOf.throw] at h
    · have hnf : index.1 = false := by simpa using hfound
      simp only [get_queue_indices_consolidate, hnf, Bool.false_eq_true, if_false] at h
      obtain ⟨e1, he1, happ⟩ := ih _ _ _ _ _ h f e' he'
      refine ⟨e1, he1, ?_⟩
      rw [happ]
      simp [priorities_in, hnf]

/-- The priority of a role found in family `f` stands, in the priorities of the
family, at the position given by the number of earlier roles found in `f`. -/
theorem priorities_in_getElem? (found : List (Bool × Nat)) :
    ∀ (priority_index role f : Nat), found[role]? = some (true, f) →
      (priorities_in found priority_index f)[roles_in (found.take role) f]?
        = some (role_priorities.getD (priority_index + role) 0) := by
  induction found with
  | nil => intro k role f h; simp at h
  | cons index rest ih =>
    intro k role f h
    cases role with
    | zero =>
      simp only [List.getElem?_cons_zero, Option.some.injEq] at h
      subst h
      simp [priorities_in, roles_in]
    | succ role =>
      simp only [List.getElem?_cons_succ] at h
      have hrec := ih (k + 1) role f h
      rw [List.take_succ_cons, roles_in_cons]
      by_cases hp : index.1 = true ∧ index.2 = f
      · simp only [hp, and_self, if_true]
        simp only [priorities_in, hp.1, hp.2, beq_self_eq_true, Bool.and_self, if_true,
          List.singleton_append, List.getElem?_cons_succ]
        rw [hrec]
        congr 2
        omega
      · simp only [hp, if_false, Nat.add_zero]
        have hb : (index.1 && index.2 == f) = false := by
          rw [Bool.and_eq_false_iff]
          by_cases h1 : index.1 = true
          · right
            have : ¬ index.2 = f := fun h2 => hp ⟨h1, h2⟩
            simpa using this
          · left; simpa using h1
        simp only [priorities_in, hb, Bool.false_eq_true, if_false, List.nil_append]
        rw [hrec]
        congr 2
        omega

/-- The number of priorities of a family is the number of roles found in it. -/
theorem priorities_in_length (found : List (Bool × Nat)) :
    ∀ (priority_index f : Nat),
      (priorities_in found priority_index f).length = roles_in found f := by
  induction found with
  | nil => intro k f; simp [priorities_in, roles_in]
  | cons index rest ih =>
    intro k f
    rw [roles_in_cons]
    simp only [priorities_in, List.length_append, ih]
    by_cases hp : index.1 = true ∧ index.2 = f
    · simp [hp.1, hp.2]; omega
    · simp only [hp, if_false]
      have hb : (index.1 && index.2 == f) = false := by
        rw [Bool.and_eq_false_iff]
        by_cases h1 : index.1 = true
        · right
          have : ¬ index.2 = f := fun h2 => hp ⟨h1, h2⟩
          simpa using this
        · left; simpa using h1
      simp [hb]

/-- Every number below the number of roles found in a family is the number of
earlier roles of one role found in it. -/
theorem roles_in_surjective (found : List (Bool × Nat)) :
    ∀ (f s : Nat), s < roles_in found f →
      ∃ role, found[role]? = some (true, f) ∧ roles_in (found.take role) f = s := by
  induction found with
  | nil => intro f s h; simp [roles_in] at h
  | cons index rest ih =>
    intro f s h
    rw [roles_in_cons] at h
    by_cases hp : index.1 = true ∧ index.2 = f
    · simp only [hp, and_self, if_true] at h
      cases s with
      | zero =>
        refine ⟨0, ?_, by simp [roles_in]⟩
        simp only [List.getElem?_cons_zero, Option.some.injEq]
        exact Prod.ext hp.1 hp.2
      | succ s =>
        obtain ⟨role, hr, hs⟩ := ih f s (by omega)
        refine ⟨role + 1, by simpa using hr, ?_⟩
        rw [List.take_succ_cons, roles_in_cons, hs]
        simp [hp.1, hp.2]
    · simp only [hp, if_false, Nat.add_zero] at h
      obtain ⟨role, hr, hs⟩ := ih f s h
      refine ⟨role + 1, by simpa using hr, ?_⟩
      rw [List.take_succ_cons, roles_in_cons, hs]
      simp [hp]

/-- The entry of a family in which no role was found is not touched by the
consolidation loop. -/
theorem get_queue_indices_consolidate_untouched (ndebug : Bool) (found : List (Bool × Nat)) :
    ∀ (priority_index : Nat) (cf : List (Option Nat × List Nat)) (data : QueueData)
      (cf' : List (Option Nat × List Nat)) (data' : QueueData),
      get_queue_indices_consolidate ndebug found priority_index (cf, data) = .ok (cf', data') →
      ∀ (f : Nat), roles_in found f = 0 → cf'[f]? = cf[f]? := by
  induction found with
  | nil =>
    intro k cf data cf' data' h f _
    simp only [get_queue_indices_consolidate, pure, Except.pure] at h
    injection h with h
    injection h with h1 h2
    subst h1
    rfl
  | cons index rest ih =>
    intro k cf data cf' data' h f hroles
    rw [roles_in_cons] at hroles
    have hrest : roles_in rest f = 0 := by omega
    have hp : ¬ (index.1 = true ∧ index.2 = f) := by
      intro hp
      simp only [hp, and_self, if_true] at hroles
      omega
    by_cases hfound : index.1 = true
    · simp only [get_queue_indices_consolidate, hfound, if_true] at h
      cases hentry : cf[index.2]? with
      | none => simp [hentry, throw, throwThe, MonadExceptOf.throw] at h
      | some entry =>
        cases hflag : all_family_flags[k]? with
        | none => simp [hentry, hflag, throw, throwThe, MonadExceptOf.throw] at h
        | some flag =>
          simp only [hentry, hflag, except_bind_ok] at h
          obtain ⟨_, _, h⟩ := h
          by_cases hk : k < data.m_indicies.length
          · simp only [hk, if_true] at h
            have hf : ¬ index.2 = f := fun h2 => hp ⟨hfound, h2⟩
            rw [ih _ _ _ _ _ h f hrest, List.getElem?_set_ne hf]
          · simp [hk, throw, throwThe, MonadExceptOf.throw] at h
    · have hnf : index.1 = false := by simpa using hfound
      simp only [get_queue_indices_consolidate, hnf, Bool.false_eq_true, if_false] at h
      exact ih _ _ _ _ _ h f hrest

/-- Every descriptor comes from an entry that has a value. -/
theorem get_queue_indices_infos_from :
    ∀ (cf : List (Option Nat × List Nat)) (info : VkDeviceQueueCreateInfo),
      info ∈ get_queue_indices_infos cf →
      ∃ (f : Nat) (e : Option Nat × List Nat) (value : Nat), cf[f]? = some e ∧ e.1 = some value
        ∧ info = ⟨value, e.2.length, e.2⟩ := by
  intro cf
  induction cf with
  | nil => intro info h; simp [get_queue_indices_infos] at h
  | cons e0 rest ih =>
    intro info h
    cases hv : e0.1 with
    | none =>
      simp only [get_queue_indices_infos, hv] at h
      obtain ⟨f, e, value, he, hval, hinfo⟩ := ih info h
      exact ⟨f + 1, e, value, by rw [List.getElem?_cons_succ]; exact he, hval, hinfo⟩
    | some value =>
      simp only [get_queue_indices_infos, hv, List.mem_cons] at h
      rcases h with h | h
      · exact ⟨0, e0, value, List.getElem?_cons_zero, hv, h⟩
      · obtain ⟨f, e, value', he, hval, hinfo⟩ := ih info h
        exact ⟨f + 1, e, value', by rw [List.getElem?_cons_succ]; exact he, hval, hinfo⟩


/-- C17. For every plan that `get_queue_indices` returns, with `found` the
result of its role search (a role is assigned when its search found a family):
the descriptors have strictly increasing family indices, so at most one per
family; a family has a descriptor exactly when at least one role was found in
it; the `queueCount` of a descriptor is the number of roles found in its family
and its priority array lists the fixed priorities of those roles (graphics
0.75, compute 1.00, transfer 0.50, sparse 0.20, protected 0.10, in hundredths)
in role order; the plan records for every role found its family and, as slot,
the number of earlier roles found in the same family, which is the position of
the priority of the role in the array of the descriptor of the family; and
every slot below the `queueCount` of a descriptor is the recorded slot of one
role found in its family. -/
theorem get_queue_indices_descriptors (ndebug : Bool)
    (surface_support : Nat → VkResult × Bool)
    (queue_families : List VkQueueFamilyProperties) (a_queue_data : QueueData)
    (infos : List VkDeviceQueueCreateInfo) (data : QueueData)
    (h : get_queue_indices ndebug surface_support queue_families a_queue_data
      = .ok (infos, data)) :
    ∃ found families, get_queue_indices_found ndebug queue_families = .ok (found, families)
      ∧ (infos.map (·.queueFamilyIndex)).Pairwise (· < ·)
      ∧ (∀ f, (∃ info ∈ infos, info.queueFamilyIndex = f) ↔ 0 < roles_in found f)
      ∧ (∀ info ∈ infos, info.queueCount = roles_in found info.queueFamilyIndex
          ∧ info.pQueuePriorities = priorities_in found 0 info.queueFamilyIndex)
      ∧ (∀ (role f : Nat), found[role]? = some (true, f) →
          data.m_indicies[role]? = some (f, roles_in (found.take role) f)
            ∧ ∃ info ∈ infos, info.queueFamilyIndex = f
              ∧ roles_in (found.take role) f < info.queueCount
              ∧ info.pQueuePriorities[roles_in (found.take role) f]?
                = some (role_priorities.getD role 0))
      ∧ ∀ info ∈ infos, ∀ s : Nat, s < info.queueCount →
          ∃ role : Nat, found[role]? = some (true, info.queueFamilyIndex)
            ∧ data.m_indicies[role]? = some (info.queueFamilyIndex, s) := by
  obtain ⟨found, families, cf, hfound, hcons, hinfos⟩ :=
    get_queue_indices_ok_parts _ _ _ _ _ _ h
  subst hinfos
  obtain ⟨⟨_, _, hbound⟩, _⟩ := get_queue_indices_found_slots _ _ _ _ hfound
  have hinit : ∀ (f : Nat) (e : Option Nat × List Nat),
      (List.replicate queue_families.length ((none : Option Nat), ([] : List Nat)))[f]? = some e →
        e.1 = none ∨ e.1 = some f := by
    intro f e he
    rw [(replicate_entry _ _ _ he).1]; left; rfl
  obtain ⟨hcflen, hcf⟩ := get_queue_indices_consolidate_spec _ _ _ _ _ _ _ hcons hinit
  have hprio := get_queue_indices_consolidate_priorities _ _ _ _ _ _ _ hcons
  have hsame := get_queue_indices_consolidate_untouched _ _ _ _ _ _ _ hcons
  obtain ⟨_, _, hrec⟩ := get_queue_indices_consolidate_data _ _ _ _ _ _ _ hcons
  have hcf0 : ∀ (f : Nat) (e : Option Nat × List Nat), cf[f]? = some e →
      e.1 = none ∨ e.1 = some (0 + f) := by
    intro f e he
    simpa using (hcf f e he).1
  obtain ⟨_, hpair, _⟩ := get_queue_indices_infos_spec cf 0 hcf0
  -- what an entry of the consolidated families holds
  have hentry : ∀ (f : Nat) (e : Option Nat × List Nat), cf[f]? = some e →
      e.2 = priorities_in found 0 f ∧ (e.1 = none ∨ e.1 = some f)
        ∧ (e.1 = none → roles_in found f = 0) ∧ (roles_in found f = 0 → e.1 = none) := by
    intro f e he
    obtain ⟨e0, he0, happ⟩ := hprio f e he
    obtain ⟨hval, _, _, _, hnone⟩ := hcf f e he
    rw [(replicate_entry _ _ _ he0).1] at happ
    refine ⟨by simpa using happ, hval, fun hn => (hnone hn).2, fun hz => ?_⟩
    have := hsame f hz
    rw [he, he0, (replicate_entry _ _ _ he0).1] at this
    injection this with this
    rw [this]
  -- a descriptor is the one of its family
  have hdesc : ∀ info ∈ get_queue_indices_infos cf,
      ∃ e, cf[info.queueFamilyIndex]? = some e ∧ e.1 = some info.queueFamilyIndex
        ∧ info.queueCount = e.2.length ∧ info.pQueuePriorities = e.2 := by
    intro info hinfo
    obtain ⟨f, e, value, he, hval, hi⟩ := get_queue_indices_infos_from cf info hinfo
    have hvf : value = f := by
      rcases (hentry f e he).2.1 with hn | hs
      · rw [hn] at hval; cases hval
      · rw [hs] at hval; injection hval with hval; exact hval.symm
    subst hvf hi
    exact ⟨e, he, hval, rfl, rfl⟩
  -- a family with a role has a descriptor
  have hhas : ∀ f, 0 < roles_in found f →
      ∃ info ∈ get_queue_indices_infos cf, info.queueFamilyIndex = f
        ∧ info.queueCount = roles_in found f
        ∧ info.pQueuePriorities = priorities_in found 0 f := by
    intro f hpos
    obtain ⟨index, hmem, hp⟩ := List.countP_pos_iff.mp hpos
    simp only [Bool.and_eq_true, beq_iff_eq] at hp
    have hlt : f < cf.length := by
      rw [hcflen, List.length_replicate, ← hp.2]
      exact hbound index hmem hp.1
    obtain ⟨hprios, hval, hnone, _⟩ := hentry f cf[f] (List.getElem?_eq_getElem hlt)
    have hsome : (cf[f]).1 = some f := by
      rcases hval with hn | hs
      · have := hnone hn; omega
      · exact hs
    refine ⟨_, get_queue_indices_infos_mem cf f cf[f] f (List.getElem?_eq_getElem hlt) hsome,
      rfl, ?_, hprios⟩
    show (cf[f]).2.length = roles_in found f
    rw [hprios, priorities_in_length]
  have hcount : ∀ info ∈ get_queue_indices_infos cf,
      info.queueCount = roles_in found info.queueFamilyIndex
        ∧ info.pQueuePriorities = priorities_in found 0 info.queueFamilyIndex := by
    intro info hinfo
    obtain ⟨e, he, _, hc, hp⟩ := hdesc info hinfo
    obtain ⟨hprios, _⟩ := hentry _ e he
    refine ⟨?_, by rw [hp, hprios]⟩
    rw [hc, hprios, priorities_in_length]
  have hrole : ∀ (role f : Nat), found[role]? = some (true, f) →
      data.m_indicies[role]? = some (f, roles_in (found.take role) f) := by
    intro role f hr
    obtain ⟨e, he, hd⟩ := (hrec role (true, f) hr).1 rfl
    rw [(replicate_entry _ _ _ he).1] at hd
    simpa using hd
  refine ⟨found, families, hfound, hpair, ?_, hcount, ?_, ?_⟩
  · intro f
    constructor
    · rintro ⟨info, hinfo, hf⟩
      obtain ⟨e, he, hval, _⟩ := hdesc info hinfo
      obtain ⟨_, _, _, hz⟩ := hentry _ e he
      rcases Nat.eq_zero_or_pos (roles_in found f) with h0 | hpos
      · rw [← hf] at h0
        have := hz h0
        rw [this] at hval; cases hval
      · exact hpos
    · intro hpos
      obtain ⟨info, hinfo, hf, _⟩ := hhas f hpos
      exact ⟨info, hinfo, hf⟩
  · intro role f hr
    refine ⟨hrole role f hr, ?_⟩
    have hget := priorities_in_getElem? found 0 role f hr
    have hslot : roles_in (found.take role) f < roles_in found f := by
      have := getElem?_lt_length hget
      rwa [priorities_in_length] at this
    obtain ⟨info, hinfo, hf, hc, hp⟩ := hhas f (by omega)
    refine ⟨info, hinfo, hf, by rw [hc]; exact hslot, ?_⟩
    rw [hp, hget]
    simp
  · intro info hinfo s hs
    rw [(hcount info hinfo).1] at hs
    obtain ⟨role, hr, hsl⟩ := roles_in_surjective found _ s hs
    exact ⟨role, hr, by rw [hrole role _ hr, hsl]⟩

/-- Witness of C17: the three-family layout of the commented test of lines
432-444, every family presentable. -/
theorem get_queue_indices_descriptors_witness :
    ∃ found families,
      get_queue_indices_found false [⟨15, 16⟩, ⟨12, 2⟩, ⟨14, 8⟩] = .ok (found, families)
      ∧ (([⟨0, 2, [75, 20]⟩, ⟨1, 1, [50]⟩, ⟨2, 1, [100]⟩] : List VkDeviceQueueCreateInfo).map
          (·.queueFamilyIndex)).Pairwise (· < ·)
      ∧ (∀ f, (∃ info ∈ ([⟨0, 2, [75, 20]⟩, ⟨1, 1, [50]⟩, ⟨2, 1, [100]⟩] :
            List VkDeviceQueueCreateInfo), info.queueFamilyIndex = f) ↔ 0 < roles_in found f)
      ∧ (∀ info ∈ ([⟨0, 2, [75, 20]⟩, ⟨1, 1, [50]⟩, ⟨2, 1, [100]⟩] :
            List VkDeviceQueueCreateInfo),
          info.queueCount = roles_in found info.queueFamilyIndex
            ∧ info.pQueuePriorities = priorities_in found 0 info.queueFamilyIndex)
      ∧ (∀ (role f : Nat), found[role]? = some (true, f) →
          (⟨[(0, 0), (2, 0), (1, 0), (0, 1), (0, 0)]⟩ : QueueData).m_indicies[role]?
              = some (f, roles_in (found.take role) f)
            ∧ ∃ info ∈ ([⟨0, 2, [75, 20]⟩, ⟨1, 1, [50]⟩, ⟨2, 1, [100]⟩] :
                List VkDeviceQueueCreateInfo), info.queueFamilyIndex = f
              ∧ roles_in (found.take role) f < info.queueCount
              ∧ info.pQueuePriorities[roles_in (found.take role) f]?
                = some (role_priorities.getD role 0))
      ∧ ∀ info ∈ ([⟨0, 2, [75, 20]⟩, ⟨1, 1, [50]⟩, ⟨2, 1, [100]⟩] :
            List VkDeviceQueueCreateInfo), ∀ s : Nat, s < info.queueCount →
          ∃ role : Nat, found[role]? = some (true, info.queueFamilyIndex)
            ∧ (⟨[(0, 0), (2, 0), (1, 0), (0, 1), (0, 0)]⟩ : QueueData).m_indicies[role]?
              = some (info.queueFamilyIndex, s) :=
  get_queue_indices_descriptors false (fun _ => (VK_SUCCESS, true))
    [⟨15, 16⟩, ⟨12, 2⟩, ⟨14, 8⟩] QueueData.new
    [⟨0, 2, [75, 20]⟩, ⟨1, 1, [50]⟩, ⟨2, 1, [100]⟩]
    ⟨[(0, 0), (2, 0), (1, 0), (0, 1), (0, 0)]⟩ (by decide)

/-- C18 at a failing input. Three families, every one presentable: family 0
with graphics, compute, transfer and sparse capability and 16 queues, family 1
with video decode capability only (flag `0x20`) and one queue, family 2 with
compute, transfer and sparse capability and 8 queues. The plan has descriptors
for families 0 and 2 only and records family 2 for the compute and transfer
roles; `create_device` uses the recorded family as position in the descriptor
list, and `queues[2]` is past the end of the two descriptors. On the commented
test layout of lines 432-444, where every family has a role, descriptor `i` is
the one of family `i` and the queues are retrieved as the plan records them. -/
theorem create_device_at_failing_input :
    get_queue_indices false (fun _ => (VK_SUCCESS, true)) [⟨15, 16⟩, ⟨32, 1⟩, ⟨14, 8⟩]
        QueueData.new
      = .ok ([⟨0, 2, [75, 20]⟩, ⟨2, 2, [100, 50]⟩],
          ⟨[(0, 0), (2, 0), (2, 1), (0, 1), (0, 0)]⟩)
      ∧ create_device_queue [⟨0, 2, [75, 20]⟩, ⟨2, 2, [100, 50]⟩]
          ⟨[(0, 0), (2, 0), (2, 1), (0, 1), (0, 0)]⟩ compute_index
        = .error (.out_of_bounds "queues")
      ∧ create_device false (fun _ => (VK_SUCCESS, true)) [⟨15, 16⟩, ⟨32, 1⟩, ⟨14, 8⟩]
          VK_SUCCESS
        = .error (.out_of_bounds "queues")
      ∧ create_device true (fun _ => (VK_SUCCESS, true)) [⟨15, 16⟩, ⟨32, 1⟩, ⟨14, 8⟩]
          VK_SUCCESS
        = .error (.out_of_bounds "queues")
      ∧ create_device false (fun _ => (VK_SUCCESS, true)) [⟨15, 16⟩, ⟨12, 2⟩, ⟨14, 8⟩]
          VK_SUCCESS
        = .ok { m_graphics_queue := (0, 0), m_compute_queue := (2, 0),
                m_transfer_queue := (1, 0), m_sparse_queue := (0, 1),
                m_protected_queue := (0, 0), m_present_queue := (0, 0),
                m_graphics_queue_index := 0, m_present_queue_index := 0,
                m_transfer_queue_index := 1, m_compute_queue_index := 2 } := by
  refine ⟨by decide, by decide, by decide, by decide, by decide⟩

theorem upload_bind_def {α β : Type} (m : Upload α) (f : α → Upload β) :
    (m >>= f) = Upload.bind m f := rfl

theorem upload_pure_def {α : Type} (a : α) : @Pure.pure Upload _ α a = ([], .ok a) := rfl

theorem upload_bind_ok {α β : Type} (calls : List Command) (a : α) (f : α → Upload β) :
    Upload.bind (calls, .ok a) f = (calls ++ (f a).1, (f a).2) := rfl

theorem upload_bind_error {α β : Type} (calls : List Command) (e : Failure)
    (f : α → Upload β) :
    Upload.bind (calls, (.error e : Except Failure α)) f = (calls, .error e) := rfl

/-- The calls of `begin_single_use_cmd_buffer` when the allocation succeeds. -/
theorem begin_single_use_cmd_buffer_eq (ndebug : Bool) (drv : UploadDriver)
    (halloc : drv.allocate_result = VK_SUCCESS) :
    begin_single_use_cmd_buffer ndebug drv
      = ([.vkAllocateCommandBuffers, .vkBeginCommandBuffer drv.staging_command_buffer],
        .ok drv.staging_command_buffer) := by
  cases ndebug <;>
    simp [begin_single_use_cmd_buffer, upload_bind_def, Upload.call, Upload.assert, cassert,
      halloc, upload_bind_ok, upload_pure_def]

/-- The calls of `end_single_use_cmd_buffer`. -/
theorem end_single_use_cmd_buffer_eq (a_command_buffer : Nat) :
    end_single_use_cmd_buffer a_command_buffer
      = ([.vkEndCommandBuffer a_command_buffer, .vkQueueSubmit a_command_buffer,
          .vkQueueWaitIdle, .vkFreeCommandBuffers a_command_buffer], .ok ()) := by
  simp [end_single_use_cmd_buffer, upload_bind_def, Upload.call, upload_bind_ok]

/-- The calls of the transition from UNDEFINED to TRANSFER_DST_OPTIMAL. -/
theorem transition_image_layout_to_transfer (ndebug : Bool) (drv : UploadDriver)
    (a_image a_format a_mip_levels : Nat) (halloc : drv.allocate_result = VK_SUCCESS) :
    transition_image_layout ndebug drv a_image a_format VK_IMAGE_LAYOUT_UNDEFINED
        VK_IMAGE_LAYOUT_TRANSFER_DST_OPTIMAL a_mip_levels
      = ([.vkAllocateCommandBuffers, .vkBeginCommandBuffer drv.staging_command_buffer,
          .vkCmdPipelineBarrier drv.staging_command_buffer
            VK_PIPELINE_STAGE_TOP_OF_PIPE_BIT VK_PIPELINE_STAGE_TRANSFER_BIT
            { srcAccessMask := 0, dstAccessMask := VK_ACCESS_TRANSFER_WRITE_BIT,
              oldLayout := VK_IMAGE_LAYOUT_UNDEFINED,
              newLayout := VK_IMAGE_LAYOUT_TRANSFER_DST_OPTIMAL,
              srcQueueFamilyIndex := VK_QUEUE_FAMILY_IGNORED,
              dstQueueFamilyIndex := VK_QUEUE_FAMILY_IGNORED,
              image := a_image, aspectMask := VK_IMAGE_ASPECT_COLOR_BIT, baseMipLevel := 0,
              levelCount := a_mip_levels, baseArrayLayer := 0, layerCount := 1 },
          .vkEndCommandBuffer drv.staging_command_buffer,
          .vkQueueSubmit drv.staging_command_buffer, .vkQueueWaitIdle,
          .vkFreeCommandBuffers drv.staging_command_buffer], .ok ()) := by
  simp [transition_image_layout, begin_single_use_cmd_buffer_eq ndebug drv halloc,
    end_single_use_cmd_buffer_eq, upload_bind_def, Upload.call, upload_bind_ok,
    upload_pure_def]

/-- The calls of the transition from TRANSFER_DST_OPTIMAL to
SHADER_READ_ONLY_OPTIMAL. -/
theorem transition_image_layout_to_shader_read (ndebug : Bool) (drv : UploadDriver)
    (a_image a_format a_mip_levels : Nat) (halloc : drv.allocate_result = VK_SUCCESS) :
    transition_image_layout ndebug drv a_image a_format VK_IMAGE_LAYOUT_TRANSFER_DST_OPTIMAL
        VK_IMAGE_LAYOUT_SHADER_READ_ONLY_OPTIMAL a_mip_levels
      = ([.vkAllocateCommandBuffers, .vkBeginCommandBuffer drv.staging_command_buffer,
          .vkCmdPipelineBarrier drv.staging_command_buffer
            VK_PIPELINE_STAGE_TRANSFER_BIT VK_PIPELINE_STAGE_FRAGMENT_SHADER_BIT
            { srcAccessMask := VK_ACCESS_TRANSFER_WRITE_BIT,
              dstAccessMask := VK_ACCESS_SHADER_READ_BIT,
              oldLayout := VK_IMAGE_LAYOUT_TRANSFER_DST_OPTIMAL,
              newLayout := VK_IMAGE_LAYOUT_SHADER_READ_ONLY_OPTIMAL,
              srcQueueFamilyIndex := VK_QUEUE_FAMILY_IGNORED,
              dstQueueFamilyIndex := VK_QUEUE_FAMILY_IGNORED,
              image := a_image, aspectMask := VK_IMAGE_ASPECT_COLOR_BIT,
              baseMipLevel := 0, levelCount := a_mip_levels, baseArrayLayer := 0,
              layerCount := 1 },
          .vkEndCommandBuffer drv.staging_command_buffer,
          .vkQueueSubmit drv.staging_command_buffer, .vkQueueWaitIdle,
          .vkFreeCommandBuffers drv.staging_command_buffer], .ok ()) := by
  have hne : (VK_IMAGE_LAYOUT_TRANSFER_DST_OPTIMAL == VK_IMAGE_LAYOUT_UNDEFINED) = false := by
    decide
  simp [transition_image_layout, begin_single_use_cmd_buffer_eq ndebug drv halloc,
    end_single_use_cmd_buffer_eq, upload_bind_def, Upload.call, upload_bind_ok,
    upload_pure_def, hne]

/-- Any other pair of layouts: the throw, after the allocation and the begin of
the command buffer. -/
theorem transition_image_layout_unsupported (ndebug : Bool) (drv : UploadDriver)
    (a_image a_format a_old_layout a_new_layout a_mip_levels : Nat)
    (halloc : drv.allocate_result = VK_SUCCESS)
    (h1 : ¬ (a_old_layout = VK_IMAGE_LAYOUT_UNDEFINED
      ∧ a_new_layout = VK_IMAGE_LAYOUT_TRANSFER_DST_OPTIMAL))
    (h2 : ¬ (a_old_layout = VK_IMAGE_LAYOUT_TRANSFER_DST_OPTIMAL
      ∧ a_new_layout = VK_IMAGE_LAYOUT_SHADER_READ_ONLY_OPTIMAL)) :
    transition_image_layout ndebug drv a_image a_format a_old_layout a_new_layout a_mip_levels
      = ([.vkAllocateCommandBuffers, .vkBeginCommandBuffer drv.staging_command_buffer],
        .error (.exception "unsupported layout transition!")) := by
  have hb1 : (a_old_layout == VK_IMAGE_LAYOUT_UNDEFINED
      && a_new_layout == VK_IMAGE_LAYOUT_TRANSFER_DST_OPTIMAL) = false := by
    rw [Bool.eq_false_iff]
    intro h
    simp only [Bool.and_eq_true, beq_iff_eq] at h
    exact h1 h
  have hb2 : (a_old_layout == VK_IMAGE_LAYOUT_TRANSFER_DST_OPTIMAL
      && a_new_layout == VK_IMAGE_LAYOUT_SHADER_READ_ONLY_OPTIMAL) = false := by
    rw [Bool.eq_false_iff]
    intro h
    simp only [Bool.and_eq_true, beq_iff_eq] at h
    exact h2 h
  simp only [transition_image_layout, begin_single_use_cmd_buffer_eq ndebug drv halloc,
    upload_bind_def, upload_bind_ok, hb1, hb2, Bool.false_eq_true, if_false, Upload.fail,
    upload_bind_error, List.append_nil]

/-- C19. When the command buffer allocation succeeds, `transition_image_layout`
returns for the pair (UNDEFINED, TRANSFER_DST_OPTIMAL), having recorded one
pipeline barrier from the top-of-pipe stage to the transfer stage, and for the
pair (TRANSFER_DST_OPTIMAL, SHADER_READ_ONLY_OPTIMAL), having recorded one from
the transfer stage to the fragment shader stage, each submitted and waited for;
for every other pair of layouts it throws `unsupported layout transition!`
after the allocation and the begin of the command buffer, with no pipeline
barrier among its calls. So it returns exactly for the two pairs. -/
theorem transition_image_layout_pairs (ndebug : Bool) (drv : UploadDriver)
    (a_image a_format a_old_layout a_new_layout a_mip_levels : Nat)
    (halloc : drv.allocate_result = VK_SUCCESS) :
    (a_old_layout = VK_IMAGE_LAYOUT_UNDEFINED
        ∧ a_new_layout = VK_IMAGE_LAYOUT_TRANSFER_DST_OPTIMAL →
      transition_image_layout ndebug drv a_image a_format a_old_layout a_new_layout
          a_mip_levels
        = ([.vkAllocateCommandBuffers, .vkBeginCommandBuffer drv.staging_command_buffer,
            .vkCmdPipelineBarrier drv.staging_command_buffer
              VK_PIPELINE_STAGE_TOP_OF_PIPE_BIT VK_PIPELINE_STAGE_TRANSFER_BIT
              { srcAccessMask := 0, dstAccessMask := VK_ACCESS_TRANSFER_WRITE_BIT,
                oldLayout := VK_IMAGE_LAYOUT_UNDEFINED,
                newLayout := VK_IMAGE_LAYOUT_TRANSFER_DST_OPTIMAL,
                srcQueueFamilyIndex := VK_QUEUE_FAMILY_IGNORED,
                dstQueueFamilyIndex := VK_QUEUE_FAMILY_IGNORED,
                image := a_image, aspectMask := VK_IMAGE_ASPECT_COLOR_BIT, baseMipLevel := 0,
                levelCount := a_mip_levels, baseArrayLayer := 0, layerCount := 1 },
            .vkEndCommandBuffer drv.staging_command_buffer,
            .vkQueueSubmit drv.staging_command_buffer, .vkQueueWaitIdle,
            .vkFreeCommandBuffers drv.staging_command_buffer], .ok ()))
      ∧ (a_old_layout = VK_IMAGE_LAYOUT_TRANSFER_DST_OPTIMAL
          ∧ a_new_layout = VK_IMAGE_LAYOUT_SHADER_READ_ONLY_OPTIMAL →
        transition_image_layout ndebug drv a_image a_format a_old_layout a_new_layout
            a_mip_levels
          = ([.vkAllocateCommandBuffers, .vkBeginCommandBuffer drv.staging_command_buffer,
              .vkCmdPipelineBarrier drv.staging_command_buffer
                VK_PIPELINE_STAGE_TRANSFER_BIT VK_PIPELINE_STAGE_FRAGMENT_SHADER_BIT
                { srcAccessMask := VK_ACCESS_TRANSFER_WRITE_BIT,
                  dstAccessMask := VK_ACCESS_SHADER_READ_BIT,
                  oldLayout := VK_IMAGE_LAYOUT_TRANSFER_DST_OPTIMAL,
                  newLayout := VK_IMAGE_LAYOUT_SHADER_READ_ONLY_OPTIMAL,
                  srcQueueFamilyIndex := VK_QUEUE_FAMILY_IGNORED,
                  dstQueueFamilyIndex := VK_QUEUE_FAMILY_IGNORED,
                  image := a_image, aspectMask := VK_IMAGE_ASPECT_COLOR_BIT,
                  baseMipLevel := 0, levelCount := a_mip_levels, baseArrayLayer := 0,
                  layerCount := 1 },
              .vkEndCommandBuffer drv.staging_command_buffer,
              .vkQueueSubmit drv.staging_command_buffer, .vkQueueWaitIdle,
              .vkFreeCommandBuffers drv.staging_command_buffer], .ok ()))
      ∧ (¬ (a_old_layout = VK_IMAGE_LAYOUT_UNDEFINED
            ∧ a_new_layout = VK_IMAGE_LAYOUT_TRANSFER_DST_OPTIMAL) →
          ¬ (a_old_layout = VK_IMAGE_LAYOUT_TRANSFER_DST_OPTIMAL
            ∧ a_new_layout = VK_IMAGE_LAYOUT_SHADER_READ_ONLY_OPTIMAL) →
          transition_image_layout ndebug drv a_image a_format a_old_layout a_new_layout
              a_mip_levels
            = ([.vkAllocateCommandBuffers, .vkBeginCommandBuffer drv.staging_command_buffer],
              .error (.exception "unsupported layout transition!")))
      ∧ ((transition_image_layout ndebug drv a_image a_format a_old_layout a_new_layout
            a_mip_levels).2 = .ok ()
          ↔ (a_old_layout = VK_IMAGE_LAYOUT_UNDEFINED
              ∧ a_new_layout = VK_IMAGE_LAYOUT_TRANSFER_DST_OPTIMAL)
            ∨ (a_old_layout = VK_IMAGE_LAYOUT_TRANSFER_DST_OPTIMAL
              ∧ a_new_layout = VK_IMAGE_LAYOUT_SHADER_READ_ONLY_OPTIMAL)) := by
  refine ⟨?_, ?_, ?_, ?_⟩
  · rintro ⟨rfl, rfl⟩
    exact transition_image_layout_to_transfer ndebug drv a_image a_format a_mip_levels halloc
  · rintro ⟨rfl, rfl⟩
    exact transition_image_layout_to_shader_read ndebug drv a_image a_format a_mip_levels
      halloc
  · intro h1 h2
    exact transition_image_layout_unsupported ndebug drv a_image a_format a_old_layout
      a_new_layout a_mip_levels halloc h1 h2
  · constructor
    · intro hok
      by_contra hnot
      simp only [not_or] at hnot
      rw [transition_image_layout_unsupported ndebug drv a_image a_format a_old_layout
        a_new_layout a_mip_levels halloc hnot.1 hnot.2] at hok
      cases hok
    · rintro (⟨rfl, rfl⟩ | ⟨rfl, rfl⟩)
      · rw [transition_image_layout_to_transfer ndebug drv a_image a_format a_mip_levels
          halloc]
      · rw [transition_image_layout_to_shader_read ndebug drv a_image a_format a_mip_levels
          halloc]

/-- Witness of C19: a driver whose allocation succeeds, on the pair (UNDEFINED,
SHADER_READ_ONLY_OPTIMAL), which is neither of the two. -/
theorem transition_image_layout_pairs_witness :
    (⟨VK_SUCCESS, 9, 8, 7, 6⟩ : UploadDriver).allocate_result = VK_SUCCESS
      ∧ transition_image_layout false ⟨VK_SUCCESS, 9, 8, 7, 6⟩ 6 37 VK_IMAGE_LAYOUT_UNDEFINED
          VK_IMAGE_LAYOUT_SHADER_READ_ONLY_OPTIMAL 3
        = ([.vkAllocateCommandBuffers, .vkBeginCommandBuffer 9],
          .error (.exception "unsupported layout transition!")) :=
  ⟨rfl, (transition_image_layout_pairs false ⟨VK_SUCCESS, 9, 8, 7, 6⟩ 6 37
    VK_IMAGE_LAYOUT_UNDEFINED VK_IMAGE_LAYOUT_SHADER_READ_ONLY_OPTIMAL 3 rfl).2.2.1
    (by decide) (by decide)⟩

/-- The transfer block leaves the role as not found, with the graphics family
as its family, and takes no slot when no family with transfer capability has a
free slot. -/
theorem get_queue_indices_transfer_none (queue_families : List VkQueueFamilyProperties)
    (graphics_second : Nat)
    (hnone : ∀ q ∈ queue_families,
      (has_capability q VK_QUEUE_TRANSFER_BIT && has_free_slot q) = false) :
    get_queue_indices_transfer queue_families graphics_second
      = ((false, graphics_second), queue_families) := by
  have h : ∀ a_others, ∀ q ∈ queue_families,
      queue_family_matches VK_QUEUE_TRANSFER_BIT a_others q = false :=
    fun a_others q hq => queue_family_matches_false _ a_others q (hnone q hq)
  simp [get_queue_indices_transfer, get_dedicated_queue_family_none _ _ _ _ (h _)]

/-- What the transfer block of `get_queue_indices` does, for every list of
queue families with valid flags (below `2 ^ 31`). Its first search gives the
role to the first family with transfer capability, a free slot and not both
compute and graphics capability; when there is none, a family with transfer
capability and a free slot has compute capability, the second search finds
nothing, and the third gives the role to the first family with transfer
capability and a free slot; when there is none either, the role is left as not
found, with the graphics family as its family, and no slot is taken. -/
theorem get_queue_indices_transfer_choice (queue_families : List VkQueueFamilyProperties)
    (graphics_second : Nat)
    (hflags : ∀ q ∈ queue_families, q.queueFlags < 2 ^ 31) :
    (∀ i, FirstFamily (fun q => has_capability q VK_QUEUE_TRANSFER_BIT && has_free_slot q
            && !has_capability q (VK_QUEUE_COMPUTE_BIT ||| VK_QUEUE_GRAPHICS_BIT))
          queue_families i →
        get_queue_indices_transfer queue_families graphics_second
          = ((true, i), take_slot queue_families i))
      ∧ ((∀ q ∈ queue_families, (has_capability q VK_QUEUE_TRANSFER_BIT && has_free_slot q
            && !has_capability q (VK_QUEUE_COMPUTE_BIT ||| VK_QUEUE_GRAPHICS_BIT)) = false) →
          ∀ i, FirstFamily (fun q => has_capability q VK_QUEUE_TRANSFER_BIT && has_free_slot q)
              queue_families i →
            get_queue_indices_transfer queue_families graphics_second
              = ((true, i), take_slot queue_families i))
      ∧ ((∀ q ∈ queue_families,
            (has_capability q VK_QUEUE_TRANSFER_BIT && has_free_slot q) = false) →
          get_queue_indices_transfer queue_families graphics_second
            = ((false, graphics_second), queue_families)) := by
  refine ⟨?_, ?_, ?_⟩
  · intro i hi
    have hi' : FirstFamily (queue_family_matches VK_QUEUE_TRANSFER_BIT
        (VK_QUEUE_COMPUTE_BIT ||| VK_QUEUE_GRAPHICS_BIT)) queue_families i :=
      hi.congr (fun q _ => rfl)
    simp [get_queue_indices_transfer, get_dedicated_queue_family_first _ _ _ _ _ hi']
  · intro hnone i hi
    have h1 : ∀ q ∈ queue_families, queue_family_matches VK_QUEUE_TRANSFER_BIT
        (VK_QUEUE_COMPUTE_BIT ||| VK_QUEUE_GRAPHICS_BIT) q = false :=
      fun q hq => hnone q hq
    have h2 : ∀ q ∈ queue_families,
        queue_family_matches VK_QUEUE_TRANSFER_BIT VK_QUEUE_COMPUTE_BIT q = false := by
      intro q hq
      have hq1 := hnone q hq
      simp only [has_capability, has_free_slot, Bool.and_eq_false_iff, Bool.not_eq_false',
        beq_eq_false_iff_ne, ne_eq, decide_eq_false_iff_not, beq_iff_eq] at hq1
      simp only [queue_family_matches, Bool.and_eq_false_iff, Bool.not_eq_false',
        beq_eq_false_iff_ne, ne_eq, decide_eq_false_iff_not, beq_iff_eq]
      rcases hq1 with (hq1 | hq1) | hq1
      · left; left; exact hq1
      · left; right; exact hq1
      · right
        have hsub : q.queueFlags &&& VK_QUEUE_COMPUTE_BIT
            = (q.queueFlags &&& (VK_QUEUE_COMPUTE_BIT ||| VK_QUEUE_GRAPHICS_BIT))
              &&& VK_QUEUE_COMPUTE_BIT := by
          rw [Nat.land_assoc]
          rfl
        rw [hsub, hq1]
        rfl
    have hi' : FirstFamily (queue_family_matches VK_QUEUE_TRANSFER_BIT
        (bit_not32 VK_QUEUE_TRANSFER_BIT)) queue_families i :=
      hi.congr (fun q hq => (queue_family_matches_bit_not32 _ (by decide) q (hflags q hq)).symm)
    simp [get_queue_indices_transfer, get_dedicated_queue_family_none _ _ _ _ h1,
      get_dedicated_queue_family_none _ _ _ _ h2,
      get_dedicated_queue_family_first _ _ _ _ _ hi']
  · intro hnone
    exact get_queue_indices_transfer_none queue_families graphics_second hnone

/-- Witness: the families of the failing input of C14 after graphics and
compute took their slots. -/
theorem get_queue_indices_transfer_choice_witness :
    (∀ q ∈ ([⟨7, 0⟩, ⟨6, 1⟩, ⟨4, 1⟩] : List VkQueueFamilyProperties), q.queueFlags < 2 ^ 31)
      ∧ get_queue_indices_transfer [⟨7, 0⟩, ⟨6, 1⟩, ⟨4, 1⟩] 0
        = ((true, 1), take_slot [⟨7, 0⟩, ⟨6, 1⟩, ⟨4, 1⟩] 1) :=
  ⟨by decide,
    (get_queue_indices_transfer_choice [⟨7, 0⟩, ⟨6, 1⟩, ⟨4, 1⟩] 0 (by decide)).1 1
      ⟨⟨6, 1⟩, rfl, by decide, fun j q' hj hq' => by
        have hj0 : j = 0 := by omega
        subst hj0
        have h0 : q' = ⟨7, 0⟩ := by
          simp only [List.getElem?_cons_zero, Option.some.injEq] at hq'
          exact hq'.symm
        subst h0
        decide⟩⟩

/-- The transfer fallback in the plan, for every list of queue families with
valid flags (below `2 ^ 31`) whose graphics family is `g` and whose compute
choice, after the graphics slot was taken, is `c`: when no family with transfer
capability has a free slot left, every plan that `get_queue_indices` returns
from a fresh `QueueData` records (0, 0) for the transfer role and (`g`, 0) for
the graphics role. The two records agree exactly when the graphics family is
family 0. -/
theorem get_queue_indices_transfer_fallback (ndebug : Bool)
    (surface_support : Nat → VkResult × Bool)
    (queue_families : List VkQueueFamilyProperties) (g c : Nat)
    (infos : List VkDeviceQueueCreateInfo) (data : QueueData)
    (hflags : ∀ q ∈ queue_families, q.queueFlags < 2 ^ 31)
    (hg : FirstFamily (fun q => has_capability q VK_QUEUE_GRAPHICS_BIT && has_free_slot q)
      queue_families g)
    (hc : ComputeChoice (take_slot queue_families g) c)
    (hnone : ∀ q ∈ take_slot (take_slot queue_families g) c,
      (has_capability q VK_QUEUE_TRANSFER_BIT && has_free_slot q) = false)
    (h : get_queue_indices ndebug surface_support queue_families QueueData.new
      = .ok (infos, data)) :
    data.m_indicies[transfer_index]? = some (0, 0)
      ∧ data.m_indicies[graphics_index]? = some (g, 0)
      ∧ (data.m_indicies[transfer_index]? = data.m_indicies[graphics_index]? ↔ g = 0) := by
  obtain ⟨found, families, cf, hfound, hcons, _⟩ := get_queue_indices_ok_parts _ _ _ _ _ _ h
  obtain ⟨g', c', sparse, protected_role, hg', hc', hf⟩ :=
    get_queue_indices_found_parts _ _ _ _ hfound
  rw [get_queue_indices_graphics_first ndebug queue_families g hflags hg] at hg'
  injection hg' with hg'
  subst hg'
  rw [get_queue_indices_compute_choice ndebug _ c (take_slot_flags _ _ _ hflags) hc] at hc'
  injection hc' with hc'
  subst hc'
  have ht := get_queue_indices_transfer_none (take_slot (take_slot queue_families g) c) g
    hnone
  simp only [ht] at hf
  subst hf
  obtain ⟨_, _, hrec⟩ := get_queue_indices_consolidate_data _ _ _ _ _ _ _ hcons
  have ht2 : data.m_indicies[transfer_index]? = some (0, 0) := by
    have := (hrec 2 (false, g) rfl).2 rfl
    simpa [transfer_index, QueueData.new, all_family_flags] using this
  have hg2 : data.m_indicies[graphics_index]? = some (g, 0) := by
    obtain ⟨e, he, hdata⟩ := (hrec 0 (true, g) rfl).1 rfl
    obtain ⟨he', _⟩ := replicate_entry _ _ _ he
    subst he'
    simpa [graphics_index, roles_in] using hdata
  refine ⟨ht2, hg2, ?_⟩
  rw [ht2, hg2]
  constructor
  · intro heq
    injection heq with heq
    injection heq with heq _
    exact heq.symm
  · intro heq
    rw [heq]

/-- Witness: the failing input of C15. -/
theorem get_queue_indices_transfer_fallback_witness :
    (⟨[(1, 0), (0, 0), (0, 0), (0, 0), (0, 0)]⟩ : QueueData).m_indicies[transfer_index]?
        = some (0, 0)
      ∧ (⟨[(1, 0), (0, 0), (0, 0), (0, 0), (0, 0)]⟩ : QueueData).m_indicies[graphics_index]?
        = some (1, 0)
      ∧ ((⟨[(1, 0), (0, 0), (0, 0), (0, 0), (0, 0)]⟩ : QueueData).m_indicies[transfer_index]?
          = (⟨[(1, 0), (0, 0), (0, 0), (0, 0), (0, 0)]⟩ : QueueData).m_indicies[graphics_index]?
        ↔ 1 = 0) :=
  get_queue_indices_transfer_fallback false (fun _ => (VK_SUCCESS, true)) [⟨2, 1⟩, ⟨3, 2⟩] 1 0
    [⟨0, 1, [100]⟩, ⟨1, 1, [75]⟩] ⟨[(1, 0), (0, 0), (0, 0), (0, 0), (0, 0)]⟩
    (by decide)
    ⟨⟨3, 2⟩, rfl, by decide, fun j q' hj hq' => by
      have hj0 : j = 0 := by omega
      subst hj0
      have h0 : q' = ⟨2, 1⟩ := by
        simp only [List.getElem?_cons_zero, Option.some.injEq] at hq'
        exact hq'.symm
      subst h0
      decide⟩
    (Or.inl ⟨⟨2, 1⟩, by decide, by decide,
      fun j q' hj _ => absurd hj (Nat.not_lt_zero j)⟩)
    (by decide) (by decide)

/-- The lookup of a family through the descriptor list gives the recorded
family when the descriptor at the position of the recorded family is the one of
that family. -/
theorem create_device_family_aligned (queues : List VkDeviceQueueCreateInfo)
    (queue_data : QueueData) (role : Nat) (index : Nat × Nat) (info : VkDeviceQueueCreateInfo)
    (hrole : queue_data.m_indicies[role]? = some index)
    (hinfo : queues[index.1]? = some info) (hfamily : info.queueFamilyIndex = index.1) :
    create_device_family queues queue_data role = .ok index.1
      ∧ create_device_queue queues queue_data role = .ok index := by
  have h1 : create_device_family queues queue_data role = .ok index.1 := by
    simp [create_device_family, hrole, hinfo, hfamily, pure, Except.pure]
  refine ⟨h1, ?_⟩
  simp [create_device_queue, h1, hrole, bind, Except.bind, pure, Except.pure]

/-- Lines 1005-1021 of `create_device` on a plan whose descriptors are aligned
with the families, that is, where for every role the descriptor at the position
of the recorded family is the one of that family: the queue of each role is
retrieved with the family and slot that the plan records, the published
graphics, transfer and compute family indices are those of the plan, and the
present queue and present family index are the graphics ones. -/
theorem create_device_queues_aligned (queues : List VkDeviceQueueCreateInfo)
    (graphics compute transfer sparse protected_role : Nat × Nat)
    (haligned : ∀ index ∈ [graphics, compute, transfer, sparse, protected_role],
      ∃ info, queues[index.1]? = some info ∧ info.queueFamilyIndex = index.1) :
    create_device_queues queues ⟨[graphics, compute, transfer, sparse, protected_role]⟩
      = .ok { m_graphics_queue := graphics, m_compute_queue := compute,
              m_transfer_queue := transfer, m_sparse_queue := sparse,
              m_protected_queue := protected_role, m_present_queue := graphics,
              m_graphics_queue_index := graphics.1, m_present_queue_index := graphics.1,
              m_transfer_queue_index := transfer.1, m_compute_queue_index := compute.1 } := by
  obtain ⟨ig, hig, hfg⟩ := haligned graphics (by simp)
  obtain ⟨ic, hic, hfc⟩ := haligned compute (by simp)
  obtain ⟨it, hit, hft⟩ := haligned transfer (by simp)
  obtain ⟨is, his, hfs⟩ := haligned sparse (by simp)
  obtain ⟨ip, hip, hfp⟩ := haligned protected_role (by simp)
  have hg := create_device_family_aligned queues
    ⟨[graphics, compute, transfer, sparse, protected_role]⟩ graphics_index graphics ig rfl
    hig hfg
  have hc := create_device_family_aligned queues
    ⟨[graphics, compute, transfer, sparse, protected_role]⟩ compute_index compute ic rfl
    hic hfc
  have ht := create_device_family_aligned queues
    ⟨[graphics, compute, transfer, sparse, protected_role]⟩ transfer_index transfer it rfl
    hit hft
  have hs := create_device_family_aligned queues
    ⟨[graphics, compute, transfer, sparse, protected_role]⟩ sparse_index sparse is rfl
    his hfs
  have hp := create_device_family_aligned queues
    ⟨[graphics, compute, transfer, sparse, protected_role]⟩ protected_index protected_role ip
    rfl hip hfp
  simp only [create_device_queues, hg.1, hg.2, hc.1, hc.2, ht.1, ht.2, hs.2, hp.2, bind,
    Except.bind, pure, Except.pure]

/-- Witness: the plan of the commented test layout of lines 432-444. -/
theorem create_device_queues_aligned_witness :
    create_device_queues [⟨0, 2, [75, 20]⟩, ⟨1, 1, [50]⟩, ⟨2, 1, [100]⟩]
        ⟨[(0, 0), (2, 0), (1, 0), (0, 1), (0, 0)]⟩
      = .ok { m_graphics_queue := (0, 0), m_compute_queue := (2, 0),
              m_transfer_queue := (1, 0), m_sparse_queue := (0, 1),
              m_protected_queue := (0, 0), m_present_queue := (0, 0),
              m_graphics_queue_index := 0, m_present_queue_index := 0,
              m_transfer_queue_index := 1, m_compute_queue_index := 2 } :=
  create_device_queues_aligned [⟨0, 2, [75, 20]⟩, ⟨1, 1, [50]⟩, ⟨2, 1, [100]⟩]
    (0, 0) (2, 0) (1, 0) (0, 1) (0, 0) (by decide)

/-- C21 as stated fails. With two buffers configured and a surface that needs
at least three images and allows eight, the image count is not raised to three:
the assert on it fails, and with asserts compiled out the request is two. With
minimum and maximum both zero and two buffers configured the assert fails too,
where the clamped count is zero. -/
theorem create_swapchain_image_count_below_minimum :
    create_swapchain_image_count false 2 ⟨3, 8, ⟨0, 0⟩, ⟨0, 0⟩, ⟨0, 0⟩⟩
        = .error (.assertion "Min image count for swapchain is bigger than requested!\n")
      ∧ create_swapchain_image_count true 2 ⟨3, 8, ⟨0, 0⟩, ⟨0, 0⟩, ⟨0, 0⟩⟩ = .ok 2
      ∧ clamp 2 3 8 = 3
      ∧ create_swapchain_image_count false 2 ⟨0, 0, ⟨0, 0⟩, ⟨0, 0⟩, ⟨0, 0⟩⟩
        = .error (.assertion "Min image count for swapchain is bigger than requested!\n")
      ∧ clamp 2 0 0 = 0 := by
  refine ⟨by decide, by decide, by decide, by decide, by decide⟩

/-- C21, amended: for every configured number of buffers and every surface
capability record with a positive `maxImageCount` not below `minImageCount`,
when the number of buffers is not below `minImageCount` the image count that
`create_swapchain` requests is the number of buffers clamped into
[`minImageCount`, `maxImageCount`] and computing it does not fail, with or
without asserts; when the number of buffers is below `minImageCount` the count
is not raised: the assert on it fails, and with asserts compiled out the
request is the number of buffers itself. -/
theorem create_swapchain_image_count_clamped (number_of_buffers : Nat)
    (capabilities : VkSurfaceCapabilitiesKHR)
    (hle : capabilities.minImageCount ≤ capabilities.maxImageCount)
    (hmax : 0 < capabilities.maxImageCount) :
    (capabilities.minImageCount ≤ number_of_buffers →
        ∀ ndebug, create_swapchain_image_count ndebug number_of_buffers capabilities
          = .ok (clamp number_of_buffers capabilities.minImageCount
              capabilities.maxImageCount))
      ∧ (number_of_buffers < capabilities.minImageCount →
          create_swapchain_image_count false number_of_buffers capabilities
              = .error
                (.assertion "Min image count for swapchain is bigger than requested!\n")
            ∧ create_swapchain_image_count true number_of_buffers capabilities
              = .ok number_of_buffers) := by
  constructor
  · intro hmin ndebug
    by_cases hgt : number_of_buffers > capabilities.maxImageCount
    · have hc : clamp number_of_buffers capabilities.minImageCount capabilities.maxImageCount
          = capabilities.maxImageCount := by
        simp only [clamp]
        rw [if_neg (by omega), if_pos (by omega)]
      rw [hc]
      cases ndebug <;>
        simp [create_swapchain_image_count, cassert, hmax, hgt, hle, bind, Except.bind, pure,
          Except.pure]
    · have hc : clamp number_of_buffers capabilities.minImageCount capabilities.maxImageCount
          = number_of_buffers := by
        simp only [clamp]
        rw [if_neg (by omega), if_neg (by omega)]
      rw [hc]
      have hle2 : number_of_buffers ≤ capabilities.maxImageCount := by omega
      cases ndebug <;>
        simp [create_swapchain_image_count, cassert, hgt, hmin, hle2, bind, Except.bind, pure,
          Except.pure]
  · intro hlt
    have hgt : ¬ number_of_buffers > capabilities.maxImageCount := by omega
    have hmin : ¬ capabilities.minImageCount ≤ number_of_buffers := by omega
    constructor <;>
      simp [create_swapchain_image_count, cassert, hgt, hmin, bind, Except.bind, pure,
        Except.pure]

/-- Witness of C21, amended: three buffers on a surface that takes two to eight
images. -/
theorem create_swapchain_image_count_clamped_witness :
    (2 ≤ 8 ∧ 0 < 8)
      ∧ ∀ ndebug, create_swapchain_image_count ndebug 3 ⟨2, 8, ⟨0, 0⟩, ⟨0, 0⟩, ⟨0, 0⟩⟩
          = .ok (clamp 3 2 8) :=
  ⟨⟨by decide, by decide⟩,
    (create_swapchain_image_count_clamped 3 ⟨2, 8, ⟨0, 0⟩, ⟨0, 0⟩, ⟨0, 0⟩⟩ (by decide)
      (by decide)).1 (by decide)⟩

/-- The search of the format loop finds the requested pair exactly when it is
advertised. -/
theorem create_swapchain_find_format_eq (surface_formats : List VkSurfaceFormatKHR) :
    create_swapchain_find_format surface_formats
      = if (⟨get_surface_format, get_surface_colorspace⟩ : VkSurfaceFormatKHR)
            ∈ surface_formats
        then some ⟨get_surface_format, get_surface_colorspace⟩ else none := by
  induction surface_formats with
  | nil => simp [create_swapchain_find_format]
  | cons available_format rest ih =>
    by_cases h : available_format.format = get_surface_format
        ∧ available_format.colorSpace = get_surface_colorspace
    · have heq : available_format = ⟨get_surface_format, get_surface_colorspace⟩ := by
        cases available_format
        simp only at h
        simp [h.1, h.2]
      simp [create_swapchain_find_format, h.1, h.2, heq]
    · have hne : ¬ (⟨get_surface_format, get_surface_colorspace⟩ : VkSurfaceFormatKHR)
          = available_format := by
        intro heq
        apply h
        rw [← heq]
        exact ⟨rfl, rfl⟩
      have hb : (available_format.format == get_surface_format
          && available_format.colorSpace == get_surface_colorspace) = false := by
        rw [Bool.eq_false_iff]
        intro hb
        simp only [Bool.and_eq_true, beq_iff_eq] at hb
        exact h hb
      simp only [create_swapchain_find_format, hb, Bool.false_eq_true, if_false, ih,
        List.mem_cons, hne, false_or]

/-- C22. For every non-empty list of advertised surface formats, with or
without asserts: when the pair of `VK_FORMAT_B8G8R8A8_SRGB` and
`VK_COLOR_SPACE_SRGB_NONLINEAR_KHR` is advertised, `create_swapchain` chooses
it; otherwise, when the list is a single entry whose format is
`VK_FORMAT_UNDEFINED`, it takes the requested format and color space, the same
pair; otherwise it takes the first advertised entry. -/
theorem create_swapchain_surface_format_choice (ndebug : Bool)
    (first : VkSurfaceFormatKHR) (rest : List VkSurfaceFormatKHR) :
    ((⟨VK_FORMAT_B8G8R8A8_SRGB, VK_COLOR_SPACE_SRGB_NONLINEAR_KHR⟩ : VkSurfaceFormatKHR)
          ∈ first :: rest →
        create_swapchain_surface_format ndebug (first :: rest)
          = .ok ⟨VK_FORMAT_B8G8R8A8_SRGB, VK_COLOR_SPACE_SRGB_NONLINEAR_KHR⟩)
      ∧ ((⟨VK_FORMAT_B8G8R8A8_SRGB, VK_COLOR_SPACE_SRGB_NONLINEAR_KHR⟩ : VkSurfaceFormatKHR)
            ∉ first :: rest →
          (rest = [] ∧ first.format = VK_FORMAT_UNDEFINED →
              create_swapchain_surface_format ndebug (first :: rest)
                = .ok ⟨get_surface_format, get_surface_colorspace⟩)
            ∧ (¬ (rest = [] ∧ first.format = VK_FORMAT_UNDEFINED) →
              create_swapchain_surface_format ndebug (first :: rest) = .ok first)) := by
  have hfind := create_swapchain_find_format_eq (first :: rest)
  have hreq : (⟨get_surface_format, get_surface_colorspace⟩ : VkSurfaceFormatKHR)
      = ⟨VK_FORMAT_B8G8R8A8_SRGB, VK_COLOR_SPACE_SRGB_NONLINEAR_KHR⟩ := rfl
  rw [hreq] at hfind
  refine ⟨fun hmem => ?_, fun hnot => ⟨fun hone => ?_, fun hmany => ?_⟩⟩
  · rw [if_pos hmem] at hfind
    simp [create_swapchain_surface_format, cassert, hfind, bind, Except.bind, pure,
      Except.pure]
  · rw [if_neg hnot] at hfind
    obtain ⟨hrest, hformat⟩ := hone
    subst hrest
    simp [create_swapchain_surface_format, cassert, hfind, hformat, bind, Except.bind, pure,
      Except.pure]
  · rw [if_neg hnot] at hfind
    have hb : ((first :: rest).length == 1 && first.format == VK_FORMAT_UNDEFINED) = false := by
      rw [Bool.eq_false_iff]
      intro hb
      simp only [Bool.and_eq_true, beq_iff_eq, List.length_cons, Nat.add_left_eq_self,
        List.length_eq_zero] at hb
      exact hmany hb
    simp only [create_swapchain_surface_format, cassert, hfind, List.length_cons,
      List.getElem?_cons_zero, bind, Except.bind, pure, Except.pure]
    simp only [List.length_cons] at hb
    simp [hb]
    intro h1 h2
    exact absurd ⟨h1, h2⟩ hmany

/-- Witness of C22: three lists, the first with the pair advertised, the second
the single undefined entry, the third with neither. -/
theorem create_swapchain_surface_format_choice_witness :
    create_swapchain_surface_format false [⟨44, 0⟩, ⟨50, 0⟩] = .ok ⟨50, 0⟩
      ∧ create_swapchain_surface_format false [⟨0, 7⟩] = .ok ⟨50, 0⟩
      ∧ create_swapchain_surface_format false [⟨44, 0⟩, ⟨37, 0⟩] = .ok ⟨44, 0⟩ :=
  ⟨(create_swapchain_surface_format_choice false ⟨44, 0⟩ [⟨50, 0⟩]).1 (by decide),
    ((create_swapchain_surface_format_choice false ⟨0, 7⟩ []).2 (by decide)).1 ⟨rfl, rfl⟩,
    ((create_swapchain_surface_format_choice false ⟨44, 0⟩ [⟨37, 0⟩]).2 (by decide)).2
      (by decide)⟩

/-- The search of the present mode loop returns the required mode when it is
advertised and keeps the starting value when it is not. -/
theorem create_swapchain_find_present_mode_eq (present_mode_required present_mode : Nat)
    (present_modes : List Nat) :
    create_swapchain_find_present_mode present_mode_required present_modes present_mode
      = if present_mode_required ∈ present_modes then present_mode_required
        else present_mode := by
  induction present_modes with
  | nil => simp [create_swapchain_find_present_mode]
  | cons available_present_mode rest ih =>
    by_cases h : available_present_mode = present_mode_required
    · simp [create_swapchain_find_present_mode, h]
    · have hne : ¬ present_mode_required = available_present_mode := fun h' => h h'.symm
      have hb : (available_present_mode == present_mode_required) = false := by
        simpa using h
      simp only [create_swapchain_find_present_mode, hb, Bool.false_eq_true, if_false, ih,
        List.mem_cons, hne, false_or]

/-- C23 as stated fails. With the flag set and FIFO and MAILBOX advertised, the
assert after the search fails, and with asserts compiled out the present mode
is `VK_PRESENT_MODE_MAX_ENUM_KHR`, not FIFO. With no mode advertised and the
flag clear, the assert of the enumeration fails. -/
theorem create_swapchain_present_mode_without_immediate :
    create_swapchain_present_mode false true
        [VK_PRESENT_MODE_FIFO_KHR, VK_PRESENT_MODE_MAILBOX_KHR]
        = .error (.assertion "present_mode != VK_PRESENT_MODE_MAX_ENUM_KHR")
      ∧ create_swapchain_present_mode true true
          [VK_PRESENT_MODE_FIFO_KHR, VK_PRESENT_MODE_MAILBOX_KHR]
        = .ok VK_PRESENT_MODE_MAX_ENUM_KHR
      ∧ create_swapchain_present_mode false false []
        = .error (.assertion "None of the properties required are available") := by
  refine ⟨by decide, by decide, by decide⟩

/-- C23, amended: for every non-empty list of advertised present modes,
`create_swapchain` selects IMMEDIATE when `cfg::get_vsync()` is set and
IMMEDIATE is among the advertised modes, and selects FIFO when the flag is
clear, in both cases without failing, with or without asserts; when the flag is
set and IMMEDIATE is not advertised it does not fall back to FIFO: the assert
after the search fails, and with asserts compiled out the present mode is
`VK_PRESENT_MODE_MAX_ENUM_KHR`. -/
theorem create_swapchain_present_mode_choice (vsync : Bool) (present_modes : List Nat)
    (hmodes : present_modes ≠ []) :
    (vsync = true → VK_PRESENT_MODE_IMMEDIATE_KHR ∈ present_modes →
        ∀ ndebug, create_swapchain_present_mode ndebug vsync present_modes
          = .ok VK_PRESENT_MODE_IMMEDIATE_KHR)
      ∧ (vsync = false →
          ∀ ndebug, create_swapchain_present_mode ndebug vsync present_modes
            = .ok VK_PRESENT_MODE_FIFO_KHR)
      ∧ (vsync = true → VK_PRESENT_MODE_IMMEDIATE_KHR ∉ present_modes →
          create_swapchain_present_mode false vsync present_modes
              = .error (.assertion "present_mode != VK_PRESENT_MODE_MAX_ENUM_KHR")
            ∧ create_swapchain_present_mode true vsync present_modes
              = .ok VK_PRESENT_MODE_MAX_ENUM_KHR) := by
  have hlen : present_modes.length > 0 := List.length_pos.mpr hmodes
  refine ⟨?_, ?_, ?_⟩
  · intro hv hmem ndebug
    subst hv
    have hne : (VK_PRESENT_MODE_IMMEDIATE_KHR != VK_PRESENT_MODE_MAX_ENUM_KHR) = true := by
      decide
    cases ndebug <;>
      simp [create_swapchain_present_mode, create_swapchain_find_present_mode_eq, cassert,
        hlen, hmem, hne, bind, Except.bind, pure, Except.pure]
  · intro hv ndebug
    subst hv
    cases ndebug <;>
      simp [create_swapchain_present_mode, cassert, hlen, bind, Except.bind, pure,
        Except.pure]
  · intro hv hnot
    subst hv
    constructor <;>
      simp [create_swapchain_present_mode, create_swapchain_find_present_mode_eq, cassert,
        hlen, hnot, bind, Except.bind, pure, Except.pure]

/-- Witness of C23, amended: FIFO and IMMEDIATE advertised, the flag set. -/
theorem create_swapchain_present_mode_choice_witness :
    [VK_PRESENT_MODE_FIFO_KHR, VK_PRESENT_MODE_IMMEDIATE_KHR] ≠ []
      ∧ ∀ ndebug, create_swapchain_present_mode ndebug true
          [VK_PRESENT_MODE_FIFO_KHR, VK_PRESENT_MODE_IMMEDIATE_KHR]
        = .ok VK_PRESENT_MODE_IMMEDIATE_KHR :=
  ⟨by decide,
    (create_swapchain_present_mode_choice true
      [VK_PRESENT_MODE_FIFO_KHR, VK_PRESENT_MODE_IMMEDIATE_KHR] (by decide)).1 rfl
      (by decide)⟩

/-- For an index below 32, the test `a_type_filter & (1 << i)` is the test of
bit `i` of the filter. -/
theorem type_filter_test (a_type_filter i : Nat) (hi : i < 32) :
    (a_type_filter &&& ((1 <<< i) % 2 ^ 32) != 0) = a_type_filter.testBit i := by
  have hpow : (1 <<< i) % 2 ^ 32 = 2 ^ i := by
    rw [Nat.one_shiftLeft]
    exact Nat.mod_eq_of_lt (Nat.pow_lt_pow_right (by norm_num) hi)
  rw [hpow, Nat.and_two_pow]
  cases h : a_type_filter.testBit i
  · simp
  · have : 2 ^ i ≠ 0 := by positivity
    simp [this]

/-- The loop of `find_memory_type` over the indices from `i` up to
`i + remaining`, all below 32 and inside the array: it returns the first
suitable index, or throws when there is none. -/
theorem find_memory_type_loop_spec (a_type_filter a_properties : Nat)
    (memoryTypes : List Nat) :
    ∀ (remaining i : Nat), i + remaining ≤ 32 → i + remaining ≤ memoryTypes.length →
      (∃ k propertyFlags, i ≤ k ∧ k < i + remaining ∧ a_type_filter.testBit k = true
          ∧ memoryTypes[k]? = some propertyFlags
          ∧ propertyFlags &&& a_properties = a_properties
          ∧ (∀ j flags, i ≤ j → j < k → a_type_filter.testBit j = true →
              memoryTypes[j]? = some flags → flags &&& a_properties ≠ a_properties)
          ∧ find_memory_type_loop a_type_filter a_properties memoryTypes remaining i = .ok k)
        ∨ ((∀ j flags, i ≤ j → j < i + remaining → a_type_filter.testBit j = true →
              memoryTypes[j]? = some flags → flags &&& a_properties ≠ a_properties)
          ∧ find_memory_type_loop a_type_filter a_properties memoryTypes remaining i
            = .error (.exception "Failed to find suitable memory type!")) := by
  intro remaining
  induction remaining with
  | zero =>
    intro i _ _
    right
    exact ⟨fun j flags h1 h2 => by omega, rfl⟩
  | succ remaining ih =>
    intro i h32 hlen
    have hi : i < 32 := by omega
    have hil : i < memoryTypes.length := by omega
    have hget : memoryTypes[i]? = some memoryTypes[i] := List.getElem?_eq_getElem hil
    have htest := type_filter_test a_type_filter i hi
    by_cases hbit : a_type_filter.testBit i = true
    · by_cases hflags : memoryTypes[i] &&& a_properties = a_properties
      · left
        refine ⟨i, memoryTypes[i], Nat.le_refl i, by omega, hbit, hget, hflags,
          fun j flags h1 h2 => by omega, ?_⟩
        have hcond : (a_type_filter &&& ((1 <<< i) % 2 ^ 32) != 0) = true := by
          rw [htest]; exact hbit
        simp only [find_memory_type_loop, hi, if_true, hcond, hget, hflags, beq_self_eq_true]
        rfl
      · have hstep : find_memory_type_loop a_type_filter a_properties memoryTypes
            (remaining + 1) i
            = find_memory_type_loop a_type_filter a_properties memoryTypes remaining (i + 1) := by
          have hcond : (a_type_filter &&& ((1 <<< i) % 2 ^ 32) != 0) = true := by
            rw [htest]; exact hbit
          have hfb : (memoryTypes[i] &&& a_properties == a_properties) = false := by
            simpa using hflags
          simp only [find_memory_type_loop, hi, if_true, hcond, hget, hfb, Bool.false_eq_true,
            if_false]
        rcases ih (i + 1) (by omega) (by omega) with
          ⟨k, flags, h1, h2, h3, h4, h5, h6, h7⟩ | ⟨h1, h2⟩
        · left
          refine ⟨k, flags, by omega, by omega, h3, h4, h5, ?_, by rw [hstep, h7]⟩
          intro j fl hj1 hj2 hjb hjf
          rcases Nat.eq_or_lt_of_le hj1 with heq | hlt
          · subst heq
            rw [hget] at hjf
            injection hjf with hjf
            rw [← hjf]
            exact hflags
          · exact h6 j fl (by omega) hj2 hjb hjf
        · right
          refine ⟨?_, by rw [hstep, h2]⟩
          intro j fl hj1 hj2 hjb hjf
          rcases Nat.eq_or_lt_of_le hj1 with heq | hlt
          · subst heq
            rw [hget] at hjf
            injection hjf with hjf
            rw [← hjf]
            exact hflags
          · exact h1 j fl (by omega) (by omega) hjb hjf
    · have hbit' : a_type_filter.testBit i = false := by simpa using hbit
      have hstep : find_memory_type_loop a_type_filter a_properties memoryTypes
          (remaining + 1) i
          = find_memory_type_loop a_type_filter a_properties memoryTypes remaining (i + 1) := by
        have hcond : (a_type_filter &&& ((1 <<< i) % 2 ^ 32) != 0) = false := by
          rw [htest]; exact hbit'
        simp only [find_memory_type_loop, hi, if_true, hcond, Bool.false_eq_true, if_false]
      rcases ih (i + 1) (by omega) (by omega) with
        ⟨k, flags, h1, h2, h3, h4, h5, h6, h7⟩ | ⟨h1, h2⟩
      · left
        refine ⟨k, flags, by omega, by omega, h3, h4, h5, ?_, by rw [hstep, h7]⟩
        intro j fl hj1 hj2 hjb hjf
        rcases Nat.eq_or_lt_of_le hj1 with heq | hlt
        · subst heq
          rw [hbit'] at hjb; cases hjb
        · exact h6 j fl (by omega) hj2 hjb hjf
      · right
        refine ⟨?_, by rw [hstep, h2]⟩
        intro j fl hj1 hj2 hjb hjf
        rcases Nat.eq_or_lt_of_le hj1 with heq | hlt
        · subst heq
          rw [hbit'] at hjb; cases hjb
        · exact h1 j fl (by omega) (by omega) hjb hjf

/-- C24. For every type filter, every set of required property flags and every
memory-type table whose count is at most `VK_MAX_MEMORY_TYPES` entries of its
array: `find_memory_type` returns the smallest suitable index, that is, the
smallest index below `memoryTypeCount` whose bit is set in the filter and whose
property flags include all required flags; it throws
`Failed to find suitable memory type!` when no index is suitable; and it fails
if and only if no index is suitable. -/
theorem find_memory_type_first_suitable (a_type_filter a_properties : Nat)
    (memory_properties : VkPhysicalDeviceMemoryProperties)
    (hcount : memory_properties.memoryTypeCount ≤ VK_MAX_MEMORY_TYPES)
    (hlen : memory_properties.memoryTypeCount ≤ memory_properties.memoryTypes.length) :
    (∀ i, suitable_memory_type a_type_filter a_properties memory_properties i →
        (∀ j, j < i → ¬ suitable_memory_type a_type_filter a_properties memory_properties j) →
        find_memory_type a_type_filter a_properties memory_properties = .ok i)
      ∧ ((∀ i, ¬ suitable_memory_type a_type_filter a_properties memory_properties i) →
          find_memory_type a_type_filter a_properties memory_properties
            = .error (.exception "Failed to find suitable memory type!"))
      ∧ ((∃ e, find_memory_type a_type_filter a_properties memory_properties = .error e)
          ↔ ∀ i, ¬ suitable_memory_type a_type_filter a_properties memory_properties i) := by
  have hspec := find_memory_type_loop_spec a_type_filter a_properties
    memory_properties.memoryTypes memory_properties.memoryTypeCount 0
    (by simpa [VK_MAX_MEMORY_TYPES] using hcount) (by simpa using hlen)
  simp only [Nat.zero_add, Nat.zero_le, true_and, forall_const] at hspec
  have hfound : ∀ k, find_memory_type a_type_filter a_properties memory_properties = .ok k →
      suitable_memory_type a_type_filter a_properties memory_properties k
        ∧ ∀ j, j < k →
            ¬ suitable_memory_type a_type_filter a_properties memory_properties j := by
    intro k hk
    rcases hspec with ⟨k', flags, h2, h3, h4, h5, h6, h7⟩ | ⟨_, h2⟩
    · have hkk : k' = k := by
        have : find_memory_type a_type_filter a_properties memory_properties = .ok k' := h7
        rw [this] at hk
        injection hk
      subst hkk
      refine ⟨⟨h2, h3, flags, h4, h5⟩, ?_⟩
      rintro j hj ⟨_, hjb, fl, hjf, hjp⟩
      exact h6 j fl hj hjb hjf hjp
    · have : find_memory_type a_type_filter a_properties memory_properties
          = .error (.exception "Failed to find suitable memory type!") := h2
      rw [this] at hk
      cases hk
  have hnone : (∀ i, ¬ suitable_memory_type a_type_filter a_properties memory_properties i) →
      find_memory_type a_type_filter a_properties memory_properties
        = .error (.exception "Failed to find suitable memory type!") := by
    intro hno
    rcases hspec with ⟨k', flags, h2, h3, h4, h5, _, _⟩ | ⟨_, h2⟩
    · exact absurd ⟨h2, h3, flags, h4, h5⟩ (hno k')
    · exact h2
  refine ⟨?_, hnone, ?_⟩
  · intro i hi hfirst
    rcases hspec with ⟨k', flags, h2, h3, h4, h5, h6, h7⟩ | ⟨h1, _⟩
    · have hk := hfound k' h7
      have hii : k' = i := by
        rcases Nat.lt_trichotomy k' i with hlt | heq | hgt
        · exact absurd hk.1 (hfirst k' hlt)
        · exact heq
        · exact absurd hi (hk.2 i hgt)
      rw [← hii]
      exact h7
    · obtain ⟨hi1, hi2, fl, hi3, hi4⟩ := hi
      exact absurd hi4 (h1 i fl hi1 hi2 hi3)
  · constructor
    · rintro ⟨e, he⟩ i hi
      rcases hspec with ⟨k', flags, h2, h3, h4, h5, h6, h7⟩ | ⟨h1, _⟩
      · have : find_memory_type a_type_filter a_properties memory_properties = .ok k' := h7
        rw [this] at he
        cases he
      · obtain ⟨hi1, hi2, fl, hi3, hi4⟩ := hi
        exact absurd hi4 (h1 i fl hi1 hi2 hi3)
    · intro hno
      exact ⟨_, hnone hno⟩

/-- Witness of C24: a table of three memory types, filter bits 1 and 2, the
required flag `2`. -/
theorem find_memory_type_first_suitable_witness :
    ((3 : Nat) ≤ VK_MAX_MEMORY_TYPES ∧ 3 ≤ ([2, 1, 6] ++ List.replicate 29 0).length)
      ∧ find_memory_type 6 2 ⟨3, [2, 1, 6] ++ List.replicate 29 0⟩ = .ok 2 :=
  ⟨⟨by decide, by decide⟩,
    (find_memory_type_first_suitable 6 2 ⟨3, [2, 1, 6] ++ List.replicate 29 0⟩ (by decide)
      (by decide)).1 2 ⟨by decide, by decide, 6, by decide, by decide⟩
      (fun j hj hs => by
        obtain ⟨_, hb, fl, hf, hp⟩ := hs
        have hj' : j = 0 ∨ j = 1 := by omega
        rcases hj' with rfl | rfl
        · revert hb; decide
        · have : fl = 1 := by
            have h1 : ([2, 1, 6] ++ List.replicate 29 0)[1]? = some 1 := by decide
            simp only at hf
            rw [h1] at hf
            injection hf with hf
            exact hf.symm
          subst this
          revert hp; decide)⟩

/-- C26. For all element counts of the normals, uvs, weights and joint-id
arrays whose bytes together fit the 64 bits of `size_t`: the byte offsets that
`record_command_buffers` binds for normals, uvs, weights and joint ids are, in
this order, the byte offsets at which `create_vertex_buffers` copied these
arrays into the rest buffer, normals at 0; each array is copied to where the
previous one ends, so the four ranges do not overlap; and the joint ids, the
last range, end at the size of the rest buffer. -/
theorem record_command_buffers_offsets_match (mesh : MeshCounts)
    (hfit : mesh.astro_boy_normals_array_count * sizeof_float32_t
        + mesh.astro_boy_uvs_array_count * sizeof_float32_t
        + mesh.astro_boy_weights_array_count * sizeof_float32_t
        + mesh.astro_boy_joints_array_count * sizeof_uint32_t < 2 ^ 64) :
    (create_vertex_buffers_rest mesh).2.map (·.offset)
        = (record_command_buffers_offsets mesh).drop 1
      ∧ (create_vertex_buffers_rest mesh).2
        = [⟨"astro_boy_normals", 0, mesh.astro_boy_normals_array_count * 4⟩,
            ⟨"astro_boy_uvs", mesh.astro_boy_normals_array_count * 4,
              mesh.astro_boy_uvs_array_count * 4⟩,
            ⟨"astro_boy_weights",
              mesh.astro_boy_normals_array_count * 4 + mesh.astro_boy_uvs_array_count * 4,
              mesh.astro_boy_weights_array_count * 4⟩,
            ⟨"astro_boy_joints",
              mesh.astro_boy_normals_array_count * 4 + mesh.astro_boy_uvs_array_count * 4
                + mesh.astro_boy_weights_array_count * 4,
              mesh.astro_boy_joints_array_count * 4⟩]
      ∧ (create_vertex_buffers_rest mesh).2.Chain' (fun a b => a.offset + a.size = b.offset)
      ∧ (∀ last ∈ (create_vertex_buffers_rest mesh).2.getLast?,
          last.offset + last.size = (create_vertex_buffers_rest mesh).1) := by
  obtain ⟨p, n, u, w, j, i⟩ := mesh
  simp only [sizeof_float32_t, sizeof_uint32_t] at hfit
  have hn : (n * 4) % 2 ^ 64 = n * 4 := Nat.mod_eq_of_lt (by omega)
  have hu : (u * 4) % 2 ^ 64 = u * 4 := Nat.mod_eq_of_lt (by omega)
  have hw : (w * 4) % 2 ^ 64 = w * 4 := Nat.mod_eq_of_lt (by omega)
  have hj : (j * 4) % 2 ^ 64 = j * 4 := Nat.mod_eq_of_lt (by omega)
  have hnu : (n * 4 + u * 4) % 2 ^ 64 = n * 4 + u * 4 := Nat.mod_eq_of_lt (by omega)
  have hnuw : (n * 4 + u * 4 + w * 4) % 2 ^ 64 = n * 4 + u * 4 + w * 4 :=
    Nat.mod_eq_of_lt (by omega)
  have hnuj : (n * 4 + u * 4 + j * 4) % 2 ^ 64 = n * 4 + u * 4 + j * 4 :=
    Nat.mod_eq_of_lt (by omega)
  have hall : (n * 4 + u * 4 + j * 4 + w * 4) % 2 ^ 64 = n * 4 + u * 4 + j * 4 + w * 4 :=
    Nat.mod_eq_of_lt (by omega)
  have hrest : create_vertex_buffers_rest ⟨p, n, u, w, j, i⟩
      = (n * 4 + u * 4 + j * 4 + w * 4,
        [⟨"astro_boy_normals", 0, n * 4⟩, ⟨"astro_boy_uvs", n * 4, u * 4⟩,
          ⟨"astro_boy_weights", n * 4 + u * 4, w * 4⟩,
          ⟨"astro_boy_joints", n * 4 + u * 4 + w * 4, j * 4⟩]) := by
    simp only [create_vertex_buffers_rest, mul64, add64, sizeof_float32_t, sizeof_uint32_t,
      hn, hu, hw, hj, hnu, hnuj, hall, Nat.zero_add]
  have hoff : record_command_buffers_offsets ⟨p, n, u, w, j, i⟩
      = [0, 0, n * 4, n * 4 + u * 4, n * 4 + u * 4 + w * 4] := by
    simp only [record_command_buffers_offsets, mul64, add64, sizeof_float32_t, hn, hu, hw,
      hnu, hnuw, Nat.mul_zero, Nat.zero_mod]
  rw [hrest, hoff]
  refine ⟨rfl, rfl, by simp, ?_⟩
  intro last hlast
  simp only [List.getLast?, Option.mem_def] at hlast
  simp only [List.getLast_cons_cons, List.getLast_singleton, Option.some.injEq] at hlast
  subst hlast
  show n * 4 + u * 4 + w * 4 + j * 4 = n * 4 + u * 4 + j * 4 + w * 4
  omega

/-- Witness of C26: a mesh of three vertices. -/
theorem record_command_buffers_offsets_match_witness :
    (9 * sizeof_float32_t + 6 * sizeof_float32_t + 12 * sizeof_float32_t
        + 12 * sizeof_uint32_t < 2 ^ 64)
      ∧ (create_vertex_buffers_rest ⟨9, 9, 6, 12, 12, 3⟩).2.map (·.offset)
        = (record_command_buffers_offsets ⟨9, 9, 6, 12, 12, 3⟩).drop 1
      ∧ (create_vertex_buffers_rest ⟨9, 9, 6, 12, 12, 3⟩).2
        = [⟨"astro_boy_normals", 0, 36⟩, ⟨"astro_boy_uvs", 36, 24⟩,
            ⟨"astro_boy_weights", 60, 48⟩, ⟨"astro_boy_joints", 108, 48⟩] :=
  ⟨by decide,
    (record_command_buffers_offsets_match ⟨9, 9, 6, 12, 12, 3⟩ (by decide)).1,
    (record_command_buffers_offsets_match ⟨9, 9, 6, 12, 12, 3⟩ (by decide)).2.1⟩

/-- The loop stops at the first discrete GPU, with that GPU selected and its
properties cached. -/
theorem create_physical_device_loop_discrete
    (properties_of : Nat → VkPhysicalDeviceProperties) :
    ∀ (gpus : List Nat) (state : Nat × VkPhysicalDeviceProperties) (i gpu : Nat),
      FirstDiscrete properties_of gpus i gpu →
      create_physical_device_loop properties_of gpus state = (gpu, properties_of gpu) := by
  intro gpus
  induction gpus with
  | nil => intro state i gpu h; simp [FirstDiscrete] at h
  | cons first rest ih =>
    intro state i gpu h
    obtain ⟨hget, htype, hlow⟩ := h
    cases i with
    | zero =>
      simp only [List.getElem?_cons_zero, Option.some.injEq] at hget
      subst hget
      simp [create_physical_device_loop, htype]
    | succ i =>
      have hfirst := hlow 0 first (Nat.succ_pos i) List.getElem?_cons_zero
      have hb : ((properties_of first).deviceType == VK_PHYSICAL_DEVICE_TYPE_DISCRETE_GPU)
          = false := by simpa using hfirst
      simp only [create_physical_device_loop, hb, Bool.false_eq_true, if_false]
      apply ih
      refine ⟨by simpa using hget, htype, ?_⟩
      intro j other hj hother
      exact hlow (j + 1) other (by omega) (by simpa using hother)

/-- Without a discrete GPU the loop visits every GPU: it selects none and
leaves the properties of the last GPU cached. -/
theorem create_physical_device_loop_none
    (properties_of : Nat → VkPhysicalDeviceProperties) :
    ∀ (gpus : List Nat) (state : Nat × VkPhysicalDeviceProperties),
      (∀ gpu ∈ gpus,
        (properties_of gpu).deviceType ≠ VK_PHYSICAL_DEVICE_TYPE_DISCRETE_GPU) →
      create_physical_device_loop properties_of gpus state
        = (state.1, match gpus.getLast? with
            | some last => properties_of last
            | none => state.2) := by
  intro gpus
  induction gpus with
  | nil => intro state _; rfl
  | cons first rest ih =>
    intro state h
    have hfirst := h first (List.mem_cons_self _ _)
    have hb : ((properties_of first).deviceType == VK_PHYSICAL_DEVICE_TYPE_DISCRETE_GPU)
        = false := by simpa using hfirst
    simp only [create_physical_device_loop, hb, Bool.false_eq_true, if_false]
    rw [ih _ (fun gpu hg => h gpu (List.mem_cons_of_mem _ hg))]
    cases rest with
    | nil => rfl
    | cons second rest' =>
      rw [List.getLast?_cons_cons,
        List.getLast?_eq_getLast _ (List.cons_ne_nil second rest')]

/-- With a discrete GPU in the list, `create_physical_device` returns the first
one and its properties. -/
theorem create_physical_device_discrete (ndebug : Bool) (gpus : List Nat)
    (properties_of : Nat → VkPhysicalDeviceProperties)
    (m_physical_device_properties : VkPhysicalDeviceProperties) (i gpu : Nat)
    (hvalid : ∀ g ∈ gpus, g ≠ VK_NULL_HANDLE)
    (h : FirstDiscrete properties_of gpus i gpu) :
    create_physical_device ndebug gpus properties_of m_physical_device_properties
      = .ok (gpu, properties_of gpu) := by
  have hmem : gpu ∈ gpus := List.getElem?_mem h.1
  have hne : (gpu == VK_NULL_HANDLE) = false := by simpa using hvalid gpu hmem
  have hlen : gpus.length > 0 := List.length_pos_of_mem hmem
  cases ndebug <;>
    simp [create_physical_device, create_physical_device_loop_discrete properties_of gpus _ i
      gpu h, cassert, hlen, hne, bind, Except.bind, pure, Except.pure]

/-- Without a discrete GPU, `create_physical_device` goes through the fallback:
with more than one GPU, or with asserts compiled out, it returns the first GPU
and the properties of the last one; with one GPU and asserts enabled the assert
of the fallback fails. -/
theorem create_physical_device_fallback (ndebug : Bool) (first : Nat) (rest : List Nat)
    (properties_of : Nat → VkPhysicalDeviceProperties)
    (m_physical_device_properties : VkPhysicalDeviceProperties)
    (h : ∀ gpu ∈ first :: rest,
      (properties_of gpu).deviceType ≠ VK_PHYSICAL_DEVICE_TYPE_DISCRETE_GPU) :
    (rest ≠ [] ∨ ndebug = true →
        create_physical_device ndebug (first :: rest) properties_of
            m_physical_device_properties
          = .ok (first, properties_of ((first :: rest).getLast (List.cons_ne_nil _ _))))
      ∧ (rest = [] → ndebug = false →
          create_physical_device ndebug (first :: rest) properties_of
              m_physical_device_properties
            = .error (.assertion "gpus.size() > 1")) := by
  have hloop := create_physical_device_loop_none properties_of (first :: rest)
    (VK_NULL_HANDLE, m_physical_device_properties) h
  rw [List.getLast?_eq_getLast _ (List.cons_ne_nil _ _)] at hloop
  constructor
  · intro hcase
    rcases hcase with hrest | hnd
    · have hlen : rest.length > 0 := List.length_pos.mpr hrest
      cases ndebug <;>
        simp [create_physical_device, hloop, cassert, hlen, bind, Except.bind, pure,
          Except.pure]
    · subst hnd
      simp [create_physical_device, hloop, cassert, bind, Except.bind, pure, Except.pure]
  · intro hrest hnd
    subst hrest hnd
    simp [create_physical_device, hloop, cassert, bind, Except.bind, pure, Except.pure]



/-- C28. For every non-empty list of distinct, non-null GPU handles: when a
discrete GPU is found, `create_physical_device` returns with the first discrete
GPU selected and the properties of that GPU cached; when no GPU is discrete and
the fallback selects a GPU (more than one GPU enumerated, or asserts compiled
out), the selected GPU is the first of the list and the cached properties are
those of the last GPU of the list, and the last GPU is the selected one exactly
when the list has one element. -/
theorem create_physical_device_cached_properties (ndebug : Bool) (first : Nat)
    (rest : List Nat) (properties_of : Nat → VkPhysicalDeviceProperties)
    (m_physical_device_properties : VkPhysicalDeviceProperties)
    (hvalid : ∀ g ∈ first :: rest, g ≠ VK_NULL_HANDLE)
    (hdistinct : (first :: rest).Nodup) :
    (∀ i gpu, FirstDiscrete properties_of (first :: rest) i gpu →
        create_physical_device ndebug (first :: rest) properties_of
            m_physical_device_properties
          = .ok (gpu, properties_of gpu))
      ∧ ((∀ gpu ∈ first :: rest,
            (properties_of gpu).deviceType ≠ VK_PHYSICAL_DEVICE_TYPE_DISCRETE_GPU) →
          (rest ≠ [] ∨ ndebug = true →
            create_physical_device ndebug (first :: rest) properties_of
                m_physical_device_properties
              = .ok (first, properties_of ((first :: rest).getLast (List.cons_ne_nil _ _))))
          ∧ (∀ selected cached,
              create_physical_device ndebug (first :: rest) properties_of
                  m_physical_device_properties
                = .ok (selected, cached) →
              selected = first
                ∧ cached = properties_of ((first :: rest).getLast (List.cons_ne_nil _ _)))
          ∧ ((first :: rest).getLast (List.cons_ne_nil _ _) = first ↔ rest = [])) := by
  refine ⟨fun i gpu h => create_physical_device_discrete ndebug _ properties_of
    m_physical_device_properties i gpu hvalid h, fun hnone => ?_⟩
  obtain ⟨hok, herr⟩ := create_physical_device_fallback ndebug first rest properties_of
    m_physical_device_properties hnone
  refine ⟨hok, ?_, ?_⟩
  · intro selected cached h
    by_cases hcase : rest ≠ [] ∨ ndebug = true
    · rw [hok hcase] at h
      injection h with h
      injection h with h1 h2
      exact ⟨h1.symm, h2.symm⟩
    · have hrest : rest = [] := by
        by_contra hne
        exact hcase (Or.inl hne)
      have hnd : ndebug = false := by
        cases ndebug
        · rfl
        · exact absurd (Or.inr rfl) hcase
      rw [herr hrest hnd] at h
      cases h
  · constructor
    · intro hlast
      by_contra hne
      rw [List.getLast_cons hne] at hlast
      have hmem : first ∈ rest := hlast ▸ List.getLast_mem hne
      exact (List.nodup_cons.mp hdistinct).1 hmem
    · intro hrest
      subst hrest
      rfl

/-- Witness of C28: two GPUs, an integrated one (handle 1, masks 1x|2x|4x) and
a CPU device (handle 2, masks 1x only). The first is selected, the properties
of the second stay cached. -/
theorem create_physical_device_cached_properties_witness :
    (∀ g ∈ [1, 2], g ≠ VK_NULL_HANDLE) ∧ [1, 2].Nodup
      ∧ create_physical_device false [1, 2]
          (fun gpu => if gpu = 1 then ⟨VK_PHYSICAL_DEVICE_TYPE_INTEGRATED_GPU, 7, 7⟩
            else ⟨VK_PHYSICAL_DEVICE_TYPE_CPU, 1, 1⟩) ⟨0, 0, 0⟩
        = .ok (1, ⟨VK_PHYSICAL_DEVICE_TYPE_CPU, 1, 1⟩) :=
  ⟨by decide, by decide,
    ((create_physical_device_cached_properties false 1 [2]
      (fun gpu => if gpu = 1 then ⟨VK_PHYSICAL_DEVICE_TYPE_INTEGRATED_GPU, 7, 7⟩
        else ⟨VK_PHYSICAL_DEVICE_TYPE_CPU, 1, 1⟩) ⟨0, 0, 0⟩ (by decide) (by decide)).2
      (by decide)).1 (Or.inl (by decide))⟩

/-- C29. For every non-empty list of non-null GPU handles:
`create_physical_device` selects the first GPU whose type is discrete; when no
GPU is discrete and more than one GPU was enumerated it selects the first GPU;
with exactly one GPU, not discrete, the assert of the fallback fails (asserts
enabled), so that with asserts enabled the fallback selects the first GPU if
and only if more than one GPU was enumerated. -/
theorem create_physical_device_selection (ndebug : Bool) (first : Nat)
    (rest : List Nat) (properties_of : Nat → VkPhysicalDeviceProperties)
    (m_physical_device_properties : VkPhysicalDeviceProperties)
    (hvalid : ∀ g ∈ first :: rest, g ≠ VK_NULL_HANDLE) :
    (∀ i gpu, FirstDiscrete properties_of (first :: rest) i gpu →
        (create_physical_device ndebug (first :: rest) properties_of
            m_physical_device_properties).map Prod.fst = .ok gpu)
      ∧ ((∀ gpu ∈ first :: rest,
            (properties_of gpu).deviceType ≠ VK_PHYSICAL_DEVICE_TYPE_DISCRETE_GPU) →
          (rest ≠ [] →
            (create_physical_device ndebug (first :: rest) properties_of
                m_physical_device_properties).map Prod.fst = .ok first)
          ∧ (rest = [] →
              create_physical_device false (first :: rest) properties_of
                  m_physical_device_properties
                = .error (.assertion "gpus.size() > 1"))
          ∧ ((∃ cached,
                create_physical_device false (first :: rest) properties_of
                    m_physical_device_properties
                  = .ok (first, cached)) ↔ rest ≠ [])) := by
  refine ⟨fun i gpu h => ?_, fun hnone => ⟨fun hrest => ?_, fun hrest => ?_, ?_⟩⟩
  · rw [create_physical_device_discrete ndebug _ properties_of m_physical_device_properties
      i gpu hvalid h]
    rfl
  · rw [(create_physical_device_fallback ndebug first rest properties_of
      m_physical_device_properties hnone).1 (Or.inl hrest)]
    rfl
  · exact (create_physical_device_fallback false first rest properties_of
      m_physical_device_properties hnone).2 hrest rfl
  · constructor
    · rintro ⟨cached, h⟩ hrest
      rw [(create_physical_device_fallback false first rest properties_of
        m_physical_device_properties hnone).2 hrest rfl] at h
      cases h
    · intro hrest
      exact ⟨_, (create_physical_device_fallback false first rest properties_of
        m_physical_device_properties hnone).1 (Or.inl hrest)⟩

/-- Witness of C29: an integrated GPU (handle 1) followed by two discrete GPUs
(handles 2 and 3); the first discrete one, at position 1, is selected. -/
theorem create_physical_device_selection_witness :
    (∀ g ∈ [1, 2, 3], g ≠ VK_NULL_HANDLE)
      ∧ (create_physical_device false [1, 2, 3]
          (fun gpu => if gpu = 1 then ⟨VK_PHYSICAL_DEVICE_TYPE_INTEGRATED_GPU, 7, 7⟩
            else ⟨VK_PHYSICAL_DEVICE_TYPE_DISCRETE_GPU, 15, 15⟩) ⟨0, 0, 0⟩).map Prod.fst
        = .ok 2 :=
  ⟨by decide,
    (create_physical_device_selection false 1 [2, 3]
      (fun gpu => if gpu = 1 then ⟨VK_PHYSICAL_DEVICE_TYPE_INTEGRATED_GPU, 7, 7⟩
        else ⟨VK_PHYSICAL_DEVICE_TYPE_DISCRETE_GPU, 15, 15⟩) ⟨0, 0, 0⟩ (by decide)).1 1 2
      ⟨rfl, by decide, by
        intro j other hj hget
        have hj0 : j = 0 := by omega
        subst hj0
        simp at hget
        subst hget
        decide⟩⟩

/-- The loop of `get_sample_count` leaves after at most `fuel + 1` iterations
when the request is below `4 ^ (fuel + 1)`, with the value of
`get_sample_count_loop`. -/
theorem get_sample_count_iterate_spec (counts : Nat) :
    ∀ (fuel required : Nat), required < 4 ^ (fuel + 1) →
      get_sample_count_iterate counts (fuel + 1) required
        = some (get_sample_count_loop counts required) := by
  intro fuel
  induction fuel with
  | zero =>
    intro required h
    have hshift : required >>> 2 = 0 := by
      rw [Nat.shiftRight_eq_div_pow]
      exact Nat.div_eq_of_lt (by simpa using h)
    rw [get_sample_count_loop_eq]
    simp only [get_sample_count_iterate, hshift]
    by_cases hc : counts &&& required = 0 <;> simp [hc]
  | succ fuel ih =>
    intro required h
    have hshift : required >>> 2 < 4 ^ (fuel + 1) := by
      rw [Nat.shiftRight_eq_div_pow]
      apply Nat.div_lt_of_lt_mul
      rw [pow_succ] at h
      omega
    rw [get_sample_count_loop_eq]
    rw [get_sample_count_iterate]
    by_cases hc : counts &&& required = 0
    · by_cases hs : required >>> 2 = 0
      · simp [hc, hs]
      · simp [hc, hs, ih _ hshift]
    · simp [hc]

/-- The value of the loop for a request of one bit: 1x, or a bit of `counts`
at or below the bit requested. -/
theorem get_sample_count_loop_two_pow (counts : Nat) :
    ∀ k : Nat, get_sample_count_loop counts (2 ^ k) = VK_SAMPLE_COUNT_1_BIT
      ∨ ∃ j, j ≤ k ∧ get_sample_count_loop counts (2 ^ k) = 2 ^ j
          ∧ counts.testBit j = true := by
  intro k
  induction k using Nat.strong_induction_on with
  | _ k ih =>
    rw [get_sample_count_loop_eq]
    by_cases hbit : counts.testBit k = true
    · have hc : counts &&& 2 ^ k ≠ 0 := by
        rw [Nat.and_two_pow, hbit]
        simp
      rw [if_pos hc]
      exact Or.inr ⟨k, le_refl k, rfl, hbit⟩
    · have hc : ¬ (counts &&& 2 ^ k ≠ 0) := by
        rw [Nat.and_two_pow]
        simp at hbit
        simp [hbit]
      rw [if_neg hc]
      by_cases hk : 2 ≤ k
      · have hshift : 2 ^ k >>> 2 = 2 ^ (k - 2) := by
          rw [Nat.shiftRight_eq_div_pow]
          exact Nat.pow_div hk (by norm_num)
        rw [hshift]
        have hne : (2 : Nat) ^ (k - 2) ≠ 0 := by positivity
        rw [if_pos hne]
        rcases ih (k - 2) (by omega) with h1 | ⟨j, hj, hval, hset⟩
        · exact Or.inl h1
        · exact Or.inr ⟨j, by omega, hval, hset⟩
      · have hshift : 2 ^ k >>> 2 = 0 := by
          rw [Nat.shiftRight_eq_div_pow]
          apply Nat.div_eq_of_lt
          have : k = 0 ∨ k = 1 := by omega
          rcases this with h | h <;> subst h <;> norm_num
        rw [hshift]
        simp

/-- C30. For every request that is a value of `VkSampleCountFlagBits` (below
`2 ^ 31`) and every pair of support masks, the loop of `get_sample_count`
leaves after at most 16 iterations with the value of `get_sample_count`; and
for every request `2 ^ k` the result is 1x, or a single bit `2 ^ j` that is set
in the color mask and in the depth mask, and in both cases it is not larger
than the request. -/
theorem get_sample_count_terminates_with_supported_bit
    (framebufferColorSampleCounts framebufferDepthSampleCounts : Nat) :
    (∀ multisample_count, multisample_count < 2 ^ 31 →
        get_sample_count_iterate
            (framebufferColorSampleCounts &&& framebufferDepthSampleCounts) 16
            multisample_count
          = some (get_sample_count framebufferColorSampleCounts
              framebufferDepthSampleCounts multisample_count))
      ∧ ∀ k, k < 31 →
          (get_sample_count framebufferColorSampleCounts framebufferDepthSampleCounts (2 ^ k)
              = VK_SAMPLE_COUNT_1_BIT
            ∨ ∃ j, get_sample_count framebufferColorSampleCounts
                  framebufferDepthSampleCounts (2 ^ k) = 2 ^ j
                ∧ framebufferColorSampleCounts.testBit j = true
                ∧ framebufferDepthSampleCounts.testBit j = true)
          ∧ get_sample_count framebufferColorSampleCounts framebufferDepthSampleCounts
              (2 ^ k) ≤ 2 ^ k := by
  constructor
  · intro multisample_count h
    exact get_sample_count_iterate_spec _ 15 multisample_count
      (lt_trans h (by norm_num))
  · intro k _
    simp only [get_sample_count]
    rcases get_sample_count_loop_two_pow
      (framebufferColorSampleCounts &&& framebufferDepthSampleCounts) k
      with h1 | ⟨j, hj, hval, hset⟩
    · refine ⟨Or.inl h1, ?_⟩
      rw [h1]
      exact Nat.one_le_two_pow
    · rw [Nat.testBit_and, Bool.and_eq_true] at hset
      refine ⟨Or.inr ⟨j, hval, hset.1, hset.2⟩, ?_⟩
      rw [hval]
      exact Nat.pow_le_pow_right (by norm_num) hj

/-- Witness of C30: a request of 8x (bit 3) on a device whose color mask holds
1x, 2x and 4x and whose depth mask holds 1x and 4x. -/
theorem get_sample_count_terminates_with_supported_bit_witness :
    (8 < 2 ^ 31 ∧ get_sample_count_iterate (7 &&& 5) 16 8 = some (get_sample_count 7 5 8))
      ∧ 3 < 31
      ∧ (get_sample_count 7 5 (2 ^ 3) = VK_SAMPLE_COUNT_1_BIT
          ∨ ∃ j, get_sample_count 7 5 (2 ^ 3) = 2 ^ j
            ∧ Nat.testBit 7 j = true ∧ Nat.testBit 5 j = true)
      ∧ get_sample_count 7 5 (2 ^ 3) ≤ 2 ^ 3 :=
  ⟨⟨by decide, (get_sample_count_terminates_with_supported_bit 7 5).1 8 (by decide)⟩,
    by decide, (get_sample_count_terminates_with_supported_bit 7 5).2 3 (by decide)⟩

/-- A surface without an upper limit on the number of images reports
`maxImageCount = 0`, which the test before the lowering takes into account.
The assert after it does not: for every positive number of buffers it fails
(asserts enabled), and with asserts compiled out the count requested is the
number of buffers. -/
theorem create_swapchain_image_count_without_limit (number_of_buffers : Nat)
    (capabilities : VkSurfaceCapabilitiesKHR)
    (hmax : capabilities.maxImageCount = 0) (hpos : 0 < number_of_buffers) :
    create_swapchain_image_count false number_of_buffers capabilities
        = .error (.assertion "Min image count for swapchain is bigger than requested!\n")
      ∧ create_swapchain_image_count true number_of_buffers capabilities
        = .ok number_of_buffers := by
  have hn : ¬ number_of_buffers = 0 := by omega
  constructor <;>
    simp [create_swapchain_image_count, hmax, cassert, hn, bind, Except.bind, pure,
      Except.pure]

/-- Witness: three buffers on a surface that needs two images and has no upper
limit. -/
theorem create_swapchain_image_count_without_limit_witness :
    (⟨2, 0, ⟨0, 0⟩, ⟨0, 0⟩, ⟨0, 0⟩⟩ : VkSurfaceCapabilitiesKHR).maxImageCount = 0 ∧ 0 < 3
      ∧ create_swapchain_image_count false 3 ⟨2, 0, ⟨0, 0⟩, ⟨0, 0⟩, ⟨0, 0⟩⟩
        = .error (.assertion "Min image count for swapchain is bigger than requested!\n")
      ∧ create_swapchain_image_count true 3 ⟨2, 0, ⟨0, 0⟩, ⟨0, 0⟩, ⟨0, 0⟩⟩ = .ok 3 :=
  ⟨rfl, by decide,
    create_swapchain_image_count_without_limit 3 ⟨2, 0, ⟨0, 0⟩, ⟨0, 0⟩, ⟨0, 0⟩⟩ rfl
      (by decide)⟩

theorem Exec.bind_def {α β : Type} (m : Exec α) (f : α → Exec β) :
    (m >>= f) = Exec.bind m f := rfl

theorem Exec.pure_def {α : Type} (a : α) : @Pure.pure Exec _ α a = ([], .ok a) := rfl

theorem Exec.bind_ok {α β : Type} (calls : List Call) (a : α) (f : α → Exec β) :
    Exec.bind (calls, .ok a) f = (calls ++ (f a).1, (f a).2) := rfl

theorem Exec.bind_error {α β : Type} (calls : List Call) (e : Failure) (f : α → Exec β) :
    Exec.bind (calls, (.error e : Except Failure α)) f = (calls, .error e) := rfl

theorem Exec.bind_error' {α β : Type} (m : Exec α) (f : α → Exec β) (e : Failure)
    (h : m.2 = .error e) : Exec.bind m f = (m.1, .error e) := by
  obtain ⟨calls, r⟩ := m
  simp only at h
  subst h
  rfl

theorem Exec.bind_ok' {α β : Type} (m : Exec α) (f : α → Exec β) (a : α)
    (h : m.2 = .ok a) : Exec.bind m f = (m.1 ++ (f a).1, (f a).2) := by
  obtain ⟨calls, r⟩ := m
  simp only at h
  subst h
  rfl

/-- A bind that returns went through both halves: the first returned too, and
the calls are those of the first followed by those of the second. -/
theorem Exec.bind_ok_inv {α β : Type} (m : Exec α) (f : α → Exec β) (b : β)
    (h : (Exec.bind m f).2 = .ok b) :
    ∃ a, m.2 = .ok a ∧ (f a).2 = .ok b ∧ (Exec.bind m f).1 = m.1 ++ (f a).1 := by
  obtain ⟨calls, r⟩ := m
  cases r with
  | error e => simp [Exec.bind_error] at h
  | ok a =>
    rw [Exec.bind_ok] at h ⊢
    exact ⟨a, rfl, h, rfl⟩

/-- A call of a re-creation is no submit and no reset of a fence. -/
theorem Call.is_recreation_quiet (c : Call) (h : c.is_recreation = true) :
    c.is_submit = false ∧ ∀ f, c ≠ .vkResetFences f := by
  cases c <;> simp [Call.is_recreation] at h <;>
    exact ⟨rfl, fun f hf => by cases hf⟩

/-- One iteration of the recording loop that stays inside the arrays and passes
its asserts: its calls, followed by the rest of the loop. -/
theorem record_command_buffers_loop_step (ndebug : Bool) (begin_result end_result : VkResult)
    (mesh : MeshCounts) (self : PhysicalDevice) (remaining i : Nat)
    (command_buffer framebuffer memory descriptor_set : Nat)
    (hres : ndebug = true ∨ (begin_result = VK_SUCCESS ∧ end_result = VK_SUCCESS))
    (hc : self.m_graphics_command_buffers[i]? = some command_buffer)
    (hf : self.m_framebuffers[i]? = some framebuffer)
    (hm : self.m_uniform_buffers_memory[i]? = some memory)
    (hs : self.m_descriptor_sets[i]? = some descriptor_set) :
    record_command_buffers_loop ndebug begin_result end_result mesh self (remaining + 1) i
      = ([.vkBeginCommandBuffer command_buffer, .vkCmdBeginRenderPass command_buffer framebuffer,
          .vkMapMemory memory, .write_uniform_data memory, .vkUnmapMemory memory,
          .vkCmdBindPipeline command_buffer, .vkCmdSetViewport command_buffer,
          .vkCmdBindVertexBuffers command_buffer (record_command_buffers_offsets mesh),
          .vkCmdBindIndexBuffer command_buffer,
          .vkCmdBindDescriptorSets command_buffer descriptor_set,
          .vkCmdDrawIndexed command_buffer mesh.astro_boy_indices_array_count,
          .vkCmdEndRenderPass command_buffer, .vkEndCommandBuffer command_buffer]
          ++ (record_command_buffers_loop ndebug begin_result end_result mesh self remaining
            (i + 1)).1,
        (record_command_buffers_loop ndebug begin_result end_result mesh self remaining
          (i + 1)).2) := by
  rcases hres with hn | ⟨hb, he⟩
  · subst hn
    simp [record_command_buffers_loop, update_uniform_buffer, Exec.bind_def, Exec.index,
      Exec.call, Exec.assert, Exec.pure, Exec.bind_ok, cassert, hc, hf, hm, hs,
      Exec.pure_def]
  · subst hb he
    cases ndebug <;>
      simp [record_command_buffers_loop, update_uniform_buffer, Exec.bind_def, Exec.index,
        Exec.call, Exec.assert, Exec.pure, Exec.bind_ok, cassert, hc, hf, hm, hs,
        Exec.pure_def]

/-- The calls of a bind have a property that the calls of both halves have. -/
theorem Exec.calls_bind {α β : Type} (p : Call → Bool) (m : Exec α) (f : α → Exec β)
    (hm : ∀ c ∈ m.1, p c = true) (hf : ∀ a, ∀ c ∈ (f a).1, p c = true) :
    ∀ c ∈ (Exec.bind m f).1, p c = true := by
  obtain ⟨calls, r⟩ := m
  cases r with
  | error e => exact hm
  | ok a =>
    intro c hc
    rw [Exec.bind_ok] at hc
    rcases List.mem_append.1 hc with h | h
    · exact hm c h
    · exact hf a c h

theorem Exec.calls_call (p : Call → Bool) (c : Call) (h : p c = true) :
    ∀ c' ∈ (Exec.call c).1, p c' = true := by
  intro c' hc'
  simp only [Exec.call, List.mem_singleton] at hc'
  rw [hc']
  exact h

theorem Exec.calls_index (p : Call → Bool) (what : String) (xs : List Nat) (i : Nat) :
    ∀ c ∈ (Exec.index what xs i).1, p c = true := by
  intro c hc
  simp only [Exec.index] at hc
  cases h : xs[i]? <;> rw [h] at hc <;> cases hc

theorem Exec.calls_assert (p : Call → Bool) (ndebug c : Bool) (msg : String) :
    ∀ c' ∈ (Exec.assert ndebug c msg).1, p c' = true := by
  intro c' hc'
  cases hc'

theorem Exec.calls_pure {α : Type} (p : Call → Bool) (a : α) :
    ∀ c ∈ (Pure.pure a : Exec α).1, p c = true := by
  intro c hc
  cases hc

theorem Exec.calls_fail {α : Type} (p : Call → Bool) (e : Failure) :
    ∀ c ∈ (Exec.fail e : Exec α).1, p c = true := by
  intro c hc
  cases hc

/-- Every call of `update_uniform_buffer` is a call of a re-creation. -/
theorem update_uniform_buffer_calls (self : PhysicalDevice) (a_index : Nat)
    (a_animate : Bool) :
    ∀ c ∈ (update_uniform_buffer self a_index a_animate).1, c.is_recreation = true := by
  simp only [update_uniform_buffer, Exec.bind_def]
  refine Exec.calls_bind _ _ _ (Exec.calls_index _ _ _ _) (fun _ => ?_)
  refine Exec.calls_bind _ _ _ (Exec.calls_call _ _ rfl) (fun _ => ?_)
  refine Exec.calls_bind _ _ _ (Exec.calls_call _ _ rfl) (fun _ => ?_)
  exact Exec.calls_call _ _ rfl

/-- Every call of the recording loop is a call of a re-creation. -/
theorem record_command_buffers_loop_calls (ndebug : Bool) (begin_result end_result : VkResult)
    (mesh : MeshCounts) (self : PhysicalDevice) :
    ∀ (remaining i : Nat),
      ∀ c ∈ (record_command_buffers_loop ndebug begin_result end_result mesh self
        remaining i).1, c.is_recreation = true := by
  intro remaining
  induction remaining with
  | zero =>
    intro i c hc
    simp [record_command_buffers_loop, Exec.pure_def] at hc
  | succ remaining ih =>
    intro i
    simp only [record_command_buffers_loop, Exec.bind_def]
    refine Exec.calls_bind _ _ _ (Exec.calls_index _ _ _ _) (fun _ => ?_)
    refine Exec.calls_bind _ _ _ (Exec.calls_call _ _ rfl) (fun _ => ?_)
    refine Exec.calls_bind _ _ _ (Exec.calls_assert _ _ _ _) (fun _ => ?_)
    refine Exec.calls_bind _ _ _ (Exec.calls_index _ _ _ _) (fun _ => ?_)
    refine Exec.calls_bind _ _ _ (Exec.calls_call _ _ rfl) (fun _ => ?_)
    refine Exec.calls_bind _ _ _ (Exec.calls_assert _ _ _ _) (fun _ => ?_)
    refine Exec.calls_bind _ _ _ (update_uniform_buffer_calls _ _ _) (fun _ => ?_)
    refine Exec.calls_bind _ _ _ (Exec.calls_call _ _ rfl) (fun _ => ?_)
    refine Exec.calls_bind _ _ _ (Exec.calls_call _ _ rfl) (fun _ => ?_)
    refine Exec.calls_bind _ _ _ (Exec.calls_call _ _ rfl) (fun _ => ?_)
    refine Exec.calls_bind _ _ _ (Exec.calls_call _ _ rfl) (fun _ => ?_)
    refine Exec.calls_bind _ _ _ (Exec.calls_index _ _ _ _) (fun _ => ?_)
    refine Exec.calls_bind _ _ _ (Exec.calls_call _ _ rfl) (fun _ => ?_)
    refine Exec.calls_bind _ _ _ (Exec.calls_call _ _ rfl) (fun _ => ?_)
    refine Exec.calls_bind _ _ _ (Exec.calls_call _ _ rfl) (fun _ => ?_)
    refine Exec.calls_bind _ _ _ (Exec.calls_call _ _ rfl) (fun _ => ?_)
    refine Exec.calls_bind _ _ _ (Exec.calls_assert _ _ _ _) (fun _ => ?_)
    exact ih (i + 1)

/-- The recording loop over command buffers and framebuffers that number
`n_images` and uniform buffers and descriptor sets that number `n_buffers`,
when its asserts pass: it returns when `n_images` is at most `n_buffers` and
ends outside the array of the uniform buffers otherwise. -/
theorem record_command_buffers_loop_spec (ndebug : Bool) (begin_result end_result : VkResult)
    (mesh : MeshCounts) (self : PhysicalDevice) (n_images n_buffers : Nat)
    (hres : ndebug = true ∨ (begin_result = VK_SUCCESS ∧ end_result = VK_SUCCESS))
    (hcmd : self.m_graphics_command_buffers.length = n_images)
    (hfb : self.m_framebuffers.length = n_images)
    (hmem : self.m_uniform_buffers_memory.length = n_buffers)
    (hsets : self.m_descriptor_sets.length = n_buffers) :
    ∀ (remaining i : Nat), i + remaining = n_images → i ≤ n_buffers →
      (record_command_buffers_loop ndebug begin_result end_result mesh self remaining i).2
        = if n_images ≤ n_buffers then .ok ()
          else .error (.out_of_bounds "m_uniform_buffers_memory") := by
  intro remaining
  induction remaining with
  | zero =>
    intro i hi hle
    have : n_images ≤ n_buffers := by omega
    simp [record_command_buffers_loop, Exec.pure_def, this]
  | succ remaining ih =>
    intro i hi hle
    have hic : i < self.m_graphics_command_buffers.length := by omega
    have hif : i < self.m_framebuffers.length := by omega
    have hgc := List.getElem?_eq_getElem hic
    have hgf := List.getElem?_eq_getElem hif
    rcases Nat.lt_or_ge i n_buffers with hlt | hge
    · have him : i < self.m_uniform_buffers_memory.length := by omega
      have his : i < self.m_descriptor_sets.length := by omega
      have hgm := List.getElem?_eq_getElem him
      have hgs := List.getElem?_eq_getElem his
      rw [record_command_buffers_loop_step ndebug begin_result end_result mesh self remaining
        i _ _ _ _ hres hgc hgf hgm hgs]
      exact ih (i + 1) (by omega) (by omega)
    · have hgm : self.m_uniform_buffers_memory[i]? = none :=
        List.getElem?_eq_none (by omega)
      have hnot : ¬ n_images ≤ n_buffers := by omega
      rw [if_neg hnot]
      rcases hres with hn | ⟨hb, he⟩
      · subst hn
        simp [record_command_buffers_loop, update_uniform_buffer, Exec.bind_def, Exec.index,
          Exec.call, Exec.assert, Exec.pure, Exec.fail, Exec.bind_ok, Exec.bind_error,
          cassert, hgc, hgf, hgm, Exec.pure_def]
      · subst hb he
        cases ndebug <;>
          simp [record_command_buffers_loop, update_uniform_buffer, Exec.bind_def,
            Exec.index, Exec.call, Exec.assert, Exec.pure, Exec.fail, Exec.bind_ok,
            Exec.bind_error, cassert, hgc, hgf, hgm, Exec.pure_def]

/-- A `create_*` member is entered, and then returns or ends the run. -/
theorem create_member_spec (ndebug : Bool) (drv : FrameDriver) (member : Call) :
    create_member ndebug drv member = ([member], .ok ())
      ∨ ∃ e, create_member ndebug drv member = ([member], .error e) := by
  simp only [create_member, Exec.bind_def, Exec.call, Exec.bind_ok]
  cases hfail : drv.create_failure with
  | none => left; rfl
  | some answer =>
    obtain ⟨failing, failure⟩ := answer
    by_cases hm : (failing == member) = true
    · cases failure with
      | assertion msg =>
        cases ndebug with
        | true => left; simp [hm, Exec.assert, cassert, Exec.pure_def, pure, Except.pure]
        | false => right; exact ⟨_, by simp [hm, Exec.assert, cassert]; rfl⟩
      | exception msg => right; exact ⟨.exception msg, by simp [hm, Exec.fail]⟩
      | out_of_bounds what => right; exact ⟨.out_of_bounds what, by simp [hm, Exec.fail]⟩
    · left
      cases failure <;> simp [hm, Exec.pure_def]

/-- A `create_*` member returns when the driver makes none fail. -/
theorem create_member_ok (ndebug : Bool) (drv : FrameDriver) (member : Call)
    (h : drv.create_failure = none) :
    create_member ndebug drv member = ([member], .ok ()) := by
  simp [create_member, Exec.bind_def, Exec.call, Exec.bind_ok, h, Exec.pure_def]


/-- What `recreate_swapchain` does: when no `create_*` member fails it makes
the calls of the sequence and then those of the recording of the re-created
command buffers, and it returns the device with the re-created framebuffers
and command buffers when the recording returns; when a `create_*` member fails
the calls are those of the sequence up to the entry into this member. -/
theorem recreate_swapchain_spec (ndebug : Bool) (mesh : MeshCounts) (drv : FrameDriver)
    (self : PhysicalDevice) :
    recreate_swapchain ndebug mesh drv self
        = (recreate_swapchain_sequence
            ++ (record_command_buffers ndebug drv.begin_result drv.end_result mesh
              (self.recreated drv)).1,
          (record_command_buffers ndebug drv.begin_result drv.end_result mesh
            (self.recreated drv)).2.map (fun _ => self.recreated drv))
      ∨ ∃ n e, 10 ≤ n ∧ n ≤ 17
          ∧ recreate_swapchain ndebug mesh drv self
            = (recreate_swapchain_sequence.take n, .error e) := by
  have hrecreated : ({ ({ ({ ({ self with
      m_framebuffers := self.m_framebuffers.map (fun _ => VK_NULL_HANDLE) } : PhysicalDevice)
        with m_graphics_command_buffers := [] } : PhysicalDevice)
        with m_framebuffers := drv.recreated_framebuffers } : PhysicalDevice)
        with m_graphics_command_buffers := drv.recreated_command_buffers } : PhysicalDevice)
      = self.recreated drv := rfl
  simp only [recreate_swapchain, cleanup_swapchain, Exec.bind_def, Exec.call, Exec.bind_ok,
    Exec.pure_def, hrecreated]
  rcases create_member_spec ndebug drv .create_swapchain with h | ⟨e, h⟩
  swap
  · exact Or.inr ⟨10, e, by omega, by omega, by rw [h]; rfl⟩
  rcases create_member_spec ndebug drv .create_imageviews with h2 | ⟨e, h2⟩
  swap
  · exact Or.inr ⟨11, e, by omega, by omega, by rw [h, h2]; rfl⟩
  rcases create_member_spec ndebug drv .create_render_pass with h3 | ⟨e, h3⟩
  swap
  · exact Or.inr ⟨12, e, by omega, by omega, by rw [h, h2, h3]; rfl⟩
  rcases create_member_spec ndebug drv .create_graphics_pipeline with h4 | ⟨e, h4⟩
  swap
  · exact Or.inr ⟨13, e, by omega, by omega, by rw [h, h2, h3, h4]; rfl⟩
  rcases create_member_spec ndebug drv .create_msaa_color_buffer with h5 | ⟨e, h5⟩
  swap
  · exact Or.inr ⟨14, e, by omega, by omega, by rw [h, h2, h3, h4, h5]; rfl⟩
  rcases create_member_spec ndebug drv .create_depth_buffer with h6 | ⟨e, h6⟩
  swap
  · exact Or.inr ⟨15, e, by omega, by omega, by rw [h, h2, h3, h4, h5, h6]; rfl⟩
  rcases create_member_spec ndebug drv .create_framebuffers with h7 | ⟨e, h7⟩
  swap
  · exact Or.inr ⟨16, e, by omega, by omega, by rw [h, h2, h3, h4, h5, h6, h7]; rfl⟩
  rcases create_member_spec ndebug drv .create_command_buffers with h8 | ⟨e, h8⟩
  swap
  · exact Or.inr ⟨17, e, by omega, by omega, by rw [h, h2, h3, h4, h5, h6, h7, h8]; rfl⟩
  left
  rw [h, h2, h3, h4, h5, h6, h7, h8]
  generalize record_command_buffers ndebug drv.begin_result drv.end_result mesh
    (self.recreated drv) = recording
  obtain ⟨calls, r⟩ := recording
  cases r <;> simp [Exec.bind, recreate_swapchain_sequence, Except.map]


theorem recreate_swapchain_sequence_calls :
    ∀ c ∈ recreate_swapchain_sequence, c.is_recreation = true := by
  decide

/-- Every call of `recreate_swapchain` is a call of a re-creation: none is a
submit, a wait on a fence or a reset of a fence. -/
theorem recreate_swapchain_calls (ndebug : Bool) (mesh : MeshCounts) (drv : FrameDriver)
    (self : PhysicalDevice) :
    ∀ c ∈ (recreate_swapchain ndebug mesh drv self).1, c.is_recreation = true := by
  intro c hc
  rcases recreate_swapchain_spec ndebug mesh drv self with h | ⟨n, e, _, _, h⟩
  · rw [h] at hc
    rcases List.mem_append.1 hc with h1 | h1
    · exact recreate_swapchain_sequence_calls c h1
    · exact record_command_buffers_loop_calls _ _ _ _ _ _ _ c h1
  · rw [h] at hc
    exact recreate_swapchain_sequence_calls c (List.mem_of_mem_take hc)

/-- A re-creation that returns has made every call of the sequence and of the
recording, and returns the device with the re-created framebuffers and command
buffers. -/
theorem recreate_swapchain_returns (ndebug : Bool) (mesh : MeshCounts) (drv : FrameDriver)
    (self self' : PhysicalDevice)
    (h : (recreate_swapchain ndebug mesh drv self).2 = .ok self') :
    self' = self.recreated drv
      ∧ (record_command_buffers ndebug drv.begin_result drv.end_result mesh
          (self.recreated drv)).2 = .ok ()
      ∧ (recreate_swapchain ndebug mesh drv self).1
        = recreate_swapchain_sequence
          ++ (record_command_buffers ndebug drv.begin_result drv.end_result mesh
            (self.recreated drv)).1 := by
  rcases recreate_swapchain_spec ndebug mesh drv self with hs | ⟨n, e, _, _, hs⟩
  · have hcalls := congrArg Prod.fst hs
    rw [hs] at h
    simp only at h hcalls
    cases hr : (record_command_buffers ndebug drv.begin_result drv.end_result mesh
        (self.recreated drv)).2 with
    | error e => rw [hr] at h; cases h
    | ok u =>
      rw [hr] at h
      simp only [Except.map] at h
      injection h with h
      exact ⟨h.symm, rfl, hcalls⟩
  · rw [hs] at h
    cases h

/-- The acquire block either fails, having made no submit, or returns after the
wait and the acquire, or (asserts compiled out, acquire out of date) returns
after the wait, the acquire and a re-creation that returned. -/
theorem draw_frame_acquire_spec (ndebug : Bool) (mesh : MeshCounts) (drv : FrameDriver)
    (self : PhysicalDevice) :
    ((∃ e, (draw_frame_acquire ndebug mesh drv self).2 = .error e)
        ∧ (∀ c ∈ (draw_frame_acquire ndebug mesh drv self).1, c.is_submit = false))
      ∨ ∃ frame_fence image_available,
        self.m_queue_fence[self.m_current_frame]? = some frame_fence
          ∧ self.m_image_available_semaphore[self.m_current_frame]? = some image_available
          ∧ ((drv.acquire_result ≠ VK_ERROR_OUT_OF_DATE_KHR
              ∧ (drv.acquire_result = VK_SUCCESS ∨ drv.acquire_result = VK_SUBOPTIMAL_KHR)
              ∧ draw_frame_acquire ndebug mesh drv self =
                ([.vkWaitForFences frame_fence, .vkAcquireNextImageKHR image_available],
                  .ok (self, frame_fence, image_available,
                    drv.acquire_index.getD drv.image_index_before)))
            ∨ (drv.acquire_result = VK_ERROR_OUT_OF_DATE_KHR ∧ ndebug = true
              ∧ draw_frame_acquire ndebug mesh drv self =
                (.vkWaitForFences frame_fence :: .vkAcquireNextImageKHR image_available
                    :: (recreate_swapchain ndebug mesh drv self).1,
                  .ok (self.recreated drv, frame_fence, image_available,
                    drv.acquire_index.getD drv.image_index_before)))) := by
  cases hf : self.m_queue_fence[self.m_current_frame]? with
  | none =>
    left
    simp [draw_frame_acquire, Exec.bind_def, Exec.index, Exec.fail, hf, Exec.bind_error]
  | some frame_fence =>
    cases ha : self.m_image_available_semaphore[self.m_current_frame]? with
    | none =>
      left
      simp [draw_frame_acquire, Exec.bind_def, Exec.index, Exec.fail, Exec.call, Exec.pure,
        hf, ha, Exec.bind_error, Exec.bind_ok, Call.is_submit]
    | some image_available =>
      by_cases hood : drv.acquire_result = VK_ERROR_OUT_OF_DATE_KHR
      · cases ndebug with
        | false =>
          left
          simp [draw_frame_acquire, Exec.bind_def, Exec.index, Exec.fail, Exec.call,
            Exec.pure, Exec.assert, cassert, hf, ha, hood, Exec.bind_error, Exec.bind_ok,
            Call.is_submit]
        | true =>
          have hform : draw_frame_acquire true mesh drv self
              = Exec.bind ([.vkWaitForFences frame_fence,
                    .vkAcquireNextImageKHR image_available], .ok ())
                  (fun _ => Exec.bind (recreate_swapchain true mesh drv self)
                    (fun s => ([], .ok (s, frame_fence, image_available,
                      drv.acquire_index.getD drv.image_index_before)))) := by
            simp [draw_frame_acquire, Exec.bind_def, Exec.index, Exec.fail, Exec.call,
              Exec.pure, Exec.assert, cassert, hf, ha, hood, Exec.bind_error, Exec.bind_ok,
              Exec.pure_def]
          cases hres : (recreate_swapchain true mesh drv self).2 with
          | error e =>
            left
            rw [hform, Exec.bind_ok, Exec.bind_error' _ _ e hres]
            refine ⟨⟨e, rfl⟩, ?_⟩
            intro c hc
            simp only [List.cons_append, List.nil_append, List.mem_cons] at hc
            rcases hc with rfl | rfl | hc
            · rfl
            · rfl
            · exact (Call.is_recreation_quiet c
                (recreate_swapchain_calls true mesh drv self c hc)).1
          | ok s =>
            right
            obtain ⟨hs, _, _⟩ := recreate_swapchain_returns true mesh drv self s hres
            subst hs
            refine ⟨frame_fence, image_available, rfl, rfl, Or.inr ⟨hood, rfl, ?_⟩⟩
            rw [hform, Exec.bind_ok, Exec.bind_ok' _ _ _ hres]
            simp
      · by_cases hok : drv.acquire_result = VK_SUCCESS ∨ drv.acquire_result = VK_SUBOPTIMAL_KHR
        · right
          refine ⟨frame_fence, image_available, rfl, rfl, Or.inl ⟨hood, hok, ?_⟩⟩
          have hcond : (drv.acquire_result != VK_SUCCESS
              && drv.acquire_result != VK_SUBOPTIMAL_KHR) = false := by
            rcases hok with h | h <;> simp [h]
          simp [draw_frame_acquire, Exec.bind_def, Exec.index, Exec.fail, Exec.call,
            Exec.pure, hf, ha, hood, hcond, Exec.bind_error, Exec.bind_ok, Exec.pure_def]
        · left
          have hcond : (drv.acquire_result != VK_SUCCESS
              && drv.acquire_result != VK_SUBOPTIMAL_KHR) = true := by
            simp only [not_or] at hok
            simp [hok.1, hok.2]
          simp [draw_frame_acquire, Exec.bind_def, Exec.index, Exec.fail, Exec.call,
            Exec.pure, hf, ha, hood, hcond, Exec.bind_error, Exec.bind_ok, Call.is_submit]


/-- The submit block either fails before the uniform data is written, having
made no call but waits and the reset, or makes exactly the wait on the fence
in flight for the image (when there is one), the reset of the frame fence, the
update of the uniform buffer and the submit, in this order. -/
theorem draw_frame_submit_spec (drv : FrameDriver) (a_update_animation : Bool)
    (self : PhysicalDevice) (frame_fence image_available image_index : Nat) :
    ((∃ e, (draw_frame_submit drv a_update_animation self frame_fence image_available
          image_index).2 = .error e)
        ∧ ∀ c ∈ (draw_frame_submit drv a_update_animation self frame_fence image_available
            image_index).1, ∃ h, c = .vkWaitForFences h ∨ c = .vkResetFences h)
      ∨ ∃ in_flight command_buffer render_finished memory,
        self.m_queue_fence_in_flight[image_index]? = some in_flight
          ∧ self.m_graphics_command_buffers[image_index]? = some command_buffer
          ∧ self.m_render_finished_semaphore[self.m_current_frame]? = some render_finished
          ∧ self.m_uniform_buffers_memory[image_index]? = some memory
          ∧ (draw_frame_submit drv a_update_animation self frame_fence image_available
              image_index).1
            = (if in_flight ≠ VK_NULL_HANDLE then [Call.vkWaitForFences in_flight] else [])
              ++ [.vkResetFences frame_fence, .vkMapMemory memory, .write_uniform_data memory,
                .vkUnmapMemory memory,
                .vkQueueSubmit image_index command_buffer image_available render_finished
                  frame_fence]
          ∧ ((drv.submit_result = VK_SUCCESS
              ∧ (draw_frame_submit drv a_update_animation self frame_fence image_available
                  image_index).2
                = .ok ({ self with m_queue_fence_in_flight :=
                    self.m_queue_fence_in_flight.set image_index frame_fence },
                  render_finished))
            ∨ (drv.submit_result ≠ VK_SUCCESS
              ∧ (draw_frame_submit drv a_update_animation self frame_fence image_available
                  image_index).2
                = .error (.exception "failed to submit draw command buffer!"))) := by
  cases hi : self.m_queue_fence_in_flight[image_index]? with
  | none =>
    left
    simp [draw_frame_submit, Exec.bind_def, Exec.index, Exec.fail, hi, Exec.bind_error]
  | some in_flight =>
    cases hc : self.m_graphics_command_buffers[image_index]? with
    | none =>
      left
      by_cases hz : in_flight = VK_NULL_HANDLE <;>
        simp [draw_frame_submit, Exec.bind_def, Exec.index, Exec.fail, Exec.call, Exec.pure,
          hi, hc, hz, Exec.bind_error, Exec.bind_ok, Exec.pure_def]
    | some command_buffer =>
      cases hr : self.m_render_finished_semaphore[self.m_current_frame]? with
      | none =>
        left
        by_cases hz : in_flight = VK_NULL_HANDLE <;>
          simp [draw_frame_submit, Exec.bind_def, Exec.index, Exec.fail, Exec.call, Exec.pure,
            hi, hc, hr, hz, Exec.bind_error, Exec.bind_ok, Exec.pure_def]
      | some render_finished =>
        cases hm : self.m_uniform_buffers_memory[image_index]? with
        | none =>
          left
          by_cases hz : in_flight = VK_NULL_HANDLE <;>
            simp [draw_frame_submit, update_uniform_buffer, Exec.bind_def, Exec.index,
              Exec.fail, Exec.call, Exec.pure, hi, hc, hr, hm, hz, Exec.bind_error,
              Exec.bind_ok, Exec.pure_def]
        | some memory =>
          right
          refine ⟨in_flight, command_buffer, render_finished, memory, rfl, rfl, rfl, rfl, ?_⟩
          by_cases hs : drv.submit_result = VK_SUCCESS
          · by_cases hz : in_flight = VK_NULL_HANDLE
            · refine ⟨?_, Or.inl ⟨hs, ?_⟩⟩ <;>
                simp [draw_frame_submit, update_uniform_buffer, Exec.bind_def, Exec.index,
                  Exec.fail, Exec.call, Exec.pure, hi, hc, hr, hm, hz, hs, Exec.bind_error,
                  Exec.bind_ok, Exec.pure_def]
            · refine ⟨?_, Or.inl ⟨hs, ?_⟩⟩ <;>
                simp [draw_frame_submit, update_uniform_buffer, Exec.bind_def, Exec.index,
                  Exec.fail, Exec.call, Exec.pure, hi, hc, hr, hm, hz, hs, Exec.bind_error,
                  Exec.bind_ok, Exec.pure_def]
          · by_cases hz : in_flight = VK_NULL_HANDLE
            · refine ⟨?_, Or.inr ⟨hs, ?_⟩⟩ <;>
                simp [draw_frame_submit, update_uniform_buffer, Exec.bind_def, Exec.index,
                  Exec.fail, Exec.call, Exec.pure, hi, hc, hr, hm, hz, hs, Exec.bind_error,
                  Exec.bind_ok, Exec.pure_def]
            · refine ⟨?_, Or.inr ⟨hs, ?_⟩⟩ <;>
                simp [draw_frame_submit, update_uniform_buffer, Exec.bind_def, Exec.index,
                  Exec.fail, Exec.call, Exec.pure, hi, hc, hr, hm, hz, hs, Exec.bind_error,
                  Exec.bind_ok, Exec.pure_def]

/-- The present block: after the present it returns with the frame slot
advanced, or (present out of date or suboptimal) with asserts compiled out it
runs the re-creation and returns with the frame slot advanced when the
re-creation returns, and fails as the re-creation fails, and with asserts
enabled it stops at the assert, or it throws. -/
theorem draw_frame_present_spec (ndebug : Bool) (mesh : MeshCounts) (drv : FrameDriver)
    (self : PhysicalDevice) (render_finished image_index : Nat) :
    (drv.present_result = VK_SUCCESS
        ∧ draw_frame_present ndebug mesh drv self render_finished image_index
          = ([.vkQueuePresentKHR render_finished image_index],
            .ok { self with
              m_current_frame := (self.m_current_frame + 1) % self.number_of_buffers }))
      ∨ ((drv.present_result = VK_ERROR_OUT_OF_DATE_KHR
            ∨ drv.present_result = VK_SUBOPTIMAL_KHR) ∧ ndebug = true
        ∧ draw_frame_present ndebug mesh drv self render_finished image_index
          = (.vkQueuePresentKHR render_finished image_index
              :: (recreate_swapchain ndebug mesh drv self).1,
            (recreate_swapchain ndebug mesh drv self).2.map (fun s => { s with
              m_current_frame := (s.m_current_frame + 1) % s.number_of_buffers })))
      ∨ ((drv.present_result = VK_ERROR_OUT_OF_DATE_KHR
            ∨ drv.present_result = VK_SUBOPTIMAL_KHR) ∧ ndebug = false
        ∧ draw_frame_present ndebug mesh drv self render_finished image_index
          = ([.vkQueuePresentKHR render_finished image_index],
            .error (.assertion "This should never happen")))
      ∨ (drv.present_result ≠ VK_SUCCESS ∧ drv.present_result ≠ VK_ERROR_OUT_OF_DATE_KHR
        ∧ drv.present_result ≠ VK_SUBOPTIMAL_KHR
        ∧ draw_frame_present ndebug mesh drv self render_finished image_index
          = ([.vkQueuePresentKHR render_finished image_index],
            .error (.exception "Failed to present swapchain image!"))) := by
  by_cases hre : drv.present_result = VK_ERROR_OUT_OF_DATE_KHR
      ∨ drv.present_result = VK_SUBOPTIMAL_KHR
  · have hcond : (drv.present_result == VK_ERROR_OUT_OF_DATE_KHR
        || drv.present_result == VK_SUBOPTIMAL_KHR) = true := by
      rcases hre with h | h <;> simp [h]
    cases ndebug with
    | true =>
      right; left
      refine ⟨hre, rfl, ?_⟩
      simp only [draw_frame_present, Exec.bind_def, Exec.call, Exec.assert, cassert, hcond,
        Exec.bind_ok, Exec.pure_def, if_true]
      generalize recreate_swapchain true mesh drv self = recreation
      obtain ⟨calls, r⟩ := recreation
      cases r <;> simp [Exec.bind, Except.map, pure, Except.pure]
    | false =>
      right; right; left
      refine ⟨hre, rfl, ?_⟩
      simp [draw_frame_present, Exec.bind_def, Exec.call, Exec.assert, cassert, hcond,
        Exec.bind_ok, Exec.bind_error]
  · have hcond : (drv.present_result == VK_ERROR_OUT_OF_DATE_KHR
        || drv.present_result == VK_SUBOPTIMAL_KHR) = false := by
      simp only [not_or] at hre
      simp [hre.1, hre.2]
    simp only [not_or] at hre
    by_cases hs : drv.present_result = VK_SUCCESS
    · left
      refine ⟨hs, ?_⟩
      have hsb : (drv.present_result != VK_SUCCESS) = false := by simp [hs]
      simp only [draw_frame_present, Exec.bind_def, Exec.call, hcond, hsb, Exec.bind_ok,
        Exec.pure_def, Bool.false_eq_true, if_false, List.append_nil, List.singleton_append,
        List.nil_append]
    · right; right; right
      refine ⟨hs, hre.1, hre.2, ?_⟩
      have hsb : (drv.present_result != VK_SUCCESS) = true := by simp [hs]
      simp only [draw_frame_present, Exec.bind_def, Exec.call, Exec.fail, hcond, hsb,
        Exec.bind_ok, Exec.bind_error, Bool.false_eq_true, if_false, if_true,
        List.append_nil]


/-- What one call of `draw_frame` does. Either it fails without having
submitted, or its calls are, in this order: the wait on the frame fence of the
current slot, the acquire, possibly the calls of a re-creation (asserts
compiled out, acquire out of date), the wait on the fence in flight for the
image when there is one, the reset of the frame fence, the write of the uniform
buffer of the image, the submit with the frame fence, and then nothing, the
present, or the present and the calls of a re-creation (asserts compiled out,
present out of date or suboptimal); when it returns, the entry of the image in
the image-in-flight map is the frame fence and the frame slot has advanced. -/
theorem draw_frame_spec (ndebug : Bool) (mesh : MeshCounts) (drv : FrameDriver)
    (a_update_animation : Bool) (self : PhysicalDevice) :
    ((∃ e, (draw_frame ndebug mesh drv a_update_animation self).2 = .error e)
        ∧ ∀ c ∈ (draw_frame ndebug mesh drv a_update_animation self).1,
            c.is_submit = false)
      ∨ ∃ frame_fence image_available in_flight command_buffer render_finished memory
          recreation rest,
        self.m_queue_fence[self.m_current_frame]? = some frame_fence
          ∧ self.m_image_available_semaphore[self.m_current_frame]? = some image_available
          ∧ self.m_queue_fence_in_flight[drv.acquire_index.getD drv.image_index_before]?
            = some in_flight
          ∧ self.m_render_finished_semaphore[self.m_current_frame]? = some render_finished
          ∧ self.m_uniform_buffers_memory[drv.acquire_index.getD drv.image_index_before]?
            = some memory
          ∧ (recreation = []
            ∨ (ndebug = true ∧ drv.acquire_result = VK_ERROR_OUT_OF_DATE_KHR
              ∧ ∀ c ∈ recreation, c.is_recreation = true))
          ∧ (rest = []
            ∨ rest = [.vkQueuePresentKHR render_finished
                (drv.acquire_index.getD drv.image_index_before)]
            ∨ (ndebug = true
              ∧ (drv.present_result = VK_ERROR_OUT_OF_DATE_KHR
                ∨ drv.present_result = VK_SUBOPTIMAL_KHR)
              ∧ ∃ tail, rest = .vkQueuePresentKHR render_finished
                  (drv.acquire_index.getD drv.image_index_before) :: tail
                ∧ ∀ c ∈ tail, c.is_recreation = true))
          ∧ (draw_frame ndebug mesh drv a_update_animation self).1
            = .vkWaitForFences frame_fence :: .vkAcquireNextImageKHR image_available
              :: recreation
              ++ (if in_flight ≠ VK_NULL_HANDLE then [Call.vkWaitForFences in_flight] else [])
              ++ [.vkResetFences frame_fence, .vkMapMemory memory, .write_uniform_data memory,
                .vkUnmapMemory memory,
                .vkQueueSubmit (drv.acquire_index.getD drv.image_index_before) command_buffer
                  image_available render_finished frame_fence]
              ++ rest
          ∧ ∀ self', (draw_frame ndebug mesh drv a_update_animation self).2 = .ok self' →
              self'.m_queue_fence_in_flight
                  = self.m_queue_fence_in_flight.set
                      (drv.acquire_index.getD drv.image_index_before) frame_fence
                ∧ self'.m_queue_fence = self.m_queue_fence
                ∧ self'.m_current_frame = (self.m_current_frame + 1) % self.number_of_buffers
                ∧ self'.number_of_buffers = self.number_of_buffers := by
  have hacquire : ((∃ e, (draw_frame_acquire ndebug mesh drv self).2 = .error e)
        ∧ (∀ c ∈ (draw_frame_acquire ndebug mesh drv self).1, c.is_submit = false))
      ∨ ∃ (s1 : PhysicalDevice) (F A : Nat) (recreation : List Call),
        draw_frame_acquire ndebug mesh drv self
            = (.vkWaitForFences F :: .vkAcquireNextImageKHR A :: recreation,
              .ok (s1, F, A, drv.acquire_index.getD drv.image_index_before))
          ∧ (recreation = []
            ∨ (ndebug = true ∧ drv.acquire_result = VK_ERROR_OUT_OF_DATE_KHR
              ∧ ∀ c ∈ recreation, c.is_recreation = true))
          ∧ self.m_queue_fence[self.m_current_frame]? = some F
          ∧ self.m_image_available_semaphore[self.m_current_frame]? = some A
          ∧ s1.m_queue_fence_in_flight = self.m_queue_fence_in_flight
          ∧ s1.m_queue_fence = self.m_queue_fence
          ∧ s1.m_render_finished_semaphore = self.m_render_finished_semaphore
          ∧ s1.m_uniform_buffers_memory = self.m_uniform_buffers_memory
          ∧ s1.m_current_frame = self.m_current_frame
          ∧ s1.number_of_buffers = self.number_of_buffers := by
    rcases draw_frame_acquire_spec ndebug mesh drv self with
      ⟨he, hq⟩ | ⟨F, A, hF, hA, ⟨_, _, hacq⟩ | ⟨hood, hnd, hacq⟩⟩
    · exact Or.inl ⟨he, hq⟩
    · exact Or.inr ⟨self, F, A, [], hacq, Or.inl rfl, hF, hA, rfl, rfl, rfl, rfl, rfl, rfl⟩
    · exact Or.inr ⟨_, F, A, _, hacq,
        Or.inr ⟨hnd, hood, recreate_swapchain_calls ndebug mesh drv self⟩, hF, hA,
        rfl, rfl, rfl, rfl, rfl, rfl⟩
  generalize drv.acquire_index.getD drv.image_index_before = i at hacquire ⊢
  rcases hacquire with ⟨⟨e, he⟩, hq⟩ |
    ⟨s1, F, A, recreation, hacq, hrec, hF, hA, e1, e2, e3, e4, e5, e6⟩
  · left
    have : draw_frame ndebug mesh drv a_update_animation self
        = ((draw_frame_acquire ndebug mesh drv self).1, .error e) := by
      simp only [draw_frame, Exec.bind_def]
      exact Exec.bind_error' _ _ e he
    rw [this]
    exact ⟨⟨e, rfl⟩, hq⟩
  have hrec_quiet : ∀ c ∈ recreation, c.is_submit = false := by
    intro c hc
    rcases hrec with h | ⟨_, _, h⟩
    · rw [h] at hc; cases hc
    · exact (Call.is_recreation_quiet c (h c hc)).1
  have hdraw : draw_frame ndebug mesh drv a_update_animation self
      = Exec.bind (.vkWaitForFences F :: .vkAcquireNextImageKHR A :: recreation,
          .ok (s1, F, A, i))
        (fun acquired =>
          Exec.bind (draw_frame_submit drv a_update_animation acquired.1 acquired.2.1
            acquired.2.2.1 acquired.2.2.2)
            (fun submitted => draw_frame_present ndebug mesh drv submitted.1 submitted.2
              acquired.2.2.2)) := by
    simp only [draw_frame, Exec.bind_def, hacq]
  rw [hdraw, Exec.bind_ok]
  simp only
  rcases draw_frame_submit_spec drv a_update_animation s1 F A i with
    ⟨⟨e, he⟩, hq⟩ | ⟨old, cb, R, M, hold, _, hR, hM, hcalls2, hres⟩
  · left
    rw [Exec.bind_error' _ _ e he]
    refine ⟨⟨e, rfl⟩, ?_⟩
    intro c hc
    simp only [List.cons_append, List.mem_cons, List.mem_append] at hc
    rcases hc with rfl | rfl | hc | hc
    · rfl
    · rfl
    · exact hrec_quiet c hc
    · obtain ⟨h, rfl | rfl⟩ := hq c hc <;> rfl
  · right
    rw [e1] at hold
    rw [e3, e5] at hR
    rw [e4] at hM
    rcases hres with ⟨_, hok⟩ | ⟨_, herr⟩
    · rw [Exec.bind_ok' _ _ _ hok, hcalls2]
      simp only
      generalize hs2 : ({ s1 with
        m_queue_fence_in_flight := s1.m_queue_fence_in_flight.set i F } : PhysicalDevice) = s2
      have f1 : s2.m_queue_fence_in_flight = self.m_queue_fence_in_flight.set i F := by
        rw [← hs2, ← e1]
      have f2 : s2.m_queue_fence = self.m_queue_fence := by rw [← hs2, ← e2]
      have f5 : s2.m_current_frame = self.m_current_frame := by rw [← hs2, ← e5]
      have f6 : s2.number_of_buffers = self.number_of_buffers := by rw [← hs2, ← e6]
      rcases draw_frame_present_spec ndebug mesh drv s2 R i with
        ⟨_, hp⟩ | ⟨hpre, hnd, hp⟩ | ⟨_, _, hp⟩ | ⟨_, _, _, hp⟩
      · refine ⟨F, A, old, cb, R, M, recreation, [.vkQueuePresentKHR R i],
          hF, hA, hold, hR, hM, hrec, Or.inr (Or.inl rfl), ?_, ?_⟩
        · rw [hp]; simp
        · intro s' hs'
          rw [hp] at hs'
          injection hs' with hs'
          subst hs'
          simp [f1, f2, f5, f6]
      · refine ⟨F, A, old, cb, R, M, recreation,
          .vkQueuePresentKHR R i :: (recreate_swapchain ndebug mesh drv s2).1,
          hF, hA, hold, hR, hM, hrec,
          Or.inr (Or.inr ⟨hnd, hpre, _, rfl, recreate_swapchain_calls ndebug mesh drv s2⟩),
          ?_, ?_⟩
        · rw [hp]; simp
        · intro s' hs'
          rw [hp] at hs'
          simp only at hs'
          cases hr : (recreate_swapchain ndebug mesh drv s2).2 with
          | error e => rw [hr] at hs'; cases hs'
          | ok s3 =>
            rw [hr] at hs'
            simp only [Except.map] at hs'
            injection hs' with hs'
            obtain ⟨h3, _, _⟩ := recreate_swapchain_returns ndebug mesh drv s2 s3 hr
            subst hs' h3
            simp [PhysicalDevice.recreated, f1, f2, f5, f6]
      · refine ⟨F, A, old, cb, R, M, recreation, [.vkQueuePresentKHR R i],
          hF, hA, hold, hR, hM, hrec, Or.inr (Or.inl rfl), ?_, ?_⟩
        · rw [hp]; simp
        · intro s' hs'
          rw [hp] at hs'
          cases hs'
      · refine ⟨F, A, old, cb, R, M, recreation, [.vkQueuePresentKHR R i],
          hF, hA, hold, hR, hM, hrec, Or.inr (Or.inl rfl), ?_, ?_⟩
        · rw [hp]; simp
        · intro s' hs'
          rw [hp] at hs'
          cases hs'
    · rw [Exec.bind_error' _ _ _ herr, hcalls2]
      refine ⟨F, A, old, cb, R, M, recreation, [], hF, hA, hold, hR, hM, hrec, Or.inl rfl,
        ?_, ?_⟩
      · simp
      · intro s' hs'
        cases hs'


/-- The member `record_command_buffers` over command buffers and framebuffers
that number `n_images` and uniform buffers and descriptor sets that number
`n_buffers`, when its asserts pass: it returns when `n_images` is at most
`n_buffers` and ends outside the array of the uniform buffers otherwise. -/
theorem record_command_buffers_spec (ndebug : Bool) (begin_result end_result : VkResult)
    (mesh : MeshCounts) (self : PhysicalDevice) (n_images n_buffers : Nat)
    (hres : ndebug = true ∨ (begin_result = VK_SUCCESS ∧ end_result = VK_SUCCESS))
    (hcmd : self.m_graphics_command_buffers.length = n_images)
    (hfb : self.m_framebuffers.length = n_images)
    (hmem : self.m_uniform_buffers_memory.length = n_buffers)
    (hsets : self.m_descriptor_sets.length = n_buffers) :
    (record_command_buffers ndebug begin_result end_result mesh self).2
      = if n_images ≤ n_buffers then .ok ()
        else .error (.out_of_bounds "m_uniform_buffers_memory") := by
  rw [record_command_buffers, hcmd]
  exact record_command_buffers_loop_spec ndebug begin_result end_result mesh self n_images
    n_buffers hres hcmd hfb hmem hsets n_images 0 (by omega) (by omega)

/-- One iteration of the recording loop that stays inside the arrays goes on
with the rest of the loop or stops at an assert. -/
theorem record_command_buffers_loop_step_or (ndebug : Bool)
    (begin_result end_result : VkResult) (mesh : MeshCounts) (self : PhysicalDevice)
    (remaining i : Nat) (command_buffer framebuffer memory descriptor_set : Nat)
    (hc : self.m_graphics_command_buffers[i]? = some command_buffer)
    (hf : self.m_framebuffers[i]? = some framebuffer)
    (hm : self.m_uniform_buffers_memory[i]? = some memory)
    (hs : self.m_descriptor_sets[i]? = some descriptor_set) :
    (record_command_buffers_loop ndebug begin_result end_result mesh self (remaining + 1)
        i).2
        = (record_command_buffers_loop ndebug begin_result end_result mesh self remaining
          (i + 1)).2
      ∨ ∃ msg, (record_command_buffers_loop ndebug begin_result end_result mesh self
          (remaining + 1) i).2 = .error (.assertion msg) := by
  cases ndebug with
  | true =>
    left
    rw [record_command_buffers_loop_step true begin_result end_result mesh self remaining i
      _ _ _ _ (Or.inl rfl) hc hf hm hs]
  | false =>
    by_cases hb : begin_result = VK_SUCCESS
    · by_cases he : end_result = VK_SUCCESS
      · left
        rw [record_command_buffers_loop_step false begin_result end_result mesh self
          remaining i _ _ _ _ (Or.inr ⟨hb, he⟩) hc hf hm hs]
      · right
        refine ⟨"result == VK_SUCCESS", ?_⟩
        have heb : (end_result == VK_SUCCESS) = false := by simpa using he
        subst hb
        simp [record_command_buffers_loop, update_uniform_buffer, Exec.bind_def, Exec.index,
          Exec.call, Exec.assert, Exec.pure, Exec.bind_ok, Exec.bind_error, cassert, hc, hf,
          hm, hs, heb, Exec.pure_def]
    · right
      refine ⟨"result == VK_SUCCESS", ?_⟩
      have hbb : (begin_result == VK_SUCCESS) = false := by simpa using hb
      simp [record_command_buffers_loop, Exec.bind_def, Exec.index, Exec.call, Exec.assert,
        Exec.pure, Exec.bind_ok, Exec.bind_error, cassert, hc, hbb]

/-- The member `record_command_buffers` stays inside the arrays when the
command buffers and framebuffers are not more than the uniform buffers and the
descriptor sets, whatever the begin and the end of a command buffer return. -/
theorem record_command_buffers_in_bounds (ndebug : Bool) (begin_result end_result : VkResult)
    (mesh : MeshCounts) (self : PhysicalDevice) (n_images n_buffers : Nat)
    (hcmd : self.m_graphics_command_buffers.length = n_images)
    (hfb : self.m_framebuffers.length = n_images)
    (hmem : self.m_uniform_buffers_memory.length = n_buffers)
    (hsets : self.m_descriptor_sets.length = n_buffers)
    (hle : n_images ≤ n_buffers) :
    ended_out_of_bounds (record_command_buffers ndebug begin_result end_result mesh self).2
      = false := by
  have hloop : ∀ (remaining i : Nat), i + remaining = n_images →
      ended_out_of_bounds (record_command_buffers_loop ndebug begin_result end_result mesh
        self remaining i).2 = false := by
    intro remaining
    induction remaining with
    | zero => intro i _; rfl
    | succ remaining ih =>
      intro i hi
      rcases record_command_buffers_loop_step_or ndebug begin_result end_result mesh self
        remaining i _ _ _ _
        (List.getElem?_eq_getElem (show i < self.m_graphics_command_buffers.length by omega))
        (List.getElem?_eq_getElem (show i < self.m_framebuffers.length by omega))
        (List.getElem?_eq_getElem (show i < self.m_uniform_buffers_memory.length by omega))
        (List.getElem?_eq_getElem (show i < self.m_descriptor_sets.length by omega))
        with h | ⟨msg, h⟩
      · rw [h]; exact ih (i + 1) (by omega)
      · rw [h]; rfl
  rw [record_command_buffers, hcmd]
  exact hloop n_images 0 (by omega)

/-- C7, evaluated on the code: the acquire reports out of date in slot 0 of a
device with two frame slots. With asserts enabled `draw_frame` stops at
`assert(0)` after the acquire and does not run the re-creation; with asserts
compiled out it runs the re-creation, here with two re-created command buffers
that are recorded again, and then does not return: it resets the fence, writes
the uniform buffer, submits the command buffer of the indeterminate
`image_index` (here 1) and presents. -/
theorem draw_frame_out_of_date_at_acquire :
    draw_frame false ⟨9, 9, 6, 12, 12, 3⟩
        ⟨1, VK_ERROR_OUT_OF_DATE_KHR, none, VK_SUCCESS, VK_SUCCESS, [61, 62], none, [91, 92],
          VK_SUCCESS, VK_SUCCESS⟩ true
        ⟨2, [21, 22], [31, 32], [11, 12], [0, 0], 0, [41, 42], [51, 52], [71, 72], [81, 82]⟩
      = ([.vkWaitForFences 11, .vkAcquireNextImageKHR 21],
          .error (.assertion "This should never happen"))
    ∧ draw_frame true ⟨9, 9, 6, 12, 12, 3⟩
        ⟨1, VK_ERROR_OUT_OF_DATE_KHR, none, VK_SUCCESS, VK_SUCCESS, [61, 62], none, [91, 92],
          VK_SUCCESS, VK_SUCCESS⟩ true
        ⟨2, [21, 22], [31, 32], [11, 12], [0, 0], 0, [41, 42], [51, 52], [71, 72], [81, 82]⟩
      = ([.vkWaitForFences 11, .vkAcquireNextImageKHR 21, .vkDeviceWaitIdle,
            .destroy_framebuffers, .vkFreeCommandBuffers, .destroy_render_pass,
            .destroy_graphics_pipeline, .destroy_imageviews, .destroy_depth_buffer,
            .destroy_msaa_color_buffer, .destroy_swapchain, .create_swapchain,
            .create_imageviews, .create_render_pass, .create_graphics_pipeline,
            .create_msaa_color_buffer, .create_depth_buffer, .create_framebuffers,
            .create_command_buffers, .record_command_buffers,
            .vkBeginCommandBuffer 61, .vkCmdBeginRenderPass 61 91, .vkMapMemory 51,
            .write_uniform_data 51, .vkUnmapMemory 51, .vkCmdBindPipeline 61,
            .vkCmdSetViewport 61, .vkCmdBindVertexBuffers 61 [0, 0, 36, 60, 108],
            .vkCmdBindIndexBuffer 61, .vkCmdBindDescriptorSets 61 81, .vkCmdDrawIndexed 61 3,
            .vkCmdEndRenderPass 61, .vkEndCommandBuffer 61,
            .vkBeginCommandBuffer 62, .vkCmdBeginRenderPass 62 92, .vkMapMemory 52,
            .write_uniform_data 52, .vkUnmapMemory 52, .vkCmdBindPipeline 62,
            .vkCmdSetViewport 62, .vkCmdBindVertexBuffers 62 [0, 0, 36, 60, 108],
            .vkCmdBindIndexBuffer 62, .vkCmdBindDescriptorSets 62 82, .vkCmdDrawIndexed 62 3,
            .vkCmdEndRenderPass 62, .vkEndCommandBuffer 62,
            .vkResetFences 11, .vkMapMemory 52, .write_uniform_data 52, .vkUnmapMemory 52,
            .vkQueueSubmit 1 62 21 31 11, .vkQueuePresentKHR 31 1],
          .ok ⟨2, [21, 22], [31, 32], [11, 12], [0, 11], 1, [61, 62], [51, 52], [91, 92],
            [81, 82]⟩) := by
  constructor <;> decide

/-- With asserts enabled an out-of-date acquire ends `draw_frame` at the assert,
in every state, after the wait and the acquire. -/
theorem draw_frame_out_of_date_at_acquire_asserts (mesh : MeshCounts) (drv : FrameDriver)
    (a_update_animation : Bool) (self : PhysicalDevice) (frame_fence image_available : Nat)
    (hood : drv.acquire_result = VK_ERROR_OUT_OF_DATE_KHR)
    (hf : self.m_queue_fence[self.m_current_frame]? = some frame_fence)
    (ha : self.m_image_available_semaphore[self.m_current_frame]? = some image_available) :
    draw_frame false mesh drv a_update_animation self
      = ([.vkWaitForFences frame_fence, .vkAcquireNextImageKHR image_available],
          .error (.assertion "This should never happen")) := by
  simp [draw_frame, draw_frame_acquire, Exec.bind_def, Exec.index, Exec.call, Exec.pure,
    Exec.assert, cassert, hf, ha, hood, Exec.bind_error, Exec.bind_ok]

/-- An instance of `draw_frame_out_of_date_at_acquire_asserts`: slot 0 of a
device with two frame slots. -/
theorem draw_frame_out_of_date_at_acquire_asserts_witness :
    draw_frame false ⟨9, 9, 6, 12, 12, 3⟩
        ⟨1, VK_ERROR_OUT_OF_DATE_KHR, none, VK_SUCCESS, VK_SUCCESS, [61, 62], none, [91, 92],
          VK_SUCCESS, VK_SUCCESS⟩ true
        ⟨2, [21, 22], [31, 32], [11, 12], [0, 0], 0, [41, 42], [51, 52], [71, 72], [81, 82]⟩
      = ([.vkWaitForFences 11, .vkAcquireNextImageKHR 21],
          .error (.assertion "This should never happen")) :=
  draw_frame_out_of_date_at_acquire_asserts ⟨9, 9, 6, 12, 12, 3⟩
    ⟨1, VK_ERROR_OUT_OF_DATE_KHR, none, VK_SUCCESS, VK_SUCCESS, [61, 62], none, [91, 92],
      VK_SUCCESS, VK_SUCCESS⟩ true
    ⟨2, [21, 22], [31, 32], [11, 12], [0, 0], 0, [41, 42], [51, 52], [71, 72], [81, 82]⟩
    11 21 rfl (by decide) (by decide)

/-- With asserts compiled out an out-of-date acquire does not end `draw_frame`:
in every state in which the re-creation returns, the accesses by the unchanged
`image_index` are within the arrays and the submit and the present succeed, the
call runs the re-creation and then submits the re-created command buffer of
that index and presents. -/
theorem draw_frame_out_of_date_at_acquire_ndebug (mesh : MeshCounts) (drv : FrameDriver)
    (a_update_animation : Bool) (self : PhysicalDevice)
    (frame_fence image_available in_flight command_buffer render_finished memory : Nat)
    (hood : drv.acquire_result = VK_ERROR_OUT_OF_DATE_KHR)
    (hrecreate : (recreate_swapchain true mesh drv self).2 = .ok (self.recreated drv))
    (hf : self.m_queue_fence[self.m_current_frame]? = some frame_fence)
    (ha : self.m_image_available_semaphore[self.m_current_frame]? = some image_available)
    (hi : self.m_queue_fence_in_flight[drv.acquire_index.getD drv.image_index_before]?
      = some in_flight)
    (hc : drv.recreated_command_buffers[drv.acquire_index.getD drv.image_index_before]?
      = some command_buffer)
    (hr : self.m_render_finished_semaphore[self.m_current_frame]? = some render_finished)
    (hm : self.m_uniform_buffers_memory[drv.acquire_index.getD drv.image_index_before]?
      = some memory)
    (hsub : drv.submit_result = VK_SUCCESS) (hpre : drv.present_result = VK_SUCCESS) :
    draw_frame true mesh drv a_update_animation self
      = (.vkWaitForFences frame_fence :: .vkAcquireNextImageKHR image_available
          :: (recreate_swapchain true mesh drv self).1
          ++ (if in_flight ≠ VK_NULL_HANDLE then [Call.vkWaitForFences in_flight] else [])
          ++ [.vkResetFences frame_fence, .vkMapMemory memory, .write_uniform_data memory,
            .vkUnmapMemory memory,
            .vkQueueSubmit (drv.acquire_index.getD drv.image_index_before) command_buffer
              image_available render_finished frame_fence,
            .vkQueuePresentKHR render_finished
              (drv.acquire_index.getD drv.image_index_before)],
        .ok { self with
          m_queue_fence_in_flight := self.m_queue_fence_in_flight.set
            (drv.acquire_index.getD drv.image_index_before) frame_fence
          m_graphics_command_buffers := drv.recreated_command_buffers
          m_framebuffers := drv.recreated_framebuffers
          m_current_frame := (self.m_current_frame + 1) % self.number_of_buffers }) := by
  have hsb : (drv.submit_result != VK_SUCCESS) = false := by simp [hsub]
  have hpc : (drv.present_result == VK_ERROR_OUT_OF_DATE_KHR
      || drv.present_result == VK_SUBOPTIMAL_KHR) = false := by
    rw [hpre]; decide
  have hps : (drv.present_result != VK_SUCCESS) = false := by simp [hpre]
  have hacq : draw_frame_acquire true mesh drv self
      = (.vkWaitForFences frame_fence :: .vkAcquireNextImageKHR image_available
          :: (recreate_swapchain true mesh drv self).1,
        .ok (self.recreated drv, frame_fence, image_available,
          drv.acquire_index.getD drv.image_index_before)) := by
    have hform : draw_frame_acquire true mesh drv self
        = Exec.bind ([.vkWaitForFences frame_fence,
              .vkAcquireNextImageKHR image_available], .ok ())
            (fun _ => Exec.bind (recreate_swapchain true mesh drv self)
              (fun s => ([], .ok (s, frame_fence, image_available,
                drv.acquire_index.getD drv.image_index_before)))) := by
      simp [draw_frame_acquire, Exec.bind_def, Exec.index, Exec.fail, Exec.call,
        Exec.pure, Exec.assert, cassert, hf, ha, hood, Exec.bind_error, Exec.bind_ok,
        Exec.pure_def]
    rw [hform, Exec.bind_ok, Exec.bind_ok' _ _ _ hrecreate]
    simp
  simp only [draw_frame, Exec.bind_def, hacq, Exec.bind_ok]
  by_cases hz : in_flight = VK_NULL_HANDLE <;>
    simp [draw_frame_submit, draw_frame_present, PhysicalDevice.recreated,
      update_uniform_buffer, Exec.bind_def, Exec.index, Exec.call, Exec.pure, Exec.fail,
      hi, hc, hr, hm, hsb, hpc, hps, hz, Exec.bind_error, Exec.bind_ok, Exec.pure_def]

/-- An instance of `draw_frame_out_of_date_at_acquire_ndebug`: slot 0 of a
device with two frame slots, `image_index` left at 1. -/
theorem draw_frame_out_of_date_at_acquire_ndebug_witness :
    (draw_frame true ⟨9, 9, 6, 12, 12, 3⟩
        ⟨1, VK_ERROR_OUT_OF_DATE_KHR, none, VK_SUCCESS, VK_SUCCESS, [61, 62], none, [91, 92],
          VK_SUCCESS, VK_SUCCESS⟩ true
        ⟨2, [21, 22], [31, 32], [11, 12], [0, 0], 0, [41, 42], [51, 52], [71, 72],
          [81, 82]⟩).2
      = .ok ⟨2, [21, 22], [31, 32], [11, 12], [0, 11], 1, [61, 62], [51, 52], [91, 92],
          [81, 82]⟩ :=
  congrArg Prod.snd (draw_frame_out_of_date_at_acquire_ndebug ⟨9, 9, 6, 12, 12, 3⟩
    ⟨1, VK_ERROR_OUT_OF_DATE_KHR, none, VK_SUCCESS, VK_SUCCESS, [61, 62], none, [91, 92],
      VK_SUCCESS, VK_SUCCESS⟩ true
    ⟨2, [21, 22], [31, 32], [11, 12], [0, 0], 0, [41, 42], [51, 52], [71, 72], [81, 82]⟩
    11 21 0 62 31 52 rfl (by decide) (by decide) (by decide) (by decide) (by decide)
    (by decide) (by decide) rfl rfl)


theorem in_flight_after_all_append (pending : List (Nat × Nat)) (xs ys : List Call) :
    in_flight_after_all pending (xs ++ ys)
      = in_flight_after_all (in_flight_after_all pending xs) ys := by
  simp [in_flight_after_all, List.foldl_append]

theorem submissions_exclusive_append (xs ys : List Call) :
    ∀ pending : List (Nat × Nat),
      submissions_exclusive pending (xs ++ ys)
        = (submissions_exclusive pending xs
          && submissions_exclusive (in_flight_after_all pending xs) ys) := by
  induction xs with
  | nil => intro pending; simp [submissions_exclusive, in_flight_after_all]
  | cons c rest ih =>
    intro pending
    have := ih (in_flight_after pending c)
    simp only [in_flight_after_all] at this
    rw [List.cons_append]
    simp only [submissions_exclusive, this, in_flight_after_all, List.foldl_cons,
      Bool.and_assoc]

/-- A call that is no submit lets nothing new be in flight. -/
theorem in_flight_after_subset (pending : List (Nat × Nat)) (c : Call)
    (hc : c.is_submit = false) :
    ∀ submission ∈ in_flight_after pending c, submission ∈ pending := by
  intro submission hmem
  cases c <;> simp only [in_flight_after, Call.is_submit] at hmem hc <;>
    first
      | exact hmem
      | exact (List.mem_filter.1 hmem).1
      | exact absurd hc (by decide)
      | cases hmem

/-- Calls among which there is no submit are exclusive and let nothing new be
in flight. -/
theorem no_submit_exclusive (calls : List Call) :
    ∀ pending : List (Nat × Nat), (∀ c ∈ calls, c.is_submit = false) →
      submissions_exclusive pending calls = true
        ∧ ∀ submission ∈ in_flight_after_all pending calls, submission ∈ pending := by
  induction calls with
  | nil => intro pending _; simp [submissions_exclusive, in_flight_after_all]
  | cons c rest ih =>
    intro pending h
    have hc : c.is_submit = false := h c (List.mem_cons_self _ _)
    obtain ⟨h1, h2⟩ := ih (in_flight_after pending c)
      (fun c' hc' => h c' (List.mem_cons_of_mem _ hc'))
    refine ⟨?_, ?_⟩
    · simp only [submissions_exclusive, h1, Bool.and_true]
      cases c
      all_goals first
        | rfl
        | exact absurd hc (by simp [Call.is_submit])
    · intro submission hmem
      simp only [in_flight_after_all, List.foldl_cons] at hmem
      exact in_flight_after_subset pending c hc submission (h2 submission hmem)

/-- One call of `draw_frame` submits for no image that has a submission in
flight, and keeps every submission in flight recorded in the image-in-flight
map. -/
theorem draw_frame_keeps_exclusive (ndebug : Bool) (mesh : MeshCounts) (drv : FrameDriver)
    (a_update_animation : Bool) (self : PhysicalDevice) (pending : List (Nat × Nat))
    (hrec : InFlightRecorded self pending)
    (hfence : ∀ f ∈ self.m_queue_fence, f ≠ VK_NULL_HANDLE) :
    submissions_exclusive pending (draw_frame ndebug mesh drv a_update_animation self).1 = true
      ∧ ∀ self', (draw_frame ndebug mesh drv a_update_animation self).2 = .ok self' →
          InFlightRecorded self'
              (in_flight_after_all pending (draw_frame ndebug mesh drv a_update_animation self).1)
            ∧ self'.m_queue_fence = self.m_queue_fence := by
  rcases draw_frame_spec ndebug mesh drv a_update_animation self with
    ⟨⟨e, he⟩, hq⟩ | ⟨F, A, old, cb, R, M, recreation, rest, hF, _, hold, _, _, hrc, hrest,
      hcalls, hstate⟩
  · refine ⟨(no_submit_exclusive _ pending hq).1, ?_⟩
    intro s' hs'
    rw [he] at hs'
    cases hs'
  · generalize drv.acquire_index.getD drv.image_index_before = i at hold hrest hcalls hstate
    -- the calls before the submit, and the submissions in flight at the submit
    obtain ⟨pre, hpre⟩ : ∃ pre : List Call, pre
        = .vkWaitForFences F :: .vkAcquireNextImageKHR A :: recreation
          ++ (if old ≠ VK_NULL_HANDLE then [Call.vkWaitForFences old] else [])
          ++ [.vkResetFences F, .vkMapMemory M, .write_uniform_data M, .vkUnmapMemory M] :=
      ⟨_, rfl⟩
    have hsplit : (draw_frame ndebug mesh drv a_update_animation self).1
        = pre ++ (.vkQueueSubmit i cb A R F :: rest) := by
      rw [hcalls, hpre]; simp
    have hpre_quiet : ∀ c ∈ pre, c.is_submit = false := by
      intro c hc
      rw [hpre] at hc
      simp only [List.cons_append, List.mem_cons, List.mem_append, List.mem_singleton,
        List.not_mem_nil, or_false] at hc
      rcases hc with rfl | rfl | (hc | hc) | rfl | rfl | rfl | rfl
      · rfl
      · rfl
      · rcases hrc with h | ⟨_, _, h⟩
        · rw [h] at hc; cases hc
        · exact (Call.is_recreation_quiet c (h c hc)).1
      · split at hc
        · simp only [List.mem_singleton] at hc; rw [hc]; rfl
        · cases hc
      · rfl
      · rfl
      · rfl
      · rfl
    have hrest_quiet : ∀ c ∈ rest, c.is_submit = false := by
      intro c hc
      rcases hrest with h | h | h
      · rw [h] at hc; cases hc
      · rw [h] at hc; simp only [List.mem_singleton] at hc; rw [hc]; rfl
      · obtain ⟨_, _, tail, h, htail⟩ := h
        rw [h] at hc
        rcases List.mem_cons.1 hc with rfl | hc
        · rfl
        · exact (Call.is_recreation_quiet c (htail c hc)).1
    obtain ⟨hex_pre, hsub_pre⟩ := no_submit_exclusive pre pending hpre_quiet
    have hwaited : old ≠ VK_NULL_HANDLE →
        ∀ submission ∈ in_flight_after_all pending pre, submission.2 ≠ old := by
      intro hnz submission hmem
      rw [hpre, in_flight_after_all_append, in_flight_after_all_append] at hmem
      have h1 := (no_submit_exclusive [.vkResetFences F, .vkMapMemory M,
        .write_uniform_data M, .vkUnmapMemory M] _ (by simp [Call.is_submit])).2 submission hmem
      simp only [hnz, ne_eq, not_false_eq_true, if_true, in_flight_after_all, List.foldl_cons,
        List.foldl_nil, in_flight_after] at h1
      have := (List.mem_filter.1 h1).2
      simpa using this
    have hother : ∀ submission ∈ in_flight_after_all pending pre, submission.1 ≠ i := by
      intro submission hmem hi
      obtain ⟨hmap, hnz⟩ := hrec submission (hsub_pre submission hmem)
      rw [hi, hold] at hmap
      injection hmap with hmap
      exact hwaited (by rw [hmap]; exact hnz) submission hmem hmap.symm
    have hfree : ∀ submission ∈ in_flight_after_all pending pre, submission.2 ≠ F := by
      intro submission hmem
      have hpre' : pre = .vkWaitForFences F :: (.vkAcquireNextImageKHR A :: recreation
          ++ (if old ≠ VK_NULL_HANDLE then [Call.vkWaitForFences old] else [])
          ++ [.vkResetFences F, .vkMapMemory M, .write_uniform_data M, .vkUnmapMemory M]) := by
        rw [hpre]; simp
      have htail : ∀ c ∈ (.vkAcquireNextImageKHR A :: recreation
          ++ (if old ≠ VK_NULL_HANDLE then [Call.vkWaitForFences old] else [])
          ++ [.vkResetFences F, .vkMapMemory M, .write_uniform_data M, .vkUnmapMemory M] :
            List Call), c.is_submit = false := by
        intro c hc
        exact hpre_quiet c (by rw [hpre']; exact List.mem_cons_of_mem _ hc)
      rw [hpre'] at hmem
      simp only [in_flight_after_all, List.foldl_cons, in_flight_after] at hmem
      have h1 := (no_submit_exclusive _ _ htail).2 submission hmem
      have := (List.mem_filter.1 h1).2
      simpa using this
    obtain ⟨hex_rest, hsub_rest⟩ := no_submit_exclusive rest
      ((i, F) :: in_flight_after_all pending pre) hrest_quiet
    refine ⟨?_, ?_⟩
    · rw [hsplit, submissions_exclusive_append, hex_pre]
      simp only [submissions_exclusive, submit_exclusive, in_flight_after, Bool.true_and,
        Bool.and_eq_true, List.all_eq_true, bne_iff_ne, ne_eq]
      exact ⟨fun submission hmem => ⟨hother submission hmem, hfree submission hmem⟩, hex_rest⟩
    · intro s' hs'
      obtain ⟨hmap', hq', _, _⟩ := hstate s' hs'
      refine ⟨?_, hq'⟩
      intro submission hmem
      rw [hsplit, in_flight_after_all_append] at hmem
      have hmem' : submission ∈ (i, F) :: in_flight_after_all pending pre := by
        apply hsub_rest
        simpa [in_flight_after_all, in_flight_after] using hmem
      rw [hmap']
      rcases List.mem_cons.1 hmem' with rfl | hm
      · refine ⟨?_, hfence F (List.getElem?_mem hF)⟩
        exact List.getElem?_set_self (getElem?_lt_length hold)
      · have hne := hother submission hm
        rw [List.getElem?_set_ne (fun h => hne h.symm)]
        exact hrec submission (hsub_pre submission hm)

/-- Along any number of calls of `draw_frame`, no submission is made for an
image that has a submission in flight. -/
theorem draw_frames_keep_exclusive (ndebug : Bool) (mesh : MeshCounts)
    (frames : List (FrameDriver × Bool)) :
    ∀ (self : PhysicalDevice) (pending : List (Nat × Nat)),
      InFlightRecorded self pending →
      (∀ f ∈ self.m_queue_fence, f ≠ VK_NULL_HANDLE) →
      submissions_exclusive pending (draw_frames ndebug mesh frames self).1 = true := by
  induction frames with
  | nil => intro self pending _ _; rfl
  | cons frame rest ih =>
    intro self pending hrec hfence
    obtain ⟨hex, hnext⟩ := draw_frame_keeps_exclusive ndebug mesh frame.1 frame.2 self pending
      hrec hfence
    simp only [draw_frames, Exec.bind_def]
    cases hres : (draw_frame ndebug mesh frame.1 frame.2 self).2 with
    | error e =>
      rw [Exec.bind_error' _ _ e hres]
      exact hex
    | ok s' =>
      rw [Exec.bind_ok' _ _ s' hres]
      obtain ⟨hrec', hq'⟩ := hnext s' hres
      simp only
      rw [submissions_exclusive_append, hex, Bool.true_and]
      exact ih s' _ hrec' (by rw [hq']; exact hfence)

/-- C9: from any state in which the submissions in flight are the ones the
image-in-flight map records, and for any answers of the driver (any acquired
image indices), no sequence of `draw_frame` calls submits for an image index
that has a submission in flight (nor with a fence that a submission in flight
is to signal). In every call that submits, the submit is the
only one of the call, the fence that the map records for the image, when there
is one, was waited on earlier in the call, the submit signals the frame fence
of the current slot, and when the call returns the map entry of the image is
that frame fence. -/
theorem draw_frames_no_two_submissions_in_flight (ndebug : Bool) (mesh : MeshCounts)
    (frames : List (FrameDriver × Bool)) (self : PhysicalDevice) (pending : List (Nat × Nat))
    (hrec : InFlightRecorded self pending)
    (hfence : ∀ f ∈ self.m_queue_fence, f ≠ VK_NULL_HANDLE) :
    submissions_exclusive pending (draw_frames ndebug mesh frames self).1 = true
      ∧ ∀ (drv : FrameDriver) (a_update_animation : Bool) (s : PhysicalDevice) (c : Call),
          c ∈ (draw_frame ndebug mesh drv a_update_animation s).1 → c.is_submit = true →
          ∃ frame_fence in_flight command_buffer image_available render_finished before
              after,
            s.m_queue_fence[s.m_current_frame]? = some frame_fence
              ∧ s.m_queue_fence_in_flight[drv.acquire_index.getD drv.image_index_before]?
                = some in_flight
              ∧ c = .vkQueueSubmit (drv.acquire_index.getD drv.image_index_before)
                  command_buffer image_available render_finished frame_fence
              ∧ (draw_frame ndebug mesh drv a_update_animation s).1 = before ++ c :: after
              ∧ (∀ c' ∈ before ++ after, c'.is_submit = false)
              ∧ (in_flight ≠ VK_NULL_HANDLE → Call.vkWaitForFences in_flight ∈ before)
              ∧ ∀ s', (draw_frame ndebug mesh drv a_update_animation s).2 = .ok s' →
                  s'.m_queue_fence_in_flight[drv.acquire_index.getD drv.image_index_before]?
                    = some frame_fence := by
  refine ⟨draw_frames_keep_exclusive ndebug mesh frames self pending hrec hfence, ?_⟩
  intro drv a s c hc hsub
  rcases draw_frame_spec ndebug mesh drv a s with
    ⟨_, hq⟩ | ⟨F, A, old, cb, R, M, recreation, rest, hF, _, hold, _, _, hrc, hrest,
      hcalls, hstate⟩
  · rw [hq c hc] at hsub; cases hsub
  · generalize drv.acquire_index.getD drv.image_index_before = i at hold hrest hcalls hstate ⊢
    have hrest_quiet : ∀ c ∈ rest, c.is_submit = false := by
      intro c hc
      rcases hrest with h | h | h
      · rw [h] at hc; cases hc
      · rw [h] at hc; simp only [List.mem_singleton] at hc; rw [hc]; rfl
      · obtain ⟨_, _, tail, h, htail⟩ := h
        rw [h] at hc
        rcases List.mem_cons.1 hc with rfl | hc
        · rfl
        · exact (Call.is_recreation_quiet c (htail c hc)).1
    have hbefore_quiet : ∀ c ∈ (.vkWaitForFences F :: .vkAcquireNextImageKHR A :: recreation
        ++ (if old ≠ VK_NULL_HANDLE then [Call.vkWaitForFences old] else [])
        ++ [.vkResetFences F, .vkMapMemory M, .write_uniform_data M, .vkUnmapMemory M] :
          List Call), c.is_submit = false := by
      intro c hc
      simp only [List.cons_append, List.mem_cons, List.mem_append, List.mem_singleton,
        List.not_mem_nil, or_false] at hc
      rcases hc with rfl | rfl | (hc | hc) | rfl | rfl | rfl | rfl
      · rfl
      · rfl
      · rcases hrc with h | ⟨_, _, h⟩
        · rw [h] at hc; cases hc
        · exact (Call.is_recreation_quiet c (h c hc)).1
      · split at hc
        · simp only [List.mem_singleton] at hc; rw [hc]; rfl
        · cases hc
      · rfl
      · rfl
      · rfl
      · rfl
    have hsplit : (draw_frame ndebug mesh drv a s).1
        = (.vkWaitForFences F :: .vkAcquireNextImageKHR A :: recreation
            ++ (if old ≠ VK_NULL_HANDLE then [Call.vkWaitForFences old] else [])
            ++ [.vkResetFences F, .vkMapMemory M, .write_uniform_data M, .vkUnmapMemory M])
          ++ (.vkQueueSubmit i cb A R F :: rest) := by
      rw [hcalls]; simp
    have hc_eq : c = .vkQueueSubmit i cb A R F := by
      rw [hsplit] at hc
      rcases List.mem_append.1 hc with h | h
      · rw [hbefore_quiet c h] at hsub; cases hsub
      · rcases List.mem_cons.1 h with h | h
        · exact h
        · rw [hrest_quiet c h] at hsub; cases hsub
    refine ⟨F, old, cb, A, R, _, rest, hF, hold, hc_eq, by rw [hc_eq]; exact hsplit, ?_, ?_, ?_⟩
    · intro c' hc'
      rcases List.mem_append.1 hc' with h | h
      · exact hbefore_quiet c' h
      · exact hrest_quiet c' h
    · intro hnz
      simp [hnz]
    · intro s' hs'
      rw [(hstate s' hs').1]
      exact List.getElem?_set_self (getElem?_lt_length hold)

/-- Witness of C9: two calls from the state that `create_sync_objects` leaves,
both acquiring image 1. -/
theorem draw_frames_no_two_submissions_in_flight_witness :
    submissions_exclusive []
        (draw_frames false ⟨9, 9, 6, 12, 12, 3⟩
          [(⟨7, VK_SUCCESS, some 1, VK_SUCCESS, VK_SUCCESS, [61, 62], none, [91, 92],
              VK_SUCCESS, VK_SUCCESS⟩, true),
            (⟨7, VK_SUCCESS, some 1, VK_SUCCESS, VK_SUCCESS, [61, 62], none, [91, 92],
              VK_SUCCESS, VK_SUCCESS⟩, true)]
          (create_sync_objects [21, 22] [31, 32] [11, 12]
            ⟨2, [], [], [], [], 0, [41, 42], [51, 52], [71, 72],
              [81, 82]⟩)).1 = true
      ∧ ∀ (drv : FrameDriver) (a_update_animation : Bool) (s : PhysicalDevice) (c : Call),
          c ∈ (draw_frame false ⟨9, 9, 6, 12, 12, 3⟩ drv a_update_animation s).1 → c.is_submit = true →
          ∃ frame_fence in_flight command_buffer image_available render_finished before
              after,
            s.m_queue_fence[s.m_current_frame]? = some frame_fence
              ∧ s.m_queue_fence_in_flight[drv.acquire_index.getD drv.image_index_before]?
                = some in_flight
              ∧ c = .vkQueueSubmit (drv.acquire_index.getD drv.image_index_before)
                  command_buffer image_available render_finished frame_fence
              ∧ (draw_frame false ⟨9, 9, 6, 12, 12, 3⟩ drv a_update_animation s).1 = before ++ c :: after
              ∧ (∀ c' ∈ before ++ after, c'.is_submit = false)
              ∧ (in_flight ≠ VK_NULL_HANDLE → Call.vkWaitForFences in_flight ∈ before)
              ∧ ∀ s', (draw_frame false ⟨9, 9, 6, 12, 12, 3⟩ drv a_update_animation s).2 = .ok s' →
                  s'.m_queue_fence_in_flight[drv.acquire_index.getD drv.image_index_before]?
                    = some frame_fence :=
  draw_frames_no_two_submissions_in_flight false ⟨9, 9, 6, 12, 12, 3⟩
    [(⟨7, VK_SUCCESS, some 1, VK_SUCCESS, VK_SUCCESS, [61, 62], none, [91, 92],
              VK_SUCCESS, VK_SUCCESS⟩, true),
      (⟨7, VK_SUCCESS, some 1, VK_SUCCESS, VK_SUCCESS, [61, 62], none, [91, 92],
              VK_SUCCESS, VK_SUCCESS⟩, true)]
    (create_sync_objects [21, 22] [31, 32] [11, 12] ⟨2, [], [], [], [], 0, [41, 42], [51, 52], [71, 72],
              [81, 82]⟩)
    [] (fun _ h => absurd h (List.not_mem_nil _)) (by decide)

/-- The present block starts with the present. -/
theorem draw_frame_present_calls (ndebug : Bool) (mesh : MeshCounts) (drv : FrameDriver)
    (self : PhysicalDevice)
    (render_finished image_index : Nat) :
    Call.vkQueuePresentKHR render_finished image_index
      ∈ (draw_frame_present ndebug mesh drv self render_finished image_index).1 := by
  rcases draw_frame_present_spec ndebug mesh drv self render_finished image_index with
    ⟨_, h⟩ | ⟨_, _, h⟩ | ⟨_, _, h⟩ | ⟨_, _, _, h⟩ <;> rw [h] <;> simp

/-- A frame that returns has presented, and it returns with the frame slot
advanced by one modulo the number of buffers. -/
theorem draw_frame_returns (ndebug : Bool) (mesh : MeshCounts) (drv : FrameDriver)
    (a_update_animation : Bool)
    (self self' : PhysicalDevice)
    (h : (draw_frame ndebug mesh drv a_update_animation self).2 = .ok self') :
    self'.m_current_frame = (self.m_current_frame + 1) % self.number_of_buffers
      ∧ self'.number_of_buffers = self.number_of_buffers
      ∧ ∃ wait_semaphore image_index,
          Call.vkQueuePresentKHR wait_semaphore image_index
            ∈ (draw_frame ndebug mesh drv a_update_animation self).1 := by
  refine ⟨?_, ?_, ?_⟩
  · rcases draw_frame_spec ndebug mesh drv a_update_animation self with ⟨⟨e, he⟩, _⟩ | hB
    · rw [he] at h; cases h
    · obtain ⟨_, _, _, _, _, _, _, _, _, _, _, _, _, _, _, _, hB⟩ := hB
      exact (hB self' h).2.2.1
  · rcases draw_frame_spec ndebug mesh drv a_update_animation self with ⟨⟨e, he⟩, _⟩ | hB
    · rw [he] at h; cases h
    · obtain ⟨_, _, _, _, _, _, _, _, _, _, _, _, _, _, _, _, hB⟩ := hB
      exact (hB self' h).2.2.2
  · simp only [draw_frame, Exec.bind_def] at h ⊢
    obtain ⟨acquired, _, h2, hc1⟩ := Exec.bind_ok_inv _ _ _ h
    obtain ⟨submitted, _, _, hc2⟩ := Exec.bind_ok_inv _ _ _ h2
    refine ⟨submitted.2, acquired.2.2.2, ?_⟩
    rw [hc1, hc2]
    exact List.mem_append_right _ (List.mem_append_right _ (draw_frame_present_calls _ _ _ _ _ _))

/-- Frames: the frame slot stays below the number of buffers. -/
theorem draw_frames_current_frame (ndebug : Bool) (mesh : MeshCounts) :
    ∀ (frames : List (FrameDriver × Bool)) (self self' : PhysicalDevice),
      0 < self.number_of_buffers →
      self.m_current_frame < self.number_of_buffers →
      (draw_frames ndebug mesh frames self).2 = .ok self' →
      self'.m_current_frame < self'.number_of_buffers
        ∧ self'.number_of_buffers = self.number_of_buffers := by
  intro frames
  induction frames with
  | nil =>
    intro self self' _ hcur h
    simp only [draw_frames, Exec.pure_def] at h
    injection h with h
    subst h
    exact ⟨hcur, rfl⟩
  | cons frame rest ih =>
    intro self self' hN _ h
    simp only [draw_frames, Exec.bind_def] at h
    obtain ⟨s1, h1, h2, _⟩ := Exec.bind_ok_inv _ _ _ h
    obtain ⟨hcur1, hN1, _⟩ := draw_frame_returns ndebug mesh frame.1 frame.2 self s1 h1
    have hpos : 0 < s1.number_of_buffers := by rw [hN1]; exact hN
    have hlt : s1.m_current_frame < s1.number_of_buffers := by
      rw [hcur1, hN1]; exact Nat.mod_lt _ hN
    obtain ⟨r1, r2⟩ := ih s1 self' hpos hlt h2
    exact ⟨r1, r2.trans hN1⟩

/-- C11. With a positive number of buffers and the frame slot starting at 0
(its member initialiser), the frame slot is below the number of buffers in
every state that a sequence of `draw_frame` calls returns, whatever the driver
answers in each call; and every `draw_frame` call that returns has called the
present and returns with the frame slot replaced by
`(m_current_frame + 1) % number_of_buffers`, the number of buffers unchanged. -/
theorem draw_frames_current_frame_in_range (ndebug : Bool) (mesh : MeshCounts)
    (frames : List (FrameDriver × Bool))
    (self : PhysicalDevice) (hN : 0 < self.number_of_buffers)
    (hinit : self.m_current_frame = 0) :
    (∀ self', (draw_frames ndebug mesh frames self).2 = .ok self' →
        self'.m_current_frame < self.number_of_buffers
          ∧ self'.number_of_buffers = self.number_of_buffers)
      ∧ ∀ (drv : FrameDriver) (a_update_animation : Bool) (s s' : PhysicalDevice),
          (draw_frame ndebug mesh drv a_update_animation s).2 = .ok s' →
          s'.m_current_frame = (s.m_current_frame + 1) % s.number_of_buffers
            ∧ s'.number_of_buffers = s.number_of_buffers
            ∧ ∃ wait_semaphore image_index,
                Call.vkQueuePresentKHR wait_semaphore image_index
                  ∈ (draw_frame ndebug mesh drv a_update_animation s).1 := by
  refine ⟨fun self' h => ?_, fun drv a s s' h => draw_frame_returns ndebug mesh drv a s s' h⟩
  obtain ⟨h1, h2⟩ := draw_frames_current_frame ndebug mesh frames self self' hN
    (by rw [hinit]; exact hN) h
  exact ⟨h2 ▸ h1, h2⟩


/-- Witness of C11: three frames with two buffers, from the state that
`create_sync_objects` leaves. -/
theorem draw_frames_current_frame_in_range_witness :
    (∀ self', (draw_frames false ⟨9, 9, 6, 12, 12, 3⟩
          [(⟨7, VK_SUCCESS, some 1, VK_SUCCESS, VK_SUCCESS, [61, 62], none, [91, 92],
              VK_SUCCESS, VK_SUCCESS⟩, true),
            (⟨7, VK_SUCCESS, some 0, VK_SUCCESS, VK_SUCCESS, [61, 62], none, [91, 92],
              VK_SUCCESS, VK_SUCCESS⟩, true),
            (⟨7, VK_SUCCESS, some 1, VK_SUCCESS, VK_SUCCESS, [61, 62], none, [91, 92],
              VK_SUCCESS, VK_SUCCESS⟩, true)]
          (create_sync_objects [21, 22] [31, 32] [11, 12]
            ⟨2, [], [], [], [], 0, [41, 42], [51, 52], [71, 72],
              [81, 82]⟩)).2 = .ok self' →
        self'.m_current_frame < 2 ∧ self'.number_of_buffers = 2)
      ∧ ∀ (drv : FrameDriver) (a_update_animation : Bool) (s s' : PhysicalDevice),
          (draw_frame false ⟨9, 9, 6, 12, 12, 3⟩ drv a_update_animation s).2 = .ok s' →
          s'.m_current_frame = (s.m_current_frame + 1) % s.number_of_buffers
            ∧ s'.number_of_buffers = s.number_of_buffers
            ∧ ∃ wait_semaphore image_index,
                Call.vkQueuePresentKHR wait_semaphore image_index
                  ∈ (draw_frame false ⟨9, 9, 6, 12, 12, 3⟩ drv a_update_animation s).1 :=
  draw_frames_current_frame_in_range false ⟨9, 9, 6, 12, 12, 3⟩
    [(⟨7, VK_SUCCESS, some 1, VK_SUCCESS, VK_SUCCESS, [61, 62], none, [91, 92],
              VK_SUCCESS, VK_SUCCESS⟩, true),
      (⟨7, VK_SUCCESS, some 0, VK_SUCCESS, VK_SUCCESS, [61, 62], none, [91, 92],
              VK_SUCCESS, VK_SUCCESS⟩, true),
      (⟨7, VK_SUCCESS, some 1, VK_SUCCESS, VK_SUCCESS, [61, 62], none, [91, 92],
              VK_SUCCESS, VK_SUCCESS⟩, true)]
    (create_sync_objects [21, 22] [31, 32] [11, 12] ⟨2, [], [], [], [], 0, [41, 42], [51, 52], [71, 72],
              [81, 82]⟩)
    (by decide) (by decide)


/-- C25 as stated fails. The calls of `recreate_swapchain` that create an
object are not, in their order, the re-creations of the destroyed objects in
the reverse of the order of destruction: the reverse order has the MSAA color
buffer second and the render pass after the pipeline, the code creates the
image views second and the render pass before the pipeline. -/
theorem recreate_swapchain_not_reverse_order :
    (recreate_swapchain false ⟨9, 9, 6, 12, 12, 3⟩
        ⟨7, VK_SUCCESS, some 1, VK_SUCCESS, VK_SUCCESS, [61, 62], none, [91, 92], VK_SUCCESS,
          VK_SUCCESS⟩
        ⟨2, [21, 22], [31, 32], [11, 12], [0, 0], 0, [41, 42], [51, 52], [71, 72],
          [81, 82]⟩).1.filter Call.is_create
      = [.create_swapchain, .create_imageviews, .create_render_pass,
          .create_graphics_pipeline, .create_msaa_color_buffer, .create_depth_buffer,
          .create_framebuffers, .create_command_buffers]
      ∧ ((recreate_swapchain false ⟨9, 9, 6, 12, 12, 3⟩
          ⟨7, VK_SUCCESS, some 1, VK_SUCCESS, VK_SUCCESS, [61, 62], none, [91, 92], VK_SUCCESS,
            VK_SUCCESS⟩
          ⟨2, [21, 22], [31, 32], [11, 12], [0, 0], 0, [41, 42], [51, 52], [71, 72],
            [81, 82]⟩).1.filterMap Call.recreation).reverse
        = [.create_swapchain, .create_msaa_color_buffer, .create_depth_buffer,
            .create_imageviews, .create_graphics_pipeline, .create_render_pass,
            .create_command_buffers, .create_framebuffers]
      ∧ (recreate_swapchain false ⟨9, 9, 6, 12, 12, 3⟩
          ⟨7, VK_SUCCESS, some 1, VK_SUCCESS, VK_SUCCESS, [61, 62], none, [91, 92], VK_SUCCESS,
            VK_SUCCESS⟩
          ⟨2, [21, 22], [31, 32], [11, 12], [0, 0], 0, [41, 42], [51, 52], [71, 72],
            [81, 82]⟩).1.filter Call.is_create
        ≠ ((recreate_swapchain false ⟨9, 9, 6, 12, 12, 3⟩
          ⟨7, VK_SUCCESS, some 1, VK_SUCCESS, VK_SUCCESS, [61, 62], none, [91, 92], VK_SUCCESS,
            VK_SUCCESS⟩
          ⟨2, [21, 22], [31, 32], [11, 12], [0, 0], 0, [41, 42], [51, 52], [71, 72],
            [81, 82]⟩).1.filterMap Call.recreation).reverse := by
  refine ⟨by decide, by decide, by decide⟩

/-- C25, amended: `recreate_swapchain` first waits for the device to be idle,
then destroys the framebuffers, frees the graphics command buffers and destroys
render pass, pipeline, image views, depth buffer, MSAA color buffer and
swapchain, then creates swapchain, image views, render pass, pipeline, MSAA
color buffer, depth buffer, framebuffers and command buffers, in this order,
and finally re-records the command buffers. Its calls are always a beginning of
this sequence, which holds at least the wait, the destructions and the entry
into `create_swapchain`; they are the whole sequence when no `create_*` member
fails, and whenever the re-creation returns, which it does with the re-created
framebuffers and command buffers when no `create_*` member fails and the
recording of the command buffers returns: its asserts pass and the re-created
command buffers are not more than the uniform buffers and descriptor sets. The
objects created are those destroyed or freed, each once. -/
theorem recreate_swapchain_order (ndebug : Bool) (mesh : MeshCounts) (drv : FrameDriver)
    (self : PhysicalDevice) :
    (recreate_swapchain ndebug mesh drv self).1
        <+: [.vkDeviceWaitIdle]
          ++ [.destroy_framebuffers, .vkFreeCommandBuffers, .destroy_render_pass,
              .destroy_graphics_pipeline, .destroy_imageviews, .destroy_depth_buffer,
              .destroy_msaa_color_buffer, .destroy_swapchain]
          ++ [.create_swapchain, .create_imageviews, .create_render_pass,
              .create_graphics_pipeline, .create_msaa_color_buffer, .create_depth_buffer,
              .create_framebuffers, .create_command_buffers]
          ++ [.record_command_buffers]
          ++ (record_command_buffers ndebug drv.begin_result drv.end_result mesh
            (self.recreated drv)).1
      ∧ [.vkDeviceWaitIdle, .destroy_framebuffers, .vkFreeCommandBuffers, .destroy_render_pass,
            .destroy_graphics_pipeline, .destroy_imageviews, .destroy_depth_buffer,
            .destroy_msaa_color_buffer, .destroy_swapchain, .create_swapchain]
          <+: (recreate_swapchain ndebug mesh drv self).1
      ∧ (drv.create_failure = none →
          recreate_swapchain ndebug mesh drv self
            = ([.vkDeviceWaitIdle]
              ++ [.destroy_framebuffers, .vkFreeCommandBuffers, .destroy_render_pass,
                  .destroy_graphics_pipeline, .destroy_imageviews, .destroy_depth_buffer,
                  .destroy_msaa_color_buffer, .destroy_swapchain]
              ++ [.create_swapchain, .create_imageviews, .create_render_pass,
                  .create_graphics_pipeline, .create_msaa_color_buffer, .create_depth_buffer,
                  .create_framebuffers, .create_command_buffers]
              ++ [.record_command_buffers]
              ++ (record_command_buffers ndebug drv.begin_result drv.end_result mesh
                (self.recreated drv)).1,
            (record_command_buffers ndebug drv.begin_result drv.end_result mesh
              (self.recreated drv)).2.map (fun _ => self.recreated drv)))
      ∧ (∀ self', (recreate_swapchain ndebug mesh drv self).2 = .ok self' →
          self' = self.recreated drv
            ∧ (recreate_swapchain ndebug mesh drv self).1
              = [.vkDeviceWaitIdle]
                ++ [.destroy_framebuffers, .vkFreeCommandBuffers, .destroy_render_pass,
                    .destroy_graphics_pipeline, .destroy_imageviews, .destroy_depth_buffer,
                    .destroy_msaa_color_buffer, .destroy_swapchain]
                ++ [.create_swapchain, .create_imageviews, .create_render_pass,
                    .create_graphics_pipeline, .create_msaa_color_buffer,
                    .create_depth_buffer, .create_framebuffers, .create_command_buffers]
                ++ [.record_command_buffers]
                ++ (record_command_buffers ndebug drv.begin_result drv.end_result mesh
                  (self.recreated drv)).1)
      ∧ (drv.create_failure = none →
          (ndebug = true ∨ (drv.begin_result = VK_SUCCESS ∧ drv.end_result = VK_SUCCESS)) →
          drv.recreated_framebuffers.length = drv.recreated_command_buffers.length →
          self.m_descriptor_sets.length = self.m_uniform_buffers_memory.length →
          drv.recreated_command_buffers.length ≤ self.m_uniform_buffers_memory.length →
          (recreate_swapchain ndebug mesh drv self).2 = .ok (self.recreated drv))
      ∧ List.Perm
          [Call.create_swapchain, .create_imageviews, .create_render_pass,
            .create_graphics_pipeline, .create_msaa_color_buffer, .create_depth_buffer,
            .create_framebuffers, .create_command_buffers]
          (([Call.destroy_framebuffers, .vkFreeCommandBuffers, .destroy_render_pass,
            .destroy_graphics_pipeline, .destroy_imageviews, .destroy_depth_buffer,
            .destroy_msaa_color_buffer, .destroy_swapchain].filterMap Call.recreation).reverse)
      ∧ List.Nodup
          [Call.create_swapchain, .create_imageviews, .create_render_pass,
            .create_graphics_pipeline, .create_msaa_color_buffer, .create_depth_buffer,
            .create_framebuffers, .create_command_buffers] := by
  have hseq : ([.vkDeviceWaitIdle]
      ++ [.destroy_framebuffers, .vkFreeCommandBuffers, .destroy_render_pass,
          .destroy_graphics_pipeline, .destroy_imageviews, .destroy_depth_buffer,
          .destroy_msaa_color_buffer, .destroy_swapchain]
      ++ [.create_swapchain, .create_imageviews, .create_render_pass,
          .create_graphics_pipeline, .create_msaa_color_buffer, .create_depth_buffer,
          .create_framebuffers, .create_command_buffers]
      ++ [.record_command_buffers] : List Call) = recreate_swapchain_sequence := rfl
  have hnone : drv.create_failure = none →
      recreate_swapchain ndebug mesh drv self
        = (recreate_swapchain_sequence
          ++ (record_command_buffers ndebug drv.begin_result drv.end_result mesh
            (self.recreated drv)).1,
        (record_command_buffers ndebug drv.begin_result drv.end_result mesh
          (self.recreated drv)).2.map (fun _ => self.recreated drv)) := by
    intro h
    have hrecreated : ({ ({ ({ ({ self with
        m_framebuffers := self.m_framebuffers.map (fun _ => VK_NULL_HANDLE) } : PhysicalDevice)
          with m_graphics_command_buffers := [] } : PhysicalDevice)
          with m_framebuffers := drv.recreated_framebuffers } : PhysicalDevice)
          with m_graphics_command_buffers := drv.recreated_command_buffers }
            : PhysicalDevice)
        = self.recreated drv := rfl
    simp only [recreate_swapchain, cleanup_swapchain, Exec.bind_def, Exec.call, Exec.bind_ok,
      Exec.pure_def, hrecreated, create_member_ok ndebug drv _ h]
    generalize record_command_buffers ndebug drv.begin_result drv.end_result mesh
      (self.recreated drv) = recording
    obtain ⟨calls, r⟩ := recording
    cases r <;> simp [Exec.bind, recreate_swapchain_sequence, Except.map]
  rw [hseq]
  refine ⟨?_, ?_, hnone, ?_, ?_, by decide, by decide⟩
  · rcases recreate_swapchain_spec ndebug mesh drv self with h | ⟨n, e, _, _, h⟩
    · rw [h]
    · rw [h]
      exact (List.take_prefix n _).trans (List.prefix_append _ _)
  · rcases recreate_swapchain_spec ndebug mesh drv self with h | ⟨n, e, h10, _, h⟩
    · rw [h]
      have hpre : ([.vkDeviceWaitIdle, .destroy_framebuffers, .vkFreeCommandBuffers,
          .destroy_render_pass, .destroy_graphics_pipeline, .destroy_imageviews,
          .destroy_depth_buffer, .destroy_msaa_color_buffer, .destroy_swapchain,
          .create_swapchain] : List Call) <+: recreate_swapchain_sequence :=
        ⟨[.create_imageviews, .create_render_pass, .create_graphics_pipeline,
          .create_msaa_color_buffer, .create_depth_buffer, .create_framebuffers,
          .create_command_buffers, .record_command_buffers], rfl⟩
      exact hpre.trans (List.prefix_append _ _)
    · rw [h]
      have : recreate_swapchain_sequence.take 10
          = [.vkDeviceWaitIdle, .destroy_framebuffers, .vkFreeCommandBuffers,
            .destroy_render_pass, .destroy_graphics_pipeline, .destroy_imageviews,
            .destroy_depth_buffer, .destroy_msaa_color_buffer, .destroy_swapchain,
            .create_swapchain] := rfl
      rw [← this]
      exact (List.take_prefix_take_left _ h10)
  · intro self' h
    obtain ⟨h1, _, h3⟩ := recreate_swapchain_returns ndebug mesh drv self self' h
    exact ⟨h1, h3⟩
  · intro hcreate hres hfb hsets hle
    rw [hnone hcreate]
    simp only
    rw [record_command_buffers_spec ndebug drv.begin_result drv.end_result mesh
      (self.recreated drv) drv.recreated_command_buffers.length
      self.m_uniform_buffers_memory.length hres rfl hfb rfl hsets, if_pos hle]
    rfl

/-- Witness of C25, amended: a re-creation in which no `create_*` member fails,
with two re-created command buffers on a device with two uniform buffers; it
returns. -/
theorem recreate_swapchain_order_witness :
    (recreate_swapchain false ⟨9, 9, 6, 12, 12, 3⟩
        ⟨7, VK_SUCCESS, some 1, VK_SUCCESS, VK_SUCCESS, [61, 62], none, [91, 92], VK_SUCCESS,
          VK_SUCCESS⟩
        ⟨2, [21, 22], [31, 32], [11, 12], [0, 0], 0, [41, 42], [51, 52], [71, 72],
          [81, 82]⟩).2
      = .ok (PhysicalDevice.recreated
          ⟨2, [21, 22], [31, 32], [11, 12], [0, 0], 0, [41, 42], [51, 52], [71, 72], [81, 82]⟩
          ⟨7, VK_SUCCESS, some 1, VK_SUCCESS, VK_SUCCESS, [61, 62], none, [91, 92], VK_SUCCESS,
            VK_SUCCESS⟩) :=
  (recreate_swapchain_order false ⟨9, 9, 6, 12, 12, 3⟩
    ⟨7, VK_SUCCESS, some 1, VK_SUCCESS, VK_SUCCESS, [61, 62], none, [91, 92], VK_SUCCESS,
      VK_SUCCESS⟩
    ⟨2, [21, 22], [31, 32], [11, 12], [0, 0], 0, [41, 42], [51, 52], [71, 72],
      [81, 82]⟩).2.2.2.2.1 rfl (Or.inr ⟨rfl, rfl⟩) rfl rfl (by decide)


/-- The acquire block when the acquire succeeds: the wait, the acquire, and the
image index that the driver stored. -/
theorem draw_frame_acquire_success (ndebug : Bool) (mesh : MeshCounts) (drv : FrameDriver)
    (self : PhysicalDevice) (frame_fence image_available : Nat)
    (hf : self.m_queue_fence[self.m_current_frame]? = some frame_fence)
    (ha : self.m_image_available_semaphore[self.m_current_frame]? = some image_available)
    (hs : drv.acquire_result = VK_SUCCESS) :
    draw_frame_acquire ndebug mesh drv self
      = ([.vkWaitForFences frame_fence, .vkAcquireNextImageKHR image_available],
        .ok (self, frame_fence, image_available,
          drv.acquire_index.getD drv.image_index_before)) := by
  have h1 : (VK_SUCCESS == VK_ERROR_OUT_OF_DATE_KHR) = false := by decide
  simp [draw_frame_acquire, Exec.bind_def, Exec.index, Exec.fail, Exec.call, Exec.pure, hf, ha,
    hs, h1, Exec.bind_error, Exec.bind_ok, Exec.pure_def]

/-- The submit block with every array read inside its array: it returns, or it
throws because the submit failed. -/
theorem draw_frame_submit_in_bounds (drv : FrameDriver) (a_update_animation : Bool)
    (self : PhysicalDevice) (frame_fence image_available image_index : Nat)
    (in_flight command_buffer render_finished memory : Nat)
    (hi : self.m_queue_fence_in_flight[image_index]? = some in_flight)
    (hc : self.m_graphics_command_buffers[image_index]? = some command_buffer)
    (hr : self.m_render_finished_semaphore[self.m_current_frame]? = some render_finished)
    (hm : self.m_uniform_buffers_memory[image_index]? = some memory) :
    (draw_frame_submit drv a_update_animation self frame_fence image_available
        image_index).2
        = .ok ({ self with m_queue_fence_in_flight :=
            self.m_queue_fence_in_flight.set image_index frame_fence }, render_finished)
      ∨ (draw_frame_submit drv a_update_animation self frame_fence image_available
          image_index).2
        = .error (.exception "failed to submit draw command buffer!") := by
  by_cases hs : drv.submit_result = VK_SUCCESS
  · left
    by_cases hz : in_flight = VK_NULL_HANDLE <;>
      simp [draw_frame_submit, update_uniform_buffer, Exec.bind_def, Exec.index,
        Exec.fail, Exec.call, Exec.pure, hi, hc, hr, hm, hz, hs, Exec.bind_error,
        Exec.bind_ok, Exec.pure_def]
  · right
    by_cases hz : in_flight = VK_NULL_HANDLE <;>
      simp [draw_frame_submit, update_uniform_buffer, Exec.bind_def, Exec.index,
        Exec.fail, Exec.call, Exec.pure, hi, hc, hr, hm, hz, hs, Exec.bind_error,
        Exec.bind_ok, Exec.pure_def]

/-- A `create_*` member that ends the run ends it with the failure that the
driver's answers name. -/
theorem create_member_failure (ndebug : Bool) (drv : FrameDriver) (member : Call)
    (e : Failure) (h : create_member ndebug drv member = ([member], .error e)) :
    ∃ failing, drv.create_failure = some (failing, e) := by
  simp only [create_member, Exec.bind_def, Exec.call, Exec.bind_ok] at h
  cases hfail : drv.create_failure with
  | none =>
    rw [hfail] at h
    simp only [Exec.pure_def] at h
    cases h
  | some answer =>
    obtain ⟨failing, failure⟩ := answer
    rw [hfail] at h
    refine ⟨failing, ?_⟩
    have hfe : failure = e := by
      by_cases hfm : (failing == member) = true
      · cases failure <;> cases ndebug <;>
          simp only [hfm, if_true, Exec.assert, cassert, Exec.fail, Exec.pure_def, pure,
            Except.pure, List.append_nil, Bool.false_eq_true, if_false, Bool.not_false,
            Bool.not_true] at h <;>
          cases h <;> rfl
      · cases failure <;>
          simp only [hfm, Bool.false_eq_true, if_false, Exec.pure_def, List.append_nil] at h <;>
          cases h
    rw [hfe]

/-- A re-creation in which no `create_*` member ends outside an array, and
whose re-created command buffers and framebuffers are not more than the uniform
buffers and descriptor sets, does not end outside an array. -/
theorem recreate_swapchain_in_bounds (ndebug : Bool) (mesh : MeshCounts) (drv : FrameDriver)
    (self : PhysicalDevice) (n_images n_buffers : Nat)
    (hcreate : ∀ member failure, drv.create_failure = some (member, failure) →
      failure.is_out_of_bounds = false)
    (hcmd : drv.recreated_command_buffers.length = n_images)
    (hfb : drv.recreated_framebuffers.length = n_images)
    (hmem : self.m_uniform_buffers_memory.length = n_buffers)
    (hsets : self.m_descriptor_sets.length = n_buffers)
    (hle : n_images ≤ n_buffers) :
    ended_out_of_bounds (recreate_swapchain ndebug mesh drv self).2 = false := by
  have hmember : ∀ member e, create_member ndebug drv member = ([member], .error e) →
      e.is_out_of_bounds = false := by
    intro member e h
    obtain ⟨failing, hfail⟩ := create_member_failure ndebug drv member e h
    exact hcreate failing e hfail
  have hrecreated : ({ ({ ({ ({ self with
      m_framebuffers := self.m_framebuffers.map (fun _ => VK_NULL_HANDLE) } : PhysicalDevice)
        with m_graphics_command_buffers := [] } : PhysicalDevice)
        with m_framebuffers := drv.recreated_framebuffers } : PhysicalDevice)
        with m_graphics_command_buffers := drv.recreated_command_buffers } : PhysicalDevice)
      = self.recreated drv := rfl
  have hrecording := record_command_buffers_in_bounds ndebug drv.begin_result drv.end_result
    mesh (self.recreated drv) n_images n_buffers hcmd hfb hmem hsets hle
  simp only [recreate_swapchain, cleanup_swapchain, Exec.bind_def, Exec.call, Exec.bind_ok,
    Exec.pure_def, hrecreated]
  rcases create_member_spec ndebug drv .create_swapchain with h | ⟨e, h⟩
  swap
  · rw [h]; simp only [Exec.bind_error]; exact hmember _ e h
  rcases create_member_spec ndebug drv .create_imageviews with h2 | ⟨e, h2⟩
  swap
  · rw [h, h2]; simp only [Exec.bind_ok, Exec.bind_error]; exact hmember _ e h2
  rcases create_member_spec ndebug drv .create_render_pass with h3 | ⟨e, h3⟩
  swap
  · rw [h, h2, h3]; simp only [Exec.bind_ok, Exec.bind_error]; exact hmember _ e h3
  rcases create_member_spec ndebug drv .create_graphics_pipeline with h4 | ⟨e, h4⟩
  swap
  · rw [h, h2, h3, h4]; simp only [Exec.bind_ok, Exec.bind_error]; exact hmember _ e h4
  rcases create_member_spec ndebug drv .create_msaa_color_buffer with h5 | ⟨e, h5⟩
  swap
  · rw [h, h2, h3, h4, h5]; simp only [Exec.bind_ok, Exec.bind_error]; exact hmember _ e h5
  rcases create_member_spec ndebug drv .create_depth_buffer with h6 | ⟨e, h6⟩
  swap
  · rw [h, h2, h3, h4, h5, h6]; simp only [Exec.bind_ok, Exec.bind_error]
    exact hmember _ e h6
  rcases create_member_spec ndebug drv .create_framebuffers with h7 | ⟨e, h7⟩
  swap
  · rw [h, h2, h3, h4, h5, h6, h7]; simp only [Exec.bind_ok, Exec.bind_error]
    exact hmember _ e h7
  rcases create_member_spec ndebug drv .create_command_buffers with h8 | ⟨e, h8⟩
  swap
  · rw [h, h2, h3, h4, h5, h6, h7, h8]; simp only [Exec.bind_ok, Exec.bind_error]
    exact hmember _ e h8
  rw [h, h2, h3, h4, h5, h6, h7, h8]
  simp only [Exec.bind_ok]
  revert hrecording
  generalize record_command_buffers ndebug drv.begin_result drv.end_result mesh
    (self.recreated drv) = recording
  obtain ⟨calls, r⟩ := recording
  cases r <;> simp [Exec.bind, ended_out_of_bounds]

/-- The present block does not end outside an array when a re-creation does
not. -/
theorem draw_frame_present_in_bounds (ndebug : Bool) (mesh : MeshCounts) (drv : FrameDriver)
    (self : PhysicalDevice) (render_finished image_index : Nat)
    (hrecreate : ended_out_of_bounds (recreate_swapchain ndebug mesh drv self).2 = false) :
    ended_out_of_bounds
      (draw_frame_present ndebug mesh drv self render_finished image_index).2 = false := by
  rcases draw_frame_present_spec ndebug mesh drv self render_finished image_index with
    ⟨_, h⟩ | ⟨_, _, h⟩ | ⟨_, _, h⟩ | ⟨_, _, _, h⟩
  · rw [h]; rfl
  · rw [h]
    simp only
    revert hrecreate
    cases (recreate_swapchain ndebug mesh drv self).2 <;>
      simp [ended_out_of_bounds, Except.map]
  · rw [h]; rfl
  · rw [h]; rfl

/-- A frame whose acquire succeeds, with every array read inside its array and
a re-creation that stays inside the arrays, does not end outside an array. -/
theorem draw_frame_in_bounds (ndebug : Bool) (mesh : MeshCounts) (drv : FrameDriver)
    (a_update_animation : Bool) (self : PhysicalDevice)
    (frame_fence image_available in_flight command_buffer render_finished memory : Nat)
    (hs : drv.acquire_result = VK_SUCCESS)
    (hf : self.m_queue_fence[self.m_current_frame]? = some frame_fence)
    (ha : self.m_image_available_semaphore[self.m_current_frame]? = some image_available)
    (hi : self.m_queue_fence_in_flight[drv.acquire_index.getD drv.image_index_before]?
      = some in_flight)
    (hc : self.m_graphics_command_buffers[drv.acquire_index.getD drv.image_index_before]?
      = some command_buffer)
    (hr : self.m_render_finished_semaphore[self.m_current_frame]? = some render_finished)
    (hm : self.m_uniform_buffers_memory[drv.acquire_index.getD drv.image_index_before]?
      = some memory)
    (hrecreate : ∀ s : PhysicalDevice,
      s.m_uniform_buffers_memory = self.m_uniform_buffers_memory →
      s.m_descriptor_sets = self.m_descriptor_sets →
      ended_out_of_bounds (recreate_swapchain ndebug mesh drv s).2 = false) :
    ended_out_of_bounds (draw_frame ndebug mesh drv a_update_animation self).2 = false := by
  simp only [draw_frame, Exec.bind_def,
    draw_frame_acquire_success ndebug mesh drv self frame_fence image_available hf ha hs,
    Exec.bind_ok]
  rcases draw_frame_submit_in_bounds drv a_update_animation self frame_fence image_available
    (drv.acquire_index.getD drv.image_index_before) in_flight command_buffer render_finished
    memory hi hc hr hm with hok | herr
  · rw [Exec.bind_ok' _ _ _ hok]
    exact draw_frame_present_in_bounds ndebug mesh drv _ render_finished
      (drv.acquire_index.getD drv.image_index_before) (hrecreate _ rfl rfl)
  · rw [Exec.bind_error' _ _ _ herr]
    rfl

/-- A frame whose acquire succeeds with an image index outside the array of the
fences in flight ends there. -/
theorem draw_frame_out_of_bounds (ndebug : Bool) (mesh : MeshCounts) (drv : FrameDriver)
    (a_update_animation : Bool) (self : PhysicalDevice) (frame_fence image_available : Nat)
    (hs : drv.acquire_result = VK_SUCCESS)
    (hf : self.m_queue_fence[self.m_current_frame]? = some frame_fence)
    (ha : self.m_image_available_semaphore[self.m_current_frame]? = some image_available)
    (hi : self.m_queue_fence_in_flight[drv.acquire_index.getD drv.image_index_before]?
      = none) :
    (draw_frame ndebug mesh drv a_update_animation self).2
      = .error (.out_of_bounds "m_queue_fence_in_flight") := by
  simp only [draw_frame, Exec.bind_def,
    draw_frame_acquire_success ndebug mesh drv self frame_fence image_available hf ha hs,
    Exec.bind_ok]
  have herr : (draw_frame_submit drv a_update_animation self frame_fence image_available
      (drv.acquire_index.getD drv.image_index_before)).2
      = .error (.out_of_bounds "m_queue_fence_in_flight") := by
    simp [draw_frame_submit, Exec.bind_def, Exec.index, Exec.fail, hi, Exec.bind_error]
  rw [Exec.bind_error' _ _ _ herr]

/-- C27. For a device whose arrays of frame fences, semaphores, fences in
flight, uniform buffers and descriptor sets have `number_of_buffers` entries
and whose command buffers and framebuffers number `n_images`, the number of
swapchain images: every `draw_frame` call whose acquire succeeds with an image
index below `n_images` stays inside the arrays it indexes by the image index
(the fences in flight, the command buffers, the uniform buffers), also when the
call re-creates the swapchain, again with `n_images` images, and records the
command buffers again, if and only if `n_images` is at most
`number_of_buffers`; and `record_command_buffers`, whose loop runs over the
`n_images` command buffers and indexes the uniform buffers and the descriptor
sets by the same counter, stays inside them if and only if `n_images` is at
most `number_of_buffers`. The `create_*` members of a re-creation are taken not
to leave an array of their own. -/
theorem image_index_in_bounds_iff (ndebug : Bool) (mesh : MeshCounts) (self : PhysicalDevice)
    (n_images : Nat)
    (hcur : self.m_current_frame < self.number_of_buffers)
    (hfence : self.m_queue_fence.length = self.number_of_buffers)
    (havail : self.m_image_available_semaphore.length = self.number_of_buffers)
    (hfinished : self.m_render_finished_semaphore.length = self.number_of_buffers)
    (hflight : self.m_queue_fence_in_flight.length = self.number_of_buffers)
    (hmem : self.m_uniform_buffers_memory.length = self.number_of_buffers)
    (hsets : self.m_descriptor_sets.length = self.number_of_buffers)
    (hcmd : self.m_graphics_command_buffers.length = n_images)
    (hfb : self.m_framebuffers.length = n_images) :
    ((∀ (image_index : Nat) (drv : FrameDriver) (a_update_animation : Bool),
          image_index < n_images → drv.acquire_result = VK_SUCCESS →
          drv.acquire_index = some image_index →
          drv.recreated_command_buffers.length = n_images →
          drv.recreated_framebuffers.length = n_images →
          (∀ member failure, drv.create_failure = some (member, failure) →
            failure.is_out_of_bounds = false) →
          ended_out_of_bounds (draw_frame ndebug mesh drv a_update_animation self).2 = false)
        ↔ n_images ≤ self.number_of_buffers)
      ∧ (ended_out_of_bounds
            (record_command_buffers ndebug VK_SUCCESS VK_SUCCESS mesh self).2 = false
          ↔ n_images ≤ self.number_of_buffers) := by
  have hf := List.getElem?_eq_getElem (show self.m_current_frame < self.m_queue_fence.length
    by omega)
  have ha := List.getElem?_eq_getElem
    (show self.m_current_frame < self.m_image_available_semaphore.length by omega)
  have hr := List.getElem?_eq_getElem
    (show self.m_current_frame < self.m_render_finished_semaphore.length by omega)
  constructor
  · constructor
    · intro hall
      by_contra hnot
      have hlt : self.number_of_buffers < n_images := by omega
      have hnone : self.m_queue_fence_in_flight[self.number_of_buffers]? = none :=
        List.getElem?_eq_none (by omega)
      have hbad := draw_frame_out_of_bounds ndebug mesh
        ⟨0, VK_SUCCESS, some self.number_of_buffers, VK_SUCCESS, VK_SUCCESS,
          List.replicate n_images 0, none, List.replicate n_images 0, VK_SUCCESS, VK_SUCCESS⟩
        false self _ _ rfl hf ha hnone
      have hgood := hall self.number_of_buffers
        ⟨0, VK_SUCCESS, some self.number_of_buffers, VK_SUCCESS, VK_SUCCESS,
          List.replicate n_images 0, none, List.replicate n_images 0, VK_SUCCESS, VK_SUCCESS⟩
        false hlt rfl rfl (List.length_replicate _ _) (List.length_replicate _ _)
        (fun _ _ h => by cases h)
      rw [hbad] at hgood
      cases hgood
    · intro hle image_index drv a_update_animation hlt hs hidx hrc hrf hcreate
      have hget : drv.acquire_index.getD drv.image_index_before = image_index := by
        rw [hidx]; rfl
      have hi := List.getElem?_eq_getElem
        (show image_index < self.m_queue_fence_in_flight.length by omega)
      have hc := List.getElem?_eq_getElem
        (show image_index < self.m_graphics_command_buffers.length by omega)
      have hm := List.getElem?_eq_getElem
        (show image_index < self.m_uniform_buffers_memory.length by omega)
      exact draw_frame_in_bounds ndebug mesh drv a_update_animation self _ _ _ _ _ _ hs hf ha
        (by rw [hget]; exact hi) (by rw [hget]; exact hc) hr (by rw [hget]; exact hm)
        (fun s hsm hss => recreate_swapchain_in_bounds ndebug mesh drv s n_images
          self.number_of_buffers hcreate hrc hrf (by rw [hsm]; exact hmem)
          (by rw [hss]; exact hsets) hle)
  · have hrec := record_command_buffers_spec ndebug VK_SUCCESS VK_SUCCESS mesh self n_images
      self.number_of_buffers (Or.inr ⟨rfl, rfl⟩) hcmd hfb hmem hsets
    rw [hrec]
    by_cases hle : n_images ≤ self.number_of_buffers
    · simp [hle, ended_out_of_bounds]
    · simp [hle, ended_out_of_bounds, Failure.is_out_of_bounds]

/-- Witness of C27: two buffers and three swapchain images. -/
theorem image_index_in_bounds_iff_witness :
    ((∀ (image_index : Nat) (drv : FrameDriver) (a_update_animation : Bool),
          image_index < 3 → drv.acquire_result = VK_SUCCESS →
          drv.acquire_index = some image_index →
          drv.recreated_command_buffers.length = 3 →
          drv.recreated_framebuffers.length = 3 →
          (∀ member failure, drv.create_failure = some (member, failure) →
            failure.is_out_of_bounds = false) →
          ended_out_of_bounds (draw_frame false ⟨9, 9, 6, 12, 12, 3⟩ drv a_update_animation
            ⟨2, [21, 22], [31, 32], [11, 12], [0, 0], 0, [41, 42, 43], [51, 52],
              [71, 72, 73], [81, 82]⟩).2 = false)
        ↔ 3 ≤ 2)
      ∧ (ended_out_of_bounds (record_command_buffers false VK_SUCCESS VK_SUCCESS
            ⟨9, 9, 6, 12, 12, 3⟩
            ⟨2, [21, 22], [31, 32], [11, 12], [0, 0], 0, [41, 42, 43], [51, 52],
              [71, 72, 73], [81, 82]⟩).2 = false
          ↔ 3 ≤ 2) :=
  image_index_in_bounds_iff false ⟨9, 9, 6, 12, 12, 3⟩
    ⟨2, [21, 22], [31, 32], [11, 12], [0, 0], 0, [41, 42, 43], [51, 52], [71, 72, 73],
      [81, 82]⟩ 3 (by decide) rfl rfl rfl rfl rfl rfl rfl rfl

end vkd
